import Mathlib

/-!
Booking statistics and profit maximisation (`internal/domain/booking.go`).

A shallow embedding of the domain package of `duksonn/stay-for-long`, and of
`parseBookingRequests` of its HTTP handler, with the properties of the statistics
and of the profit maximiser.

Modelling conventions.

* A `float64` is a value of `F64`: NaN, one of the two infinities, or a finite
  value given by the rational number it denotes. Every arithmetic operation
  computes the exact rational result and rounds it with `rnd` to the nearest
  binary64 value, ties to even, with gradual underflow below `2^-1022` and
  overflow to an infinity from `2^1024` on. The two zeros are one value; the only
  operation that could tell them apart, a division by zero, returns NaN here and
  is never executed by the code. Comparisons with NaN are false. `math.Round` is
  exact: the nearest integer, halves away from zero. No expression of the code
  adds to a product, so no fused multiply-add can replace two roundings by one.
* A `time.Time` check-in is a calendar date at midnight UTC, held as its day
  number since 0001-01-01. Its instant is `86400` seconds per day,
  `t.AddDate(0, 0, n)` computes the instant of day `t + n` in 64-bit arithmetic,
  which wraps around, and `t.Before(u)` compares instants.
* Go `int` values (`Nights`, masks) are integers. The conversion
  `int(math.Pow(2, float64(n)))` is `2 ^ n` for `n ≤ 62`; for larger `n` the value
  does not fit and the result is left to the implementation: it is the parameter
  `ovf`, of which `amd64Pow` is the instance for amd64.
* A `nil` slice and an empty slice are both the empty list.
-/

namespace Domain

/-- A `float64` value: NaN, the two infinities, or a finite value given by the
rational number it denotes (the two zeros are not distinguished). -/
inductive F64 where
  | nan
  | ninf
  | pinf
  | fin (q : ℚ)
  deriving DecidableEq

/-- Rounding of a rational to the nearest integer, a half going to the even
neighbour. -/
def roundHalfEven (m : ℚ) : Int :=
  if m - (⌊m⌋ : Int) < 1 / 2 then ⌊m⌋
  else if 1 / 2 < m - (⌊m⌋ : Int) then ⌊m⌋ + 1
  else if ⌊m⌋ % 2 = 0 then ⌊m⌋ else ⌊m⌋ + 1

/-- The exponent of the unit in the last place of the binary64 values in the
binade of `x`: 52 below the exponent of `x`, and `-1074` in the subnormal range. -/
def ulpExp (x : ℚ) : Int :=
  max (Int.log 2 |x| - 52) (-1074)

/-- The multiple of `2 ^ ulpExp x` nearest to `x`, a half going to the even
mantissa. -/
def rndVal (x : ℚ) : ℚ :=
  (roundHalfEven (x / 2 ^ ulpExp x) : ℚ) * 2 ^ ulpExp x

/-- The binary64 result of an operation whose exact result is `x`: round to
nearest, ties to even, a rounded magnitude of `2^1024` or more overflowing to the
infinity of its sign. It is also the value of the decimal literal `x` in Go. -/
def rnd (x : ℚ) : F64 :=
  if (2 : ℚ) ^ (1024 : Int) ≤ rndVal x then F64.pinf
  else if rndVal x ≤ -(2 : ℚ) ^ (1024 : Int) then F64.ninf
  else F64.fin (rndVal x)

/-- The function `math.Round` on a finite value: nearest integer, halves away from
zero. -/
def mathRound (x : ℚ) : ℚ :=
  if 0 ≤ x then ((⌊x + 1 / 2⌋ : Int) : ℚ) else -((⌊-x + 1 / 2⌋ : Int) : ℚ)

/-- The operator `+` on `float64`. -/
def F64.add : F64 → F64 → F64
  | F64.nan, _ => F64.nan
  | F64.ninf, F64.nan => F64.nan
  | F64.ninf, F64.ninf => F64.ninf
  | F64.ninf, F64.pinf => F64.nan
  | F64.ninf, F64.fin _ => F64.ninf
  | F64.pinf, F64.nan => F64.nan
  | F64.pinf, F64.ninf => F64.nan
  | F64.pinf, F64.pinf => F64.pinf
  | F64.pinf, F64.fin _ => F64.pinf
  | F64.fin _, F64.nan => F64.nan
  | F64.fin _, F64.ninf => F64.ninf
  | F64.fin _, F64.pinf => F64.pinf
  | F64.fin a, F64.fin b => rnd (a + b)

/-- The product of an infinity of sign `pos` with the finite value `b`. -/
def F64.infTimes (pos : Bool) (b : ℚ) : F64 :=
  if b = 0 then F64.nan
  else if (0 < b) = pos then F64.pinf else F64.ninf

/-- The operator `*` on `float64`. -/
def F64.mul : F64 → F64 → F64
  | F64.nan, _ => F64.nan
  | F64.ninf, F64.nan => F64.nan
  | F64.ninf, F64.ninf => F64.pinf
  | F64.ninf, F64.pinf => F64.ninf
  | F64.ninf, F64.fin b => F64.infTimes false b
  | F64.pinf, F64.nan => F64.nan
  | F64.pinf, F64.ninf => F64.ninf
  | F64.pinf, F64.pinf => F64.pinf
  | F64.pinf, F64.fin b => F64.infTimes true b
  | F64.fin _, F64.nan => F64.nan
  | F64.fin a, F64.ninf => F64.infTimes false a
  | F64.fin a, F64.pinf => F64.infTimes true a
  | F64.fin a, F64.fin b => rnd (a * b)

/-- The operator `/` on `float64`. A zero divisor gives an infinity or NaN in Go,
the sign depending on the sign of the zero, which this type does not record; the
model returns NaN there. -/
def F64.div : F64 → F64 → F64
  | F64.nan, _ => F64.nan
  | F64.ninf, F64.nan => F64.nan
  | F64.ninf, F64.ninf => F64.nan
  | F64.ninf, F64.pinf => F64.nan
  | F64.ninf, F64.fin b => F64.infTimes false b
  | F64.pinf, F64.nan => F64.nan
  | F64.pinf, F64.ninf => F64.nan
  | F64.pinf, F64.pinf => F64.nan
  | F64.pinf, F64.fin b => F64.infTimes true b
  | F64.fin _, F64.nan => F64.nan
  | F64.fin _, F64.ninf => F64.fin 0
  | F64.fin _, F64.pinf => F64.fin 0
  | F64.fin a, F64.fin b => if b = 0 then F64.nan else rnd (a / b)

/-- The operator `<` on `float64`: false as soon as one side is NaN. -/
def F64.lt : F64 → F64 → Bool
  | F64.nan, _ => false
  | F64.ninf, F64.nan => false
  | F64.ninf, F64.ninf => false
  | F64.ninf, F64.pinf => true
  | F64.ninf, F64.fin _ => true
  | F64.pinf, _ => false
  | F64.fin _, F64.nan => false
  | F64.fin _, F64.ninf => false
  | F64.fin _, F64.pinf => true
  | F64.fin a, F64.fin b => decide (a < b)

/-- The operator `<=` on `float64`: false as soon as one side is NaN. -/
def F64.le : F64 → F64 → Bool
  | F64.nan, _ => false
  | F64.ninf, F64.nan => false
  | F64.ninf, F64.ninf => true
  | F64.ninf, F64.pinf => true
  | F64.ninf, F64.fin _ => true
  | F64.pinf, F64.nan => false
  | F64.pinf, F64.ninf => false
  | F64.pinf, F64.pinf => true
  | F64.pinf, F64.fin _ => false
  | F64.fin _, F64.nan => false
  | F64.fin _, F64.ninf => false
  | F64.fin _, F64.pinf => true
  | F64.fin a, F64.fin b => decide (a ≤ b)

/-- The function `math.Round`: infinities and NaN are returned unchanged. -/
def F64.round : F64 → F64
  | F64.nan => F64.nan
  | F64.ninf => F64.ninf
  | F64.pinf => F64.pinf
  | F64.fin q => F64.fin (mathRound q)

/-- The conversion `float64(n)` of an integer. -/
def F64.ofInt (n : Int) : F64 := rnd (n : ℚ)

/-- A representable binary64 magnitude: an integer of at most 53 bits times a
power of two not below `2^-1074`. -/
def IsRepr (x : ℚ) : Prop :=
  ∃ n e : Int, -1074 ≤ e ∧ |n| ≤ 2 ^ 53 ∧ x = (n : ℚ) * 2 ^ e

/-- An order-preserving image of the values other than NaN. -/
def F64.key : F64 → WithBot (WithTop ℚ)
  | F64.nan => ⊥
  | F64.ninf => ⊥
  | F64.pinf => ((⊤ : WithTop ℚ) : WithBot (WithTop ℚ))
  | F64.fin q => ((q : WithTop ℚ) : WithBot (WithTop ℚ))

/-- Booking represents a hotel booking with its essential information. The
check-in is a calendar date, held as its number of days since 0001-01-01. -/
structure Booking where
  RequestID : String
  CheckIn : Int
  Nights : Int
  SellingRate : F64
  Margin : F64
  deriving DecidableEq

/-- Bookings represents a collection of bookings. -/
abbrev Bookings := List Booking

/-- StatsResult holds statistical information about booking profits. -/
structure StatsResult where
  AvgNight : F64
  MinNight : F64
  MaxNight : F64
  deriving DecidableEq

/-- MaximizeResult contains the optimal booking combination and its statistics. -/
structure MaximizeResult where
  RequestIDs : List String
  TotalProfit : F64
  AvgNight : F64
  MinNight : F64
  MaxNight : F64
  deriving DecidableEq

/-- The function `roundToTwoDecimals`: `math.Round(n*100) / 100`. -/
def roundToTwoDecimals (n : F64) : F64 :=
  F64.div (F64.round (F64.mul n (F64.fin 100))) (F64.fin 100)

/-- The method `Booking.ProfitPerNight`. -/
def ProfitPerNight (b : Booking) : F64 :=
  if b.Nights = 0 then F64.fin 0
  else roundToTwoDecimals
    (F64.div (F64.div (F64.mul b.SellingRate b.Margin) (F64.fin 100)) (F64.ofInt b.Nights))

/-- The method `Bookings.ProfitsPerNight`. -/
def ProfitsPerNight (bb : Bookings) : List F64 :=
  bb.foldl (fun profits b => profits ++ [ProfitPerNight b]) []

/-- One iteration of the reduction loop of `CalculateStats` over
`(sum, minVal, maxVal)`. -/
def statsStep (st : F64 × F64 × F64) (p : F64) : F64 × F64 × F64 :=
  (F64.add st.1 p, (if F64.lt p st.2.1 then p else st.2.1),
    (if F64.lt st.2.2 p then p else st.2.2))

/-- The method `Bookings.CalculateStats`. -/
def CalculateStats (bb : Bookings) : StatsResult :=
  if bb.length = 0 then ⟨F64.fin 0, F64.fin 0, F64.fin 0⟩
  else
    let profits := ProfitsPerNight bb
    let p0 := profits.headD (F64.fin 0)
    let st := profits.foldl statsStep (F64.fin 0, p0, p0)
    let avg := F64.div st.1 (F64.ofInt profits.length)
    ⟨roundToTwoDecimals avg, roundToTwoDecimals st.2.1, roundToTwoDecimals st.2.2⟩

/-- The instant of midnight UTC on day `day`, in seconds since 0001-01-01: the
value a `time.Time` holds for a parsed date. -/
def instant (day : Int) : Int := 86400 * day

/-- Conversion to `int64` with wrap-around. -/
def wrapInt64 (z : Int) : Int := (z + 2 ^ 63) % 2 ^ 64 - 2 ^ 63

/-- The instant of `t.AddDate(0, 0, days)` for the date `t` of day number `day`.
Modelled from the Go standard library: the day count and the seconds are
computed in 64-bit arithmetic, which wraps around. -/
def AddDate (day days : Int) : Int := wrapInt64 (86400 * (day + days))

/-- The method `Booking.OverlapsWith`; `Before` compares the instants. -/
def OverlapsWith (b other : Booking) : Bool :=
  let bEnd := AddDate b.CheckIn b.Nights
  let oEnd := AddDate other.CheckIn other.Nights
  decide (instant b.CheckIn < oEnd) && decide (instant other.CheckIn < bEnd)

/-- The method `Bookings.HasOverlaps`: the outer loop takes the bookings in
order, the inner loop compares each with every later one. -/
def HasOverlaps : Bookings → Bool
  | [] => false
  | b :: rest => rest.any (fun o => OverlapsWith b o) || HasOverlaps rest

/-- The method `Bookings.TotalProfit`. -/
def TotalProfit (bb : Bookings) : F64 :=
  roundToTwoDecimals
    (bb.foldl (fun sum b => F64.add sum (F64.div (F64.mul b.SellingRate b.Margin) (F64.fin 100)))
      (F64.fin 0))

/-- The method `Bookings.RequestIDs`. -/
def RequestIDs (bb : Bookings) : List String :=
  bb.foldl (fun ids b => ids ++ [b.RequestID]) []

/-- The inner loop of `allCombinations` for one mask: the bookings at the
positions `j < n` with `(mask >> j) & 1 == 1`, in ascending `j`. -/
def combination (bookings : List Booking) (mask : Nat) : Bookings :=
  (List.range bookings.length).filterMap
    (fun j => if (mask >>> j) &&& 1 = 1 then bookings[j]? else none)

/-- The expression `int(math.Pow(2, float64(n)))`. The power is exact and fits an
`int` for `n ≤ 62`; for larger `n` it does not, and the Go specification leaves the
result of the conversion to the implementation: `ovf n` stands for that result. -/
def powTotal (ovf : Nat → Int) (n : Nat) : Int :=
  if n ≤ 62 then 2 ^ n else ovf n

/-- The result of the out-of-range conversion on amd64, the smallest `int`. -/
def amd64Pow : Nat → Int := fun _ => -(2 ^ 63)

/-- The function `allCombinations`: one combination per mask `1 ≤ mask < total`,
in increasing mask order. -/
def allCombinations (ovf : Nat → Int) (bookings : List Booking) : List Bookings :=
  (List.range' 1 ((powTotal ovf bookings.length - 1).toNat)).map (combination bookings)

/-- One iteration of the loop of `findBestCombination` over `(best, maxProfit)`. -/
def bestStep (st : Bookings × F64) (combo : Bookings) : Bookings × F64 :=
  if HasOverlaps combo then st
  else
    let profit := TotalProfit combo
    if F64.lt st.2 profit then (combo, profit) else st

/-- The function `findBestCombination`. -/
def findBestCombination (combos : List Bookings) : Bookings :=
  (combos.foldl bestStep ([], F64.fin (-1))).1

/-- The function `buildMaximizeResult`. -/
def buildMaximizeResult (best : Bookings) : MaximizeResult :=
  if best.length = 0 then ⟨[], F64.fin 0, F64.fin 0, F64.fin 0, F64.fin 0⟩
  else
    let stats := CalculateStats best
    ⟨RequestIDs best, TotalProfit best, stats.AvgNight, stats.MinNight, stats.MaxNight⟩

/-- The function `MaximizeProfit`. -/
def MaximizeProfit (ovf : Nat → Int) (bookings : List Booking) : MaximizeResult :=
  let best := findBestCombination (allCombinations ovf bookings)
  buildMaximizeResult best

/-- The base date of the tests, 2024-01-01, in days since 0001-01-01. -/
def baseDay : Int := 738885

/-- A finite value. -/
def F64.Finite : F64 → Prop
  | F64.fin _ => True
  | _ => False

/-- A finite value that is not negative. -/
def F64.NonnegFinite : F64 → Prop
  | F64.fin q => 0 ≤ q
  | _ => False

/-- A value that is not negative: `+Inf` or a finite value from 0 on. -/
def F64.IsNonneg : F64 → Prop
  | F64.pinf => True
  | F64.fin q => 0 ≤ q
  | _ => False

/-- A value that the type `float64` holds: a finite one is representable and below
the overflow threshold. -/
def F64.Valid : F64 → Prop
  | F64.fin q => IsRepr q ∧ |q| < 2 ^ (1024 : Int)
  | _ => True

/-- The term that `TotalProfit` adds for one booking. -/
def absProfit (b : Booking) : F64 :=
  F64.div (F64.mul b.SellingRate b.Margin) (F64.fin 100)

/-- The sample booking of night `i`: one night on every second day, at a profit
of 10. -/
def nightOf (i : Nat) : Booking :=
  ⟨"night", baseDay + 2 * (i : Int), 1, F64.fin 1000, F64.fin 1⟩

/-- Sixty-three bookings of which no two overlap. -/
def sixtyThree : List Booking := (List.range 63).map nightOf

/-- The values a decoded request can carry: finite numbers and a night count
that fits the 64-bit `int`. -/
def WellFormed (b : Booking) : Prop :=
  b.SellingRate.Finite ∧ b.Margin.Finite ∧ -(2 ^ 63) ≤ b.Nights ∧ b.Nights < 2 ^ 63

/-- A booking whose check-in and check-out are instants that a `time.Time` holds. -/
def InRange (b : Booking) : Prop :=
  -(2 ^ 63) ≤ instant b.CheckIn ∧ instant b.CheckIn < 2 ^ 63 ∧
    -(2 ^ 63) ≤ instant (b.CheckIn + b.Nights) ∧ instant (b.CheckIn + b.Nights) < 2 ^ 63

/-- A booking whose absolute profit is the whole number `f b`, the product of rate
and margin being exactly a hundred times that. -/
def WholeProfit (f : Booking → Nat) (b : Booking) : Prop :=
  ∃ r m : ℚ, b.SellingRate = F64.fin r ∧ b.Margin = F64.fin m ∧ r * m = 100 * (f b : ℚ)

/-- Following the spec: rounding to two decimal places in exact arithmetic, a half
going away from zero. -/
def roundToTwoDecimalsExact (x : ℚ) : ℚ :=
  mathRound (x * 100) / 100

/-- The number a finite value denotes (0 for the others). -/
def F64.toRat : F64 → ℚ
  | F64.fin q => q
  | _ => 0

/-! ## The partial operations made explicit

The same functions with the three operations that could go wrong returning
`none`: the division by the nights, the division by the number of profits and the
read of `profits[0]`. -/

/-- Division that is undefined on a zero divisor. -/
def checkedDiv (x d : F64) : Option F64 :=
  if d = F64.fin 0 then none else some (F64.div x d)

/-- The method `Booking.ProfitPerNight`, with the division by the nights checked. -/
def ProfitPerNightChecked (b : Booking) : Option F64 :=
  if b.Nights = 0 then some (F64.fin 0)
  else (checkedDiv (F64.div (F64.mul b.SellingRate b.Margin) (F64.fin 100))
    (F64.ofInt b.Nights)).map roundToTwoDecimals

/-- The method `Bookings.ProfitsPerNight` over the checked `ProfitPerNight`. -/
def ProfitsPerNightChecked (bb : Bookings) : Option (List F64) :=
  bb.foldl (fun acc b => acc.bind (fun profits =>
    (ProfitPerNightChecked b).map (fun p => profits ++ [p]))) (some [])

/-- The method `Bookings.CalculateStats`, with the read of `profits[0]` and the
division by the number of profits checked. -/
def CalculateStatsChecked (bb : Bookings) : Option StatsResult :=
  if bb.length = 0 then some ⟨F64.fin 0, F64.fin 0, F64.fin 0⟩
  else
    (ProfitsPerNightChecked bb).bind (fun profits =>
      (profits[0]?).bind (fun p0 =>
        let st := profits.foldl statsStep (F64.fin 0, p0, p0)
        (checkedDiv st.1 (F64.ofInt profits.length)).map (fun avg =>
          ⟨roundToTwoDecimals avg, roundToTwoDecimals st.2.1, roundToTwoDecimals st.2.2⟩)))

/-- The function `buildMaximizeResult` over the checked `CalculateStats`. -/
def buildMaximizeResultChecked (best : Bookings) : Option MaximizeResult :=
  if best.length = 0 then some ⟨[], F64.fin 0, F64.fin 0, F64.fin 0, F64.fin 0⟩
  else
    (CalculateStatsChecked best).map (fun stats =>
      ⟨RequestIDs best, TotalProfit best, stats.AvgNight, stats.MinNight, stats.MaxNight⟩)

/-- The function `MaximizeProfit` over the checked `buildMaximizeResult`. -/
def MaximizeProfitChecked (ovf : Nat → Int) (bookings : List Booking) : Option MaximizeResult :=
  buildMaximizeResultChecked (findBestCombination (allCombinations ovf bookings))

/-! ## Transport boundary (`internal/infra/http/handler`) -/

/-- The DTO `bookingRequest`: a booking as received, its check-in still a string. -/
structure bookingRequest where
  RequestID : String
  CheckIn : String
  Nights : Int
  SellingRate : F64
  Margin : F64
  deriving DecidableEq

/-- The error values of the handler package. -/
inductive HandlerError where
  | ErrNilStatsService
  | ErrInvalidRequest
  | ErrInvalidJSON
  | ErrInvalidDateFormat
  deriving DecidableEq

/-- The loop of `parseBookingRequests` over the bookings built so far. The
standard-library call `time.Parse(time.DateOnly, s)` is the parameter `parseDate`:
`none` when it returns an error, `some day` for the parsed date. -/
def parseLoop (parseDate : String → Option Int) :
    List bookingRequest → List Booking → Except HandlerError (List Booking)
  | [], requests => Except.ok requests
  | dto :: rest, requests =>
    match parseDate dto.CheckIn with
    | none => Except.error HandlerError.ErrInvalidDateFormat
    | some checkIn =>
      parseLoop parseDate rest
        (requests ++ [⟨dto.RequestID, checkIn, dto.Nights, dto.SellingRate, dto.Margin⟩])

/-- The function `parseBookingRequests`. -/
def parseBookingRequests (parseDate : String → Option Int) (dtos : List bookingRequest) :
    Except HandlerError (List Booking) :=
  parseLoop parseDate dtos []

/-- Two bookings that agree on everything but the request ID. -/
def sameStay (a b : Booking) : Prop :=
  a.CheckIn = b.CheckIn ∧ a.Nights = b.Nights ∧ a.SellingRate = b.SellingRate ∧
    a.Margin = b.Margin

instance (a b : Booking) : Decidable (sameStay a b) := by
  unfold sameStay
  infer_instance

/-! ## Sample bookings -/

/-- Booking `req1` of `TestMaximizeProfit`. -/
def req1 : Booking := ⟨"req1", baseDay, 3, F64.fin 1000, F64.fin 20⟩

/-- Booking `req2` of the case "optimal combination with overlaps". -/
def req2 : Booking := ⟨"req2", baseDay + 2, 3, F64.fin 2000, F64.fin 25⟩

/-- Booking `req3` of the case "optimal combination with overlaps". -/
def req3 : Booking := ⟨"req3", baseDay + 6, 3, F64.fin 1500, F64.fin 30⟩

/-- Booking `req2` of the case "no overlaps possible". -/
def req2Later : Booking := ⟨"req2", baseDay + 4, 3, F64.fin 2000, F64.fin 25⟩

/-- A booking after `req1` that sells for nothing. -/
def zeroRate : Booking := ⟨"zero", baseDay + 4, 3, F64.fin 0, F64.fin 25⟩

/-- A booking overlapping `req1` with the same profit. -/
def req1Twin : Booking := ⟨"twin", baseDay + 1, 3, F64.fin 1000, F64.fin 20⟩

/-- A five-night stay from the fourth day. -/
def weekStay : Booking := ⟨"stay", baseDay + 3, 5, F64.fin 1000, F64.fin 20⟩

/-- A zero-night booking on the sixth day, inside `weekStay`. -/
def zeroNight : Booking := ⟨"zeroNight", baseDay + 5, 0, F64.fin 1000, F64.fin 20⟩

/-- A booking overlapping `req1` with the same profit over two nights only. -/
def req1Short : Booking := ⟨"short", baseDay + 1, 2, F64.fin 1000, F64.fin 20⟩

/-- A booking sold at a small negative margin: its profit is `-0.5`. -/
def smallLoss : Booking := ⟨"loss", baseDay, 3, F64.fin 50, F64.fin (-1)⟩

/-- A booking sold at a large negative margin: its profit is `-200`. -/
def bigLoss : Booking := ⟨"bigLoss", baseDay, 3, F64.fin 1000, F64.fin (-20)⟩

/-- Two nights at a rate of 29 and a margin of 1: 0.145 per night in exact arithmetic. -/
def oddCents : Booking := ⟨"oddCents", baseDay, 2, F64.fin 29, F64.fin 1⟩

/-- A rate of 14.5 at a margin of 1: a profit of 0.145 in exact arithmetic. -/
def halfCent : Booking := ⟨"halfCent", baseDay, 1, F64.fin (29 / 2), F64.fin 1⟩

/-- A rate of 0.375 at a margin of 1: a profit of 0.00375. -/
def eighth : Booking := ⟨"eighth", baseDay, 1, F64.fin (3 / 8), F64.fin 1⟩

/-- One night at a profit of 0.01. -/
def cent1 : Booking := ⟨"c1", baseDay, 1, F64.fin 1, F64.fin 1⟩

/-- One night at a profit of 0.1. -/
def cent10 : Booking := ⟨"c10", baseDay + 1, 1, F64.fin 10, F64.fin 1⟩

/-- Another night at a profit of 0.01. -/
def cent1b : Booking := ⟨"c1b", baseDay + 2, 1, F64.fin 1, F64.fin 1⟩

/-- One night at a profit of 0.02. -/
def cent2 : Booking := ⟨"c2", baseDay + 3, 1, F64.fin 2, F64.fin 1⟩

/-- One night at a rate of 44574545451832.125 and a margin of 100. -/
def largeStay : Booking := ⟨"large", baseDay, 1, F64.fin (356596363614657 / 8), F64.fin 100⟩

/-- One night at a rate of 4.5 and a margin of 1. -/
def rateA : Booking := ⟨"a", baseDay, 1, F64.fin (9 / 2), F64.fin 1⟩

/-- One night at a rate of 0.5 and a margin of 1. -/
def rateB : Booking := ⟨"b", baseDay + 1, 1, F64.fin (1 / 2), F64.fin 1⟩

/-- Another night at a rate of 0.5 and a margin of 1. -/
def rateC : Booking := ⟨"c", baseDay + 2, 1, F64.fin (1 / 2), F64.fin 1⟩

/-- One night at a rate of 100000000000001.109375 and a margin of 100. -/
def tall1 : Booking := ⟨"t1", baseDay, 1, F64.fin (6400000000000071 / 64), F64.fin 100⟩

/-- A second night at the same rate and margin. -/
def tall2 : Booking := ⟨"t2", baseDay + 1, 1, F64.fin (6400000000000071 / 64), F64.fin 100⟩

/-- A third night at the same rate and margin. -/
def tall3 : Booking := ⟨"t3", baseDay + 2, 1, F64.fin (6400000000000071 / 64), F64.fin 100⟩

/-- Booking A of the first end-to-end example: 40 per night. -/
def stayA : Booking := ⟨"A", baseDay, 5, F64.fin 1000, F64.fin 20⟩

/-- Booking B of the first end-to-end example: 75 per night. -/
def stayB : Booking := ⟨"B", baseDay + 6, 4, F64.fin 2000, F64.fin 15⟩

/-- Booking C of the first end-to-end example: 125 per night. -/
def stayC : Booking := ⟨"C", baseDay + 11, 6, F64.fin 3000, F64.fin 25⟩

/-- A stay of `2^62` nights from the base day: the seconds of its check-out wrap
around to the instant of its check-in. -/
def longStay : Booking := ⟨"long", baseDay, 2 ^ 62, F64.fin 1000, F64.fin 20⟩

/-- The per-night profit of the bookings of the first end-to-end example, read
off the number of nights: 40 for the five nights of A, 75 for the four of B, 125
for the six of C. -/
def stayProfit (b : Booking) : Nat :=
  if b.Nights = 5 then 40 else if b.Nights = 4 then 75 else 125

/-- The absolute profit of `req1` (200) and of the bookings that follow it after
the base day (500, as for `req2` and `req2Later`). -/
def reqProfit (b : Booking) : Nat :=
  if b.CheckIn = baseDay then 200 else 500

/-- The nearest binary64 value to 0.015, which lies below it. -/
def belowHalfCent : ℚ := 1080863910568919 / 72057594037927936

/-- The binary64 value `1e308`. -/
def huge : ℚ := 100000000000000001097906362944045541740492309677311846336810682903157585404911491537163328978494688899061249669721172515611590283743140088328307009198146046031271664502933027185697489699588559043338384466165001178426897626212945177628091195786707458122783970171784415105291802893207873272974885715430223118336

theorem roundHalfEven_prop (m : ℚ) :
    |(roundHalfEven m : ℚ) - m| < 1 / 2 ∨
      (|(roundHalfEven m : ℚ) - m| = 1 / 2 ∧ roundHalfEven m % 2 = 0) := by
  have h1 := Int.floor_le m
  have h2 := Int.lt_floor_add_one m
  unfold roundHalfEven
  by_cases ha : m - (⌊m⌋ : Int) < 1 / 2
  · rw [if_pos ha]
    left
    rw [abs_lt]
    constructor <;> linarith
  · rw [if_neg ha]
    by_cases hb : 1 / 2 < m - (⌊m⌋ : Int)
    · rw [if_pos hb]
      left
      rw [abs_lt]
      push_cast
      constructor <;> linarith
    · rw [if_neg hb]
      have heq : m - (⌊m⌋ : Int) = 1 / 2 := le_antisymm (not_lt.mp hb) (not_lt.mp ha)
      right
      by_cases hc : ⌊m⌋ % 2 = 0
      · rw [if_pos hc]
        refine ⟨?_, hc⟩
        have : ((⌊m⌋ : Int) : ℚ) - m = -(1 / 2) := by linarith
        rw [this, abs_neg]
        norm_num
      · rw [if_neg hc]
        refine ⟨?_, by omega⟩
        have : (((⌊m⌋ + 1 : Int)) : ℚ) - m = 1 / 2 := by push_cast; linarith
        rw [this]
        norm_num

theorem roundHalfEven_unique (m : ℚ) (n : Int)
    (h : |(n : ℚ) - m| < 1 / 2 ∨ (|(n : ℚ) - m| = 1 / 2 ∧ n % 2 = 0)) :
    roundHalfEven m = n := by
  have hr := roundHalfEven_prop m
  by_contra hne
  have hd : (1 : Int) ≤ |roundHalfEven m - n| := Int.one_le_abs (sub_ne_zero.mpr hne)
  have hdq : (1 : ℚ) ≤ |(roundHalfEven m : ℚ) - (n : ℚ)| := by exact_mod_cast hd
  have htri : |(roundHalfEven m : ℚ) - (n : ℚ)|
      ≤ |(roundHalfEven m : ℚ) - m| + |(n : ℚ) - m| := by
    have := abs_sub_le (roundHalfEven m : ℚ) m (n : ℚ)
    rwa [abs_sub_comm m (n : ℚ)] at this
  rcases hr with hr | ⟨hr, hre⟩
  · rcases h with h | ⟨h, _⟩ <;> linarith
  · rcases h with h | ⟨h, hne2⟩
    · linarith
    · -- both at distance one half: they differ by exactly one, so parities differ
      have hle : |(roundHalfEven m : ℚ) - (n : ℚ)| ≤ 1 := by linarith
      have hle' : |roundHalfEven m - n| ≤ 1 := by exact_mod_cast hle
      have h1 : |roundHalfEven m - n| = 1 := le_antisymm hle' hd
      rcases abs_eq (by norm_num : (0 : Int) ≤ 1) |>.mp h1 with h2 | h2 <;> omega

theorem roundHalfEven_eq_of_lt (m : ℚ) (n : Int) (h : |(n : ℚ) - m| < 1 / 2) :
    roundHalfEven m = n :=
  roundHalfEven_unique m n (Or.inl h)

theorem roundHalfEven_intCast (z : Int) : roundHalfEven (z : ℚ) = z :=
  roundHalfEven_eq_of_lt _ z (by simp)

theorem roundHalfEven_abs_sub_le (m : ℚ) : |(roundHalfEven m : ℚ) - m| ≤ 1 / 2 := by
  rcases roundHalfEven_prop m with h | ⟨h, _⟩
  · exact le_of_lt h
  · exact le_of_eq h

theorem roundHalfEven_neg (m : ℚ) : roundHalfEven (-m) = -roundHalfEven m := by
  apply roundHalfEven_unique
  have e : ((-roundHalfEven m : Int) : ℚ) - -m = -((roundHalfEven m : ℚ) - m) := by
    push_cast; ring
  rw [e, abs_neg]
  rcases roundHalfEven_prop m with h | ⟨h, hev⟩
  · exact Or.inl h
  · exact Or.inr ⟨h, by omega⟩

theorem roundHalfEven_mono {m m' : ℚ} (h : m ≤ m') : roundHalfEven m ≤ roundHalfEven m' := by
  by_contra hlt
  have hlt' : roundHalfEven m' + 1 ≤ roundHalfEven m := by omega
  have hq : (roundHalfEven m' : ℚ) + 1 ≤ (roundHalfEven m : ℚ) := by exact_mod_cast hlt'
  have h1 := abs_le.mp (roundHalfEven_abs_sub_le m)
  have h2 := abs_le.mp (roundHalfEven_abs_sub_le m')
  have : m = m' := by linarith [h1.1, h1.2, h2.1, h2.2]
  subst this
  omega

/-! ## Powers of two and the exponent of the last place -/

theorem two_zpow_pos (e : Int) : (0 : ℚ) < 2 ^ e := zpow_pos (by norm_num) e

theorem two_zpow_le {a b : Int} (h : a ≤ b) : (2 : ℚ) ^ a ≤ 2 ^ b :=
  zpow_le_zpow_right₀ (by norm_num) h

theorem two_zpow_lt {a b : Int} (h : a < b) : (2 : ℚ) ^ a < 2 ^ b :=
  zpow_lt_zpow_right₀ (by norm_num) h

theorem two_zpow_add (a b : Int) : (2 : ℚ) ^ (a + b) = 2 ^ a * 2 ^ b :=
  zpow_add₀ (by norm_num) a b

theorem zpow_log_le_abs {x : ℚ} (hx : x ≠ 0) : (2 : ℚ) ^ Int.log 2 |x| ≤ |x| := by
  have h := Int.zpow_log_le_self (b := 2) (r := |x|) (by norm_num) (abs_pos.mpr hx)
  simpa using h

theorem abs_lt_zpow_log_succ (x : ℚ) : |x| < (2 : ℚ) ^ (Int.log 2 |x| + 1) := by
  have h := Int.lt_zpow_succ_log_self (b := 2) (by norm_num) |x|
  simpa using h

theorem ulpExp_ge (x : ℚ) : -1074 ≤ ulpExp x := le_max_right _ _

theorem ulpExp_log_le (x : ℚ) : Int.log 2 |x| - 52 ≤ ulpExp x := le_max_left _ _

theorem ulpExp_neg (x : ℚ) : ulpExp (-x) = ulpExp x := by
  unfold ulpExp
  rw [abs_neg]

theorem abs_lt_zpow_ulpExp (x : ℚ) : |x| < (2 : ℚ) ^ (ulpExp x + 53) := by
  have h1 := abs_lt_zpow_log_succ x
  have h2 := ulpExp_log_le x
  exact lt_of_lt_of_le h1 (two_zpow_le (by omega))

theorem ulpExp_mono {x y : ℚ} (hx : x ≠ 0) (h : |x| ≤ |y|) : ulpExp x ≤ ulpExp y := by
  unfold ulpExp
  have := Int.log_mono_right (b := 2) (abs_pos.mpr hx) h
  exact max_le_max (by omega) (le_refl _)

theorem ulpExp_of_bounds (x : ℚ) (e : Int) (he : -1074 ≤ e)
    (hlo : (2 : ℚ) ^ (e + 52) ≤ |x|) (hhi : |x| < (2 : ℚ) ^ (e + 53)) : ulpExp x = e := by
  have hpos : (0 : ℚ) < |x| := lt_of_lt_of_le (two_zpow_pos _) hlo
  have h1 : e + 52 ≤ Int.log 2 |x| := by
    rw [← Int.zpow_le_iff_le_log (by norm_num) hpos]
    simpa using hlo
  have h2 : Int.log 2 |x| < e + 53 := by
    rw [← Int.lt_zpow_iff_log_lt (by norm_num) hpos]
    simpa using hhi
  unfold ulpExp
  have : Int.log 2 |x| - 52 = e := by omega
  rw [this]
  exact max_eq_left he

theorem ulpExp_of_small (x : ℚ) (hx : x ≠ 0) (hhi : |x| < (2 : ℚ) ^ (-1022 : Int)) :
    ulpExp x = -1074 := by
  unfold ulpExp
  apply max_eq_right
  have h2 : Int.log 2 |x| < -1022 := by
    rw [← Int.lt_zpow_iff_log_lt (by norm_num) (abs_pos.mpr hx)]
    simpa using hhi
  omega

/-! ## Rounding to the nearest binary64 value -/

theorem rndVal_zero : rndVal 0 = 0 := by
  unfold rndVal
  have : roundHalfEven ((0 : ℚ) / 2 ^ ulpExp 0) = 0 := by
    rw [zero_div]
    exact roundHalfEven_intCast 0
  rw [this]
  simp

theorem rndVal_neg (x : ℚ) : rndVal (-x) = -rndVal x := by
  unfold rndVal
  rw [ulpExp_neg, neg_div, roundHalfEven_neg]
  push_cast
  ring

theorem rndVal_of_ulpExp (x : ℚ) (e n : Int) (he : ulpExp x = e)
    (hn : |(n : ℚ) - x / 2 ^ e| < 1 / 2) : rndVal x = (n : ℚ) * 2 ^ e := by
  unfold rndVal
  rw [he, roundHalfEven_eq_of_lt _ n hn]

theorem rndVal_nonneg {x : ℚ} (hx : 0 ≤ x) : 0 ≤ rndVal x := by
  unfold rndVal
  have h0 : (0 : ℚ) ≤ x / 2 ^ ulpExp x := div_nonneg hx (le_of_lt (two_zpow_pos _))
  have h1 := roundHalfEven_mono h0
  have hz : roundHalfEven (0 : ℚ) = 0 := roundHalfEven_intCast 0
  rw [hz] at h1
  have h2 : (0 : ℚ) ≤ (roundHalfEven (x / 2 ^ ulpExp x) : ℚ) := by exact_mod_cast h1
  exact mul_nonneg h2 (le_of_lt (two_zpow_pos _))

theorem roundHalfEven_two_pow (k : Nat) : roundHalfEven ((2 : ℚ) ^ k) = 2 ^ k := by
  have h : ((2 : ℚ) ^ k) = (((2 : Int) ^ k : Int) : ℚ) := by push_cast; rfl
  rw [h]
  exact roundHalfEven_intCast _

/-- The rounded mantissa has at most 53 bits. -/
theorem roundHalfEven_mantissa_le (x : ℚ) :
    |roundHalfEven (x / 2 ^ ulpExp x)| ≤ 2 ^ 53 := by
  have hpos := two_zpow_pos (ulpExp x)
  have hlt := abs_lt_zpow_ulpExp x
  rw [two_zpow_add] at hlt
  have hm : |x / 2 ^ ulpExp x| < 2 ^ (53 : Int) := by
    rw [abs_div, abs_of_pos hpos, div_lt_iff₀ hpos]
    linarith
  have hm' := abs_lt.mp hm
  have hup : roundHalfEven (x / 2 ^ ulpExp x) ≤ 2 ^ 53 := by
    have := roundHalfEven_mono (le_of_lt hm'.2)
    have h53 : ((2 : ℚ) ^ (53 : Int)) = (2 : ℚ) ^ (53 : Nat) := by norm_num
    rw [h53, roundHalfEven_two_pow] at this
    exact this
  have hlo : -(2 ^ 53) ≤ roundHalfEven (x / 2 ^ ulpExp x) := by
    have := roundHalfEven_mono (le_of_lt hm'.1)
    have h53 : (-(2 : ℚ) ^ (53 : Int)) = -((2 : ℚ) ^ (53 : Nat)) := by norm_num
    rw [h53, roundHalfEven_neg, roundHalfEven_two_pow] at this
    exact this
  exact abs_le.mpr ⟨hlo, hup⟩

theorem rndVal_abs_le (x : ℚ) : |rndVal x| ≤ 2 ^ (ulpExp x + 53) := by
  unfold rndVal
  rw [abs_mul, abs_of_pos (two_zpow_pos _), two_zpow_add, mul_comm ((2 : ℚ) ^ ulpExp x)]
  apply mul_le_mul_of_nonneg_right _ (le_of_lt (two_zpow_pos _))
  have h := roundHalfEven_mantissa_le x
  have h2 : |((roundHalfEven (x / 2 ^ ulpExp x) : Int) : ℚ)| ≤ ((2 ^ 53 : Int) : ℚ) := by
    rw [← Int.cast_abs]
    exact_mod_cast h
  have h53 : ((2 : ℚ) ^ (53 : Int)) = (((2 : Int) ^ 53 : Int) : ℚ) := by norm_num
  rw [h53]
  exact h2

theorem rndVal_ge_of_normal {x : ℚ} (hx : 0 < x) (h : -1074 < ulpExp x) :
    (2 : ℚ) ^ (ulpExp x + 52) ≤ rndVal x := by
  have he : ulpExp x = Int.log 2 |x| - 52 := by
    unfold ulpExp at h ⊢
    rcases max_cases (Int.log 2 |x| - 52) (-1074) with ⟨h1, _⟩ | ⟨h1, _⟩
    · exact h1
    · rw [h1] at h; omega
  have hpos := two_zpow_pos (ulpExp x)
  have hlog := zpow_log_le_abs (ne_of_gt hx)
  rw [abs_of_pos hx] at hlog
  have hl : Int.log 2 |x| = ulpExp x + 52 := by omega
  rw [abs_of_pos hx] at hl
  rw [hl, two_zpow_add] at hlog
  have hm : (2 : ℚ) ^ (52 : Int) ≤ x / 2 ^ ulpExp x := by
    rw [le_div_iff₀ hpos]
    linarith
  have hr := roundHalfEven_mono hm
  have h52 : ((2 : ℚ) ^ (52 : Int)) = (2 : ℚ) ^ (52 : Nat) := by norm_num
  rw [h52, roundHalfEven_two_pow] at hr
  have hrq : ((2 : ℚ) ^ (52 : Int)) ≤ (roundHalfEven (x / 2 ^ ulpExp x) : ℚ) := by
    have : (((2 : Int) ^ 52 : Int) : ℚ) ≤ (roundHalfEven (x / 2 ^ ulpExp x) : ℚ) := by
      exact_mod_cast hr
    have h52' : ((2 : ℚ) ^ (52 : Int)) = (((2 : Int) ^ 52 : Int) : ℚ) := by norm_num
    rw [h52']
    exact this
  unfold rndVal
  rw [two_zpow_add, mul_comm ((2 : ℚ) ^ ulpExp x)]
  exact mul_le_mul_of_nonneg_right hrq (le_of_lt hpos)

theorem rndVal_mono_of_pos {x y : ℚ} (hx : 0 < x) (h : x ≤ y) : rndVal x ≤ rndVal y := by
  have hy : 0 < y := lt_of_lt_of_le hx h
  have he : ulpExp x ≤ ulpExp y :=
    ulpExp_mono (ne_of_gt hx) (by rw [abs_of_pos hx, abs_of_pos hy]; exact h)
  rcases eq_or_lt_of_le he with heq | hlt
  · unfold rndVal
    rw [heq]
    have hpos := two_zpow_pos (ulpExp y)
    have hm : x / 2 ^ ulpExp y ≤ y / 2 ^ ulpExp y := div_le_div_of_nonneg_right h (le_of_lt hpos)
    have hr := roundHalfEven_mono hm
    have hrq : (roundHalfEven (x / 2 ^ ulpExp y) : ℚ) ≤ (roundHalfEven (y / 2 ^ ulpExp y) : ℚ) := by
      exact_mod_cast hr
    exact mul_le_mul_of_nonneg_right hrq (le_of_lt hpos)
  · have h1 := le_trans (le_abs_self _) (rndVal_abs_le x)
    have h2 := rndVal_ge_of_normal hy (lt_of_le_of_lt (ulpExp_ge x) hlt)
    exact le_trans h1 (le_trans (two_zpow_le (by omega)) h2)

theorem rndVal_mono {x y : ℚ} (h : x ≤ y) : rndVal x ≤ rndVal y := by
  rcases lt_trichotomy 0 x with hx | hx | hx
  · exact rndVal_mono_of_pos hx h
  · subst hx
    rw [rndVal_zero]
    exact rndVal_nonneg h
  · rcases lt_trichotomy 0 y with hy | hy | hy
    · have h1 : rndVal x ≤ 0 := by
        have := rndVal_nonneg (show (0 : ℚ) ≤ -x by linarith)
        rw [rndVal_neg] at this
        linarith
      exact le_trans h1 (rndVal_nonneg (le_of_lt hy))
    · subst hy
      rw [rndVal_zero]
      have := rndVal_nonneg (show (0 : ℚ) ≤ -x by linarith)
      rw [rndVal_neg] at this
      linarith
    · have := rndVal_mono_of_pos (show (0 : ℚ) < -y by linarith) (show -y ≤ -x by linarith)
      rw [rndVal_neg, rndVal_neg] at this
      linarith

/-! ## Representable values are fixed by the rounding -/

theorem rndVal_isRepr (x : ℚ) : IsRepr (rndVal x) :=
  ⟨roundHalfEven (x / 2 ^ ulpExp x), ulpExp x, ulpExp_ge x, roundHalfEven_mantissa_le x, rfl⟩

theorem rndVal_of_isRepr {x : ℚ} (h : IsRepr x) : rndVal x = x := by
  obtain ⟨n, e, he, hn, hx⟩ := h
  by_cases hn0 : n = 0
  · subst hn0
    simp only [Int.cast_zero, zero_mul] at hx
    rw [hx, rndVal_zero]
  have hnq : (n : ℚ) ≠ 0 := by exact_mod_cast hn0
  have hxne : x ≠ 0 := by
    rw [hx]
    exact mul_ne_zero hnq (ne_of_gt (two_zpow_pos e))
  have hpe := two_zpow_pos e
  have hpu := two_zpow_pos (ulpExp x)
  have key : ∃ k : Int, x / 2 ^ ulpExp x = (k : ℚ) := by
    by_cases hle : ulpExp x ≤ e
    · refine ⟨n * 2 ^ (e - ulpExp x).toNat, ?_⟩
      have hcast : (((e - ulpExp x).toNat : Nat) : Int) = e - ulpExp x :=
        Int.toNat_of_nonneg (by omega)
      have h2 : (((2 : Int) ^ (e - ulpExp x).toNat : Int) : ℚ) = (2 : ℚ) ^ (e - ulpExp x) := by
        push_cast
        rw [← zpow_natCast, hcast]
      rw [div_eq_iff (ne_of_gt hpu), Int.cast_mul, h2, mul_assoc, ← two_zpow_add]
      have : e - ulpExp x + ulpExp x = e := by omega
      rw [this]
      exact hx
    · have hlt : e < ulpExp x := not_le.mp hle
      have hu : ulpExp x = Int.log 2 |x| - 52 := by
        unfold ulpExp at hlt ⊢
        rcases max_cases (Int.log 2 |x| - 52) (-1074) with ⟨h1, _⟩ | ⟨h1, _⟩
        · exact h1
        · rw [h1] at hlt; omega
      have hlog := zpow_log_le_abs hxne
      have habs : |x| = |(n : ℚ)| * 2 ^ e := by
        rw [hx, abs_mul, abs_of_pos hpe]
      have h53 : (2 : ℚ) ^ (e + 53) ≤ |x| :=
        le_trans (two_zpow_le (by omega)) hlog
      rw [habs, two_zpow_add, mul_comm ((2 : ℚ) ^ e)] at h53
      have hn53 : (2 : ℚ) ^ (53 : Int) ≤ |(n : ℚ)| := le_of_mul_le_mul_right h53 hpe
      have hn53' : ((2 ^ 53 : Int) : ℚ) ≤ ((|n| : Int) : ℚ) := by
        rw [Int.cast_abs]
        have : ((2 ^ 53 : Int) : ℚ) = (2 : ℚ) ^ (53 : Int) := by norm_num
        rw [this]
        exact hn53
      have hge : (2 : Int) ^ 53 ≤ |n| := by exact_mod_cast hn53'
      have hneq : |n| = 2 ^ 53 := le_antisymm hn hge
      have hxabs : |x| = (2 : ℚ) ^ (e + 53) := by
        rw [habs, ← Int.cast_abs, hneq, two_zpow_add]
        norm_num
        ring
      have hlogeq : Int.log 2 |x| = e + 53 := by
        rw [hxabs]
        have := Int.log_zpow (R := ℚ) (b := 2) (by norm_num) (e + 53)
        simpa using this
      have hue : ulpExp x = e + 1 := by omega
      refine ⟨n / 2, ?_⟩
      have hn2 : n = 2 * (n / 2) := by
        have h2 : (2 : Int) ^ 53 = 9007199254740992 := by norm_num
        rw [h2] at hneq
        rcases abs_eq (by norm_num : (0 : Int) ≤ 9007199254740992) |>.mp hneq with h | h <;> omega
      rw [hue, hx, two_zpow_add]
      have hnq2 : (n : ℚ) = 2 * ((n / 2 : Int) : ℚ) := by exact_mod_cast hn2
      rw [hnq2]
      field_simp
      ring
  obtain ⟨k, hk⟩ := key
  unfold rndVal
  rw [hk, roundHalfEven_intCast, ← hk]
  field_simp

theorem rndVal_idem (x : ℚ) : rndVal (rndVal x) = rndVal x :=
  rndVal_of_isRepr (rndVal_isRepr x)

theorem isRepr_intCast (z : Int) (hz : |z| ≤ 2 ^ 53) : IsRepr (z : ℚ) :=
  ⟨z, 0, by norm_num, hz, by simp⟩

theorem isRepr_zero : IsRepr 0 := ⟨0, 0, by norm_num, by norm_num, by simp⟩

/-! ## The rounding error -/

theorem rndVal_abs_sub_le (x : ℚ) : |rndVal x - x| ≤ 2 ^ ulpExp x / 2 := by
  have hpos := two_zpow_pos (ulpExp x)
  have h := roundHalfEven_abs_sub_le (x / 2 ^ ulpExp x)
  have e : rndVal x - x
      = ((roundHalfEven (x / 2 ^ ulpExp x) : ℚ) - x / 2 ^ ulpExp x) * 2 ^ ulpExp x := by
    unfold rndVal
    field_simp
  rw [e, abs_mul, abs_of_pos hpos]
  calc |(roundHalfEven (x / 2 ^ ulpExp x) : ℚ) - x / 2 ^ ulpExp x| * 2 ^ ulpExp x
      ≤ 1 / 2 * 2 ^ ulpExp x := mul_le_mul_of_nonneg_right h (le_of_lt hpos)
    _ = 2 ^ ulpExp x / 2 := by ring

theorem two_zpow_ulpExp_le {x : ℚ} (hx : x ≠ 0) :
    (2 : ℚ) ^ ulpExp x ≤ |x| / 2 ^ (52 : Int) + 2 ^ (-1074 : Int) := by
  have h52 := two_zpow_pos 52
  have hmin := two_zpow_pos (-1074)
  have habs : (0 : ℚ) ≤ |x| / 2 ^ (52 : Int) := div_nonneg (abs_nonneg x) (le_of_lt h52)
  unfold ulpExp
  rcases max_cases (Int.log 2 |x| - 52) (-1074) with ⟨h1, _⟩ | ⟨h1, _⟩
  · rw [h1]
    have hlog := zpow_log_le_abs hx
    have e : (2 : ℚ) ^ (Int.log 2 |x| - 52) = 2 ^ Int.log 2 |x| / 2 ^ (52 : Int) := by
      rw [sub_eq_add_neg, two_zpow_add, zpow_neg]
      rfl
    rw [e]
    have := div_le_div_of_nonneg_right hlog (le_of_lt h52)
    linarith
  · rw [h1]
    linarith

theorem rndVal_err (x : ℚ) : |rndVal x - x| ≤ |x| / 2 ^ (53 : Int) + 2 ^ (-1075 : Int) := by
  by_cases hx : x = 0
  · subst hx
    rw [rndVal_zero]
    norm_num
  · have h1 := rndVal_abs_sub_le x
    have h2 := two_zpow_ulpExp_le hx
    have e1 : |x| / (2 : ℚ) ^ (53 : Int) = |x| / 2 ^ (52 : Int) / 2 := by
      rw [div_div]
      norm_num
    have e2 : (2 : ℚ) ^ (-1075 : Int) = 2 ^ (-1074 : Int) / 2 := by
      rw [show (-1075 : Int) = -1074 + -1 by norm_num, two_zpow_add]
      norm_num
    rw [e1, e2]
    linarith

/-! ## Overflow -/

theorem rnd_eq_fin {x : ℚ} (h1 : rndVal x < 2 ^ (1024 : Int))
    (h2 : -(2 : ℚ) ^ (1024 : Int) < rndVal x) : rnd x = F64.fin (rndVal x) := by
  unfold rnd
  rw [if_neg (not_le.mpr h1), if_neg (not_le.mpr h2)]

theorem rnd_cases (x : ℚ) :
    (rnd x = F64.pinf ∧ (2 : ℚ) ^ (1024 : Int) ≤ rndVal x) ∨
    (rnd x = F64.ninf ∧ rndVal x ≤ -(2 : ℚ) ^ (1024 : Int)) ∨
    (rnd x = F64.fin (rndVal x) ∧ rndVal x < 2 ^ (1024 : Int) ∧
      -(2 : ℚ) ^ (1024 : Int) < rndVal x) := by
  unfold rnd
  by_cases h1 : (2 : ℚ) ^ (1024 : Int) ≤ rndVal x
  · left
    rw [if_pos h1]
    exact ⟨rfl, h1⟩
  · right
    rw [if_neg h1]
    by_cases h2 : rndVal x ≤ -(2 : ℚ) ^ (1024 : Int)
    · left
      rw [if_pos h2]
      exact ⟨rfl, h2⟩
    · right
      rw [if_neg h2]
      exact ⟨rfl, not_le.mp h1, not_le.mp h2⟩

theorem rnd_ne_nan (x : ℚ) : rnd x ≠ F64.nan := by
  rcases rnd_cases x with ⟨h, _⟩ | ⟨h, _⟩ | ⟨h, _⟩ <;> rw [h] <;> simp

theorem rnd_zero : rnd 0 = F64.fin 0 := by
  have h := two_zpow_pos 1024
  rw [rnd_eq_fin (by rw [rndVal_zero]; exact h) (by rw [rndVal_zero]; linarith), rndVal_zero]

/-- A representable value below the overflow threshold is its own rounding. -/
theorem rnd_of_isRepr {x : ℚ} (h : IsRepr x) (hlt : |x| < 2 ^ (1024 : Int)) :
    rnd x = F64.fin x := by
  have hv := rndVal_of_isRepr h
  have := abs_lt.mp hlt
  rw [rnd_eq_fin (by rw [hv]; exact this.2) (by rw [hv]; exact this.1), hv]

/-- Integers of magnitude at most `2^53` are exact. -/
theorem rnd_of_int (x : ℚ) (z : Int) (hx : x = (z : ℚ)) (hz : |z| ≤ 2 ^ 53) :
    rnd x = F64.fin x := by
  apply rnd_of_isRepr
  · rw [hx]; exact isRepr_intCast z hz
  · rw [hx, ← Int.cast_abs]
    have h1 : ((|z| : Int) : ℚ) ≤ ((2 ^ 53 : Int) : ℚ) := by exact_mod_cast hz
    have h2 : ((2 ^ 53 : Int) : ℚ) < (2 : ℚ) ^ (1024 : Int) := by norm_num
    linarith

/-- Rounding of a positive value in the binade `[2^(e+52), 2^(e+53))`, given the
integer mantissa nearest to `x / 2^e`. -/
theorem rnd_of_near_pos (x c : ℚ) (e n : Int) (he : -1074 ≤ e) (he2 : e ≤ 970)
    (hlo : (2 : ℚ) ^ (e + 52) ≤ x) (hhi : x < (2 : ℚ) ^ (e + 53))
    (h1 : ((n : ℚ) - 1 / 2) * 2 ^ e < x) (h2 : x < ((n : ℚ) + 1 / 2) * 2 ^ e)
    (hc : c = (n : ℚ) * 2 ^ e) : rnd x = F64.fin c := by
  have hpe := two_zpow_pos e
  have hx : 0 < x := lt_of_lt_of_le (two_zpow_pos _) hlo
  have hu : ulpExp x = e := ulpExp_of_bounds x e he (by rwa [abs_of_pos hx]) (by rwa [abs_of_pos hx])
  have hn : |(n : ℚ) - x / 2 ^ e| < 1 / 2 := by
    rw [abs_lt]
    constructor
    · have : x / 2 ^ e < (n : ℚ) + 1 / 2 := by rw [div_lt_iff₀ hpe]; exact h2
      linarith
    · have : (n : ℚ) - 1 / 2 < x / 2 ^ e := by rw [lt_div_iff₀ hpe]; exact h1
      linarith
  have hv : rndVal x = c := by rw [hc]; exact rndVal_of_ulpExp x e n hu hn
  have hb := rndVal_abs_le x
  rw [hu, hv] at hb
  have hb2 : (2 : ℚ) ^ (e + 53) ≤ 2 ^ (1023 : Int) := two_zpow_le (by omega)
  have hb3 : (2 : ℚ) ^ (1023 : Int) < 2 ^ (1024 : Int) := two_zpow_lt (by norm_num)
  have hb4 := abs_le.mp hb
  rw [rnd_eq_fin (by rw [hv]; linarith [hb4.2]) (by rw [hv]; linarith [hb4.1]), hv]

/-- Rounding of a positive value that lies exactly halfway between two
neighbouring binary64 values: the one with the even mantissa is taken. -/
theorem rnd_of_tie_pos (x c : ℚ) (e n : Int) (he : -1074 ≤ e) (he2 : e ≤ 970)
    (hlo : (2 : ℚ) ^ (e + 52) ≤ x) (hhi : x < (2 : ℚ) ^ (e + 53))
    (h1 : |(n : ℚ) * 2 ^ e - x| = 2 ^ e / 2) (hev : n % 2 = 0)
    (hc : c = (n : ℚ) * 2 ^ e) : rnd x = F64.fin c := by
  have hpe := two_zpow_pos e
  have hx : 0 < x := lt_of_lt_of_le (two_zpow_pos _) hlo
  have hu : ulpExp x = e := ulpExp_of_bounds x e he (by rwa [abs_of_pos hx]) (by rwa [abs_of_pos hx])
  have hn : |(n : ℚ) - x / 2 ^ e| = 1 / 2 := by
    have e1 : (n : ℚ) - x / 2 ^ e = ((n : ℚ) * 2 ^ e - x) / 2 ^ e := by field_simp
    rw [e1, abs_div, abs_of_pos hpe, h1]
    field_simp
    ring
  have hv : rndVal x = c := by
    rw [hc]
    unfold rndVal
    rw [hu, roundHalfEven_unique _ n (Or.inr ⟨hn, hev⟩)]
  have hb := rndVal_abs_le x
  rw [hu, hv] at hb
  have hb2 : (2 : ℚ) ^ (e + 53) ≤ 2 ^ (1023 : Int) := two_zpow_le (by omega)
  have hb3 : (2 : ℚ) ^ (1023 : Int) < 2 ^ (1024 : Int) := two_zpow_lt (by norm_num)
  have hb4 := abs_le.mp hb
  rw [rnd_eq_fin (by rw [hv]; linarith [hb4.2]) (by rw [hv]; linarith [hb4.1]), hv]

/-! ## The operations on finite values -/

theorem F64.mul_fin (a b : ℚ) : F64.mul (F64.fin a) (F64.fin b) = rnd (a * b) := by
  rw [F64.mul]

theorem F64.add_fin (a b : ℚ) : F64.add (F64.fin a) (F64.fin b) = rnd (a + b) := by
  rw [F64.add]

theorem F64.div_fin (a b : ℚ) (hb : b ≠ 0) :
    F64.div (F64.fin a) (F64.fin b) = rnd (a / b) := by
  rw [F64.div, if_neg hb]

theorem F64.round_fin (a : ℚ) : F64.round (F64.fin a) = F64.fin (mathRound a) := by
  rw [F64.round]

theorem F64.lt_fin (a b : ℚ) : F64.lt (F64.fin a) (F64.fin b) = decide (a < b) := by
  rw [F64.lt]

theorem F64.le_fin (a b : ℚ) : F64.le (F64.fin a) (F64.fin b) = decide (a ≤ b) := by
  rw [F64.le]

/-! ## The order of the values other than NaN -/

theorem F64.key_fin_lt_top (q : ℚ) : ((q : WithTop ℚ) : WithBot (WithTop ℚ)) < ⊤ := by
  rw [← WithBot.coe_top]
  exact WithBot.coe_lt_coe.mpr (WithTop.coe_lt_top q)

theorem F64.lt_iff_key {a b : F64} (ha : a ≠ F64.nan) (hb : b ≠ F64.nan) :
    F64.lt a b = true ↔ a.key < b.key := by
  cases a <;> cases b <;> simp [F64.lt, F64.key, F64.key_fin_lt_top] at ha hb ⊢

theorem F64.le_iff_key {a b : F64} (ha : a ≠ F64.nan) (hb : b ≠ F64.nan) :
    F64.le a b = true ↔ a.key ≤ b.key := by
  cases a <;> cases b <;> simp [F64.le, F64.key] at ha hb ⊢

theorem F64.ne_nan_of_lt {a b : F64} (h : F64.lt a b = true) : a ≠ F64.nan ∧ b ≠ F64.nan := by
  cases a <;> cases b <;> simp [F64.lt] at h ⊢

theorem F64.ne_nan_of_le {a b : F64} (h : F64.le a b = true) : a ≠ F64.nan ∧ b ≠ F64.nan := by
  cases a <;> cases b <;> simp [F64.le] at h ⊢

theorem F64.key_inj {a b : F64} (ha : a ≠ F64.nan) (hb : b ≠ F64.nan) (h : a.key = b.key) :
    a = b := by
  cases a <;> cases b <;> simp [F64.key] at ha hb h ⊢
  exact h

theorem F64.lt_eq_false_iff_key {a b : F64} (ha : a ≠ F64.nan) (hb : b ≠ F64.nan) :
    F64.lt a b = false ↔ b.key ≤ a.key := by
  rw [← not_lt, ← F64.lt_iff_key ha hb]
  simp

theorem rnd_key_mono {x y : ℚ} (h : x ≤ y) : (rnd x).key ≤ (rnd y).key := by
  have hv := rndVal_mono h
  rcases rnd_cases x with ⟨hx, hx1⟩ | ⟨hx, hx1⟩ | ⟨hx, hx1, hx2⟩ <;>
    rcases rnd_cases y with ⟨hy, hy1⟩ | ⟨hy, hy1⟩ | ⟨hy, hy1, hy2⟩ <;>
    rw [hx, hy] <;> simp only [F64.key, le_refl, bot_le, WithBot.coe_le_coe, le_top,
      WithTop.coe_le_coe]
  all_goals first | exact hv | (have hpos := two_zpow_pos 1024; linarith)

/-! ## `math.Round` -/

theorem mathRound_zero : mathRound 0 = 0 := by
  simp [mathRound]
  norm_num

theorem mathRound_nonneg {x : ℚ} (hx : 0 ≤ x) : 0 ≤ mathRound x := by
  unfold mathRound
  rw [if_pos hx]
  have : (0 : Int) ≤ ⌊x + 1 / 2⌋ := Int.floor_nonneg.mpr (by linarith)
  exact_mod_cast this

theorem mathRound_nonpos {x : ℚ} (hx : x < 0) : mathRound x ≤ 0 := by
  unfold mathRound
  rw [if_neg (not_le.mpr hx)]
  have : (0 : Int) ≤ ⌊-x + 1 / 2⌋ := Int.floor_nonneg.mpr (by linarith)
  have h2 : (0 : ℚ) ≤ ((⌊-x + 1 / 2⌋ : Int) : ℚ) := by exact_mod_cast this
  linarith

theorem mathRound_mono {x y : ℚ} (h : x ≤ y) : mathRound x ≤ mathRound y := by
  by_cases hx : 0 ≤ x
  · have hy : 0 ≤ y := le_trans hx h
    unfold mathRound
    rw [if_pos hx, if_pos hy]
    have : ⌊x + 1 / 2⌋ ≤ ⌊y + 1 / 2⌋ := Int.floor_mono (by linarith)
    exact_mod_cast this
  · by_cases hy : 0 ≤ y
    · exact le_trans (mathRound_nonpos (not_le.mp hx)) (mathRound_nonneg hy)
    · unfold mathRound
      rw [if_neg hx, if_neg hy]
      have : ⌊-y + 1 / 2⌋ ≤ ⌊-x + 1 / 2⌋ := Int.floor_mono (by linarith)
      have h2 : ((⌊-y + 1 / 2⌋ : Int) : ℚ) ≤ ((⌊-x + 1 / 2⌋ : Int) : ℚ) := by exact_mod_cast this
      linarith

theorem mathRound_exists_int (x : ℚ) : ∃ z : Int, mathRound x = (z : ℚ) := by
  unfold mathRound
  by_cases hx : 0 ≤ x
  · exact ⟨⌊x + 1 / 2⌋, by rw [if_pos hx]⟩
  · exact ⟨-⌊-x + 1 / 2⌋, by rw [if_neg hx]; push_cast; ring⟩

theorem mathRound_abs_sub_le (x : ℚ) : |mathRound x - x| ≤ 1 / 2 := by
  unfold mathRound
  by_cases hx : 0 ≤ x
  · rw [if_pos hx, abs_le]
    have h1 := Int.floor_le (x + 1 / 2)
    have h2 := Int.lt_floor_add_one (x + 1 / 2)
    constructor <;> linarith
  · rw [if_neg hx, abs_le]
    have h1 := Int.floor_le (-x + 1 / 2)
    have h2 := Int.lt_floor_add_one (-x + 1 / 2)
    constructor <;> linarith

/-- The value of `math.Round` on a value less than one half away from an integer. -/
theorem mathRound_of_near (x : ℚ) (z : Int) (h1 : (z : ℚ) - 1 / 2 < x)
    (h2 : x < (z : ℚ) + 1 / 2) : mathRound x = (z : ℚ) := by
  unfold mathRound
  by_cases hx : 0 ≤ x
  · rw [if_pos hx]
    have : ⌊x + 1 / 2⌋ = z := by
      rw [Int.floor_eq_iff]
      constructor <;> linarith
    rw [this]
  · rw [if_neg hx]
    have : ⌊-x + 1 / 2⌋ = -z := by
      rw [Int.floor_eq_iff]
      constructor <;> push_cast <;> linarith
    rw [this]
    push_cast
    ring

theorem mathRound_of_int (x : ℚ) (z : Int) (h : x = (z : ℚ)) : mathRound x = x := by
  rw [h]
  exact mathRound_of_near _ z (by linarith) (by linarith)

/-- A half is rounded away from zero. -/
theorem mathRound_of_half (k : Nat) :
    mathRound ((k : ℚ) + 1 / 2) = (k : ℚ) + 1 ∧ mathRound (-((k : ℚ) + 1 / 2)) = -((k : ℚ) + 1) := by
  have hk : (0 : ℚ) ≤ (k : ℚ) := Nat.cast_nonneg k
  constructor
  · unfold mathRound
    rw [if_pos (by linarith)]
    have : ⌊(k : ℚ) + 1 / 2 + 1 / 2⌋ = (k : Int) + 1 := by
      rw [Int.floor_eq_iff]
      constructor <;> push_cast <;> linarith
    rw [this]
    push_cast
    ring
  · unfold mathRound
    rw [if_neg (by linarith)]
    have : ⌊-(-((k : ℚ) + 1 / 2)) + 1 / 2⌋ = (k : Int) + 1 := by
      rw [Int.floor_eq_iff]
      constructor <;> push_cast <;> linarith
    rw [this]
    push_cast
    ring

/-! ## Scaling by the constant 100 and rounding to cents -/

theorem F64.mul_hundred_ninf : F64.mul F64.ninf (F64.fin 100) = F64.ninf := by
  rw [F64.mul]
  norm_num [F64.infTimes]

theorem F64.mul_hundred_pinf : F64.mul F64.pinf (F64.fin 100) = F64.pinf := by
  rw [F64.mul]
  norm_num [F64.infTimes]

theorem F64.div_hundred_ninf : F64.div F64.ninf (F64.fin 100) = F64.ninf := by
  rw [F64.div]
  norm_num [F64.infTimes]

theorem F64.div_hundred_pinf : F64.div F64.pinf (F64.fin 100) = F64.pinf := by
  rw [F64.div]
  norm_num [F64.infTimes]

theorem F64.div_hundred_fin (q : ℚ) : F64.div (F64.fin q) (F64.fin 100) = rnd (q / 100) :=
  F64.div_fin q 100 (by norm_num)

theorem F64.mul_hundred_ne_nan {x : F64} (hx : x ≠ F64.nan) :
    F64.mul x (F64.fin 100) ≠ F64.nan := by
  cases x with
  | nan => exact absurd rfl hx
  | ninf => rw [F64.mul_hundred_ninf]; simp
  | pinf => rw [F64.mul_hundred_pinf]; simp
  | fin q => rw [F64.mul_fin]; exact rnd_ne_nan _

theorem F64.div_hundred_ne_nan {x : F64} (hx : x ≠ F64.nan) :
    F64.div x (F64.fin 100) ≠ F64.nan := by
  cases x with
  | nan => exact absurd rfl hx
  | ninf => rw [F64.div_hundred_ninf]; simp
  | pinf => rw [F64.div_hundred_pinf]; simp
  | fin q => rw [F64.div_hundred_fin]; exact rnd_ne_nan _

theorem F64.round_ne_nan {x : F64} (hx : x ≠ F64.nan) : F64.round x ≠ F64.nan := by
  cases x <;> simp [F64.round] at hx ⊢

theorem F64.mul_hundred_key_mono {x y : F64} (hx : x ≠ F64.nan) (hy : y ≠ F64.nan)
    (h : x.key ≤ y.key) : (F64.mul x (F64.fin 100)).key ≤ (F64.mul y (F64.fin 100)).key := by
  cases x with
  | nan => exact absurd rfl hx
  | ninf => rw [F64.mul_hundred_ninf]; exact bot_le
  | pinf =>
    cases y with
    | nan => exact absurd rfl hy
    | ninf => simp [F64.key] at h
    | pinf => exact le_refl _
    | fin q => simp [F64.key] at h
  | fin p =>
    cases y with
    | nan => exact absurd rfl hy
    | ninf => simp [F64.key] at h
    | pinf => rw [F64.mul_hundred_pinf]; simp [F64.key]
    | fin q =>
      simp only [F64.key, WithBot.coe_le_coe, WithTop.coe_le_coe] at h
      rw [F64.mul_fin, F64.mul_fin]
      exact rnd_key_mono (by linarith)

theorem F64.div_hundred_key_mono {x y : F64} (hx : x ≠ F64.nan) (hy : y ≠ F64.nan)
    (h : x.key ≤ y.key) : (F64.div x (F64.fin 100)).key ≤ (F64.div y (F64.fin 100)).key := by
  cases x with
  | nan => exact absurd rfl hx
  | ninf => rw [F64.div_hundred_ninf]; exact bot_le
  | pinf =>
    cases y with
    | nan => exact absurd rfl hy
    | ninf => simp [F64.key] at h
    | pinf => exact le_refl _
    | fin q => simp [F64.key] at h
  | fin p =>
    cases y with
    | nan => exact absurd rfl hy
    | ninf => simp [F64.key] at h
    | pinf => rw [F64.div_hundred_pinf]; simp [F64.key]
    | fin q =>
      simp only [F64.key, WithBot.coe_le_coe, WithTop.coe_le_coe] at h
      rw [F64.div_hundred_fin, F64.div_hundred_fin]
      exact rnd_key_mono (by linarith)

theorem F64.round_key_mono {x y : F64} (hx : x ≠ F64.nan) (hy : y ≠ F64.nan)
    (h : x.key ≤ y.key) : (F64.round x).key ≤ (F64.round y).key := by
  cases x with
  | nan => exact absurd rfl hx
  | ninf => exact bot_le
  | pinf =>
    cases y with
    | nan => exact absurd rfl hy
    | ninf => simp [F64.key] at h
    | pinf => exact le_refl _
    | fin q => simp [F64.key] at h
  | fin p =>
    cases y with
    | nan => exact absurd rfl hy
    | ninf => simp [F64.key] at h
    | pinf => simp [F64.key, F64.round]
    | fin q =>
      simp only [F64.key, WithBot.coe_le_coe, WithTop.coe_le_coe] at h
      simp only [F64.round, F64.key, WithBot.coe_le_coe, WithTop.coe_le_coe]
      exact mathRound_mono h

theorem roundToTwoDecimals_ne_nan {x : F64} (hx : x ≠ F64.nan) :
    roundToTwoDecimals x ≠ F64.nan :=
  F64.div_hundred_ne_nan (F64.round_ne_nan (F64.mul_hundred_ne_nan hx))

theorem roundToTwoDecimals_key_mono {x y : F64} (hx : x ≠ F64.nan) (hy : y ≠ F64.nan)
    (h : x.key ≤ y.key) : (roundToTwoDecimals x).key ≤ (roundToTwoDecimals y).key :=
  F64.div_hundred_key_mono (F64.round_ne_nan (F64.mul_hundred_ne_nan hx))
    (F64.round_ne_nan (F64.mul_hundred_ne_nan hy))
    (F64.round_key_mono (F64.mul_hundred_ne_nan hx) (F64.mul_hundred_ne_nan hy)
      (F64.mul_hundred_key_mono hx hy h))

theorem roundToTwoDecimals_zero : roundToTwoDecimals (F64.fin 0) = F64.fin 0 := by
  unfold roundToTwoDecimals
  rw [F64.mul_fin, zero_mul, rnd_zero, F64.round_fin, mathRound_zero, F64.div_hundred_fin,
    zero_div, rnd_zero]

theorem roundToTwoDecimals_pinf : roundToTwoDecimals F64.pinf = F64.pinf := by
  unfold roundToTwoDecimals
  rw [F64.mul_hundred_pinf, F64.round, F64.div_hundred_pinf]

theorem roundToTwoDecimals_ninf : roundToTwoDecimals F64.ninf = F64.ninf := by
  unfold roundToTwoDecimals
  rw [F64.mul_hundred_ninf, F64.round, F64.div_hundred_ninf]

/-- The shape of a rounding to cents of a finite value: an infinity when the
hundredfold overflows, and otherwise the binary64 value nearest to `k / 100` for
the integer `k` nearest to the rounded hundredfold. -/
theorem roundToTwoDecimals_fin_cases (q : ℚ) :
    (rnd (q * 100) = F64.pinf ∧ roundToTwoDecimals (F64.fin q) = F64.pinf) ∨
    (rnd (q * 100) = F64.ninf ∧ roundToTwoDecimals (F64.fin q) = F64.ninf) ∨
    (∃ (t : ℚ) (k : Int), rnd (q * 100) = F64.fin t ∧ mathRound t = (k : ℚ) ∧
      roundToTwoDecimals (F64.fin q) = rnd ((k : ℚ) / 100)) := by
  unfold roundToTwoDecimals
  rw [F64.mul_fin]
  rcases rnd_cases (q * 100) with ⟨h, _⟩ | ⟨h, _⟩ | ⟨h, _⟩
  · left
    rw [h, F64.round, F64.div_hundred_pinf]
    exact ⟨rfl, rfl⟩
  · right; left
    rw [h, F64.round, F64.div_hundred_ninf]
    exact ⟨rfl, rfl⟩
  · right; right
    obtain ⟨k, hk⟩ := mathRound_exists_int (rndVal (q * 100))
    refine ⟨rndVal (q * 100), k, h, hk, ?_⟩
    rw [h, F64.round_fin, hk, F64.div_hundred_fin]

/-! ## Values that are not negative -/

theorem F64.IsNonneg.ne_nan {a : F64} (h : a.IsNonneg) : a ≠ F64.nan := by
  cases a <;> simp [F64.IsNonneg] at h ⊢

theorem F64.IsNonneg.zero_le_key {a : F64} (h : a.IsNonneg) : (F64.fin 0).key ≤ a.key := by
  cases a <;> simp [F64.IsNonneg, F64.key] at h ⊢
  exact h

theorem F64.isNonneg_of_key {a : F64} (ha : a ≠ F64.nan) (h : (F64.fin 0).key ≤ a.key) :
    a.IsNonneg := by
  cases a <;> simp [F64.IsNonneg, F64.key] at ha h ⊢
  exact h

theorem F64.NonnegFinite.isNonneg {a : F64} (h : a.NonnegFinite) : a.IsNonneg := by
  cases a <;> simp [F64.NonnegFinite, F64.IsNonneg] at h ⊢
  exact h

theorem F64.NonnegFinite.finite {a : F64} (h : a.NonnegFinite) : a.Finite := by
  cases a <;> simp [F64.NonnegFinite, F64.Finite] at h ⊢

theorem rnd_isNonneg {x : ℚ} (hx : 0 ≤ x) : (rnd x).IsNonneg := by
  have hv := rndVal_nonneg hx
  rcases rnd_cases x with ⟨h, _⟩ | ⟨h, h1⟩ | ⟨h, _⟩
  · rw [h]; trivial
  · have := two_zpow_pos 1024
    linarith
  · rw [h]; exact hv

theorem rnd_valid (x : ℚ) : (rnd x).Valid := by
  rcases rnd_cases x with ⟨h, _⟩ | ⟨h, _⟩ | ⟨h, h1, h2⟩
  · rw [h]; trivial
  · rw [h]; trivial
  · rw [h]
    exact ⟨rndVal_isRepr x, abs_lt.mpr ⟨h2, h1⟩⟩

theorem F64.valid_zero : (F64.fin 0).Valid :=
  ⟨isRepr_zero, by rw [abs_zero]; exact two_zpow_pos 1024⟩

theorem F64.add_valid (a b : F64) : (F64.add a b).Valid := by
  cases a <;> cases b <;> simp only [F64.add, F64.Valid]
  exact rnd_valid _

theorem F64.add_isNonneg {a b : F64} (ha : a.IsNonneg) (hb : b.IsNonneg) :
    (F64.add a b).IsNonneg := by
  cases a <;> cases b <;> simp only [F64.add, F64.IsNonneg] at ha hb ⊢
  exact rnd_isNonneg (add_nonneg ha hb)

theorem F64.div_hundred_isNonneg {a : F64} (ha : a.IsNonneg) :
    (F64.div a (F64.fin 100)).IsNonneg := by
  cases a with
  | nan => exact absurd ha (by simp [F64.IsNonneg])
  | ninf => exact absurd ha (by simp [F64.IsNonneg])
  | pinf => rw [F64.div_hundred_pinf]; trivial
  | fin q =>
    rw [F64.div_hundred_fin]
    exact rnd_isNonneg (div_nonneg ha (by norm_num))

theorem F64.mul_hundred_isNonneg {a : F64} (ha : a.IsNonneg) :
    (F64.mul a (F64.fin 100)).IsNonneg := by
  cases a with
  | nan => exact absurd ha (by simp [F64.IsNonneg])
  | ninf => exact absurd ha (by simp [F64.IsNonneg])
  | pinf => rw [F64.mul_hundred_pinf]; trivial
  | fin q =>
    rw [F64.mul_fin]
    exact rnd_isNonneg (mul_nonneg ha (by norm_num))

theorem F64.round_isNonneg {a : F64} (ha : a.IsNonneg) : (F64.round a).IsNonneg := by
  cases a <;> simp only [F64.round, F64.IsNonneg] at ha ⊢
  exact mathRound_nonneg ha

theorem roundToTwoDecimals_isNonneg {a : F64} (ha : a.IsNonneg) :
    (roundToTwoDecimals a).IsNonneg :=
  F64.div_hundred_isNonneg (F64.round_isNonneg (F64.mul_hundred_isNonneg ha))

theorem absProfit_isNonneg {b : Booking} (hr : b.SellingRate.NonnegFinite)
    (hm : b.Margin.NonnegFinite) : (absProfit b).IsNonneg := by
  unfold absProfit
  apply F64.div_hundred_isNonneg
  cases hs : b.SellingRate <;> cases hg : b.Margin <;>
    simp only [hs, hg, F64.NonnegFinite] at hr hm
  rw [F64.mul_fin]
  exact rnd_isNonneg (mul_nonneg hr hm)

/-! ## Sums of values that are not negative -/

theorem F64.add_key_mono_left {a a' t : F64} (ha : a.IsNonneg) (ha' : a'.IsNonneg)
    (ht : t.IsNonneg) (h : a.key ≤ a'.key) : (F64.add a t).key ≤ (F64.add a' t).key := by
  cases a <;> cases a' <;> cases t <;>
    simp only [F64.IsNonneg, F64.add, F64.key, le_refl, WithBot.coe_le_coe, WithTop.coe_le_coe,
      le_top, top_le_iff, WithTop.coe_ne_top] at ha ha' ht h ⊢
  · exact le_top
  · exact rnd_key_mono (by linarith)

theorem F64.key_le_add {a t : F64} (ha : a.IsNonneg) (hv : a.Valid) (ht : t.IsNonneg) :
    a.key ≤ (F64.add a t).key := by
  cases a <;> cases t <;> simp only [F64.IsNonneg, F64.add, F64.key, le_refl] at ha ht ⊢
  · exact le_top
  · rename_i q r
    have h := rnd_key_mono (show q ≤ q + r by linarith)
    rw [rnd_of_isRepr hv.1 hv.2] at h
    exact h

theorem foldl_add_isNonneg (l : List F64) (a : F64) (ha : a.IsNonneg)
    (h : ∀ x ∈ l, x.IsNonneg) : (l.foldl F64.add a).IsNonneg := by
  induction l generalizing a with
  | nil => exact ha
  | cons x t ih =>
    rw [List.foldl_cons]
    exact ih _ (F64.add_isNonneg ha (h x (List.mem_cons_self _ _)))
      (fun y hy => h y (List.mem_cons_of_mem _ hy))

theorem foldl_add_valid (l : List F64) (a : F64) (ha : a.Valid) : (l.foldl F64.add a).Valid := by
  induction l generalizing a with
  | nil => exact ha
  | cons x t ih =>
    rw [List.foldl_cons]
    exact ih _ (F64.add_valid a x)

/-- A running sum over a sub-sequence of values that are not negative does not
exceed the running sum over the whole sequence. -/
theorem foldl_add_sublist_le {l l' : List F64} (h : l.Sublist l')
    (hnn : ∀ x ∈ l', x.IsNonneg) (a a' : F64) (ha : a.IsNonneg) (ha' : a'.IsNonneg)
    (hv' : a'.Valid) (hle : a.key ≤ a'.key) :
    (l.foldl F64.add a).key ≤ (l'.foldl F64.add a').key := by
  induction h generalizing a a' with
  | slnil => exact hle
  | @cons l l' x _ ih =>
    rw [List.foldl_cons]
    have hx := hnn x (List.mem_cons_self _ _)
    exact ih (fun y hy => hnn y (List.mem_cons_of_mem _ hy)) a (F64.add a' x) ha
      (F64.add_isNonneg ha' hx) (F64.add_valid a' x)
      (le_trans hle (F64.key_le_add ha' hv' hx))
  | @cons₂ l l' x _ ih =>
    rw [List.foldl_cons, List.foldl_cons]
    have hx := hnn x (List.mem_cons_self _ _)
    exact ih (fun y hy => hnn y (List.mem_cons_of_mem _ hy)) (F64.add a x) (F64.add a' x)
      (F64.add_isNonneg ha hx) (F64.add_isNonneg ha' hx) (F64.add_valid a' x)
      (F64.add_key_mono_left ha ha' hx hle)

/-! ## Total profit -/

theorem TotalProfit_eq_foldl (bb : Bookings) :
    TotalProfit bb = roundToTwoDecimals ((bb.map absProfit).foldl F64.add (F64.fin 0)) := by
  unfold TotalProfit
  rw [List.foldl_map]
  rfl

theorem TotalProfit_nil : TotalProfit [] = F64.fin 0 := by
  rw [TotalProfit_eq_foldl, List.map_nil, List.foldl_nil, roundToTwoDecimals_zero]

theorem isNonneg_zero : (F64.fin 0).IsNonneg := le_refl (0 : ℚ)

theorem TotalProfit_isNonneg {bb : Bookings}
    (h : ∀ b ∈ bb, b.SellingRate.NonnegFinite ∧ b.Margin.NonnegFinite) :
    (TotalProfit bb).IsNonneg := by
  rw [TotalProfit_eq_foldl]
  apply roundToTwoDecimals_isNonneg
  apply foldl_add_isNonneg _ _ isNonneg_zero
  intro x hx
  rw [List.mem_map] at hx
  obtain ⟨b, hb, rfl⟩ := hx
  exact absProfit_isNonneg (h b hb).1 (h b hb).2

theorem TotalProfit_sublist_le {S bb : Bookings} (hS : S.Sublist bb)
    (h : ∀ b ∈ bb, b.SellingRate.NonnegFinite ∧ b.Margin.NonnegFinite) :
    (TotalProfit S).key ≤ (TotalProfit bb).key := by
  have hnn : ∀ x ∈ bb.map absProfit, x.IsNonneg := by
    intro x hx
    rw [List.mem_map] at hx
    obtain ⟨b, hb, rfl⟩ := hx
    exact absProfit_isNonneg (h b hb).1 (h b hb).2
  have hsub : (S.map absProfit).Sublist (bb.map absProfit) := hS.map _
  rw [TotalProfit_eq_foldl, TotalProfit_eq_foldl]
  apply roundToTwoDecimals_key_mono
  · exact (foldl_add_isNonneg _ _ isNonneg_zero (fun x hx => hnn x (hsub.subset hx))).ne_nan
  · exact (foldl_add_isNonneg _ _ isNonneg_zero hnn).ne_nan
  · exact foldl_add_sublist_le hsub hnn _ _ isNonneg_zero isNonneg_zero F64.valid_zero (le_refl _)

/-! ## Loops as list operations, masks and sub-sequences -/

theorem foldl_append_singleton {α β : Type} (f : α → β) (l : List α) (init : List β) :
    l.foldl (fun acc a => acc ++ [f a]) init = init ++ l.map f := by
  induction l generalizing init with
  | nil => simp
  | cons a t ih => simp [ih]

theorem ProfitsPerNight_eq_map (bb : Bookings) :
    ProfitsPerNight bb = bb.map ProfitPerNight := by
  simp [ProfitsPerNight, foldl_append_singleton]

theorem RequestIDs_eq_map (bb : Bookings) :
    RequestIDs bb = bb.map Booking.RequestID := by
  simp [RequestIDs, foldl_append_singleton]

theorem combination_nil (mask : Nat) : combination [] mask = [] := by
  simp [combination]

theorem combination_cons (b : Booking) (bs : List Booking) (mask : Nat) :
    combination (b :: bs) mask
      = (if mask % 2 = 1 then [b] else []) ++ combination bs (mask / 2) := by
  unfold combination
  rw [List.length_cons, List.range_succ_eq_map, List.filterMap_cons, List.filterMap_map]
  have h0 : (mask >>> 0) &&& 1 = mask % 2 := by simp [Nat.and_one_is_mod]
  have hfun : ((fun j => if (mask >>> j) &&& 1 = 1 then (b :: bs)[j]? else none) ∘ Nat.succ)
      = (fun j => if ((mask / 2) >>> j) &&& 1 = 1 then bs[j]? else none) := by
    funext j
    simp [Nat.shiftRight_succ_inside]
  rw [hfun, h0]
  by_cases h : mask % 2 = 1 <;> simp [h]

theorem combination_sublist (bs : List Booking) (mask : Nat) :
    (combination bs mask).Sublist bs := by
  induction bs generalizing mask with
  | nil => simp [combination_nil]
  | cons b t ih =>
    rw [combination_cons]
    by_cases h : mask % 2 = 1
    · simpa [h] using (ih (mask / 2)).cons₂ b
    · simpa [h] using (ih (mask / 2)).cons b

theorem sublist_exists_mask {S bs : List Booking} (h : S.Sublist bs) :
    ∃ m, m < 2 ^ bs.length ∧ combination bs m = S ∧ (S ≠ [] → 1 ≤ m) := by
  induction h with
  | slnil => exact ⟨0, by simp, combination_nil 0, by simp⟩
  | cons a _ ih =>
    obtain ⟨m, hm, hc, hpos⟩ := ih
    refine ⟨2 * m, ?_, ?_, ?_⟩
    · rw [List.length_cons, pow_succ]; omega
    · rw [combination_cons]
      have h1 : (2 * m) % 2 ≠ 1 := by omega
      have h2 : 2 * m / 2 = m := by omega
      simp [h1, h2, hc]
    · intro hne
      have := hpos hne
      omega
  | cons₂ a _ ih =>
    obtain ⟨m, hm, hc, _⟩ := ih
    refine ⟨2 * m + 1, ?_, ?_, ?_⟩
    · rw [List.length_cons, pow_succ]; omega
    · rw [combination_cons]
      have h1 : (2 * m + 1) % 2 = 1 := by omega
      have h2 : (2 * m + 1) / 2 = m := by omega
      simp [h1, h2, hc]
    · intro _
      omega

theorem combination_zero (bs : List Booking) : combination bs 0 = [] := by
  induction bs with
  | nil => exact combination_nil 0
  | cons b t ih =>
    rw [combination_cons]
    simpa using ih

theorem combination_full (bs : List Booking) : combination bs (2 ^ bs.length - 1) = bs := by
  induction bs with
  | nil => simp [combination_nil]
  | cons b t ih =>
    rw [combination_cons, List.length_cons]
    have hpos : 0 < 2 ^ t.length := Nat.two_pow_pos _
    have h1 : (2 ^ (t.length + 1) - 1) % 2 = 1 := by rw [pow_succ]; omega
    have h2 : (2 ^ (t.length + 1) - 1) / 2 = 2 ^ t.length - 1 := by rw [pow_succ]; omega
    simp [h1, h2, ih]

theorem combination_eq_nil (bs : List Booking) (k : Nat) (hk : k < 2 ^ bs.length)
    (h : combination bs k = []) : k = 0 := by
  induction bs generalizing k with
  | nil => simpa using hk
  | cons b t ih =>
    rw [combination_cons] at h
    rw [List.length_cons, pow_succ] at hk
    by_cases h1 : k % 2 = 1
    · simp [h1] at h
    · simp [h1] at h
      have := ih (k / 2) (by omega) h
      omega

theorem combination_eq_self (bs : List Booking) (k : Nat) (hk : k < 2 ^ bs.length)
    (h : combination bs k = bs) : k = 2 ^ bs.length - 1 := by
  induction bs generalizing k with
  | nil => simp at hk; simp [hk]
  | cons b t ih =>
    rw [combination_cons] at h
    rw [List.length_cons, pow_succ] at hk ⊢
    by_cases h1 : k % 2 = 1
    · simp [h1] at h
      have := ih (k / 2) (by omega) h
      omega
    · simp [h1] at h
      have hlen := (combination_sublist t (k / 2)).length_le
      rw [h] at hlen
      simp at hlen

theorem sublist_exists_positions {α : Type} {S l : List α} (h : S.Sublist l) :
    ∃ idxs : List (Fin l.length), idxs.Pairwise (fun i j => i < j) ∧ S = idxs.map l.get := by
  induction h with
  | slnil => exact ⟨[], List.Pairwise.nil, rfl⟩
  | @cons S l a _ ih =>
    obtain ⟨idxs, hp, hS⟩ := ih
    refine ⟨idxs.map Fin.succ, ?_, ?_⟩
    · rw [List.pairwise_map]
      exact hp.imp (fun h => Fin.succ_lt_succ_iff.mpr h)
    · rw [hS, List.map_map]
      apply List.map_congr_left
      intro i _
      simp
  | @cons₂ S l a _ ih =>
    obtain ⟨idxs, hp, hS⟩ := ih
    refine ⟨(0 : Fin (l.length + 1)) :: idxs.map Fin.succ, ?_, ?_⟩
    · rw [List.pairwise_cons]
      refine ⟨?_, ?_⟩
      · intro j hj
        rw [List.mem_map] at hj
        obtain ⟨i, _, rfl⟩ := hj
        exact Fin.succ_pos i
      · rw [List.pairwise_map]
        exact hp.imp (fun h => Fin.succ_lt_succ_iff.mpr h)
    · rw [List.map_cons, hS, List.map_map]
      congr 1

theorem HasOverlaps_sublist {S bs : Bookings} (hS : S.Sublist bs)
    (hv : HasOverlaps bs = false) : HasOverlaps S = false := by
  induction hS with
  | slnil => rfl
  | cons a _ ih =>
    simp only [HasOverlaps, Bool.or_eq_false_iff] at hv
    exact ih hv.2
  | @cons₂ S t a hSt ih =>
    simp only [HasOverlaps, Bool.or_eq_false_iff] at hv ⊢
    refine ⟨?_, ih hv.2⟩
    have h1 := hv.1
    rw [List.any_eq_false] at h1 ⊢
    intro x hx
    exact h1 x (hSt.subset hx)

theorem sublist_pair {α : Type} {S : List α} {x y : α} (h : S.Sublist [x, y]) :
    S = [] ∨ S = [x] ∨ S = [y] ∨ S = [x, y] := by
  rcases h with _ | ⟨_, h⟩ | ⟨_, h⟩
  · rcases h with _ | ⟨_, h⟩ | ⟨_, h⟩
    · simp [List.sublist_nil.mp h]
    · simp [List.sublist_nil.mp h]
  · rcases h with _ | ⟨_, h⟩ | ⟨_, h⟩
    · simp [List.sublist_nil.mp h]
    · simp [List.sublist_nil.mp h]

theorem OverlapsWith_comm (a b : Booking) : OverlapsWith a b = OverlapsWith b a := by
  simp only [OverlapsWith]
  exact Bool.and_comm _ _

theorem HasOverlaps_eq_false_iff_pairwise (bs : Bookings) :
    HasOverlaps bs = false ↔ bs.Pairwise (fun a b => OverlapsWith a b = false) := by
  induction bs with
  | nil => simp [HasOverlaps]
  | cons b t ih =>
    simp only [HasOverlaps, Bool.or_eq_false_iff, List.pairwise_cons, ih, List.any_eq_false]
    constructor
    · rintro ⟨h1, h2⟩
      exact ⟨fun x hx => by simpa using h1 x hx, h2⟩
    · rintro ⟨h1, h2⟩
      exact ⟨fun x hx => by simpa using h1 x hx, h2⟩

theorem HasOverlaps_perm {bs bs' : Bookings} (h : bs.Perm bs') :
    HasOverlaps bs = HasOverlaps bs' := by
  have hiff : HasOverlaps bs = false ↔ HasOverlaps bs' = false := by
    rw [HasOverlaps_eq_false_iff_pairwise, HasOverlaps_eq_false_iff_pairwise]
    apply List.Perm.pairwise_iff _ h
    intro x y hxy
    rw [OverlapsWith_comm]
    exact hxy
  cases h1 : HasOverlaps bs <;> cases h2 : HasOverlaps bs' <;> simp_all

theorem combination_eq_filter (bs : List Booking) (k : Nat) :
    combination bs k
      = ((List.finRange bs.length).filter
          (fun (j : Fin bs.length) => k.testBit j.val)).map bs.get := by
  induction bs generalizing k with
  | nil => simp [combination_nil]
  | cons b t ih =>
    rw [combination_cons, ih (k / 2)]
    have hfr : List.finRange (b :: t).length
        = (0 : Fin (t.length + 1)) :: (List.finRange t.length).map Fin.succ :=
      List.finRange_succ_eq_map t.length
    rw [hfr, List.filter_cons, List.filter_map]
    simp only [Function.comp_def, Fin.val_succ, Nat.testBit_succ, Fin.val_zero,
      Nat.testBit_zero, decide_eq_true_eq]
    by_cases h : k % 2 = 1
    · rw [if_pos h, if_pos h, List.map_cons, List.map_map]
      rfl
    · rw [if_neg h, if_neg h, List.map_map]
      rfl

theorem exists_mask_of_bits (n : Nat) (p : Nat → Bool) :
    ∃ k, k < 2 ^ n ∧ ∀ j, j < n → k.testBit j = p j := by
  induction n generalizing p with
  | zero => exact ⟨0, by simp, fun j hj => absurd hj (Nat.not_lt_zero j)⟩
  | succ n ih =>
    obtain ⟨k, hk, hbits⟩ := ih (fun j => p (j + 1))
    refine ⟨2 * k + (p 0).toNat, ?_, ?_⟩
    · have : (p 0).toNat ≤ 1 := Bool.toNat_le (p 0)
      rw [pow_succ]
      omega
    · intro j hj
      cases j with
      | zero =>
        cases h0 : p 0 <;> simp [Nat.testBit_zero, Nat.add_mod]
      | succ j =>
        rw [Nat.testBit_succ]
        have hdiv : (2 * k + (p 0).toNat) / 2 = k := by
          have : (p 0).toNat ≤ 1 := Bool.toNat_le (p 0)
          omega
        rw [hdiv]
        exact hbits j (by omega)

theorem mask_eq_of_bits {n k₁ k₂ : Nat} (h₁ : k₁ < 2 ^ n) (h₂ : k₂ < 2 ^ n)
    (h : ∀ j, j < n → k₁.testBit j = k₂.testBit j) : k₁ = k₂ := by
  apply Nat.eq_of_testBit_eq
  intro i
  by_cases hi : i < n
  · exact h i hi
  · have hpow : 2 ^ n ≤ 2 ^ i := Nat.pow_le_pow_right (by norm_num) (not_lt.mp hi)
    rw [Nat.testBit_lt_two_pow (lt_of_lt_of_le h₁ hpow),
      Nat.testBit_lt_two_pow (lt_of_lt_of_le h₂ hpow)]

/-! ## The enumeration of the masks -/

theorem powTotal_of_le (ovf : Nat → Int) {n : Nat} (h : n ≤ 62) : powTotal ovf n = 2 ^ n := by
  unfold powTotal
  rw [if_pos h]

theorem allCombinations_of_le (ovf : Nat → Int) (bs : List Booking) (h : bs.length ≤ 62) :
    allCombinations ovf bs = (List.range' 1 (2 ^ bs.length - 1)).map (combination bs) := by
  unfold allCombinations
  rw [powTotal_of_le ovf h]
  have : ((2 : Int) ^ bs.length - 1).toNat = 2 ^ bs.length - 1 := by
    have hpos : 0 < 2 ^ bs.length := Nat.two_pow_pos _
    have hc : ((2 : Int) ^ bs.length - 1) = ((2 ^ bs.length - 1 : Nat) : Int) := by
      rw [Nat.cast_sub hpos]
      push_cast
      rfl
    rw [hc, Int.toNat_natCast]
  rw [this]

theorem mem_allCombinations (ovf : Nat → Int) (bs : List Booking) (h : bs.length ≤ 62)
    (c : Bookings) :
    c ∈ allCombinations ovf bs ↔ ∃ m, 1 ≤ m ∧ m < 2 ^ bs.length ∧ combination bs m = c := by
  rw [allCombinations_of_le ovf bs h, List.mem_map]
  have hpos : 0 < 2 ^ bs.length := Nat.two_pow_pos _
  constructor
  · rintro ⟨m, hm, rfl⟩
    rw [List.mem_range'_1] at hm
    exact ⟨m, hm.1, by omega, rfl⟩
  · rintro ⟨m, h1, h2, rfl⟩
    exact ⟨m, by rw [List.mem_range'_1]; omega, rfl⟩

/-- Whatever the number of masks, every combination is a sub-sequence of the
input. -/
theorem sublist_of_mem_allCombinations {ovf : Nat → Int} {bs : List Booking} {c : Bookings}
    (hc : c ∈ allCombinations ovf bs) : c.Sublist bs := by
  unfold allCombinations at hc
  rw [List.mem_map] at hc
  obtain ⟨m, _, rfl⟩ := hc
  exact combination_sublist bs m

theorem mem_allCombinations_sublist {ovf : Nat → Int} {bs : List Booking}
    (h : bs.length ≤ 62) {c : Bookings}
    (hc : c ∈ allCombinations ovf bs) : c.Sublist bs ∧ c ≠ [] := by
  rw [mem_allCombinations ovf bs h] at hc
  obtain ⟨m, h1, h2, rfl⟩ := hc
  refine ⟨combination_sublist bs m, ?_⟩
  intro h0
  have := combination_eq_nil bs m h2 h0
  omega

theorem sublist_mem_allCombinations (ovf : Nat → Int) {S bs : List Booking}
    (h : bs.length ≤ 62) (hS : S.Sublist bs) (hne : S ≠ []) : S ∈ allCombinations ovf bs := by
  obtain ⟨m, hm, hc, hpos⟩ := sublist_exists_mask hS
  exact (mem_allCombinations ovf bs h S).mpr ⟨m, hpos hne, hm, hc⟩

theorem allCombinations_split (ovf : Nat → Int) (bs : List Booking) (h : bs.length ≤ 62)
    (m : Nat) (h1 : 1 ≤ m) (h2 : m < 2 ^ bs.length) :
    allCombinations ovf bs
      = (List.range' 1 (m - 1)).map (combination bs) ++
          combination bs m :: (List.range' (m + 1) (2 ^ bs.length - 1 - m)).map (combination bs) := by
  rw [allCombinations_of_le ovf bs h]
  have hr : List.range' 1 (2 ^ bs.length - 1)
      = List.range' 1 (m - 1) ++ m :: List.range' (m + 1) (2 ^ bs.length - 1 - m) := by
    have e1 : 2 ^ bs.length - 1 = (2 ^ bs.length - 1 - m + 1) + (m - 1) := by omega
    have e2 : 1 + (m - 1) = m := by omega
    conv_lhs => rw [e1]
    rw [← List.range'_append_1, e2, List.range'_succ]
  rw [hr, List.map_append, List.map_cons]

/-! ## The selection loop -/

theorem bestStep_cases (st : Bookings × F64) (c : Bookings) :
    (bestStep st c = st ∧ (HasOverlaps c = false → F64.lt st.2 (TotalProfit c) = false)) ∨
    (bestStep st c = (c, TotalProfit c) ∧ HasOverlaps c = false ∧
      F64.lt st.2 (TotalProfit c) = true) := by
  unfold bestStep
  by_cases ho : HasOverlaps c = true
  · left
    simp [ho]
  · have ho2 : HasOverlaps c = false := by simpa using ho
    by_cases hp : F64.lt st.2 (TotalProfit c) = true
    · right
      simp [ho2, hp]
    · left
      have hp2 : F64.lt st.2 (TotalProfit c) = false := by simpa using hp
      simp [ho2, hp2]

/-- What the loop keeps is its initial state or a non-overlapping combination
met on the way, together with the total profit of that combination. -/
theorem foldl_bestStep_origin (combos : List Bookings) (st : Bookings × F64) :
    combos.foldl bestStep st = st ∨
      ((combos.foldl bestStep st).1 ∈ combos ∧
        HasOverlaps (combos.foldl bestStep st).1 = false ∧
        (combos.foldl bestStep st).2 = TotalProfit (combos.foldl bestStep st).1 ∧
        F64.lt st.2 (combos.foldl bestStep st).2 = true) := by
  induction combos generalizing st with
  | nil => left; rfl
  | cons c t ih =>
    rw [List.foldl_cons]
    rcases bestStep_cases st c with ⟨he, _⟩ | ⟨he, hv0, hlt0⟩
    · rw [he]
      rcases ih st with heq | ⟨hm, hv, hp, hlt⟩
      · left; exact heq
      · right; exact ⟨List.mem_cons_of_mem _ hm, hv, hp, hlt⟩
    · rw [he]
      rcases ih (c, TotalProfit c) with heq | ⟨hm, hv, hp, hlt⟩
      · right
        rw [heq]
        exact ⟨List.mem_cons_self _ _, hv0, rfl, hlt0⟩
      · right
        refine ⟨List.mem_cons_of_mem _ hm, hv, hp, ?_⟩
        have h1 := F64.ne_nan_of_lt hlt0
        have h2 := F64.ne_nan_of_lt hlt
        rw [F64.lt_iff_key h1.1 h2.2]
        exact lt_trans ((F64.lt_iff_key h1.1 h1.2).mp hlt0) ((F64.lt_iff_key h2.1 h2.2).mp hlt)

theorem foldl_bestStep_spec (combos : List Bookings) (st : Bookings × F64)
    (hst : st.2 ≠ F64.nan) :
    (combos.foldl bestStep st).2 ≠ F64.nan ∧
    st.2.key ≤ (combos.foldl bestStep st).2.key ∧
    (∀ c ∈ combos, HasOverlaps c = false → TotalProfit c ≠ F64.nan →
      (TotalProfit c).key ≤ (combos.foldl bestStep st).2.key) := by
  induction combos generalizing st with
  | nil => exact ⟨hst, le_refl _, fun c hc => absurd hc (List.not_mem_nil c)⟩
  | cons c t ih =>
    rw [List.foldl_cons]
    have hstep : (bestStep st c).2 ≠ F64.nan ∧ st.2.key ≤ (bestStep st c).2.key ∧
        (HasOverlaps c = false → TotalProfit c ≠ F64.nan →
          (TotalProfit c).key ≤ (bestStep st c).2.key) := by
      rcases bestStep_cases st c with ⟨he, hle⟩ | ⟨he, _, hlt⟩
      · rw [he]
        refine ⟨hst, le_refl _, fun hv hn => ?_⟩
        exact (F64.lt_eq_false_iff_key hst hn).mp (hle hv)
      · rw [he]
        have h1 := F64.ne_nan_of_lt hlt
        exact ⟨h1.2, le_of_lt ((F64.lt_iff_key h1.1 h1.2).mp hlt), fun _ _ => le_refl _⟩
    obtain ⟨h1, h2, h3⟩ := ih (bestStep st c) hstep.1
    refine ⟨h1, le_trans hstep.2.1 h2, ?_⟩
    intro x hx hv hn
    rcases List.mem_cons.mp hx with rfl | hxt
    · exact le_trans (hstep.2.2 hv hn) h2
    · exact h3 x hxt hv hn

theorem foldl_bestStep_stable (combos : List Bookings) (st : Bookings × F64)
    (h : ∀ c ∈ combos, HasOverlaps c = false → F64.lt st.2 (TotalProfit c) = false) :
    combos.foldl bestStep st = st := by
  induction combos with
  | nil => rfl
  | cons c t ih =>
    rw [List.foldl_cons]
    have hc : bestStep st c = st := by
      rcases bestStep_cases st c with ⟨he, _⟩ | ⟨_, hv, hlt⟩
      · exact he
      · rw [h c (List.mem_cons_self _ _) hv] at hlt
        exact absurd hlt (by simp)
    rw [hc]
    exact ih (fun x hx => h x (List.mem_cons_of_mem _ hx))

/-- The loop returns the first combination that reaches the greatest profit,
provided that profit exceeds the initial `maxProfit`. -/
theorem foldl_bestStep_first_max (pre post : List Bookings) (c : Bookings)
    (st : Bookings × F64) (hv : HasOverlaps c = false)
    (hst : F64.lt st.2 (TotalProfit c) = true)
    (hpre : ∀ x ∈ pre, HasOverlaps x = false → F64.lt (TotalProfit x) (TotalProfit c) = true)
    (hpost : ∀ x ∈ post, HasOverlaps x = false →
      F64.lt (TotalProfit c) (TotalProfit x) = false) :
    (pre ++ c :: post).foldl bestStep st = (c, TotalProfit c) := by
  rw [List.foldl_append, List.foldl_cons]
  have hs1 : F64.lt (pre.foldl bestStep st).2 (TotalProfit c) = true := by
    rcases foldl_bestStep_origin pre st with heq | ⟨hm, hval, hp, _⟩
    · rw [heq]; exact hst
    · rw [hp]; exact hpre _ hm hval
  have hc : bestStep (pre.foldl bestStep st) c = (c, TotalProfit c) := by
    rcases bestStep_cases (pre.foldl bestStep st) c with ⟨_, hle⟩ | ⟨he, _, _⟩
    · rw [hle hv] at hs1
      exact absurd hs1 (by simp)
    · exact he
  rw [hc]
  exact foldl_bestStep_stable post _ (fun x hx hval => hpost x hx hval)

/-- The result record is always the projection of the chosen combination: for an
empty `best` the explicit empty result coincides with that projection. -/
theorem buildMaximizeResult_eq (best : Bookings) :
    buildMaximizeResult best
      = ⟨RequestIDs best, TotalProfit best, (CalculateStats best).AvgNight,
          (CalculateStats best).MinNight, (CalculateStats best).MaxNight⟩ := by
  cases best with
  | nil =>
    have h1 : buildMaximizeResult [] = ⟨[], F64.fin 0, F64.fin 0, F64.fin 0, F64.fin 0⟩ := rfl
    have h2 : CalculateStats [] = ⟨F64.fin 0, F64.fin 0, F64.fin 0⟩ := rfl
    have h3 : RequestIDs [] = [] := rfl
    rw [h1, h2, h3, TotalProfit_nil]
  | cons b t => simp [buildMaximizeResult]

/-- With first-maximum data for mask `m`, the loop over all masks returns the
combination of `m`. -/
theorem findBestCombination_eq_of_first_max (ovf : Nat → Int) (bs : List Booking)
    (hlen : bs.length ≤ 62) (m : Nat) (h1 : 1 ≤ m) (h2 : m < 2 ^ bs.length)
    (hv : HasOverlaps (combination bs m) = false)
    (hgt : F64.lt (F64.fin (-1)) (TotalProfit (combination bs m)) = true)
    (hmax : ∀ k, 1 ≤ k → k < 2 ^ bs.length → HasOverlaps (combination bs k) = false →
      F64.lt (TotalProfit (combination bs m)) (TotalProfit (combination bs k)) = false)
    (hfirst : ∀ k, 1 ≤ k → k < m → HasOverlaps (combination bs k) = false →
      F64.lt (TotalProfit (combination bs k)) (TotalProfit (combination bs m)) = true) :
    findBestCombination (allCombinations ovf bs) = combination bs m := by
  unfold findBestCombination
  rw [allCombinations_split ovf bs hlen m h1 h2,
    foldl_bestStep_first_max _ _ (combination bs m) ([], F64.fin (-1)) hv hgt]
  · intro x hx hval
    rw [List.mem_map] at hx
    obtain ⟨k, hk, rfl⟩ := hx
    rw [List.mem_range'_1] at hk
    exact hfirst k hk.1 (by omega) hval
  · intro x hx hval
    rw [List.mem_map] at hx
    obtain ⟨k, hk, rfl⟩ := hx
    rw [List.mem_range'_1] at hk
    exact hmax k (by omega) (by omega) hval

/-- The combination kept by the loop is a non-overlapping sub-sequence of the
input, whatever the number of masks enumerated. -/
theorem findBestCombination_props (ovf : Nat → Int) (bs : List Booking) :
    (findBestCombination (allCombinations ovf bs)).Sublist bs ∧
    HasOverlaps (findBestCombination (allCombinations ovf bs)) = false := by
  unfold findBestCombination
  rcases foldl_bestStep_origin (allCombinations ovf bs) ([], F64.fin (-1)) with heq | ⟨hm, hv, _, _⟩
  · rw [heq]
    exact ⟨List.nil_sublist _, rfl⟩
  · exact ⟨sublist_of_mem_allCombinations hm, hv⟩

/-- Either nothing is kept, no non-overlapping combination having a total above
`-1`, or a non-overlapping combination of greatest total above `-1` is kept. -/
theorem findBestCombination_cases (ovf : Nat → Int) (bs : List Booking) :
    (findBestCombination (allCombinations ovf bs) = [] ∧
      ∀ c ∈ allCombinations ovf bs, HasOverlaps c = false →
        F64.lt (F64.fin (-1)) (TotalProfit c) = false) ∨
    (findBestCombination (allCombinations ovf bs) ∈ allCombinations ovf bs ∧
      HasOverlaps (findBestCombination (allCombinations ovf bs)) = false ∧
      F64.lt (F64.fin (-1)) (TotalProfit (findBestCombination (allCombinations ovf bs))) = true ∧
      ∀ c ∈ allCombinations ovf bs, HasOverlaps c = false → TotalProfit c ≠ F64.nan →
        (TotalProfit c).key
          ≤ (TotalProfit (findBestCombination (allCombinations ovf bs))).key) := by
  unfold findBestCombination
  have hst : (([], F64.fin (-1)) : Bookings × F64).2 ≠ F64.nan := by simp
  obtain ⟨hn, _, h3⟩ := foldl_bestStep_spec (allCombinations ovf bs) ([], F64.fin (-1)) hst
  rcases foldl_bestStep_origin (allCombinations ovf bs) ([], F64.fin (-1)) with heq | ⟨hm, hv, hp, hlt⟩
  · left
    rw [heq]
    refine ⟨rfl, ?_⟩
    intro c hc hval
    by_cases hnan : TotalProfit c = F64.nan
    · rw [hnan]; rfl
    · have := h3 c hc hval hnan
      rw [heq] at this
      exact (F64.lt_eq_false_iff_key (by simp) hnan).mpr this
  · right
    refine ⟨hm, hv, ?_, ?_⟩
    · rw [← hp]; exact hlt
    · intro c hc hval hnan
      rw [← hp]
      exact h3 c hc hval hnan

theorem MaximizeProfit_eq (ovf : Nat → Int) (bs : List Booking) :
    MaximizeProfit ovf bs = buildMaximizeResult (findBestCombination (allCombinations ovf bs)) :=
  rfl

theorem MaximizeProfit_TotalProfit (ovf : Nat → Int) (bs : List Booking) :
    (MaximizeProfit ovf bs).TotalProfit
      = TotalProfit (findBestCombination (allCombinations ovf bs)) := by
  rw [MaximizeProfit_eq, buildMaximizeResult_eq]

theorem MaximizeProfit_RequestIDs (ovf : Nat → Int) (bs : List Booking) :
    (MaximizeProfit ovf bs).RequestIDs
      = (findBestCombination (allCombinations ovf bs)).map Booking.RequestID := by
  rw [MaximizeProfit_eq, buildMaximizeResult_eq, RequestIDs_eq_map]

theorem lt_neg_one_of_isNonneg {a : F64} (h : a.IsNonneg) : F64.lt (F64.fin (-1)) a = true := by
  cases a <;> simp [F64.IsNonneg, F64.lt] at h ⊢
  linarith

/-- For at most 62 bookings with finite non-negative rates and margins, the kept
combination is a non-overlapping sub-sequence whose total is not below that of
any non-overlapping sub-sequence. -/
theorem findBestCombination_max_of_nonneg (ovf : Nat → Int) (bs : List Booking)
    (hlen : bs.length ≤ 62)
    (hnn : ∀ b ∈ bs, b.SellingRate.NonnegFinite ∧ b.Margin.NonnegFinite)
    (S : Bookings) (hS : S.Sublist bs) (hv : HasOverlaps S = false) :
    (TotalProfit S).key ≤ (TotalProfit (findBestCombination (allCombinations ovf bs))).key := by
  have hsub := (findBestCombination_props ovf bs).1
  have hbnn : (TotalProfit (findBestCombination (allCombinations ovf bs))).IsNonneg :=
    TotalProfit_isNonneg (fun b hb => hnn b (hsub.subset hb))
  have hSnn : (TotalProfit S).IsNonneg :=
    TotalProfit_isNonneg (fun b hb => hnn b (hS.subset hb))
  by_cases hne : S = []
  · rw [hne, TotalProfit_nil]
    exact hbnn.zero_le_key
  · have hmem := sublist_mem_allCombinations ovf hlen hS hne
    rcases findBestCombination_cases ovf bs with ⟨_, hall⟩ | ⟨_, _, _, hmax⟩
    · have h1 := hall S hmem hv
      rw [lt_neg_one_of_isNonneg hSnn] at h1
      exact absurd h1 (by simp)
    · exact hmax S hmem hv hSnn.ne_nan

/-! ## Conversion of integers -/

theorem rndVal_one : rndVal 1 = 1 :=
  rndVal_of_isRepr (by simpa using isRepr_intCast 1 (by norm_num))

theorem isRepr_two_pow_63 : IsRepr ((2 : ℚ) ^ (63 : Nat)) :=
  ⟨2 ^ 53, 10, by norm_num, by norm_num, by norm_num⟩

/-- The conversion of a non-zero integer is not zero. -/
theorem rndVal_int_ne_zero {n : Int} (hn : n ≠ 0) : rndVal (n : ℚ) ≠ 0 := by
  rcases lt_or_gt_of_ne hn with h | h
  · have h1 : (n : ℚ) ≤ -1 := by
      have : n ≤ -1 := by omega
      exact_mod_cast this
    have := rndVal_mono h1
    rw [rndVal_neg, rndVal_one] at this
    linarith
  · have h1 : (1 : ℚ) ≤ (n : ℚ) := by
      have : 1 ≤ n := by omega
      exact_mod_cast this
    have := rndVal_mono h1
    rw [rndVal_one] at this
    linarith

theorem ofInt_ne_zero {n : Int} (hn : n ≠ 0) : F64.ofInt n ≠ F64.fin 0 := by
  unfold F64.ofInt
  rcases rnd_cases (n : ℚ) with ⟨h, _⟩ | ⟨h, _⟩ | ⟨h, _⟩
  · rw [h]; simp
  · rw [h]; simp
  · rw [h]
    intro heq
    exact rndVal_int_ne_zero hn (by simpa using heq)

/-- The conversion of a non-zero 64-bit integer is finite and not zero. -/
theorem ofInt_of_int64 {n : Int} (hn : n ≠ 0) (h1 : -(2 ^ 63) ≤ n) (h2 : n < 2 ^ 63) :
    ∃ v : ℚ, F64.ofInt n = F64.fin v ∧ v ≠ 0 := by
  have hup : rndVal (n : ℚ) ≤ 2 ^ (63 : Nat) := by
    have hq : (n : ℚ) ≤ (2 : ℚ) ^ (63 : Nat) := by
      have : n ≤ 2 ^ 63 := le_of_lt h2
      exact_mod_cast this
    have := rndVal_mono hq
    rwa [rndVal_of_isRepr isRepr_two_pow_63] at this
  have hlo : -(2 : ℚ) ^ (63 : Nat) ≤ rndVal (n : ℚ) := by
    have hq : -(2 : ℚ) ^ (63 : Nat) ≤ (n : ℚ) := by exact_mod_cast h1
    have := rndVal_mono hq
    rwa [rndVal_neg, rndVal_of_isRepr isRepr_two_pow_63] at this
  have hbig : (2 : ℚ) ^ (63 : Nat) < 2 ^ (1024 : Int) := by norm_num
  refine ⟨rndVal (n : ℚ), ?_, rndVal_int_ne_zero hn⟩
  unfold F64.ofInt
  exact rnd_eq_fin (by linarith) (by linarith)

theorem ofInt_natCast_pos {n : Nat} (hn : 0 < n) (hle : n ≤ 2 ^ 53) :
    F64.ofInt (n : Int) = F64.fin (n : ℚ) := by
  unfold F64.ofInt
  have : ((n : Int) : ℚ) = (n : ℚ) := by push_cast; rfl
  rw [← this]
  apply rnd_of_int _ (n : Int) rfl
  rw [abs_of_nonneg (by positivity)]
  exact_mod_cast hle

/-! ## Per-night profits are never NaN on well-formed bookings -/

theorem F64.div_ne_nan_of_ne_zero {x : F64} (hx : x ≠ F64.nan) {v : ℚ} (hv : v ≠ 0) :
    F64.div x (F64.fin v) ≠ F64.nan := by
  cases x with
  | nan => exact absurd rfl hx
  | ninf =>
    rw [F64.div]
    unfold F64.infTimes
    rw [if_neg hv]
    split <;> simp
  | pinf =>
    rw [F64.div]
    unfold F64.infTimes
    rw [if_neg hv]
    split <;> simp
  | fin q =>
    rw [F64.div_fin _ _ hv]
    exact rnd_ne_nan _

theorem absProfit_ne_nan {b : Booking} (hr : b.SellingRate.Finite) (hm : b.Margin.Finite) :
    absProfit b ≠ F64.nan := by
  unfold absProfit
  apply F64.div_hundred_ne_nan
  cases hs : b.SellingRate <;> cases hg : b.Margin <;>
    simp only [hs, hg, F64.Finite] at hr hm
  rw [F64.mul_fin]
  exact rnd_ne_nan _

theorem ProfitPerNight_ne_nan {b : Booking} (h : WellFormed b) : ProfitPerNight b ≠ F64.nan := by
  obtain ⟨hr, hm, h1, h2⟩ := h
  unfold ProfitPerNight
  by_cases hn : b.Nights = 0
  · rw [if_pos hn]; simp
  · rw [if_neg hn]
    obtain ⟨v, hv, hv0⟩ := ofInt_of_int64 hn h1 h2
    rw [hv]
    exact roundToTwoDecimals_ne_nan (F64.div_ne_nan_of_ne_zero (absProfit_ne_nan hr hm) hv0)

/-! ## The statistics loop -/

theorem foldl_statsStep_sum (ps : List F64) (st : F64 × F64 × F64) :
    (ps.foldl statsStep st).1 = ps.foldl F64.add st.1 := by
  induction ps generalizing st with
  | nil => rfl
  | cons p t ih =>
    rw [List.foldl_cons, List.foldl_cons, ih]
    rfl

theorem foldl_statsStep_min (ps : List F64) (st : F64 × F64 × F64)
    (hst : st.2.1 ≠ F64.nan) (hps : ∀ p ∈ ps, p ≠ F64.nan) :
    (ps.foldl statsStep st).2.1 ≠ F64.nan ∧
    (ps.foldl statsStep st).2.1.key ≤ st.2.1.key ∧
    (∀ p ∈ ps, (ps.foldl statsStep st).2.1.key ≤ p.key) ∧
    ((ps.foldl statsStep st).2.1 = st.2.1 ∨ (ps.foldl statsStep st).2.1 ∈ ps) := by
  induction ps generalizing st with
  | nil => exact ⟨hst, le_refl _, fun p hp => absurd hp (List.not_mem_nil p), Or.inl rfl⟩
  | cons p t ih =>
    rw [List.foldl_cons]
    have hp := hps p (List.mem_cons_self _ _)
    have hstep : (statsStep st p).2.1 ≠ F64.nan ∧
        (statsStep st p).2.1.key ≤ st.2.1.key ∧ (statsStep st p).2.1.key ≤ p.key ∧
        ((statsStep st p).2.1 = st.2.1 ∨ (statsStep st p).2.1 = p) := by
      simp only [statsStep]
      by_cases hlt : F64.lt p st.2.1 = true
      · rw [if_pos hlt]
        exact ⟨hp, le_of_lt ((F64.lt_iff_key hp hst).mp hlt), le_refl _, Or.inr rfl⟩
      · rw [if_neg hlt]
        have hf : F64.lt p st.2.1 = false := by simpa using hlt
        exact ⟨hst, le_refl _, (F64.lt_eq_false_iff_key hp hst).mp hf, Or.inl rfl⟩
    obtain ⟨h0, h1, h2, h3⟩ := ih (statsStep st p) hstep.1
      (fun q hq => hps q (List.mem_cons_of_mem _ hq))
    refine ⟨h0, le_trans h1 hstep.2.1, ?_, ?_⟩
    · intro q hq
      rcases List.mem_cons.mp hq with rfl | hq
      · exact le_trans h1 hstep.2.2.1
      · exact h2 q hq
    · rcases h3 with h3 | h3
      · rcases hstep.2.2.2 with hor | hor
        · left; rw [h3, hor]
        · right; rw [h3, hor]; exact List.mem_cons_self _ _
      · right; exact List.mem_cons_of_mem _ h3

theorem foldl_statsStep_max (ps : List F64) (st : F64 × F64 × F64)
    (hst : st.2.2 ≠ F64.nan) (hps : ∀ p ∈ ps, p ≠ F64.nan) :
    (ps.foldl statsStep st).2.2 ≠ F64.nan ∧
    st.2.2.key ≤ (ps.foldl statsStep st).2.2.key ∧
    (∀ p ∈ ps, p.key ≤ (ps.foldl statsStep st).2.2.key) ∧
    ((ps.foldl statsStep st).2.2 = st.2.2 ∨ (ps.foldl statsStep st).2.2 ∈ ps) := by
  induction ps generalizing st with
  | nil => exact ⟨hst, le_refl _, fun p hp => absurd hp (List.not_mem_nil p), Or.inl rfl⟩
  | cons p t ih =>
    rw [List.foldl_cons]
    have hp := hps p (List.mem_cons_self _ _)
    have hstep : (statsStep st p).2.2 ≠ F64.nan ∧
        st.2.2.key ≤ (statsStep st p).2.2.key ∧ p.key ≤ (statsStep st p).2.2.key ∧
        ((statsStep st p).2.2 = st.2.2 ∨ (statsStep st p).2.2 = p) := by
      simp only [statsStep]
      by_cases hlt : F64.lt st.2.2 p = true
      · rw [if_pos hlt]
        exact ⟨hp, le_of_lt ((F64.lt_iff_key hst hp).mp hlt), le_refl _, Or.inr rfl⟩
      · rw [if_neg hlt]
        have hf : F64.lt st.2.2 p = false := by simpa using hlt
        exact ⟨hst, le_refl _, (F64.lt_eq_false_iff_key hst hp).mp hf, Or.inl rfl⟩
    obtain ⟨h0, h1, h2, h3⟩ := ih (statsStep st p) hstep.1
      (fun q hq => hps q (List.mem_cons_of_mem _ hq))
    refine ⟨h0, le_trans hstep.2.1 h1, ?_, ?_⟩
    · intro q hq
      rcases List.mem_cons.mp hq with rfl | hq
      · exact le_trans hstep.2.2.1 h1
      · exact h2 q hq
    · rcases h3 with h3 | h3
      · rcases hstep.2.2.2 with hor | hor
        · left; rw [h3, hor]
        · right; rw [h3, hor]; exact List.mem_cons_self _ _
      · right; exact List.mem_cons_of_mem _ h3

/-- The statistics of a non-empty collection in terms of the loop over the
per-night profits. -/
theorem CalculateStats_cons (b : Booking) (t : List Booking) :
    CalculateStats (b :: t)
      = ⟨roundToTwoDecimals
          (F64.div (((b :: t).map ProfitPerNight).foldl F64.add (F64.fin 0))
            (F64.ofInt ((b :: t).length : Nat))),
        roundToTwoDecimals ((((b :: t).map ProfitPerNight).foldl statsStep
          (F64.fin 0, ProfitPerNight b, ProfitPerNight b)).2.1),
        roundToTwoDecimals ((((b :: t).map ProfitPerNight).foldl statsStep
          (F64.fin 0, ProfitPerNight b, ProfitPerNight b)).2.2)⟩ := by
  have hlen : ¬ (b :: t).length = 0 := by simp
  have hps : ProfitsPerNight (b :: t) = (b :: t).map ProfitPerNight := ProfitsPerNight_eq_map _
  unfold CalculateStats
  rw [if_neg hlen, hps]
  simp only [List.map_cons, List.headD_cons, List.length_cons, List.length_map,
    foldl_statsStep_sum]

/-- On a non-empty collection of well-formed bookings the statistics are the
rounded mean, a least and a greatest element of the per-night profits. -/
theorem CalculateStats_of_ne_nil (bb : Bookings) (hne : bb ≠ [])
    (hwf : ∀ b ∈ bb, WellFormed b) :
    ∃ mn mx : F64,
      (mn ∈ bb.map ProfitPerNight ∧ ∀ p ∈ bb.map ProfitPerNight, mn.key ≤ p.key) ∧
      (mx ∈ bb.map ProfitPerNight ∧ ∀ p ∈ bb.map ProfitPerNight, p.key ≤ mx.key) ∧
      CalculateStats bb
        = ⟨roundToTwoDecimals
            (F64.div ((bb.map ProfitPerNight).foldl F64.add (F64.fin 0))
              (F64.ofInt (bb.length : Nat))),
          roundToTwoDecimals mn, roundToTwoDecimals mx⟩ := by
  cases bb with
  | nil => exact absurd rfl hne
  | cons b t =>
    have hps : ∀ p ∈ (b :: t).map ProfitPerNight, p ≠ F64.nan := by
      intro p hp
      rw [List.mem_map] at hp
      obtain ⟨x, hx, rfl⟩ := hp
      exact ProfitPerNight_ne_nan (hwf x hx)
    have hb : ProfitPerNight b ≠ F64.nan := ProfitPerNight_ne_nan (hwf b (List.mem_cons_self _ _))
    obtain ⟨_, _, hmin2, hmin3⟩ := foldl_statsStep_min ((b :: t).map ProfitPerNight)
      (F64.fin 0, ProfitPerNight b, ProfitPerNight b) hb hps
    obtain ⟨_, _, hmax2, hmax3⟩ := foldl_statsStep_max ((b :: t).map ProfitPerNight)
      (F64.fin 0, ProfitPerNight b, ProfitPerNight b) hb hps
    refine ⟨_, _, ⟨?_, hmin2⟩, ⟨?_, hmax2⟩, CalculateStats_cons b t⟩
    · rcases hmin3 with h | h
      · rw [h]; exact List.mem_map_of_mem _ (List.mem_cons_self _ _)
      · exact h
    · rcases hmax3 with h | h
      · rw [h]; exact List.mem_map_of_mem _ (List.mem_cons_self _ _)
      · exact h

/-! ## Whole-number profits are summed exactly -/

theorem rnd_natCast (n : Nat) (h : n ≤ 2 ^ 53) : rnd (n : ℚ) = F64.fin (n : ℚ) := by
  apply rnd_of_int _ (n : Int) (by push_cast; rfl)
  rw [abs_of_nonneg (by positivity)]
  exact_mod_cast h

theorem absProfit_of_whole {f : Booking → Nat} {b : Booking} (h : WholeProfit f b)
    (hb : 100 * f b ≤ 2 ^ 53) : absProfit b = F64.fin (f b : ℚ) := by
  obtain ⟨r, m, hr, hm, hrm⟩ := h
  unfold absProfit
  rw [hr, hm, F64.mul_fin, hrm]
  have h1 : (100 : ℚ) * (f b : ℚ) = ((100 * f b : Nat) : ℚ) := by push_cast; rfl
  rw [h1, rnd_natCast _ hb, F64.div_hundred_fin]
  have h2 : ((100 * f b : Nat) : ℚ) / 100 = (f b : ℚ) := by push_cast; field_simp
  rw [h2, rnd_natCast _ (by omega)]

theorem foldl_add_whole (f : Booking → Nat) (l : List Booking) (acc : Nat)
    (h : ∀ b ∈ l, WholeProfit f b) (hsum : 100 * (acc + (l.map f).sum) ≤ 2 ^ 53) :
    (l.map absProfit).foldl F64.add (F64.fin (acc : ℚ))
      = F64.fin ((acc + (l.map f).sum : Nat) : ℚ) := by
  induction l generalizing acc with
  | nil => simp
  | cons b t ih =>
    rw [List.map_cons, List.sum_cons] at hsum
    rw [List.map_cons, List.foldl_cons,
      absProfit_of_whole (h b (List.mem_cons_self _ _)) (by omega), F64.add_fin]
    have h1 : (acc : ℚ) + (f b : ℚ) = ((acc + f b : Nat) : ℚ) := by push_cast; rfl
    rw [h1, rnd_natCast _ (by omega), ih (acc + f b) (fun x hx => h x (List.mem_cons_of_mem _ hx))
      (by omega), List.map_cons, List.sum_cons]
    congr 2
    omega

theorem roundToTwoDecimals_natCast (s : Nat) (h : 100 * s ≤ 2 ^ 53) :
    roundToTwoDecimals (F64.fin (s : ℚ)) = F64.fin (s : ℚ) := by
  unfold roundToTwoDecimals
  have h1 : (s : ℚ) * 100 = ((100 * s : Nat) : ℚ) := by push_cast; ring
  have h2 : ((100 * s : Nat) : ℚ) / 100 = (s : ℚ) := by push_cast; field_simp
  rw [F64.mul_fin, h1, rnd_natCast _ h, F64.round_fin,
    mathRound_of_int _ ((100 * s : Nat) : Int) (by push_cast; rfl), F64.div_hundred_fin, h2,
    rnd_natCast _ (by omega)]

/-- The total profit of bookings with whole-number profits is their exact sum, as
long as a hundred times the sum stays within `2^53`. -/
theorem TotalProfit_of_whole (f : Booking → Nat) (bb : Bookings)
    (h : ∀ b ∈ bb, WholeProfit f b) (hsum : 100 * (bb.map f).sum ≤ 2 ^ 53) :
    TotalProfit bb = F64.fin (((bb.map f).sum : Nat) : ℚ) := by
  rw [TotalProfit_eq_foldl]
  have h0 : (F64.fin 0) = F64.fin ((0 : Nat) : ℚ) := by simp
  rw [h0, foldl_add_whole f bb 0 h (by omega), Nat.zero_add, roundToTwoDecimals_natCast _ hsum]

theorem sum_map_sublist_le (f : Booking → Nat) {S bb : Bookings} (hS : S.Sublist bb) :
    (S.map f).sum ≤ (bb.map f).sum :=
  (hS.map f).sum_le_sum (fun _ _ => Nat.zero_le _)

theorem TotalProfit_perm_of_whole (f : Booking → Nat) {S S' : Bookings} (hp : S.Perm S')
    (h : ∀ b ∈ S, WholeProfit f b) (hsum : 100 * (S.map f).sum ≤ 2 ^ 53) :
    TotalProfit S = TotalProfit S' := by
  have hs : (S'.map f).sum = (S.map f).sum := (hp.map f).sum_eq.symm
  rw [TotalProfit_of_whole f S h hsum,
    TotalProfit_of_whole f S' (fun b hb => h b (hp.mem_iff.mpr hb)) (by omega), hs]

/-! ## The maximiser under permutations of the input -/

/-- A candidate of one input has a rearranged counterpart among the candidates of
any permutation of that input. -/
theorem allCombinations_perm_transfer (ovf : Nat → Int) {bs bs' : List Booking}
    (h : bs.Perm bs') (hlen : bs.length ≤ 62) {c : Bookings}
    (hc : c ∈ allCombinations ovf bs) :
    ∃ c' ∈ allCombinations ovf bs', c'.Perm c ∧ c'.Sublist bs' ∧ HasOverlaps c' = HasOverlaps c := by
  obtain ⟨hsub, hne⟩ := mem_allCombinations_sublist hlen hc
  obtain ⟨c', hperm, hsub'⟩ := List.exists_perm_sublist hsub h
  have hne' : c' ≠ [] := by
    intro h0
    rw [h0] at hperm
    exact hne hperm.nil_eq.symm
  have hlen' : bs'.length ≤ 62 := by rw [← h.length_eq]; exact hlen
  exact ⟨c', sublist_mem_allCombinations ovf hlen' hsub' hne', hperm, hsub',
    HasOverlaps_perm hperm⟩

theorem findBestCombination_total_le_of_perm (ovf : Nat → Int) {bs bs' : List Booking}
    (h : bs.Perm bs') (hlen : bs.length ≤ 62)
    (htp : ∀ c c' : Bookings, c.Sublist bs → c'.Perm c → TotalProfit c' = TotalProfit c)
    (hnan : TotalProfit (findBestCombination (allCombinations ovf bs)) ≠ F64.nan) :
    (TotalProfit (findBestCombination (allCombinations ovf bs))).key
      ≤ (TotalProfit (findBestCombination (allCombinations ovf bs'))).key := by
  have hlen' : bs'.length ≤ 62 := by rw [← h.length_eq]; exact hlen
  rcases findBestCombination_cases ovf bs with ⟨he, hall⟩ | ⟨hm, hv, hgt, _⟩
  · rcases findBestCombination_cases ovf bs' with ⟨he', _⟩ | ⟨hm', hv', hgt', _⟩
    · rw [he, he']
    · obtain ⟨c, hc, hpc, hsc, hvc⟩ := allCombinations_perm_transfer ovf h.symm hlen' hm'
      have h1 := hall c hc (by rw [hvc]; exact hv')
      rw [← htp c _ hsc hpc.symm, hgt'] at h1
      exact absurd h1 (by simp)
  · obtain ⟨c', hc', hpc, _, hvc⟩ := allCombinations_perm_transfer ovf h hlen hm
    have hsub := (findBestCombination_props ovf bs).1
    have htc : TotalProfit c' = TotalProfit (findBestCombination (allCombinations ovf bs)) :=
      htp _ c' hsub hpc
    rcases findBestCombination_cases ovf bs' with ⟨_, hall'⟩ | ⟨_, _, _, hmax'⟩
    · have h1 := hall' c' hc' (by rw [hvc]; exact hv)
      rw [htc, hgt] at h1
      exact absurd h1 (by simp)
    · rw [← htc]
      exact hmax' c' hc' (by rw [hvc]; exact hv) (by rw [htc]; exact hnan)

/-! ## Error bounds -/

/-- A rounding is within a relative `2^-53` and an absolute `2^-80` of the exact
value. -/
theorem rnd_err {x v : ℚ} (h : rnd x = F64.fin v) :
    |v - x| ≤ |x| / 2 ^ 53 + 1 / 2 ^ 80 := by
  have hv : v = rndVal x := by
    rcases rnd_cases x with ⟨h1, _⟩ | ⟨h1, _⟩ | ⟨h1, _⟩
    · rw [h1] at h; exact absurd h (by simp)
    · rw [h1] at h; exact absurd h (by simp)
    · rw [h1] at h; exact (F64.fin.inj h).symm
  rw [hv]
  have h1 := rndVal_err x
  have e1 : (2 : ℚ) ^ (53 : Int) = 2 ^ 53 := by norm_num
  have e2 : (2 : ℚ) ^ (-1075 : Int) ≤ 1 / 2 ^ 80 := by
    rw [zpow_neg, ← one_div]
    apply one_div_le_one_div_of_le (by positivity)
    have : (2 : ℚ) ^ (1075 : Int) = 2 ^ 1075 := by norm_num
    rw [this]
    exact pow_le_pow_right₀ (by norm_num) (by norm_num)
  rw [e1] at h1
  linarith

/-- Rounding a value that approximates `x` gives a value that approximates `x`. -/
theorem rnd_err_compose {x y z a b : ℚ} (ha : 0 ≤ a) (ha1 : a ≤ 1) (hb : 0 ≤ b)
    (h1 : |y - x| ≤ a * |x| + b) (h2 : rnd y = F64.fin z) :
    |z - x| ≤ (2 * a + 1 / 2 ^ 53) * |x| + (2 * b + 1 / 2 ^ 80) := by
  have h3 := rnd_err h2
  have hy : |y| ≤ |x| + |y - x| := by
    have := abs_add (x) (y - x)
    simpa using this
  have hz : |z - x| ≤ |z - y| + |y - x| := abs_sub_le z y x
  have hx0 := abs_nonneg x
  have hax : a * |x| ≤ |x| := by nlinarith
  have hε : |y| / 2 ^ 53 ≤ (|x| + a * |x| + b) / 2 ^ 53 :=
    div_le_div_of_nonneg_right (by linarith) (by positivity)
  have e : (|x| + a * |x| + b) / 2 ^ 53 ≤ |x| / 2 ^ 53 + a * |x| + b := by
    have h53 : (1 : ℚ) / 2 ^ 53 ≤ 1 := by norm_num
    have hnn : 0 ≤ a * |x| + b := by positivity
    have : (a * |x| + b) / 2 ^ 53 ≤ a * |x| + b := div_le_self hnn (by norm_num)
    have e2 : (|x| + a * |x| + b) / 2 ^ 53 = |x| / 2 ^ 53 + (a * |x| + b) / 2 ^ 53 := by ring
    rw [e2]
    linarith
  have e3 : (2 * a + 1 / 2 ^ 53) * |x| = 2 * (a * |x|) + |x| / 2 ^ 53 := by ring
  rw [e3]
  linarith

theorem roundToTwoDecimals_eq_fin_inv {x : F64} {v : ℚ} (h : roundToTwoDecimals x = F64.fin v) :
    ∃ (q t : ℚ) (k : Int), x = F64.fin q ∧ rnd (q * 100) = F64.fin t ∧ mathRound t = (k : ℚ) ∧
      rnd ((k : ℚ) / 100) = F64.fin v := by
  cases x with
  | nan =>
    have : roundToTwoDecimals F64.nan = F64.nan := rfl
    rw [this] at h; exact absurd h (by simp)
  | ninf => rw [roundToTwoDecimals_ninf] at h; exact absurd h (by simp)
  | pinf => rw [roundToTwoDecimals_pinf] at h; exact absurd h (by simp)
  | fin q =>
    rcases roundToTwoDecimals_fin_cases q with ⟨_, h1⟩ | ⟨_, h1⟩ | ⟨t, k, ht, hk, h1⟩
    · rw [h1] at h; exact absurd h (by simp)
    · rw [h1] at h; exact absurd h (by simp)
    · exact ⟨q, t, k, rfl, ht, hk, by rw [← h1]; exact h⟩

/-- The error of a rounding to cents: half a cent, plus the error of the two
binary64 roundings. -/
theorem roundToTwoDecimals_err {q v : ℚ} (h : roundToTwoDecimals (F64.fin q) = F64.fin v) :
    |v - q| ≤ 1 / 200 + |q| / 2 ^ 51 + 1 / 2 ^ 60 := by
  obtain ⟨q', t, k, hq, ht, hk, hv⟩ := roundToTwoDecimals_eq_fin_inv h
  have hqq : q' = q := (F64.fin.inj hq).symm
  subst hqq
  have h1 := rnd_err ht
  have h2 := mathRound_abs_sub_le t
  rw [hk] at h2
  have h3 := rnd_err hv
  have hq0 := abs_nonneg q'
  have e100 : |q' * 100| = 100 * |q'| := by rw [abs_mul]; norm_num; ring
  rw [e100] at h1
  have hk1 : |(k : ℚ) - q' * 100| ≤ 1 / 2 + (100 * |q'| / 2 ^ 53 + 1 / 2 ^ 80) := by
    have := abs_sub_le (k : ℚ) t (q' * 100)
    linarith
  have hk2 : |(k : ℚ) / 100 - q'| ≤ (1 / 2 + (100 * |q'| / 2 ^ 53 + 1 / 2 ^ 80)) / 100 := by
    have e : (k : ℚ) / 100 - q' = ((k : ℚ) - q' * 100) / 100 := by ring
    rw [e, abs_div]
    norm_num
    linarith
  have hk3 : |(k : ℚ) / 100| ≤ |q'| + (1 / 2 + (100 * |q'| / 2 ^ 53 + 1 / 2 ^ 80)) / 100 := by
    have := abs_add q' ((k : ℚ) / 100 - q')
    have e : q' + ((k : ℚ) / 100 - q') = (k : ℚ) / 100 := by ring
    rw [e] at this
    linarith
  have hfin := abs_sub_le v ((k : ℚ) / 100) q'
  have h4 : |(k : ℚ) / 100| / 2 ^ 53
      ≤ (|q'| + (1 / 2 + (100 * |q'| / 2 ^ 53 + 1 / 2 ^ 80)) / 100) / 2 ^ 53 :=
    div_le_div_of_nonneg_right hk3 (by positivity)
  norm_num at h1 h3 h4 hk2 hfin ⊢
  linarith

theorem rnd_finite_of_abs_le {x : ℚ} (h : |x| ≤ 2 ^ 1000) : ∃ v : ℚ, rnd x = F64.fin v := by
  have h1 := rndVal_err x
  have e1 : |x| / (2 : ℚ) ^ (53 : Int) ≤ |x| := div_le_self (abs_nonneg x) (by norm_num)
  have e2 : (2 : ℚ) ^ (-1075 : Int) ≤ 1 := by
    rw [zpow_neg]
    apply inv_le_one_of_one_le₀
    exact one_le_zpow₀ (by norm_num) (by norm_num)
  have h2 : |rndVal x| ≤ |x| + |rndVal x - x| := by
    have := abs_add x (rndVal x - x)
    simpa using this
  have h3 : |rndVal x| < 2 ^ (1024 : Int) := by
    have : (2 : ℚ) ^ (1024 : Int) = 2 ^ 1024 := by norm_num
    rw [this]
    have hb : (2 : ℚ) * 2 ^ 1000 + 1 < 2 ^ 1024 := by norm_num
    linarith
  have h4 := abs_lt.mp h3
  exact ⟨rndVal x, rnd_eq_fin h4.2 h4.1⟩

/-- Rounding to cents leaves a value of magnitude up to `2^44` unchanged when that
value is itself a result of rounding to cents. -/
theorem roundToTwoDecimals_idem {x : F64} {v : ℚ} (h : roundToTwoDecimals x = F64.fin v)
    (hv : |v| ≤ 2 ^ 44) : roundToTwoDecimals (F64.fin v) = F64.fin v := by
  obtain ⟨q, t, k, _, _, _, hk⟩ := roundToTwoDecimals_eq_fin_inv h
  have h3 := rnd_err hk
  have e100 : |v * 100| = 100 * |v| := by rw [abs_mul]; norm_num; ring
  obtain ⟨t', ht'⟩ := rnd_finite_of_abs_le (x := v * 100) (by
    rw [e100]
    have : (100 : ℚ) * 2 ^ 44 ≤ 2 ^ 1000 := by norm_num
    linarith)
  have h1 := rnd_err ht'
  rw [e100] at h1
  have hK : |(k : ℚ) / 100| ≤ |v| + |v - (k : ℚ) / 100| := by
    have := abs_sub_le ((k : ℚ) / 100) v 0
    simp only [sub_zero] at this
    rw [abs_sub_comm] at this
    linarith
  have hvk : |v * 100 - (k : ℚ)| = 100 * |v - (k : ℚ) / 100| := by
    have e : v * 100 - (k : ℚ) = (v - (k : ℚ) / 100) * 100 := by ring
    rw [e, abs_mul]
    norm_num
    ring
  have htk : |t' - (k : ℚ)| ≤ |t' - v * 100| + |v * 100 - (k : ℚ)| := abs_sub_le _ _ _
  have hlt : |t' - (k : ℚ)| < 1 / 2 := by
    norm_num at h1 h3 hv ⊢
    linarith
  have hnear := abs_lt.mp hlt
  have hr : mathRound t' = (k : ℚ) := mathRound_of_near t' k (by linarith) (by linarith)
  unfold roundToTwoDecimals
  rw [F64.mul_fin, ht', F64.round_fin, hr, F64.div_hundred_fin, hk]

theorem F64.div_eq_fin_inv {x : F64} {d v : ℚ} (hd : d ≠ 0)
    (h : F64.div x (F64.fin d) = F64.fin v) : ∃ q : ℚ, x = F64.fin q ∧ rnd (q / d) = F64.fin v := by
  cases x with
  | nan =>
    have : F64.div F64.nan (F64.fin d) = F64.nan := rfl
    rw [this] at h; exact absurd h (by simp)
  | ninf =>
    rw [F64.div] at h
    unfold F64.infTimes at h
    rw [if_neg hd] at h
    split at h <;> exact absurd h (by simp)
  | pinf =>
    rw [F64.div] at h
    unfold F64.infTimes at h
    rw [if_neg hd] at h
    split at h <;> exact absurd h (by simp)
  | fin q =>
    rw [F64.div_fin _ _ hd] at h
    exact ⟨q, rfl, h⟩

theorem ofInt_of_abs_le {n : Int} (h : |n| ≤ 2 ^ 53) : F64.ofInt n = F64.fin (n : ℚ) :=
  rnd_of_int _ n rfl h

/-- The error of `ProfitPerNight` against the exact quotient: half a cent, plus
the error of the binary64 roundings on the way. -/
theorem ProfitPerNight_err (b : Booking) (r m v : ℚ) (hr : b.SellingRate = F64.fin r)
    (hm : b.Margin = F64.fin m) (hn : b.Nights ≠ 0) (hn53 : |b.Nights| ≤ 2 ^ 53)
    (h : ProfitPerNight b = F64.fin v) :
    |v - r * m / 100 / (b.Nights : ℚ)|
      ≤ 1 / 200 + |r * m / 100 / (b.Nights : ℚ)| / 2 ^ 49 + 1 / 2 ^ 59 := by
  have hnq : (b.Nights : ℚ) ≠ 0 := by exact_mod_cast hn
  unfold ProfitPerNight at h
  rw [if_neg hn, hr, hm, F64.mul_fin, ofInt_of_abs_le hn53] at h
  obtain ⟨v3, t, k, hx, _, _, _⟩ := roundToTwoDecimals_eq_fin_inv h
  rw [hx] at h
  obtain ⟨v2, hy, h3⟩ := F64.div_eq_fin_inv hnq hx
  obtain ⟨v1, hz, h2⟩ := F64.div_eq_fin_inv (by norm_num : (100 : ℚ) ≠ 0) hy
  have e1 := rnd_err hz
  have hn1 : (1 : ℚ) ≤ |(b.Nights : ℚ)| := by
    have : (1 : Int) ≤ |b.Nights| := Int.one_le_abs hn
    rw [← Int.cast_abs]
    exact_mod_cast this
  have hnpos : (0 : ℚ) < |(b.Nights : ℚ)| := by linarith
  -- the quotient by 100
  have s1 : |v1 / 100 - r * m / 100| ≤ 1 / 2 ^ 53 * |r * m / 100| + 1 / 2 ^ 80 := by
    have e : v1 / 100 - r * m / 100 = (v1 - r * m) / 100 := by ring
    have e' : |r * m / 100| = |r * m| / 100 := by rw [abs_div]; norm_num
    rw [e, abs_div, e']
    norm_num at e1 ⊢
    linarith [abs_nonneg (r * m)]
  have s2 := rnd_err_compose (by norm_num) (by norm_num) (by norm_num) s1 h2
  -- the quotient by the nights
  have s3 : |v2 / (b.Nights : ℚ) - r * m / 100 / (b.Nights : ℚ)|
      ≤ (2 * (1 / 2 ^ 53) + 1 / 2 ^ 53) * |r * m / 100 / (b.Nights : ℚ)|
        + (2 * (1 / 2 ^ 80) + 1 / 2 ^ 80) := by
    have e : v2 / (b.Nights : ℚ) - r * m / 100 / (b.Nights : ℚ)
        = (v2 - r * m / 100) / (b.Nights : ℚ) := by ring
    have e' : |r * m / 100 / (b.Nights : ℚ)| = |r * m / 100| / |(b.Nights : ℚ)| := abs_div _ _
    rw [e, abs_div, e']
    have hd := div_le_div_of_nonneg_right s2 (le_of_lt hnpos)
    have hsmall : (2 * (1 / 2 ^ 80) + 1 / 2 ^ 80 : ℚ) / |(b.Nights : ℚ)|
        ≤ 2 * (1 / 2 ^ 80) + 1 / 2 ^ 80 := div_le_self (by norm_num) hn1
    have esplit : ((2 * (1 / 2 ^ 53) + 1 / 2 ^ 53) * |r * m / 100|
        + (2 * (1 / 2 ^ 80) + 1 / 2 ^ 80 : ℚ)) / |(b.Nights : ℚ)|
        = (2 * (1 / 2 ^ 53) + 1 / 2 ^ 53) * (|r * m / 100| / |(b.Nights : ℚ)|)
          + (2 * (1 / 2 ^ 80) + 1 / 2 ^ 80 : ℚ) / |(b.Nights : ℚ)| := by ring
    rw [esplit] at hd
    linarith
  have s4 := rnd_err_compose (by norm_num) (by norm_num) (by norm_num) s3 h3
  have s5 := roundToTwoDecimals_err h
  have hq0 := abs_nonneg (r * m / 100 / (b.Nights : ℚ))
  have hv3 : |v3| ≤ |r * m / 100 / (b.Nights : ℚ)| + |v3 - r * m / 100 / (b.Nights : ℚ)| := by
    have := abs_add (r * m / 100 / (b.Nights : ℚ)) (v3 - r * m / 100 / (b.Nights : ℚ))
    simpa using this
  have hfin := abs_sub_le v v3 (r * m / 100 / (b.Nights : ℚ))
  have hdiv : |v3| / 2 ^ 51 ≤ (|r * m / 100 / (b.Nights : ℚ)|
      + |v3 - r * m / 100 / (b.Nights : ℚ)|) / 2 ^ 51 :=
    div_le_div_of_nonneg_right hv3 (by positivity)
  norm_num at s4 s5 hdiv hfin ⊢
  linarith

/-! ## Evaluation on concrete values -/

theorem rnd_congr {x y : ℚ} {v : F64} (h : x = y) (hy : rnd y = v) : rnd x = v := by
  rw [h]
  exact hy

/-- A multiple of a power of two with a mantissa of at most 53 bits is exact. -/
theorem rnd_of_dyadic (x : ℚ) (n e : Int) (he : -1074 ≤ e) (he2 : e ≤ 970)
    (hn : |n| ≤ 2 ^ 53) (hx : x = (n : ℚ) * 2 ^ e) : rnd x = F64.fin x := by
  apply rnd_of_isRepr ⟨n, e, he, hn, hx⟩
  rw [hx, abs_mul, abs_of_pos (two_zpow_pos e)]
  have h1 : |(n : ℚ)| ≤ 2 ^ (53 : Int) := by
    rw [← Int.cast_abs]
    have : ((|n| : Int) : ℚ) ≤ ((2 ^ 53 : Int) : ℚ) := by exact_mod_cast hn
    have e53 : ((2 ^ 53 : Int) : ℚ) = (2 : ℚ) ^ (53 : Int) := by norm_num
    rw [← e53]
    exact this
  have h2 : (2 : ℚ) ^ e ≤ 2 ^ (970 : Int) := two_zpow_le he2
  have h3 : (2 : ℚ) ^ (53 : Int) * 2 ^ (970 : Int) < 2 ^ (1024 : Int) := by
    rw [← two_zpow_add]
    exact two_zpow_lt (by norm_num)
  calc |(n : ℚ)| * 2 ^ e ≤ 2 ^ (53 : Int) * 2 ^ (970 : Int) :=
        mul_le_mul h1 h2 (le_of_lt (two_zpow_pos e)) (le_of_lt (two_zpow_pos 53))
    _ < 2 ^ (1024 : Int) := h3

theorem mathRound_nonneg_eval (t k : ℚ) (z : Int) (hk : k = (z : ℚ)) (h0 : 0 ≤ t)
    (h1 : (z : ℚ) ≤ t + 1 / 2) (h2 : t + 1 / 2 < (z : ℚ) + 1) : mathRound t = k := by
  unfold mathRound
  rw [if_pos h0, hk]
  have : ⌊t + 1 / 2⌋ = z := by
    rw [Int.floor_eq_iff]
    exact ⟨h1, h2⟩
  rw [this]

theorem mathRound_neg_eval (t k : ℚ) (z : Int) (hk : k = -(z : ℚ)) (h0 : t < 0)
    (h1 : (z : ℚ) ≤ -t + 1 / 2) (h2 : -t + 1 / 2 < (z : ℚ) + 1) : mathRound t = k := by
  unfold mathRound
  rw [if_neg (not_le.mpr h0), hk]
  have : ⌊-t + 1 / 2⌋ = z := by
    rw [Int.floor_eq_iff]
    exact ⟨h1, h2⟩
  rw [this]

theorem roundToTwoDecimals_eval (x t k c : ℚ) (h1 : rnd (x * 100) = F64.fin t)
    (h2 : mathRound t = k) (h3 : rnd (k / 100) = F64.fin c) :
    roundToTwoDecimals (F64.fin x) = F64.fin c := by
  unfold roundToTwoDecimals
  rw [F64.mul_fin, h1, F64.round_fin, h2, F64.div_hundred_fin, h3]

theorem absProfit_eval (b : Booking) (r m p c : ℚ) (hr : b.SellingRate = F64.fin r)
    (hm : b.Margin = F64.fin m) (h1 : rnd (r * m) = F64.fin p)
    (h2 : rnd (p / 100) = F64.fin c) : absProfit b = F64.fin c := by
  unfold absProfit
  rw [hr, hm, F64.mul_fin, h1, F64.div_hundred_fin, h2]

theorem foldl_add_cons_eval (x : F64) (t : List F64) (a p s : ℚ) (hx : x = F64.fin p)
    (h : rnd (a + p) = F64.fin s) :
    (x :: t).foldl F64.add (F64.fin a) = t.foldl F64.add (F64.fin s) := by
  rw [List.foldl_cons, hx, F64.add_fin, h]

theorem TotalProfit_eval (bb : Bookings) (s c : ℚ)
    (hs : (bb.map absProfit).foldl F64.add (F64.fin 0) = F64.fin s)
    (hr : roundToTwoDecimals (F64.fin s) = F64.fin c) : TotalProfit bb = F64.fin c := by
  rw [TotalProfit_eq_foldl, hs, hr]

theorem ProfitPerNight_eval (b : Booking) (p nn q c : ℚ) (hn : b.Nights ≠ 0)
    (hp : absProfit b = F64.fin p) (hN : F64.ofInt b.Nights = F64.fin nn) (hnn : nn ≠ 0)
    (h3 : rnd (p / nn) = F64.fin q) (h4 : roundToTwoDecimals (F64.fin q) = F64.fin c) :
    ProfitPerNight b = F64.fin c := by
  unfold ProfitPerNight
  rw [if_neg hn]
  unfold absProfit at hp
  rw [hp, hN, F64.div_fin _ _ hnn, h3, h4]

theorem ofInt_eval (n : Int) (h : |n| ≤ 2 ^ 53) (q : ℚ) (hq : q = (n : ℚ)) :
    F64.ofInt n = F64.fin q := by
  rw [hq]
  exact ofInt_of_abs_le h

/-- The least-value part of the statistics loop on its own. -/
theorem foldl_statsStep_min_eq (ps : List F64) (st : F64 × F64 × F64) :
    (ps.foldl statsStep st).2.1
      = ps.foldl (fun mn p => if F64.lt p mn then p else mn) st.2.1 := by
  induction ps generalizing st with
  | nil => rfl
  | cons p t ih =>
    rw [List.foldl_cons, List.foldl_cons, ih]
    rfl

/-- The greatest-value part of the statistics loop on its own. -/
theorem foldl_statsStep_max_eq (ps : List F64) (st : F64 × F64 × F64) :
    (ps.foldl statsStep st).2.2
      = ps.foldl (fun mx p => if F64.lt mx p then p else mx) st.2.2 := by
  induction ps generalizing st with
  | nil => rfl
  | cons p t ih =>
    rw [List.foldl_cons, List.foldl_cons, ih]
    rfl

theorem minStep_eval_lt (t : List F64) (p mn : ℚ) (h : p < mn) :
    (F64.fin p :: t).foldl (fun mn p => if F64.lt p mn then p else mn) (F64.fin mn)
      = t.foldl (fun mn p => if F64.lt p mn then p else mn) (F64.fin p) := by
  rw [List.foldl_cons, F64.lt_fin, if_pos (by simpa using h)]

theorem minStep_eval_ge (t : List F64) (p mn : ℚ) (h : mn ≤ p) :
    (F64.fin p :: t).foldl (fun mn p => if F64.lt p mn then p else mn) (F64.fin mn)
      = t.foldl (fun mn p => if F64.lt p mn then p else mn) (F64.fin mn) := by
  rw [List.foldl_cons, F64.lt_fin, if_neg (by simpa using h)]

theorem maxStep_eval_lt (t : List F64) (p mx : ℚ) (h : mx < p) :
    (F64.fin p :: t).foldl (fun mx p => if F64.lt mx p then p else mx) (F64.fin mx)
      = t.foldl (fun mx p => if F64.lt mx p then p else mx) (F64.fin p) := by
  rw [List.foldl_cons, F64.lt_fin, if_pos (by simpa using h)]

theorem maxStep_eval_ge (t : List F64) (p mx : ℚ) (h : p ≤ mx) :
    (F64.fin p :: t).foldl (fun mx p => if F64.lt mx p then p else mx) (F64.fin mx)
      = t.foldl (fun mx p => if F64.lt mx p then p else mx) (F64.fin mx) := by
  rw [List.foldl_cons, F64.lt_fin, if_neg (by simpa using h)]

/-- Evaluation of the statistics from the per-night profits, their running sum,
their least and their greatest value. -/
theorem CalculateStats_eval (b : Booking) (t : List Booking) (ps : List F64)
    (p0 s n a mn mx : ℚ) (ra rmn rmx : F64)
    (hps : (b :: t).map ProfitPerNight = ps) (hp0 : ProfitPerNight b = F64.fin p0)
    (hs : ps.foldl F64.add (F64.fin 0) = F64.fin s)
    (hn : F64.ofInt ((b :: t).length : Nat) = F64.fin n) (hn0 : n ≠ 0)
    (ha : rnd (s / n) = F64.fin a)
    (hmn : ps.foldl (fun mn p => if F64.lt p mn then p else mn) (F64.fin p0) = F64.fin mn)
    (hmx : ps.foldl (fun mx p => if F64.lt mx p then p else mx) (F64.fin p0) = F64.fin mx)
    (hra : roundToTwoDecimals (F64.fin a) = ra) (hrmn : roundToTwoDecimals (F64.fin mn) = rmn)
    (hrmx : roundToTwoDecimals (F64.fin mx) = rmx) :
    CalculateStats (b :: t) = ⟨ra, rmn, rmx⟩ := by
  rw [CalculateStats_cons, foldl_statsStep_min_eq, foldl_statsStep_max_eq, hps, hp0, hs, hn,
    F64.div_fin _ _ hn0, ha, hra]
  have e1 : ((F64.fin 0, F64.fin p0, F64.fin p0) : F64 × F64 × F64).2.1 = F64.fin p0 := rfl
  have e2 : ((F64.fin 0, F64.fin p0, F64.fin p0) : F64 × F64 × F64).2.2 = F64.fin p0 := rfl
  rw [e1, e2, hmn, hmx, hrmn, hrmx]

theorem bestStep_of_overlap (st : Bookings × F64) (c : Bookings) (h : HasOverlaps c = true) :
    bestStep st c = st := by
  unfold bestStep
  rw [if_pos h]

theorem bestStep_of_gt (best : Bookings) (p q : ℚ) (c : Bookings) (h : HasOverlaps c = false)
    (hq : TotalProfit c = F64.fin q) (hlt : p < q) :
    bestStep (best, F64.fin p) c = (c, F64.fin q) := by
  rcases bestStep_cases (best, F64.fin p) c with ⟨_, hle⟩ | ⟨he, _, _⟩
  · have := hle h
    rw [hq, F64.lt_fin] at this
    simp only [decide_eq_false_iff_not, not_lt] at this
    exact absurd hlt (not_lt.mpr this)
  · rw [he, hq]

theorem bestStep_of_le (best : Bookings) (p q : ℚ) (c : Bookings)
    (hq : TotalProfit c = F64.fin q) (hle : q ≤ p) :
    bestStep (best, F64.fin p) c = (best, F64.fin p) := by
  rcases bestStep_cases (best, F64.fin p) c with ⟨he, _⟩ | ⟨_, _, hlt⟩
  · exact he
  · rw [hq, F64.lt_fin] at hlt
    simp only [decide_eq_true_eq] at hlt
    exact absurd hlt (not_lt.mpr hle)

theorem findBestCombination_eq (combos : List Bookings) :
    findBestCombination combos = (combos.foldl bestStep ([], F64.fin (-1))).1 := rfl

/-! ## Evaluation on the sample bookings

Every step of a computation on concrete data is a rewriting step justified by a
rounding certificate, so that no proof relies on unfolding the rounding function. -/

theorem absProfit_req1 : absProfit req1 = F64.fin 200 :=
  absProfit_eval req1 1000 20 20000 200 rfl rfl
    (rnd_congr (by norm_num) (rnd_of_int 20000 20000 (by norm_num) (by norm_num)))
    (rnd_congr (by norm_num) (rnd_of_int 200 200 (by norm_num) (by norm_num)))

theorem TotalProfit_req1 : TotalProfit [req1] = F64.fin 200 := by
  apply TotalProfit_eval [req1] 200 200 _ (roundToTwoDecimals_eval 200 20000 20000 200 (rnd_congr
      (by norm_num) (rnd_of_int 20000 20000 (by norm_num) (by norm_num))) (mathRound_nonneg_eval
      20000 20000 20000 (by norm_num) (by norm_num) (by norm_num) (by norm_num)) (rnd_congr
      (by norm_num) (rnd_of_int 200 200 (by norm_num) (by norm_num))))
  rw [List.map_cons, List.map_nil]
  rw [foldl_add_cons_eval _ _ 0 200 200 absProfit_req1 (rnd_congr (by norm_num) (rnd_of_int 200 200
      (by norm_num) (by norm_num))), List.foldl_nil]

theorem absProfit_req2 : absProfit req2 = F64.fin 500 :=
  absProfit_eval req2 2000 25 50000 500 rfl rfl
    (rnd_congr (by norm_num) (rnd_of_int 50000 50000 (by norm_num) (by norm_num)))
    (rnd_congr (by norm_num) (rnd_of_int 500 500 (by norm_num) (by norm_num)))

theorem TotalProfit_req2 : TotalProfit [req2] = F64.fin 500 := by
  apply TotalProfit_eval [req2] 500 500 _ (roundToTwoDecimals_eval 500 50000 50000 500 (rnd_congr
      (by norm_num) (rnd_of_int 50000 50000 (by norm_num) (by norm_num))) (mathRound_nonneg_eval
      50000 50000 50000 (by norm_num) (by norm_num) (by norm_num) (by norm_num)) (rnd_congr
      (by norm_num) (rnd_of_int 500 500 (by norm_num) (by norm_num))))
  rw [List.map_cons, List.map_nil]
  rw [foldl_add_cons_eval _ _ 0 500 500 absProfit_req2 (rnd_congr (by norm_num) (rnd_of_int 500 500
      (by norm_num) (by norm_num))), List.foldl_nil]

theorem absProfit_req3 : absProfit req3 = F64.fin 450 :=
  absProfit_eval req3 1500 30 45000 450 rfl rfl
    (rnd_congr (by norm_num) (rnd_of_int 45000 45000 (by norm_num) (by norm_num)))
    (rnd_congr (by norm_num) (rnd_of_int 450 450 (by norm_num) (by norm_num)))

theorem TotalProfit_req3 : TotalProfit [req3] = F64.fin 450 := by
  apply TotalProfit_eval [req3] 450 450 _ (roundToTwoDecimals_eval 450 45000 45000 450 (rnd_congr
      (by norm_num) (rnd_of_int 45000 45000 (by norm_num) (by norm_num))) (mathRound_nonneg_eval
      45000 45000 45000 (by norm_num) (by norm_num) (by norm_num) (by norm_num)) (rnd_congr
      (by norm_num) (rnd_of_int 450 450 (by norm_num) (by norm_num))))
  rw [List.map_cons, List.map_nil]
  rw [foldl_add_cons_eval _ _ 0 450 450 absProfit_req3 (rnd_congr (by norm_num) (rnd_of_int 450 450
      (by norm_num) (by norm_num))), List.foldl_nil]

theorem TotalProfit_req1_req3 : TotalProfit [req1, req3] = F64.fin 650 := by
  apply TotalProfit_eval [req1, req3] 650 650 _ (roundToTwoDecimals_eval 650 65000 65000 650
      (rnd_congr (by norm_num) (rnd_of_int 65000 65000 (by norm_num) (by norm_num)))
      (mathRound_nonneg_eval 65000 65000 65000 (by norm_num) (by norm_num) (by norm_num)
      (by norm_num)) (rnd_congr (by norm_num) (rnd_of_int 650 650 (by norm_num) (by norm_num))))
  rw [List.map_cons, List.map_cons, List.map_nil]
  rw [foldl_add_cons_eval _ _ 0 200 200 absProfit_req1 (rnd_congr (by norm_num) (rnd_of_int 200 200
      (by norm_num) (by norm_num))),
    foldl_add_cons_eval _ _ 200 450 650 absProfit_req3 (rnd_congr (by norm_num) (rnd_of_int 650 650
        (by norm_num) (by norm_num))), List.foldl_nil]

theorem TotalProfit_req2_req3 : TotalProfit [req2, req3] = F64.fin 950 := by
  apply TotalProfit_eval [req2, req3] 950 950 _ (roundToTwoDecimals_eval 950 95000 95000 950
      (rnd_congr (by norm_num) (rnd_of_int 95000 95000 (by norm_num) (by norm_num)))
      (mathRound_nonneg_eval 95000 95000 95000 (by norm_num) (by norm_num) (by norm_num)
      (by norm_num)) (rnd_congr (by norm_num) (rnd_of_int 950 950 (by norm_num) (by norm_num))))
  rw [List.map_cons, List.map_cons, List.map_nil]
  rw [foldl_add_cons_eval _ _ 0 500 500 absProfit_req2 (rnd_congr (by norm_num) (rnd_of_int 500 500
      (by norm_num) (by norm_num))),
    foldl_add_cons_eval _ _ 500 450 950 absProfit_req3 (rnd_congr (by norm_num) (rnd_of_int 950 950
        (by norm_num) (by norm_num))), List.foldl_nil]

theorem findBestCombination_req1_req2_req3 (ovf : Nat → Int) :
    findBestCombination (allCombinations ovf [req1, req2, req3]) = [req2, req3] := by
  have e : allCombinations ovf [req1, req2, req3]
      = [[req1], [req2], [req1, req2], [req3], [req1, req3], [req2, req3], [req1, req2, req3]] :=
          rfl
  have o0 : HasOverlaps [req1] = false := by decide
  have o1 : HasOverlaps [req2] = false := by decide
  have o2 : HasOverlaps [req1, req2] = true := by decide
  have o3 : HasOverlaps [req3] = false := by decide
  have o4 : HasOverlaps [req1, req3] = false := by decide
  have o5 : HasOverlaps [req2, req3] = false := by decide
  have o6 : HasOverlaps [req1, req2, req3] = true := by decide
  rw [findBestCombination_eq, e]
  rw [List.foldl_cons,
    bestStep_of_gt _ (-1) 200 _ o0 TotalProfit_req1 (by norm_num),
    List.foldl_cons,
    bestStep_of_gt _ 200 500 _ o1 TotalProfit_req2 (by norm_num),
    List.foldl_cons,
    bestStep_of_overlap _ _ o2,
    List.foldl_cons,
    bestStep_of_le _ 500 450 _ TotalProfit_req3 (by norm_num),
    List.foldl_cons,
    bestStep_of_gt _ 500 650 _ o4 TotalProfit_req1_req3 (by norm_num),
    List.foldl_cons,
    bestStep_of_gt _ 650 950 _ o5 TotalProfit_req2_req3 (by norm_num),
    List.foldl_cons,
    bestStep_of_overlap _ _ o6, List.foldl_nil]

theorem ProfitPerNight_req2 : ProfitPerNight req2 = F64.fin (5864179296045629 / 35184372088832) :=
  ProfitPerNight_eval req2 500 3 (5864062014805333 / 35184372088832) (5864179296045629 /
      35184372088832) (by decide) absProfit_req2
    (ofInt_eval _ (by decide) _ (by norm_num [req2])) (by norm_num)
    (rnd_congr (by norm_num) (rnd_of_near_pos (500 / 3) (5864062014805333 / 35184372088832) (-45)
        5864062014805333 (by norm_num) (by norm_num) (by norm_num) (by norm_num) (by norm_num)
        (by norm_num) (by norm_num)))
    (roundToTwoDecimals_eval (5864062014805333 / 35184372088832) (2290649224533333 / 137438953472)
        16667 (5864179296045629 / 35184372088832) (rnd_congr (by norm_num) (rnd_of_near_pos
        (146601550370133325 / 8796093022208) (2290649224533333 / 137438953472) (-38)
        4581298449066666 (by norm_num) (by norm_num) (by norm_num) (by norm_num) (by norm_num)
        (by norm_num) (by norm_num))) (mathRound_nonneg_eval (2290649224533333 / 137438953472) 16667
        16667 (by norm_num) (by norm_num) (by norm_num) (by norm_num)) (rnd_congr (by norm_num)
        (rnd_of_near_pos (16667 / 100) (5864179296045629 / 35184372088832) (-45) 5864179296045629
        (by norm_num) (by norm_num) (by norm_num) (by norm_num) (by norm_num) (by norm_num)
        (by norm_num))))

theorem ProfitPerNight_req3 : ProfitPerNight req3 = F64.fin 150 :=
  ProfitPerNight_eval req3 450 3 150 150 (by decide) absProfit_req3
    (ofInt_eval _ (by decide) _ (by norm_num [req3])) (by norm_num)
    (rnd_congr (by norm_num) (rnd_of_int 150 150 (by norm_num) (by norm_num)))
    (roundToTwoDecimals_eval 150 15000 15000 150 (rnd_congr (by norm_num) (rnd_of_int 15000 15000
        (by norm_num) (by norm_num))) (mathRound_nonneg_eval 15000 15000 15000 (by norm_num)
        (by norm_num) (by norm_num) (by norm_num)) (rnd_congr (by norm_num) (rnd_of_int 150 150
        (by norm_num) (by norm_num))))

theorem CalculateStats_req2_req3 :
    CalculateStats [req2, req3] = ⟨F64.fin (5570741632824771 / 35184372088832), F64.fin 150, F64.fin
        (5864179296045629 / 35184372088832)⟩ := by
  have hps : [req2, req3].map ProfitPerNight = [F64.fin (5864179296045629 / 35184372088832), F64.fin
      150] := by
    rw [List.map_cons, List.map_cons, List.map_nil, ProfitPerNight_req2, ProfitPerNight_req3]
  have hs : ([F64.fin (5864179296045629 / 35184372088832), F64.fin 150] : List F64).foldl F64.add
      (F64.fin 0) = F64.fin (2785458777342607 / 8796093022208) := by
    rw [foldl_add_cons_eval _ _ 0 (5864179296045629 / 35184372088832) (5864179296045629 /
        35184372088832) rfl (rnd_congr (by norm_num) (rnd_of_dyadic (5864179296045629 /
        35184372088832) 5864179296045629 (-45) (by norm_num) (by norm_num) (by norm_num)
        (by norm_num))),
      foldl_add_cons_eval _ _ (5864179296045629 / 35184372088832) 150 (2785458777342607 /
          8796093022208) rfl (rnd_congr (by norm_num) (rnd_of_tie_pos (11141835109370429 /
          35184372088832) (2785458777342607 / 8796093022208) (-44) 5570917554685214 (by norm_num)
          (by norm_num) (by norm_num) (by norm_num) (by norm_num [abs_of_pos, abs_of_neg])
          (by norm_num) (by norm_num))), List.foldl_nil]
  have hmn : ([F64.fin (5864179296045629 / 35184372088832), F64.fin 150] : List F64).foldl (fun mn p
      => if F64.lt p mn then p else mn) (F64.fin (5864179296045629 / 35184372088832))
      = F64.fin 150 := by
    rw [minStep_eval_ge _ (5864179296045629 / 35184372088832) (5864179296045629 / 35184372088832)
        (by norm_num),
      minStep_eval_lt _ 150 (5864179296045629 / 35184372088832) (by norm_num), List.foldl_nil]
  have hmx : ([F64.fin (5864179296045629 / 35184372088832), F64.fin 150] : List F64).foldl (fun mx p
      => if F64.lt mx p then p else mx) (F64.fin (5864179296045629 / 35184372088832))
      = F64.fin (5864179296045629 / 35184372088832) := by
    rw [maxStep_eval_ge _ (5864179296045629 / 35184372088832) (5864179296045629 / 35184372088832)
        (by norm_num),
      maxStep_eval_ge _ 150 (5864179296045629 / 35184372088832) (by norm_num), List.foldl_nil]
  exact CalculateStats_eval _ _ _ (5864179296045629 / 35184372088832) (2785458777342607 /
      8796093022208) 2 (2785458777342607 / 17592186044416) 150 (5864179296045629 / 35184372088832) _
      _ _ hps ProfitPerNight_req2 hs
    (ofInt_eval _ (by decide) _ (by norm_num)) (by norm_num)
    (rnd_congr (by norm_num) (rnd_of_dyadic (2785458777342607 / 17592186044416) 5570917554685214
        (-45) (by norm_num) (by norm_num) (by norm_num) (by norm_num))) hmn hmx
    (roundToTwoDecimals_eval (2785458777342607 / 17592186044416) (8704558679195647 / 549755813888)
        15833 (5570741632824771 / 35184372088832) (rnd_congr (by norm_num) (rnd_of_near_pos
        (69636469433565175 / 4398046511104) (8704558679195647 / 549755813888) (-39) 8704558679195647
        (by norm_num) (by norm_num) (by norm_num) (by norm_num) (by norm_num) (by norm_num)
        (by norm_num))) (mathRound_nonneg_eval (8704558679195647 / 549755813888) 15833 15833
        (by norm_num) (by norm_num) (by norm_num) (by norm_num)) (rnd_congr (by norm_num)
        (rnd_of_near_pos (15833 / 100) (5570741632824771 / 35184372088832) (-45) 5570741632824771
        (by norm_num) (by norm_num) (by norm_num) (by norm_num) (by norm_num) (by norm_num)
        (by norm_num))))
    (roundToTwoDecimals_eval 150 15000 15000 150 (rnd_congr (by norm_num) (rnd_of_int 15000 15000
        (by norm_num) (by norm_num))) (mathRound_nonneg_eval 15000 15000 15000 (by norm_num)
        (by norm_num) (by norm_num) (by norm_num)) (rnd_congr (by norm_num) (rnd_of_int 150 150
        (by norm_num) (by norm_num))))
    (roundToTwoDecimals_eval (5864179296045629 / 35184372088832) 16667 16667 (5864179296045629 /
        35184372088832) (rnd_congr (by norm_num) (rnd_of_near_pos (146604482401140725 /
        8796093022208) 16667 (-38) 4581390075035648 (by norm_num) (by norm_num) (by norm_num)
        (by norm_num) (by norm_num) (by norm_num) (by norm_num))) (mathRound_nonneg_eval 16667 16667
        16667 (by norm_num) (by norm_num) (by norm_num) (by norm_num)) (rnd_congr (by norm_num)
        (rnd_of_near_pos (16667 / 100) (5864179296045629 / 35184372088832) (-45) 5864179296045629
        (by norm_num) (by norm_num) (by norm_num) (by norm_num) (by norm_num) (by norm_num)
        (by norm_num))))

theorem MaximizeProfit_req1_req2_req3 (ovf : Nat → Int) :
    MaximizeProfit ovf [req1, req2, req3]
      = ⟨["req2", "req3"], F64.fin 950, F64.fin (5570741632824771 / 35184372088832), F64.fin 150,
          F64.fin (5864179296045629 / 35184372088832)⟩ := by
  rw [MaximizeProfit_eq, findBestCombination_req1_req2_req3, buildMaximizeResult_eq,
      TotalProfit_req2_req3, CalculateStats_req2_req3, RequestIDs_eq_map]
  rfl

theorem absProfit_zeroRate : absProfit zeroRate = F64.fin 0 :=
  absProfit_eval zeroRate 0 25 0 0 rfl rfl
    (rnd_congr (by norm_num) (rnd_of_int 0 0 (by norm_num) (by norm_num)))
    (rnd_congr (by norm_num) (rnd_of_int 0 0 (by norm_num) (by norm_num)))

theorem TotalProfit_zeroRate : TotalProfit [zeroRate] = F64.fin 0 := by
  apply TotalProfit_eval [zeroRate] 0 0 _ (roundToTwoDecimals_eval 0 0 0 0 (rnd_congr (by norm_num)
      (rnd_of_int 0 0 (by norm_num) (by norm_num))) (mathRound_nonneg_eval 0 0 0 (by norm_num)
      (by norm_num) (by norm_num) (by norm_num)) (rnd_congr (by norm_num) (rnd_of_int 0 0
      (by norm_num) (by norm_num))))
  rw [List.map_cons, List.map_nil]
  rw [foldl_add_cons_eval _ _ 0 0 0 absProfit_zeroRate (rnd_congr (by norm_num) (rnd_of_int 0 0
      (by norm_num) (by norm_num))), List.foldl_nil]

theorem TotalProfit_req1_zeroRate : TotalProfit [req1, zeroRate] = F64.fin 200 := by
  apply TotalProfit_eval [req1, zeroRate] 200 200 _ (roundToTwoDecimals_eval 200 20000 20000 200
      (rnd_congr (by norm_num) (rnd_of_int 20000 20000 (by norm_num) (by norm_num)))
      (mathRound_nonneg_eval 20000 20000 20000 (by norm_num) (by norm_num) (by norm_num)
      (by norm_num)) (rnd_congr (by norm_num) (rnd_of_int 200 200 (by norm_num) (by norm_num))))
  rw [List.map_cons, List.map_cons, List.map_nil]
  rw [foldl_add_cons_eval _ _ 0 200 200 absProfit_req1 (rnd_congr (by norm_num) (rnd_of_int 200 200
      (by norm_num) (by norm_num))),
    foldl_add_cons_eval _ _ 200 0 200 absProfit_zeroRate (rnd_congr (by norm_num) (rnd_of_int 200
        200 (by norm_num) (by norm_num))), List.foldl_nil]

theorem findBestCombination_req1_zeroRate (ovf : Nat → Int) :
    findBestCombination (allCombinations ovf [req1, zeroRate]) = [req1] := by
  have e : allCombinations ovf [req1, zeroRate]
      = [[req1], [zeroRate], [req1, zeroRate]] := rfl
  have o0 : HasOverlaps [req1] = false := by decide
  have o1 : HasOverlaps [zeroRate] = false := by decide
  have o2 : HasOverlaps [req1, zeroRate] = false := by decide
  rw [findBestCombination_eq, e]
  rw [List.foldl_cons,
    bestStep_of_gt _ (-1) 200 _ o0 TotalProfit_req1 (by norm_num),
    List.foldl_cons,
    bestStep_of_le _ 200 0 _ TotalProfit_zeroRate (by norm_num),
    List.foldl_cons,
    bestStep_of_le _ 200 200 _ TotalProfit_req1_zeroRate (by norm_num), List.foldl_nil]

theorem ProfitPerNight_req1 : ProfitPerNight req1 = F64.fin (4691484174324859 / 70368744177664) :=
  ProfitPerNight_eval req1 200 3 (4691249611844267 / 70368744177664) (4691484174324859 /
      70368744177664) (by decide) absProfit_req1
    (ofInt_eval _ (by decide) _ (by norm_num [req1])) (by norm_num)
    (rnd_congr (by norm_num) (rnd_of_near_pos (200 / 3) (4691249611844267 / 70368744177664) (-46)
        4691249611844267 (by norm_num) (by norm_num) (by norm_num) (by norm_num) (by norm_num)
        (by norm_num) (by norm_num)))
    (roundToTwoDecimals_eval (4691249611844267 / 70368744177664) (7330077518506667 / 1099511627776)
        6667 (4691484174324859 / 70368744177664) (rnd_congr (by norm_num) (rnd_of_near_pos
        (117281240296106675 / 17592186044416) (7330077518506667 / 1099511627776) (-40)
        7330077518506667 (by norm_num) (by norm_num) (by norm_num) (by norm_num) (by norm_num)
        (by norm_num) (by norm_num))) (mathRound_nonneg_eval (7330077518506667 / 1099511627776) 6667
        6667 (by norm_num) (by norm_num) (by norm_num) (by norm_num)) (rnd_congr (by norm_num)
        (rnd_of_near_pos (6667 / 100) (4691484174324859 / 70368744177664) (-46) 4691484174324859
        (by norm_num) (by norm_num) (by norm_num) (by norm_num) (by norm_num) (by norm_num)
        (by norm_num))))

theorem CalculateStats_req1 :
    CalculateStats [req1] = ⟨F64.fin (4691484174324859 / 70368744177664), F64.fin (4691484174324859
        / 70368744177664), F64.fin (4691484174324859 / 70368744177664)⟩ := by
  have hps : [req1].map ProfitPerNight = [F64.fin (4691484174324859 / 70368744177664)] := by
    rw [List.map_cons, List.map_nil, ProfitPerNight_req1]
  have hs : ([F64.fin (4691484174324859 / 70368744177664)] : List F64).foldl F64.add (F64.fin 0) =
      F64.fin (4691484174324859 / 70368744177664) := by
    rw [foldl_add_cons_eval _ _ 0 (4691484174324859 / 70368744177664) (4691484174324859 /
        70368744177664) rfl (rnd_congr (by norm_num) (rnd_of_dyadic (4691484174324859 /
        70368744177664) 4691484174324859 (-46) (by norm_num) (by norm_num) (by norm_num)
        (by norm_num))), List.foldl_nil]
  have hmn : ([F64.fin (4691484174324859 / 70368744177664)] : List F64).foldl (fun mn p => if F64.lt
      p mn then p else mn) (F64.fin (4691484174324859 / 70368744177664))
      = F64.fin (4691484174324859 / 70368744177664) := by
    rw [minStep_eval_ge _ (4691484174324859 / 70368744177664) (4691484174324859 / 70368744177664)
        (by norm_num), List.foldl_nil]
  have hmx : ([F64.fin (4691484174324859 / 70368744177664)] : List F64).foldl (fun mx p => if F64.lt
      mx p then p else mx) (F64.fin (4691484174324859 / 70368744177664))
      = F64.fin (4691484174324859 / 70368744177664) := by
    rw [maxStep_eval_ge _ (4691484174324859 / 70368744177664) (4691484174324859 / 70368744177664)
        (by norm_num), List.foldl_nil]
  exact CalculateStats_eval _ _ _ (4691484174324859 / 70368744177664) (4691484174324859 /
      70368744177664) 1 (4691484174324859 / 70368744177664) (4691484174324859 / 70368744177664)
      (4691484174324859 / 70368744177664) _ _ _ hps ProfitPerNight_req1 hs
    (ofInt_eval _ (by decide) _ (by norm_num)) (by norm_num)
    (rnd_congr (by norm_num) (rnd_of_dyadic (4691484174324859 / 70368744177664) 4691484174324859
        (-46) (by norm_num) (by norm_num) (by norm_num) (by norm_num))) hmn hmx
    (roundToTwoDecimals_eval (4691484174324859 / 70368744177664) 6667 6667 (4691484174324859 /
        70368744177664) (rnd_congr (by norm_num) (rnd_of_near_pos (117287104358121475 /
        17592186044416) 6667 (-40) 7330444022382592 (by norm_num) (by norm_num) (by norm_num)
        (by norm_num) (by norm_num) (by norm_num) (by norm_num))) (mathRound_nonneg_eval 6667 6667
        6667 (by norm_num) (by norm_num) (by norm_num) (by norm_num)) (rnd_congr (by norm_num)
        (rnd_of_near_pos (6667 / 100) (4691484174324859 / 70368744177664) (-46) 4691484174324859
        (by norm_num) (by norm_num) (by norm_num) (by norm_num) (by norm_num) (by norm_num)
        (by norm_num))))
    (roundToTwoDecimals_eval (4691484174324859 / 70368744177664) 6667 6667 (4691484174324859 /
        70368744177664) (rnd_congr (by norm_num) (rnd_of_near_pos (117287104358121475 /
        17592186044416) 6667 (-40) 7330444022382592 (by norm_num) (by norm_num) (by norm_num)
        (by norm_num) (by norm_num) (by norm_num) (by norm_num))) (mathRound_nonneg_eval 6667 6667
        6667 (by norm_num) (by norm_num) (by norm_num) (by norm_num)) (rnd_congr (by norm_num)
        (rnd_of_near_pos (6667 / 100) (4691484174324859 / 70368744177664) (-46) 4691484174324859
        (by norm_num) (by norm_num) (by norm_num) (by norm_num) (by norm_num) (by norm_num)
        (by norm_num))))
    (roundToTwoDecimals_eval (4691484174324859 / 70368744177664) 6667 6667 (4691484174324859 /
        70368744177664) (rnd_congr (by norm_num) (rnd_of_near_pos (117287104358121475 /
        17592186044416) 6667 (-40) 7330444022382592 (by norm_num) (by norm_num) (by norm_num)
        (by norm_num) (by norm_num) (by norm_num) (by norm_num))) (mathRound_nonneg_eval 6667 6667
        6667 (by norm_num) (by norm_num) (by norm_num) (by norm_num)) (rnd_congr (by norm_num)
        (rnd_of_near_pos (6667 / 100) (4691484174324859 / 70368744177664) (-46) 4691484174324859
        (by norm_num) (by norm_num) (by norm_num) (by norm_num) (by norm_num) (by norm_num)
        (by norm_num))))

theorem MaximizeProfit_req1_zeroRate (ovf : Nat → Int) :
    MaximizeProfit ovf [req1, zeroRate]
      = ⟨["req1"], F64.fin 200, F64.fin (4691484174324859 / 70368744177664), F64.fin
          (4691484174324859 / 70368744177664), F64.fin (4691484174324859 / 70368744177664)⟩ := by
  rw [MaximizeProfit_eq, findBestCombination_req1_zeroRate, buildMaximizeResult_eq,
      TotalProfit_req1, CalculateStats_req1, RequestIDs_eq_map]
  rfl

theorem absProfit_req2Later : absProfit req2Later = F64.fin 500 :=
  absProfit_eval req2Later 2000 25 50000 500 rfl rfl
    (rnd_congr (by norm_num) (rnd_of_int 50000 50000 (by norm_num) (by norm_num)))
    (rnd_congr (by norm_num) (rnd_of_int 500 500 (by norm_num) (by norm_num)))

theorem TotalProfit_req2Later : TotalProfit [req2Later] = F64.fin 500 := by
  apply TotalProfit_eval [req2Later] 500 500 _ (roundToTwoDecimals_eval 500 50000 50000 500
      (rnd_congr (by norm_num) (rnd_of_int 50000 50000 (by norm_num) (by norm_num)))
      (mathRound_nonneg_eval 50000 50000 50000 (by norm_num) (by norm_num) (by norm_num)
      (by norm_num)) (rnd_congr (by norm_num) (rnd_of_int 500 500 (by norm_num) (by norm_num))))
  rw [List.map_cons, List.map_nil]
  rw [foldl_add_cons_eval _ _ 0 500 500 absProfit_req2Later (rnd_congr (by norm_num) (rnd_of_int 500
      500 (by norm_num) (by norm_num))), List.foldl_nil]

theorem TotalProfit_req1_req2Later : TotalProfit [req1, req2Later] = F64.fin 700 := by
  apply TotalProfit_eval [req1, req2Later] 700 700 _ (roundToTwoDecimals_eval 700 70000 70000 700
      (rnd_congr (by norm_num) (rnd_of_int 70000 70000 (by norm_num) (by norm_num)))
      (mathRound_nonneg_eval 70000 70000 70000 (by norm_num) (by norm_num) (by norm_num)
      (by norm_num)) (rnd_congr (by norm_num) (rnd_of_int 700 700 (by norm_num) (by norm_num))))
  rw [List.map_cons, List.map_cons, List.map_nil]
  rw [foldl_add_cons_eval _ _ 0 200 200 absProfit_req1 (rnd_congr (by norm_num) (rnd_of_int 200 200
      (by norm_num) (by norm_num))),
    foldl_add_cons_eval _ _ 200 500 700 absProfit_req2Later (rnd_congr (by norm_num) (rnd_of_int 700
        700 (by norm_num) (by norm_num))), List.foldl_nil]

theorem findBestCombination_req1_req2Later (ovf : Nat → Int) :
    findBestCombination (allCombinations ovf [req1, req2Later]) = [req1, req2Later] := by
  have e : allCombinations ovf [req1, req2Later]
      = [[req1], [req2Later], [req1, req2Later]] := rfl
  have o0 : HasOverlaps [req1] = false := by decide
  have o1 : HasOverlaps [req2Later] = false := by decide
  have o2 : HasOverlaps [req1, req2Later] = false := by decide
  rw [findBestCombination_eq, e]
  rw [List.foldl_cons,
    bestStep_of_gt _ (-1) 200 _ o0 TotalProfit_req1 (by norm_num),
    List.foldl_cons,
    bestStep_of_gt _ 200 500 _ o1 TotalProfit_req2Later (by norm_num),
    List.foldl_cons,
    bestStep_of_gt _ 500 700 _ o2 TotalProfit_req1_req2Later (by norm_num), List.foldl_nil]

theorem ProfitPerNight_req2Later : ProfitPerNight req2Later = F64.fin (5864179296045629 /
    35184372088832) :=
  ProfitPerNight_eval req2Later 500 3 (5864062014805333 / 35184372088832) (5864179296045629 /
      35184372088832) (by decide) absProfit_req2Later
    (ofInt_eval _ (by decide) _ (by norm_num [req2Later])) (by norm_num)
    (rnd_congr (by norm_num) (rnd_of_near_pos (500 / 3) (5864062014805333 / 35184372088832) (-45)
        5864062014805333 (by norm_num) (by norm_num) (by norm_num) (by norm_num) (by norm_num)
        (by norm_num) (by norm_num)))
    (roundToTwoDecimals_eval (5864062014805333 / 35184372088832) (2290649224533333 / 137438953472)
        16667 (5864179296045629 / 35184372088832) (rnd_congr (by norm_num) (rnd_of_near_pos
        (146601550370133325 / 8796093022208) (2290649224533333 / 137438953472) (-38)
        4581298449066666 (by norm_num) (by norm_num) (by norm_num) (by norm_num) (by norm_num)
        (by norm_num) (by norm_num))) (mathRound_nonneg_eval (2290649224533333 / 137438953472) 16667
        16667 (by norm_num) (by norm_num) (by norm_num) (by norm_num)) (rnd_congr (by norm_num)
        (rnd_of_near_pos (16667 / 100) (5864179296045629 / 35184372088832) (-45) 5864179296045629
        (by norm_num) (by norm_num) (by norm_num) (by norm_num) (by norm_num) (by norm_num)
        (by norm_num))))

theorem CalculateStats_req1_req2Later :
    CalculateStats [req1, req2Later] = ⟨F64.fin (8209921383208059 / 70368744177664), F64.fin
        (4691484174324859 / 70368744177664), F64.fin (5864179296045629 / 35184372088832)⟩ := by
  have hps : [req1, req2Later].map ProfitPerNight = [F64.fin (4691484174324859 / 70368744177664),
      F64.fin (5864179296045629 / 35184372088832)] := by
    rw [List.map_cons, List.map_cons, List.map_nil, ProfitPerNight_req1, ProfitPerNight_req2Later]
  have hs : ([F64.fin (4691484174324859 / 70368744177664), F64.fin (5864179296045629 /
      35184372088832)] : List F64).foldl F64.add (F64.fin 0) = F64.fin (4104960691604029 /
      17592186044416) := by
    rw [foldl_add_cons_eval _ _ 0 (4691484174324859 / 70368744177664) (4691484174324859 /
        70368744177664) rfl (rnd_congr (by norm_num) (rnd_of_dyadic (4691484174324859 /
        70368744177664) 4691484174324859 (-46) (by norm_num) (by norm_num) (by norm_num)
        (by norm_num))),
      foldl_add_cons_eval _ _ (4691484174324859 / 70368744177664) (5864179296045629 /
          35184372088832) (4104960691604029 / 17592186044416) rfl (rnd_congr (by norm_num)
          (rnd_of_tie_pos (16419842766416117 / 70368744177664) (4104960691604029 / 17592186044416)
          (-45) 8209921383208058 (by norm_num) (by norm_num) (by norm_num) (by norm_num)
          (by norm_num [abs_of_pos, abs_of_neg]) (by norm_num) (by norm_num))), List.foldl_nil]
  have hmn : ([F64.fin (4691484174324859 / 70368744177664), F64.fin (5864179296045629 /
      35184372088832)] : List F64).foldl (fun mn p => if F64.lt p mn then p else mn) (F64.fin
      (4691484174324859 / 70368744177664))
      = F64.fin (4691484174324859 / 70368744177664) := by
    rw [minStep_eval_ge _ (4691484174324859 / 70368744177664) (4691484174324859 / 70368744177664)
        (by norm_num),
      minStep_eval_ge _ (5864179296045629 / 35184372088832) (4691484174324859 / 70368744177664)
          (by norm_num), List.foldl_nil]
  have hmx : ([F64.fin (4691484174324859 / 70368744177664), F64.fin (5864179296045629 /
      35184372088832)] : List F64).foldl (fun mx p => if F64.lt mx p then p else mx) (F64.fin
      (4691484174324859 / 70368744177664))
      = F64.fin (5864179296045629 / 35184372088832) := by
    rw [maxStep_eval_ge _ (4691484174324859 / 70368744177664) (4691484174324859 / 70368744177664)
        (by norm_num),
      maxStep_eval_lt _ (5864179296045629 / 35184372088832) (4691484174324859 / 70368744177664)
          (by norm_num), List.foldl_nil]
  exact CalculateStats_eval _ _ _ (4691484174324859 / 70368744177664) (4104960691604029 /
      17592186044416) 2 (4104960691604029 / 35184372088832) (4691484174324859 / 70368744177664)
      (5864179296045629 / 35184372088832) _ _ _ hps ProfitPerNight_req1 hs
    (ofInt_eval _ (by decide) _ (by norm_num)) (by norm_num)
    (rnd_congr (by norm_num) (rnd_of_dyadic (4104960691604029 / 35184372088832) 8209921383208058
        (-46) (by norm_num) (by norm_num) (by norm_num) (by norm_num))) hmn hmx
    (roundToTwoDecimals_eval (4104960691604029 / 35184372088832) (6414001080631295 / 549755813888)
        11667 (8209921383208059 / 70368744177664) (rnd_congr (by norm_num) (rnd_of_near_pos
        (102624017290100725 / 8796093022208) (6414001080631295 / 549755813888) (-39)
        6414001080631295 (by norm_num) (by norm_num) (by norm_num) (by norm_num) (by norm_num)
        (by norm_num) (by norm_num))) (mathRound_nonneg_eval (6414001080631295 / 549755813888) 11667
        11667 (by norm_num) (by norm_num) (by norm_num) (by norm_num)) (rnd_congr (by norm_num)
        (rnd_of_near_pos (11667 / 100) (8209921383208059 / 70368744177664) (-46) 8209921383208059
        (by norm_num) (by norm_num) (by norm_num) (by norm_num) (by norm_num) (by norm_num)
        (by norm_num))))
    (roundToTwoDecimals_eval (4691484174324859 / 70368744177664) 6667 6667 (4691484174324859 /
        70368744177664) (rnd_congr (by norm_num) (rnd_of_near_pos (117287104358121475 /
        17592186044416) 6667 (-40) 7330444022382592 (by norm_num) (by norm_num) (by norm_num)
        (by norm_num) (by norm_num) (by norm_num) (by norm_num))) (mathRound_nonneg_eval 6667 6667
        6667 (by norm_num) (by norm_num) (by norm_num) (by norm_num)) (rnd_congr (by norm_num)
        (rnd_of_near_pos (6667 / 100) (4691484174324859 / 70368744177664) (-46) 4691484174324859
        (by norm_num) (by norm_num) (by norm_num) (by norm_num) (by norm_num) (by norm_num)
        (by norm_num))))
    (roundToTwoDecimals_eval (5864179296045629 / 35184372088832) 16667 16667 (5864179296045629 /
        35184372088832) (rnd_congr (by norm_num) (rnd_of_near_pos (146604482401140725 /
        8796093022208) 16667 (-38) 4581390075035648 (by norm_num) (by norm_num) (by norm_num)
        (by norm_num) (by norm_num) (by norm_num) (by norm_num))) (mathRound_nonneg_eval 16667 16667
        16667 (by norm_num) (by norm_num) (by norm_num) (by norm_num)) (rnd_congr (by norm_num)
        (rnd_of_near_pos (16667 / 100) (5864179296045629 / 35184372088832) (-45) 5864179296045629
        (by norm_num) (by norm_num) (by norm_num) (by norm_num) (by norm_num) (by norm_num)
        (by norm_num))))

theorem MaximizeProfit_req1_req2Later (ovf : Nat → Int) :
    MaximizeProfit ovf [req1, req2Later]
      = ⟨["req1", "req2"], F64.fin 700, F64.fin (8209921383208059 / 70368744177664), F64.fin
          (4691484174324859 / 70368744177664), F64.fin (5864179296045629 / 35184372088832)⟩ := by
  rw [MaximizeProfit_eq, findBestCombination_req1_req2Later, buildMaximizeResult_eq,
      TotalProfit_req1_req2Later, CalculateStats_req1_req2Later, RequestIDs_eq_map]
  rfl

theorem absProfit_req1Twin : absProfit req1Twin = F64.fin 200 :=
  absProfit_eval req1Twin 1000 20 20000 200 rfl rfl
    (rnd_congr (by norm_num) (rnd_of_int 20000 20000 (by norm_num) (by norm_num)))
    (rnd_congr (by norm_num) (rnd_of_int 200 200 (by norm_num) (by norm_num)))

theorem TotalProfit_req1Twin : TotalProfit [req1Twin] = F64.fin 200 := by
  apply TotalProfit_eval [req1Twin] 200 200 _ (roundToTwoDecimals_eval 200 20000 20000 200
      (rnd_congr (by norm_num) (rnd_of_int 20000 20000 (by norm_num) (by norm_num)))
      (mathRound_nonneg_eval 20000 20000 20000 (by norm_num) (by norm_num) (by norm_num)
      (by norm_num)) (rnd_congr (by norm_num) (rnd_of_int 200 200 (by norm_num) (by norm_num))))
  rw [List.map_cons, List.map_nil]
  rw [foldl_add_cons_eval _ _ 0 200 200 absProfit_req1Twin (rnd_congr (by norm_num) (rnd_of_int 200
      200 (by norm_num) (by norm_num))), List.foldl_nil]

theorem findBestCombination_req1_req1Twin (ovf : Nat → Int) :
    findBestCombination (allCombinations ovf [req1, req1Twin]) = [req1] := by
  have e : allCombinations ovf [req1, req1Twin]
      = [[req1], [req1Twin], [req1, req1Twin]] := rfl
  have o0 : HasOverlaps [req1] = false := by decide
  have o1 : HasOverlaps [req1Twin] = false := by decide
  have o2 : HasOverlaps [req1, req1Twin] = true := by decide
  rw [findBestCombination_eq, e]
  rw [List.foldl_cons,
    bestStep_of_gt _ (-1) 200 _ o0 TotalProfit_req1 (by norm_num),
    List.foldl_cons,
    bestStep_of_le _ 200 200 _ TotalProfit_req1Twin (by norm_num),
    List.foldl_cons,
    bestStep_of_overlap _ _ o2, List.foldl_nil]

theorem MaximizeProfit_req1_req1Twin (ovf : Nat → Int) :
    MaximizeProfit ovf [req1, req1Twin]
      = ⟨["req1"], F64.fin 200, F64.fin (4691484174324859 / 70368744177664), F64.fin
          (4691484174324859 / 70368744177664), F64.fin (4691484174324859 / 70368744177664)⟩ := by
  rw [MaximizeProfit_eq, findBestCombination_req1_req1Twin, buildMaximizeResult_eq,
      TotalProfit_req1, CalculateStats_req1, RequestIDs_eq_map]
  rfl

theorem absProfit_req1Short : absProfit req1Short = F64.fin 200 :=
  absProfit_eval req1Short 1000 20 20000 200 rfl rfl
    (rnd_congr (by norm_num) (rnd_of_int 20000 20000 (by norm_num) (by norm_num)))
    (rnd_congr (by norm_num) (rnd_of_int 200 200 (by norm_num) (by norm_num)))

theorem TotalProfit_req1Short : TotalProfit [req1Short] = F64.fin 200 := by
  apply TotalProfit_eval [req1Short] 200 200 _ (roundToTwoDecimals_eval 200 20000 20000 200
      (rnd_congr (by norm_num) (rnd_of_int 20000 20000 (by norm_num) (by norm_num)))
      (mathRound_nonneg_eval 20000 20000 20000 (by norm_num) (by norm_num) (by norm_num)
      (by norm_num)) (rnd_congr (by norm_num) (rnd_of_int 200 200 (by norm_num) (by norm_num))))
  rw [List.map_cons, List.map_nil]
  rw [foldl_add_cons_eval _ _ 0 200 200 absProfit_req1Short (rnd_congr (by norm_num) (rnd_of_int 200
      200 (by norm_num) (by norm_num))), List.foldl_nil]

theorem findBestCombination_req1_req1Short (ovf : Nat → Int) :
    findBestCombination (allCombinations ovf [req1, req1Short]) = [req1] := by
  have e : allCombinations ovf [req1, req1Short]
      = [[req1], [req1Short], [req1, req1Short]] := rfl
  have o0 : HasOverlaps [req1] = false := by decide
  have o1 : HasOverlaps [req1Short] = false := by decide
  have o2 : HasOverlaps [req1, req1Short] = true := by decide
  rw [findBestCombination_eq, e]
  rw [List.foldl_cons,
    bestStep_of_gt _ (-1) 200 _ o0 TotalProfit_req1 (by norm_num),
    List.foldl_cons,
    bestStep_of_le _ 200 200 _ TotalProfit_req1Short (by norm_num),
    List.foldl_cons,
    bestStep_of_overlap _ _ o2, List.foldl_nil]

theorem MaximizeProfit_req1_req1Short (ovf : Nat → Int) :
    MaximizeProfit ovf [req1, req1Short]
      = ⟨["req1"], F64.fin 200, F64.fin (4691484174324859 / 70368744177664), F64.fin
          (4691484174324859 / 70368744177664), F64.fin (4691484174324859 / 70368744177664)⟩ := by
  rw [MaximizeProfit_eq, findBestCombination_req1_req1Short, buildMaximizeResult_eq,
      TotalProfit_req1, CalculateStats_req1, RequestIDs_eq_map]
  rfl

theorem findBestCombination_req1Short_req1 (ovf : Nat → Int) :
    findBestCombination (allCombinations ovf [req1Short, req1]) = [req1Short] := by
  have e : allCombinations ovf [req1Short, req1]
      = [[req1Short], [req1], [req1Short, req1]] := rfl
  have o0 : HasOverlaps [req1Short] = false := by decide
  have o1 : HasOverlaps [req1] = false := by decide
  have o2 : HasOverlaps [req1Short, req1] = true := by decide
  rw [findBestCombination_eq, e]
  rw [List.foldl_cons,
    bestStep_of_gt _ (-1) 200 _ o0 TotalProfit_req1Short (by norm_num),
    List.foldl_cons,
    bestStep_of_le _ 200 200 _ TotalProfit_req1 (by norm_num),
    List.foldl_cons,
    bestStep_of_overlap _ _ o2, List.foldl_nil]

theorem ProfitPerNight_req1Short : ProfitPerNight req1Short = F64.fin 100 :=
  ProfitPerNight_eval req1Short 200 2 100 100 (by decide) absProfit_req1Short
    (ofInt_eval _ (by decide) _ (by norm_num [req1Short])) (by norm_num)
    (rnd_congr (by norm_num) (rnd_of_int 100 100 (by norm_num) (by norm_num)))
    (roundToTwoDecimals_eval 100 10000 10000 100 (rnd_congr (by norm_num) (rnd_of_int 10000 10000
        (by norm_num) (by norm_num))) (mathRound_nonneg_eval 10000 10000 10000 (by norm_num)
        (by norm_num) (by norm_num) (by norm_num)) (rnd_congr (by norm_num) (rnd_of_int 100 100
        (by norm_num) (by norm_num))))

theorem CalculateStats_req1Short :
    CalculateStats [req1Short] = ⟨F64.fin 100, F64.fin 100, F64.fin 100⟩ := by
  have hps : [req1Short].map ProfitPerNight = [F64.fin 100] := by
    rw [List.map_cons, List.map_nil, ProfitPerNight_req1Short]
  have hs : ([F64.fin 100] : List F64).foldl F64.add (F64.fin 0) = F64.fin 100 := by
    rw [foldl_add_cons_eval _ _ 0 100 100 rfl (rnd_congr (by norm_num) (rnd_of_int 100 100
        (by norm_num) (by norm_num))), List.foldl_nil]
  have hmn : ([F64.fin 100] : List F64).foldl (fun mn p => if F64.lt p mn then p else mn) (F64.fin
      100)
      = F64.fin 100 := by
    rw [minStep_eval_ge _ 100 100 (by norm_num), List.foldl_nil]
  have hmx : ([F64.fin 100] : List F64).foldl (fun mx p => if F64.lt mx p then p else mx) (F64.fin
      100)
      = F64.fin 100 := by
    rw [maxStep_eval_ge _ 100 100 (by norm_num), List.foldl_nil]
  exact CalculateStats_eval _ _ _ 100 100 1 100 100 100 _ _ _ hps ProfitPerNight_req1Short hs
    (ofInt_eval _ (by decide) _ (by norm_num)) (by norm_num)
    (rnd_congr (by norm_num) (rnd_of_int 100 100 (by norm_num) (by norm_num))) hmn hmx
    (roundToTwoDecimals_eval 100 10000 10000 100 (rnd_congr (by norm_num) (rnd_of_int 10000 10000
        (by norm_num) (by norm_num))) (mathRound_nonneg_eval 10000 10000 10000 (by norm_num)
        (by norm_num) (by norm_num) (by norm_num)) (rnd_congr (by norm_num) (rnd_of_int 100 100
        (by norm_num) (by norm_num))))
    (roundToTwoDecimals_eval 100 10000 10000 100 (rnd_congr (by norm_num) (rnd_of_int 10000 10000
        (by norm_num) (by norm_num))) (mathRound_nonneg_eval 10000 10000 10000 (by norm_num)
        (by norm_num) (by norm_num) (by norm_num)) (rnd_congr (by norm_num) (rnd_of_int 100 100
        (by norm_num) (by norm_num))))
    (roundToTwoDecimals_eval 100 10000 10000 100 (rnd_congr (by norm_num) (rnd_of_int 10000 10000
        (by norm_num) (by norm_num))) (mathRound_nonneg_eval 10000 10000 10000 (by norm_num)
        (by norm_num) (by norm_num) (by norm_num)) (rnd_congr (by norm_num) (rnd_of_int 100 100
        (by norm_num) (by norm_num))))

theorem MaximizeProfit_req1Short_req1 (ovf : Nat → Int) :
    MaximizeProfit ovf [req1Short, req1]
      = ⟨["short"], F64.fin 200, F64.fin 100, F64.fin 100, F64.fin 100⟩ := by
  rw [MaximizeProfit_eq, findBestCombination_req1Short_req1, buildMaximizeResult_eq,
      TotalProfit_req1Short, CalculateStats_req1Short, RequestIDs_eq_map]
  rfl

theorem TotalProfit_req2Later_req1 : TotalProfit [req2Later, req1] = F64.fin 700 := by
  apply TotalProfit_eval [req2Later, req1] 700 700 _ (roundToTwoDecimals_eval 700 70000 70000 700
      (rnd_congr (by norm_num) (rnd_of_int 70000 70000 (by norm_num) (by norm_num)))
      (mathRound_nonneg_eval 70000 70000 70000 (by norm_num) (by norm_num) (by norm_num)
      (by norm_num)) (rnd_congr (by norm_num) (rnd_of_int 700 700 (by norm_num) (by norm_num))))
  rw [List.map_cons, List.map_cons, List.map_nil]
  rw [foldl_add_cons_eval _ _ 0 500 500 absProfit_req2Later (rnd_congr (by norm_num) (rnd_of_int 500
      500 (by norm_num) (by norm_num))),
    foldl_add_cons_eval _ _ 500 200 700 absProfit_req1 (rnd_congr (by norm_num) (rnd_of_int 700 700
        (by norm_num) (by norm_num))), List.foldl_nil]

theorem findBestCombination_req2Later_req1 (ovf : Nat → Int) :
    findBestCombination (allCombinations ovf [req2Later, req1]) = [req2Later, req1] := by
  have e : allCombinations ovf [req2Later, req1]
      = [[req2Later], [req1], [req2Later, req1]] := rfl
  have o0 : HasOverlaps [req2Later] = false := by decide
  have o1 : HasOverlaps [req1] = false := by decide
  have o2 : HasOverlaps [req2Later, req1] = false := by decide
  rw [findBestCombination_eq, e]
  rw [List.foldl_cons,
    bestStep_of_gt _ (-1) 500 _ o0 TotalProfit_req2Later (by norm_num),
    List.foldl_cons,
    bestStep_of_le _ 500 200 _ TotalProfit_req1 (by norm_num),
    List.foldl_cons,
    bestStep_of_gt _ 500 700 _ o2 TotalProfit_req2Later_req1 (by norm_num), List.foldl_nil]

theorem CalculateStats_req2Later_req1 :
    CalculateStats [req2Later, req1] = ⟨F64.fin (8209921383208059 / 70368744177664), F64.fin
        (4691484174324859 / 70368744177664), F64.fin (5864179296045629 / 35184372088832)⟩ := by
  have hps : [req2Later, req1].map ProfitPerNight = [F64.fin (5864179296045629 / 35184372088832),
      F64.fin (4691484174324859 / 70368744177664)] := by
    rw [List.map_cons, List.map_cons, List.map_nil, ProfitPerNight_req2Later, ProfitPerNight_req1]
  have hs : ([F64.fin (5864179296045629 / 35184372088832), F64.fin (4691484174324859 /
      70368744177664)] : List F64).foldl F64.add (F64.fin 0) = F64.fin (4104960691604029 /
      17592186044416) := by
    rw [foldl_add_cons_eval _ _ 0 (5864179296045629 / 35184372088832) (5864179296045629 /
        35184372088832) rfl (rnd_congr (by norm_num) (rnd_of_dyadic (5864179296045629 /
        35184372088832) 5864179296045629 (-45) (by norm_num) (by norm_num) (by norm_num)
        (by norm_num))),
      foldl_add_cons_eval _ _ (5864179296045629 / 35184372088832) (4691484174324859 /
          70368744177664) (4104960691604029 / 17592186044416) rfl (rnd_congr (by norm_num)
          (rnd_of_tie_pos (16419842766416117 / 70368744177664) (4104960691604029 / 17592186044416)
          (-45) 8209921383208058 (by norm_num) (by norm_num) (by norm_num) (by norm_num)
          (by norm_num [abs_of_pos, abs_of_neg]) (by norm_num) (by norm_num))), List.foldl_nil]
  have hmn : ([F64.fin (5864179296045629 / 35184372088832), F64.fin (4691484174324859 /
      70368744177664)] : List F64).foldl (fun mn p => if F64.lt p mn then p else mn) (F64.fin
      (5864179296045629 / 35184372088832))
      = F64.fin (4691484174324859 / 70368744177664) := by
    rw [minStep_eval_ge _ (5864179296045629 / 35184372088832) (5864179296045629 / 35184372088832)
        (by norm_num),
      minStep_eval_lt _ (4691484174324859 / 70368744177664) (5864179296045629 / 35184372088832)
          (by norm_num), List.foldl_nil]
  have hmx : ([F64.fin (5864179296045629 / 35184372088832), F64.fin (4691484174324859 /
      70368744177664)] : List F64).foldl (fun mx p => if F64.lt mx p then p else mx) (F64.fin
      (5864179296045629 / 35184372088832))
      = F64.fin (5864179296045629 / 35184372088832) := by
    rw [maxStep_eval_ge _ (5864179296045629 / 35184372088832) (5864179296045629 / 35184372088832)
        (by norm_num),
      maxStep_eval_ge _ (4691484174324859 / 70368744177664) (5864179296045629 / 35184372088832)
          (by norm_num), List.foldl_nil]
  exact CalculateStats_eval _ _ _ (5864179296045629 / 35184372088832) (4104960691604029 /
      17592186044416) 2 (4104960691604029 / 35184372088832) (4691484174324859 / 70368744177664)
      (5864179296045629 / 35184372088832) _ _ _ hps ProfitPerNight_req2Later hs
    (ofInt_eval _ (by decide) _ (by norm_num)) (by norm_num)
    (rnd_congr (by norm_num) (rnd_of_dyadic (4104960691604029 / 35184372088832) 8209921383208058
        (-46) (by norm_num) (by norm_num) (by norm_num) (by norm_num))) hmn hmx
    (roundToTwoDecimals_eval (4104960691604029 / 35184372088832) (6414001080631295 / 549755813888)
        11667 (8209921383208059 / 70368744177664) (rnd_congr (by norm_num) (rnd_of_near_pos
        (102624017290100725 / 8796093022208) (6414001080631295 / 549755813888) (-39)
        6414001080631295 (by norm_num) (by norm_num) (by norm_num) (by norm_num) (by norm_num)
        (by norm_num) (by norm_num))) (mathRound_nonneg_eval (6414001080631295 / 549755813888) 11667
        11667 (by norm_num) (by norm_num) (by norm_num) (by norm_num)) (rnd_congr (by norm_num)
        (rnd_of_near_pos (11667 / 100) (8209921383208059 / 70368744177664) (-46) 8209921383208059
        (by norm_num) (by norm_num) (by norm_num) (by norm_num) (by norm_num) (by norm_num)
        (by norm_num))))
    (roundToTwoDecimals_eval (4691484174324859 / 70368744177664) 6667 6667 (4691484174324859 /
        70368744177664) (rnd_congr (by norm_num) (rnd_of_near_pos (117287104358121475 /
        17592186044416) 6667 (-40) 7330444022382592 (by norm_num) (by norm_num) (by norm_num)
        (by norm_num) (by norm_num) (by norm_num) (by norm_num))) (mathRound_nonneg_eval 6667 6667
        6667 (by norm_num) (by norm_num) (by norm_num) (by norm_num)) (rnd_congr (by norm_num)
        (rnd_of_near_pos (6667 / 100) (4691484174324859 / 70368744177664) (-46) 4691484174324859
        (by norm_num) (by norm_num) (by norm_num) (by norm_num) (by norm_num) (by norm_num)
        (by norm_num))))
    (roundToTwoDecimals_eval (5864179296045629 / 35184372088832) 16667 16667 (5864179296045629 /
        35184372088832) (rnd_congr (by norm_num) (rnd_of_near_pos (146604482401140725 /
        8796093022208) 16667 (-38) 4581390075035648 (by norm_num) (by norm_num) (by norm_num)
        (by norm_num) (by norm_num) (by norm_num) (by norm_num))) (mathRound_nonneg_eval 16667 16667
        16667 (by norm_num) (by norm_num) (by norm_num) (by norm_num)) (rnd_congr (by norm_num)
        (rnd_of_near_pos (16667 / 100) (5864179296045629 / 35184372088832) (-45) 5864179296045629
        (by norm_num) (by norm_num) (by norm_num) (by norm_num) (by norm_num) (by norm_num)
        (by norm_num))))

theorem MaximizeProfit_req2Later_req1 (ovf : Nat → Int) :
    MaximizeProfit ovf [req2Later, req1]
      = ⟨["req2", "req1"], F64.fin 700, F64.fin (8209921383208059 / 70368744177664), F64.fin
          (4691484174324859 / 70368744177664), F64.fin (5864179296045629 / 35184372088832)⟩ := by
  rw [MaximizeProfit_eq, findBestCombination_req2Later_req1, buildMaximizeResult_eq,
      TotalProfit_req2Later_req1, CalculateStats_req2Later_req1, RequestIDs_eq_map]
  rfl

theorem absProfit_smallLoss : absProfit smallLoss = F64.fin (-1 / 2) :=
  absProfit_eval smallLoss 50 (-1) (-50) (-1 / 2) rfl rfl
    (rnd_congr (by norm_num) (rnd_of_int (-50) (-50) (by norm_num) (by norm_num)))
    (rnd_congr (by norm_num) (rnd_of_dyadic (-1 / 2) (-4503599627370496) (-53) (by norm_num)
        (by norm_num) (by norm_num) (by norm_num)))

theorem TotalProfit_smallLoss : TotalProfit [smallLoss] = F64.fin (-1 / 2) := by
  apply TotalProfit_eval [smallLoss] (-1 / 2) (-1 / 2) _ (roundToTwoDecimals_eval (-1 / 2) (-50)
      (-50) (-1 / 2) (rnd_congr (by norm_num) (rnd_of_int (-50) (-50) (by norm_num) (by norm_num)))
      (mathRound_neg_eval (-50) (-50) 50 (by norm_num) (by norm_num) (by norm_num) (by norm_num))
      (rnd_congr (by norm_num) (rnd_of_dyadic (-1 / 2) (-4503599627370496) (-53) (by norm_num)
      (by norm_num) (by norm_num) (by norm_num))))
  rw [List.map_cons, List.map_nil]
  rw [foldl_add_cons_eval _ _ 0 (-1 / 2) (-1 / 2) absProfit_smallLoss (rnd_congr (by norm_num)
      (rnd_of_dyadic (-1 / 2) (-4503599627370496) (-53) (by norm_num) (by norm_num) (by norm_num)
      (by norm_num))), List.foldl_nil]

theorem findBestCombination_smallLoss (ovf : Nat → Int) :
    findBestCombination (allCombinations ovf [smallLoss]) = [smallLoss] := by
  have e : allCombinations ovf [smallLoss]
      = [[smallLoss]] := rfl
  have o0 : HasOverlaps [smallLoss] = false := by decide
  rw [findBestCombination_eq, e]
  rw [List.foldl_cons,
    bestStep_of_gt _ (-1) (-1 / 2) _ o0 TotalProfit_smallLoss (by norm_num), List.foldl_nil]

theorem absProfit_bigLoss : absProfit bigLoss = F64.fin (-200) :=
  absProfit_eval bigLoss 1000 (-20) (-20000) (-200) rfl rfl
    (rnd_congr (by norm_num) (rnd_of_int (-20000) (-20000) (by norm_num) (by norm_num)))
    (rnd_congr (by norm_num) (rnd_of_int (-200) (-200) (by norm_num) (by norm_num)))

theorem TotalProfit_bigLoss : TotalProfit [bigLoss] = F64.fin (-200) := by
  apply TotalProfit_eval [bigLoss] (-200) (-200) _ (roundToTwoDecimals_eval (-200) (-20000) (-20000)
      (-200) (rnd_congr (by norm_num) (rnd_of_int (-20000) (-20000) (by norm_num) (by norm_num)))
      (mathRound_neg_eval (-20000) (-20000) 20000 (by norm_num) (by norm_num) (by norm_num)
      (by norm_num)) (rnd_congr (by norm_num) (rnd_of_int (-200) (-200) (by norm_num)
      (by norm_num))))
  rw [List.map_cons, List.map_nil]
  rw [foldl_add_cons_eval _ _ 0 (-200) (-200) absProfit_bigLoss (rnd_congr (by norm_num) (rnd_of_int
      (-200) (-200) (by norm_num) (by norm_num))), List.foldl_nil]

theorem findBestCombination_bigLoss (ovf : Nat → Int) :
    findBestCombination (allCombinations ovf [bigLoss]) = [] := by
  have e : allCombinations ovf [bigLoss]
      = [[bigLoss]] := rfl
  have o0 : HasOverlaps [bigLoss] = false := by decide
  rw [findBestCombination_eq, e]
  rw [List.foldl_cons,
    bestStep_of_le _ (-1) (-200) _ TotalProfit_bigLoss (by norm_num), List.foldl_nil]

theorem MaximizeProfit_bigLoss (ovf : Nat → Int) :
    MaximizeProfit ovf [bigLoss] = ⟨[], F64.fin 0, F64.fin 0, F64.fin 0, F64.fin 0⟩ := by
  rw [MaximizeProfit_eq, findBestCombination_bigLoss]
  rfl

theorem absProfit_oddCents : absProfit oddCents = F64.fin (5224175567749775 / 18014398509481984) :=
  absProfit_eval oddCents 29 1 29 (5224175567749775 / 18014398509481984) rfl rfl
    (rnd_congr (by norm_num) (rnd_of_int 29 29 (by norm_num) (by norm_num)))
    (rnd_congr (by norm_num) (rnd_of_near_pos (29 / 100) (5224175567749775 / 18014398509481984)
        (-54) 5224175567749775 (by norm_num) (by norm_num) (by norm_num) (by norm_num) (by norm_num)
        (by norm_num) (by norm_num)))

theorem ProfitPerNight_oddCents : ProfitPerNight oddCents = F64.fin (1261007895663739 /
    9007199254740992) :=
  ProfitPerNight_eval oddCents (5224175567749775 / 18014398509481984) 2 (5224175567749775 /
      36028797018963968) (1261007895663739 / 9007199254740992) (by decide) absProfit_oddCents
    (ofInt_eval _ (by decide) _ (by norm_num [oddCents])) (by norm_num)
    (rnd_congr (by norm_num) (rnd_of_dyadic (5224175567749775 / 36028797018963968) 5224175567749775
        (-55) (by norm_num) (by norm_num) (by norm_num) (by norm_num)))
    (roundToTwoDecimals_eval (5224175567749775 / 36028797018963968) (8162774324609023 /
        562949953421312) 14 (1261007895663739 / 9007199254740992) (rnd_congr (by norm_num)
        (rnd_of_near_pos (130604389193744375 / 9007199254740992) (8162774324609023 /
        562949953421312) (-49) 8162774324609023 (by norm_num) (by norm_num) (by norm_num)
        (by norm_num) (by norm_num) (by norm_num) (by norm_num))) (mathRound_nonneg_eval
        (8162774324609023 / 562949953421312) 14 14 (by norm_num) (by norm_num) (by norm_num)
        (by norm_num)) (rnd_congr (by norm_num) (rnd_of_near_pos (7 / 50) (1261007895663739 /
        9007199254740992) (-55) 5044031582654956 (by norm_num) (by norm_num) (by norm_num)
        (by norm_num) (by norm_num) (by norm_num) (by norm_num))))

theorem absProfit_halfCent : absProfit halfCent = F64.fin (5224175567749775 / 36028797018963968) :=
  absProfit_eval halfCent (29 / 2) 1 (29 / 2) (5224175567749775 / 36028797018963968) rfl rfl
    (rnd_congr (by norm_num) (rnd_of_dyadic (29 / 2) 8162774324609024 (-49) (by norm_num)
        (by norm_num) (by norm_num) (by norm_num)))
    (rnd_congr (by norm_num) (rnd_of_near_pos (29 / 200) (5224175567749775 / 36028797018963968)
        (-55) 5224175567749775 (by norm_num) (by norm_num) (by norm_num) (by norm_num) (by norm_num)
        (by norm_num) (by norm_num)))

theorem TotalProfit_halfCent : TotalProfit [halfCent] = F64.fin (1261007895663739 /
    9007199254740992) := by
  apply TotalProfit_eval [halfCent] (5224175567749775 / 36028797018963968) (1261007895663739 /
      9007199254740992) _ (roundToTwoDecimals_eval (5224175567749775 / 36028797018963968)
      (8162774324609023 / 562949953421312) 14 (1261007895663739 / 9007199254740992) (rnd_congr
      (by norm_num) (rnd_of_near_pos (130604389193744375 / 9007199254740992) (8162774324609023 /
      562949953421312) (-49) 8162774324609023 (by norm_num) (by norm_num) (by norm_num)
      (by norm_num) (by norm_num) (by norm_num) (by norm_num))) (mathRound_nonneg_eval
      (8162774324609023 / 562949953421312) 14 14 (by norm_num) (by norm_num) (by norm_num)
      (by norm_num)) (rnd_congr (by norm_num) (rnd_of_near_pos (7 / 50) (1261007895663739 /
      9007199254740992) (-55) 5044031582654956 (by norm_num) (by norm_num) (by norm_num)
      (by norm_num) (by norm_num) (by norm_num) (by norm_num))))
  rw [List.map_cons, List.map_nil]
  rw [foldl_add_cons_eval _ _ 0 (5224175567749775 / 36028797018963968) (5224175567749775 /
      36028797018963968) absProfit_halfCent (rnd_congr (by norm_num) (rnd_of_dyadic
      (5224175567749775 / 36028797018963968) 5224175567749775 (-55) (by norm_num) (by norm_num)
      (by norm_num) (by norm_num))), List.foldl_nil]

theorem absProfit_eighth : absProfit eighth = F64.fin (1080863910568919 / 288230376151711744) :=
  absProfit_eval eighth (3 / 8) 1 (3 / 8) (1080863910568919 / 288230376151711744) rfl rfl
    (rnd_congr (by norm_num) (rnd_of_dyadic (3 / 8) 6755399441055744 (-54) (by norm_num)
        (by norm_num) (by norm_num) (by norm_num)))
    (rnd_congr (by norm_num) (rnd_of_near_pos (3 / 800) (1080863910568919 / 288230376151711744)
        (-61) 8646911284551352 (by norm_num) (by norm_num) (by norm_num) (by norm_num) (by norm_num)
        (by norm_num) (by norm_num)))

theorem TotalProfit_eighth_eighth : TotalProfit [eighth, eighth] = F64.fin (5764607523034235 /
    576460752303423488) := by
  apply TotalProfit_eval [eighth, eighth] (1080863910568919 / 144115188075855872) (5764607523034235
      / 576460752303423488) _ (roundToTwoDecimals_eval (1080863910568919 / 144115188075855872) (3 /
      4) 1 (5764607523034235 / 576460752303423488) (rnd_congr (by norm_num) (rnd_of_near_pos
      (27021597764222975 / 36028797018963968) (3 / 4) (-53) 6755399441055744 (by norm_num)
      (by norm_num) (by norm_num) (by norm_num) (by norm_num) (by norm_num) (by norm_num)))
      (mathRound_nonneg_eval (3 / 4) 1 1 (by norm_num) (by norm_num) (by norm_num) (by norm_num))
      (rnd_congr (by norm_num) (rnd_of_near_pos (1 / 100) (5764607523034235 / 576460752303423488)
      (-59) 5764607523034235 (by norm_num) (by norm_num) (by norm_num) (by norm_num) (by norm_num)
      (by norm_num) (by norm_num))))
  rw [List.map_cons, List.map_cons, List.map_nil]
  rw [foldl_add_cons_eval _ _ 0 (1080863910568919 / 288230376151711744) (1080863910568919 /
      288230376151711744) absProfit_eighth (rnd_congr (by norm_num) (rnd_of_dyadic (1080863910568919
      / 288230376151711744) 8646911284551352 (-61) (by norm_num) (by norm_num) (by norm_num)
      (by norm_num))),
    foldl_add_cons_eval _ _ (1080863910568919 / 288230376151711744) (1080863910568919 /
        288230376151711744) (1080863910568919 / 144115188075855872) absProfit_eighth (rnd_congr
        (by norm_num) (rnd_of_dyadic (1080863910568919 / 144115188075855872) 8646911284551352 (-60)
        (by norm_num) (by norm_num) (by norm_num) (by norm_num))), List.foldl_nil]

theorem absProfit_cent1 : absProfit cent1 = F64.fin (5764607523034235 / 576460752303423488) :=
  absProfit_eval cent1 1 1 1 (5764607523034235 / 576460752303423488) rfl rfl
    (rnd_congr (by norm_num) (rnd_of_int 1 1 (by norm_num) (by norm_num)))
    (rnd_congr (by norm_num) (rnd_of_near_pos (1 / 100) (5764607523034235 / 576460752303423488)
        (-59) 5764607523034235 (by norm_num) (by norm_num) (by norm_num) (by norm_num) (by norm_num)
        (by norm_num) (by norm_num)))

theorem ProfitPerNight_cent1 : ProfitPerNight cent1 = F64.fin (5764607523034235 /
    576460752303423488) :=
  ProfitPerNight_eval cent1 (5764607523034235 / 576460752303423488) 1 (5764607523034235 /
      576460752303423488) (5764607523034235 / 576460752303423488) (by decide) absProfit_cent1
    (ofInt_eval _ (by decide) _ (by norm_num [cent1])) (by norm_num)
    (rnd_congr (by norm_num) (rnd_of_dyadic (5764607523034235 / 576460752303423488) 5764607523034235
        (-59) (by norm_num) (by norm_num) (by norm_num) (by norm_num)))
    (roundToTwoDecimals_eval (5764607523034235 / 576460752303423488) 1 1 (5764607523034235 /
        576460752303423488) (rnd_congr (by norm_num) (rnd_of_near_pos (144115188075855875 /
        144115188075855872) 1 (-52) 4503599627370496 (by norm_num) (by norm_num) (by norm_num)
        (by norm_num) (by norm_num) (by norm_num) (by norm_num))) (mathRound_nonneg_eval 1 1 1
        (by norm_num) (by norm_num) (by norm_num) (by norm_num)) (rnd_congr (by norm_num)
        (rnd_of_near_pos (1 / 100) (5764607523034235 / 576460752303423488) (-59) 5764607523034235
        (by norm_num) (by norm_num) (by norm_num) (by norm_num) (by norm_num) (by norm_num)
        (by norm_num))))

theorem absProfit_cent10 : absProfit cent10 = F64.fin (3602879701896397 / 36028797018963968) :=
  absProfit_eval cent10 10 1 10 (3602879701896397 / 36028797018963968) rfl rfl
    (rnd_congr (by norm_num) (rnd_of_int 10 10 (by norm_num) (by norm_num)))
    (rnd_congr (by norm_num) (rnd_of_near_pos (1 / 10) (3602879701896397 / 36028797018963968) (-56)
        7205759403792794 (by norm_num) (by norm_num) (by norm_num) (by norm_num) (by norm_num)
        (by norm_num) (by norm_num)))

theorem ProfitPerNight_cent10 : ProfitPerNight cent10 = F64.fin (3602879701896397 /
    36028797018963968) :=
  ProfitPerNight_eval cent10 (3602879701896397 / 36028797018963968) 1 (3602879701896397 /
      36028797018963968) (3602879701896397 / 36028797018963968) (by decide) absProfit_cent10
    (ofInt_eval _ (by decide) _ (by norm_num [cent10])) (by norm_num)
    (rnd_congr (by norm_num) (rnd_of_dyadic (3602879701896397 / 36028797018963968) 7205759403792794
        (-56) (by norm_num) (by norm_num) (by norm_num) (by norm_num)))
    (roundToTwoDecimals_eval (3602879701896397 / 36028797018963968) 10 10 (3602879701896397 /
        36028797018963968) (rnd_congr (by norm_num) (rnd_of_near_pos (90071992547409925 /
        9007199254740992) 10 (-49) 5629499534213120 (by norm_num) (by norm_num) (by norm_num)
        (by norm_num) (by norm_num) (by norm_num) (by norm_num))) (mathRound_nonneg_eval 10 10 10
        (by norm_num) (by norm_num) (by norm_num) (by norm_num)) (rnd_congr (by norm_num)
        (rnd_of_near_pos (1 / 10) (3602879701896397 / 36028797018963968) (-56) 7205759403792794
        (by norm_num) (by norm_num) (by norm_num) (by norm_num) (by norm_num) (by norm_num)
        (by norm_num))))

theorem absProfit_cent1b : absProfit cent1b = F64.fin (5764607523034235 / 576460752303423488) :=
  absProfit_eval cent1b 1 1 1 (5764607523034235 / 576460752303423488) rfl rfl
    (rnd_congr (by norm_num) (rnd_of_int 1 1 (by norm_num) (by norm_num)))
    (rnd_congr (by norm_num) (rnd_of_near_pos (1 / 100) (5764607523034235 / 576460752303423488)
        (-59) 5764607523034235 (by norm_num) (by norm_num) (by norm_num) (by norm_num) (by norm_num)
        (by norm_num) (by norm_num)))

theorem ProfitPerNight_cent1b : ProfitPerNight cent1b = F64.fin (5764607523034235 /
    576460752303423488) :=
  ProfitPerNight_eval cent1b (5764607523034235 / 576460752303423488) 1 (5764607523034235 /
      576460752303423488) (5764607523034235 / 576460752303423488) (by decide) absProfit_cent1b
    (ofInt_eval _ (by decide) _ (by norm_num [cent1b])) (by norm_num)
    (rnd_congr (by norm_num) (rnd_of_dyadic (5764607523034235 / 576460752303423488) 5764607523034235
        (-59) (by norm_num) (by norm_num) (by norm_num) (by norm_num)))
    (roundToTwoDecimals_eval (5764607523034235 / 576460752303423488) 1 1 (5764607523034235 /
        576460752303423488) (rnd_congr (by norm_num) (rnd_of_near_pos (144115188075855875 /
        144115188075855872) 1 (-52) 4503599627370496 (by norm_num) (by norm_num) (by norm_num)
        (by norm_num) (by norm_num) (by norm_num) (by norm_num))) (mathRound_nonneg_eval 1 1 1
        (by norm_num) (by norm_num) (by norm_num) (by norm_num)) (rnd_congr (by norm_num)
        (rnd_of_near_pos (1 / 100) (5764607523034235 / 576460752303423488) (-59) 5764607523034235
        (by norm_num) (by norm_num) (by norm_num) (by norm_num) (by norm_num) (by norm_num)
        (by norm_num))))

theorem absProfit_cent2 : absProfit cent2 = F64.fin (5764607523034235 / 288230376151711744) :=
  absProfit_eval cent2 2 1 2 (5764607523034235 / 288230376151711744) rfl rfl
    (rnd_congr (by norm_num) (rnd_of_int 2 2 (by norm_num) (by norm_num)))
    (rnd_congr (by norm_num) (rnd_of_near_pos (1 / 50) (5764607523034235 / 288230376151711744) (-58)
        5764607523034235 (by norm_num) (by norm_num) (by norm_num) (by norm_num) (by norm_num)
        (by norm_num) (by norm_num)))

theorem ProfitPerNight_cent2 : ProfitPerNight cent2 = F64.fin (5764607523034235 /
    288230376151711744) :=
  ProfitPerNight_eval cent2 (5764607523034235 / 288230376151711744) 1 (5764607523034235 /
      288230376151711744) (5764607523034235 / 288230376151711744) (by decide) absProfit_cent2
    (ofInt_eval _ (by decide) _ (by norm_num [cent2])) (by norm_num)
    (rnd_congr (by norm_num) (rnd_of_dyadic (5764607523034235 / 288230376151711744) 5764607523034235
        (-58) (by norm_num) (by norm_num) (by norm_num) (by norm_num)))
    (roundToTwoDecimals_eval (5764607523034235 / 288230376151711744) 2 2 (5764607523034235 /
        288230376151711744) (rnd_congr (by norm_num) (rnd_of_near_pos (144115188075855875 /
        72057594037927936) 2 (-51) 4503599627370496 (by norm_num) (by norm_num) (by norm_num)
        (by norm_num) (by norm_num) (by norm_num) (by norm_num))) (mathRound_nonneg_eval 2 2 2
        (by norm_num) (by norm_num) (by norm_num) (by norm_num)) (rnd_congr (by norm_num)
        (rnd_of_near_pos (1 / 50) (5764607523034235 / 288230376151711744) (-58) 5764607523034235
        (by norm_num) (by norm_num) (by norm_num) (by norm_num) (by norm_num) (by norm_num)
        (by norm_num))))

theorem CalculateStats_cent1_cent10_cent1b_cent2 :
    CalculateStats [cent1, cent10, cent1b, cent2] = ⟨F64.fin (1080863910568919 / 36028797018963968),
        F64.fin (5764607523034235 / 576460752303423488), F64.fin (3602879701896397 /
        36028797018963968)⟩ := by
  have hps : [cent1, cent10, cent1b, cent2].map ProfitPerNight = [F64.fin (5764607523034235 /
      576460752303423488), F64.fin (3602879701896397 / 36028797018963968), F64.fin (5764607523034235
      / 576460752303423488), F64.fin (5764607523034235 / 288230376151711744)] := by
    rw [List.map_cons, List.map_cons, List.map_cons, List.map_cons, List.map_nil,
        ProfitPerNight_cent1, ProfitPerNight_cent10, ProfitPerNight_cent1b, ProfitPerNight_cent2]
  have hs : ([F64.fin (5764607523034235 / 576460752303423488), F64.fin (3602879701896397 /
      36028797018963968), F64.fin (5764607523034235 / 576460752303423488), F64.fin (5764607523034235
      / 288230376151711744)] : List F64).foldl F64.add (F64.fin 0) = F64.fin (5044031582654955 /
      36028797018963968) := by
    rw [foldl_add_cons_eval _ _ 0 (5764607523034235 / 576460752303423488) (5764607523034235 /
        576460752303423488) rfl (rnd_congr (by norm_num) (rnd_of_dyadic (5764607523034235 /
        576460752303423488) 5764607523034235 (-59) (by norm_num) (by norm_num) (by norm_num)
        (by norm_num))),
      foldl_add_cons_eval _ _ (5764607523034235 / 576460752303423488) (3602879701896397 /
          36028797018963968) (7926335344172073 / 72057594037927936) rfl (rnd_congr (by norm_num)
          (rnd_of_near_pos (63410682753376587 / 576460752303423488) (7926335344172073 /
          72057594037927936) (-56) 7926335344172073 (by norm_num) (by norm_num) (by norm_num)
          (by norm_num) (by norm_num) (by norm_num) (by norm_num))),
      foldl_add_cons_eval _ _ (7926335344172073 / 72057594037927936) (5764607523034235 /
          576460752303423488) (1080863910568919 / 9007199254740992) rfl (rnd_congr (by norm_num)
          (rnd_of_near_pos (69175290276410819 / 576460752303423488) (1080863910568919 /
          9007199254740992) (-56) 8646911284551352 (by norm_num) (by norm_num) (by norm_num)
          (by norm_num) (by norm_num) (by norm_num) (by norm_num))),
      foldl_add_cons_eval _ _ (1080863910568919 / 9007199254740992) (5764607523034235 /
          288230376151711744) (5044031582654955 / 36028797018963968) rfl (rnd_congr (by norm_num)
          (rnd_of_near_pos (40352252661239643 / 288230376151711744) (5044031582654955 /
          36028797018963968) (-55) 5044031582654955 (by norm_num) (by norm_num) (by norm_num)
          (by norm_num) (by norm_num) (by norm_num) (by norm_num))), List.foldl_nil]
  have hmn : ([F64.fin (5764607523034235 / 576460752303423488), F64.fin (3602879701896397 /
      36028797018963968), F64.fin (5764607523034235 / 576460752303423488), F64.fin (5764607523034235
      / 288230376151711744)] : List F64).foldl (fun mn p => if F64.lt p mn then p else mn) (F64.fin
      (5764607523034235 / 576460752303423488))
      = F64.fin (5764607523034235 / 576460752303423488) := by
    rw [minStep_eval_ge _ (5764607523034235 / 576460752303423488) (5764607523034235 /
        576460752303423488) (by norm_num),
      minStep_eval_ge _ (3602879701896397 / 36028797018963968) (5764607523034235 /
          576460752303423488) (by norm_num),
      minStep_eval_ge _ (5764607523034235 / 576460752303423488) (5764607523034235 /
          576460752303423488) (by norm_num),
      minStep_eval_ge _ (5764607523034235 / 288230376151711744) (5764607523034235 /
          576460752303423488) (by norm_num), List.foldl_nil]
  have hmx : ([F64.fin (5764607523034235 / 576460752303423488), F64.fin (3602879701896397 /
      36028797018963968), F64.fin (5764607523034235 / 576460752303423488), F64.fin (5764607523034235
      / 288230376151711744)] : List F64).foldl (fun mx p => if F64.lt mx p then p else mx) (F64.fin
      (5764607523034235 / 576460752303423488))
      = F64.fin (3602879701896397 / 36028797018963968) := by
    rw [maxStep_eval_ge _ (5764607523034235 / 576460752303423488) (5764607523034235 /
        576460752303423488) (by norm_num),
      maxStep_eval_lt _ (3602879701896397 / 36028797018963968) (5764607523034235 /
          576460752303423488) (by norm_num),
      maxStep_eval_ge _ (5764607523034235 / 576460752303423488) (3602879701896397 /
          36028797018963968) (by norm_num),
      maxStep_eval_ge _ (5764607523034235 / 288230376151711744) (3602879701896397 /
          36028797018963968) (by norm_num), List.foldl_nil]
  exact CalculateStats_eval _ _ _ (5764607523034235 / 576460752303423488) (5044031582654955 /
      36028797018963968) 4 (5044031582654955 / 144115188075855872) (5764607523034235 /
      576460752303423488) (3602879701896397 / 36028797018963968) _ _ _ hps ProfitPerNight_cent1 hs
    (ofInt_eval _ (by decide) _ (by norm_num)) (by norm_num)
    (rnd_congr (by norm_num) (rnd_of_dyadic (5044031582654955 / 144115188075855872) 5044031582654955
        (-57) (by norm_num) (by norm_num) (by norm_num) (by norm_num))) hmn hmx
    (roundToTwoDecimals_eval (5044031582654955 / 144115188075855872) (7881299347898367 /
        2251799813685248) 3 (1080863910568919 / 36028797018963968) (rnd_congr (by norm_num)
        (rnd_of_near_pos (126100789566373875 / 36028797018963968) (7881299347898367 /
        2251799813685248) (-51) 7881299347898367 (by norm_num) (by norm_num) (by norm_num)
        (by norm_num) (by norm_num) (by norm_num) (by norm_num))) (mathRound_nonneg_eval
        (7881299347898367 / 2251799813685248) 3 3 (by norm_num) (by norm_num) (by norm_num)
        (by norm_num)) (rnd_congr (by norm_num) (rnd_of_near_pos (3 / 100) (1080863910568919 /
        36028797018963968) (-58) 8646911284551352 (by norm_num) (by norm_num) (by norm_num)
        (by norm_num) (by norm_num) (by norm_num) (by norm_num))))
    (roundToTwoDecimals_eval (5764607523034235 / 576460752303423488) 1 1 (5764607523034235 /
        576460752303423488) (rnd_congr (by norm_num) (rnd_of_near_pos (144115188075855875 /
        144115188075855872) 1 (-52) 4503599627370496 (by norm_num) (by norm_num) (by norm_num)
        (by norm_num) (by norm_num) (by norm_num) (by norm_num))) (mathRound_nonneg_eval 1 1 1
        (by norm_num) (by norm_num) (by norm_num) (by norm_num)) (rnd_congr (by norm_num)
        (rnd_of_near_pos (1 / 100) (5764607523034235 / 576460752303423488) (-59) 5764607523034235
        (by norm_num) (by norm_num) (by norm_num) (by norm_num) (by norm_num) (by norm_num)
        (by norm_num))))
    (roundToTwoDecimals_eval (3602879701896397 / 36028797018963968) 10 10 (3602879701896397 /
        36028797018963968) (rnd_congr (by norm_num) (rnd_of_near_pos (90071992547409925 /
        9007199254740992) 10 (-49) 5629499534213120 (by norm_num) (by norm_num) (by norm_num)
        (by norm_num) (by norm_num) (by norm_num) (by norm_num))) (mathRound_nonneg_eval 10 10 10
        (by norm_num) (by norm_num) (by norm_num) (by norm_num)) (rnd_congr (by norm_num)
        (rnd_of_near_pos (1 / 10) (3602879701896397 / 36028797018963968) (-56) 7205759403792794
        (by norm_num) (by norm_num) (by norm_num) (by norm_num) (by norm_num) (by norm_num)
        (by norm_num))))

theorem CalculateStats_cent1_cent1b_cent2_cent10 :
    CalculateStats [cent1, cent1b, cent2, cent10] = ⟨F64.fin (5764607523034235 /
        144115188075855872), F64.fin (5764607523034235 / 576460752303423488), F64.fin
        (3602879701896397 / 36028797018963968)⟩ := by
  have hps : [cent1, cent1b, cent2, cent10].map ProfitPerNight = [F64.fin (5764607523034235 /
      576460752303423488), F64.fin (5764607523034235 / 576460752303423488), F64.fin
      (5764607523034235 / 288230376151711744), F64.fin (3602879701896397 / 36028797018963968)] := by
    rw [List.map_cons, List.map_cons, List.map_cons, List.map_cons, List.map_nil,
        ProfitPerNight_cent1, ProfitPerNight_cent1b, ProfitPerNight_cent2, ProfitPerNight_cent10]
  have hs : ([F64.fin (5764607523034235 / 576460752303423488), F64.fin (5764607523034235 /
      576460752303423488), F64.fin (5764607523034235 / 288230376151711744), F64.fin
      (3602879701896397 / 36028797018963968)] : List F64).foldl F64.add (F64.fin 0) = F64.fin
      (1261007895663739 / 9007199254740992) := by
    rw [foldl_add_cons_eval _ _ 0 (5764607523034235 / 576460752303423488) (5764607523034235 /
        576460752303423488) rfl (rnd_congr (by norm_num) (rnd_of_dyadic (5764607523034235 /
        576460752303423488) 5764607523034235 (-59) (by norm_num) (by norm_num) (by norm_num)
        (by norm_num))),
      foldl_add_cons_eval _ _ (5764607523034235 / 576460752303423488) (5764607523034235 /
          576460752303423488) (5764607523034235 / 288230376151711744) rfl (rnd_congr (by norm_num)
          (rnd_of_dyadic (5764607523034235 / 288230376151711744) 5764607523034235 (-58)
          (by norm_num) (by norm_num) (by norm_num) (by norm_num))),
      foldl_add_cons_eval _ _ (5764607523034235 / 288230376151711744) (5764607523034235 /
          288230376151711744) (5764607523034235 / 144115188075855872) rfl (rnd_congr (by norm_num)
          (rnd_of_dyadic (5764607523034235 / 144115188075855872) 5764607523034235 (-57)
          (by norm_num) (by norm_num) (by norm_num) (by norm_num))),
      foldl_add_cons_eval _ _ (5764607523034235 / 144115188075855872) (3602879701896397 /
          36028797018963968) (1261007895663739 / 9007199254740992) rfl (rnd_congr (by norm_num)
          (rnd_of_near_pos (20176126330619823 / 144115188075855872) (1261007895663739 /
          9007199254740992) (-55) 5044031582654956 (by norm_num) (by norm_num) (by norm_num)
          (by norm_num) (by norm_num) (by norm_num) (by norm_num))), List.foldl_nil]
  have hmn : ([F64.fin (5764607523034235 / 576460752303423488), F64.fin (5764607523034235 /
      576460752303423488), F64.fin (5764607523034235 / 288230376151711744), F64.fin
      (3602879701896397 / 36028797018963968)] : List F64).foldl (fun mn p => if F64.lt p mn then p
      else mn) (F64.fin (5764607523034235 / 576460752303423488))
      = F64.fin (5764607523034235 / 576460752303423488) := by
    rw [minStep_eval_ge _ (5764607523034235 / 576460752303423488) (5764607523034235 /
        576460752303423488) (by norm_num),
      minStep_eval_ge _ (5764607523034235 / 576460752303423488) (5764607523034235 /
          576460752303423488) (by norm_num),
      minStep_eval_ge _ (5764607523034235 / 288230376151711744) (5764607523034235 /
          576460752303423488) (by norm_num),
      minStep_eval_ge _ (3602879701896397 / 36028797018963968) (5764607523034235 /
          576460752303423488) (by norm_num), List.foldl_nil]
  have hmx : ([F64.fin (5764607523034235 / 576460752303423488), F64.fin (5764607523034235 /
      576460752303423488), F64.fin (5764607523034235 / 288230376151711744), F64.fin
      (3602879701896397 / 36028797018963968)] : List F64).foldl (fun mx p => if F64.lt mx p then p
      else mx) (F64.fin (5764607523034235 / 576460752303423488))
      = F64.fin (3602879701896397 / 36028797018963968) := by
    rw [maxStep_eval_ge _ (5764607523034235 / 576460752303423488) (5764607523034235 /
        576460752303423488) (by norm_num),
      maxStep_eval_ge _ (5764607523034235 / 576460752303423488) (5764607523034235 /
          576460752303423488) (by norm_num),
      maxStep_eval_lt _ (5764607523034235 / 288230376151711744) (5764607523034235 /
          576460752303423488) (by norm_num),
      maxStep_eval_lt _ (3602879701896397 / 36028797018963968) (5764607523034235 /
          288230376151711744) (by norm_num), List.foldl_nil]
  exact CalculateStats_eval _ _ _ (5764607523034235 / 576460752303423488) (1261007895663739 /
      9007199254740992) 4 (1261007895663739 / 36028797018963968) (5764607523034235 /
      576460752303423488) (3602879701896397 / 36028797018963968) _ _ _ hps ProfitPerNight_cent1 hs
    (ofInt_eval _ (by decide) _ (by norm_num)) (by norm_num)
    (rnd_congr (by norm_num) (rnd_of_dyadic (1261007895663739 / 36028797018963968) 5044031582654956
        (-57) (by norm_num) (by norm_num) (by norm_num) (by norm_num))) hmn hmx
    (roundToTwoDecimals_eval (1261007895663739 / 36028797018963968) (7881299347898369 /
        2251799813685248) 4 (5764607523034235 / 144115188075855872) (rnd_congr (by norm_num)
        (rnd_of_near_pos (31525197391593475 / 9007199254740992) (7881299347898369 /
        2251799813685248) (-51) 7881299347898369 (by norm_num) (by norm_num) (by norm_num)
        (by norm_num) (by norm_num) (by norm_num) (by norm_num))) (mathRound_nonneg_eval
        (7881299347898369 / 2251799813685248) 4 4 (by norm_num) (by norm_num) (by norm_num)
        (by norm_num)) (rnd_congr (by norm_num) (rnd_of_near_pos (1 / 25) (5764607523034235 /
        144115188075855872) (-57) 5764607523034235 (by norm_num) (by norm_num) (by norm_num)
        (by norm_num) (by norm_num) (by norm_num) (by norm_num))))
    (roundToTwoDecimals_eval (5764607523034235 / 576460752303423488) 1 1 (5764607523034235 /
        576460752303423488) (rnd_congr (by norm_num) (rnd_of_near_pos (144115188075855875 /
        144115188075855872) 1 (-52) 4503599627370496 (by norm_num) (by norm_num) (by norm_num)
        (by norm_num) (by norm_num) (by norm_num) (by norm_num))) (mathRound_nonneg_eval 1 1 1
        (by norm_num) (by norm_num) (by norm_num) (by norm_num)) (rnd_congr (by norm_num)
        (rnd_of_near_pos (1 / 100) (5764607523034235 / 576460752303423488) (-59) 5764607523034235
        (by norm_num) (by norm_num) (by norm_num) (by norm_num) (by norm_num) (by norm_num)
        (by norm_num))))
    (roundToTwoDecimals_eval (3602879701896397 / 36028797018963968) 10 10 (3602879701896397 /
        36028797018963968) (rnd_congr (by norm_num) (rnd_of_near_pos (90071992547409925 /
        9007199254740992) 10 (-49) 5629499534213120 (by norm_num) (by norm_num) (by norm_num)
        (by norm_num) (by norm_num) (by norm_num) (by norm_num))) (mathRound_nonneg_eval 10 10 10
        (by norm_num) (by norm_num) (by norm_num) (by norm_num)) (rnd_congr (by norm_num)
        (rnd_of_near_pos (1 / 10) (3602879701896397 / 36028797018963968) (-56) 7205759403792794
        (by norm_num) (by norm_num) (by norm_num) (by norm_num) (by norm_num) (by norm_num)
        (by norm_num))))

theorem absProfit_largeStay : absProfit largeStay = F64.fin (356596363614657 / 8) :=
  absProfit_eval largeStay (356596363614657 / 8) 100 (8914909090366425 / 2) (356596363614657 / 8)
      rfl rfl
    (rnd_congr (by norm_num) (rnd_of_dyadic (8914909090366425 / 2) 8914909090366425 (-1)
        (by norm_num) (by norm_num) (by norm_num) (by norm_num)))
    (rnd_congr (by norm_num) (rnd_of_dyadic (356596363614657 / 8) 5705541817834512 (-7)
        (by norm_num) (by norm_num) (by norm_num) (by norm_num)))

theorem ProfitPerNight_largeStay : ProfitPerNight largeStay = F64.fin (5705541817834513 / 128) :=
  ProfitPerNight_eval largeStay (356596363614657 / 8) 1 (356596363614657 / 8) (5705541817834513 /
      128) (by decide) absProfit_largeStay
    (ofInt_eval _ (by decide) _ (by norm_num [largeStay])) (by norm_num)
    (rnd_congr (by norm_num) (rnd_of_dyadic (356596363614657 / 8) 5705541817834512 (-7)
        (by norm_num) (by norm_num) (by norm_num) (by norm_num)))
    (roundToTwoDecimals_eval (356596363614657 / 8) (8914909090366425 / 2) 4457454545183213
        (5705541817834513 / 128) (rnd_congr (by norm_num) (rnd_of_dyadic (8914909090366425 / 2)
        8914909090366425 (-1) (by norm_num) (by norm_num) (by norm_num) (by norm_num)))
        (mathRound_nonneg_eval (8914909090366425 / 2) 4457454545183213 4457454545183213
        (by norm_num) (by norm_num) (by norm_num) (by norm_num)) (rnd_congr (by norm_num)
        (rnd_of_near_pos (4457454545183213 / 100) (5705541817834513 / 128) (-7) 5705541817834513
        (by norm_num) (by norm_num) (by norm_num) (by norm_num) (by norm_num) (by norm_num)
        (by norm_num))))

theorem CalculateStats_largeStay :
    CalculateStats [largeStay] = ⟨F64.fin (2852770908917257 / 64), F64.fin (2852770908917257 / 64),
        F64.fin (2852770908917257 / 64)⟩ := by
  have hps : [largeStay].map ProfitPerNight = [F64.fin (5705541817834513 / 128)] := by
    rw [List.map_cons, List.map_nil, ProfitPerNight_largeStay]
  have hs : ([F64.fin (5705541817834513 / 128)] : List F64).foldl F64.add (F64.fin 0) = F64.fin
      (5705541817834513 / 128) := by
    rw [foldl_add_cons_eval _ _ 0 (5705541817834513 / 128) (5705541817834513 / 128) rfl (rnd_congr
        (by norm_num) (rnd_of_dyadic (5705541817834513 / 128) 5705541817834513 (-7) (by norm_num)
        (by norm_num) (by norm_num) (by norm_num))), List.foldl_nil]
  have hmn : ([F64.fin (5705541817834513 / 128)] : List F64).foldl (fun mn p => if F64.lt p mn then
      p else mn) (F64.fin (5705541817834513 / 128))
      = F64.fin (5705541817834513 / 128) := by
    rw [minStep_eval_ge _ (5705541817834513 / 128) (5705541817834513 / 128) (by norm_num),
        List.foldl_nil]
  have hmx : ([F64.fin (5705541817834513 / 128)] : List F64).foldl (fun mx p => if F64.lt mx p then
      p else mx) (F64.fin (5705541817834513 / 128))
      = F64.fin (5705541817834513 / 128) := by
    rw [maxStep_eval_ge _ (5705541817834513 / 128) (5705541817834513 / 128) (by norm_num),
        List.foldl_nil]
  exact CalculateStats_eval _ _ _ (5705541817834513 / 128) (5705541817834513 / 128) 1
      (5705541817834513 / 128) (5705541817834513 / 128) (5705541817834513 / 128) _ _ _ hps
      ProfitPerNight_largeStay hs
    (ofInt_eval _ (by decide) _ (by norm_num)) (by norm_num)
    (rnd_congr (by norm_num) (rnd_of_dyadic (5705541817834513 / 128) 5705541817834513 (-7)
        (by norm_num) (by norm_num) (by norm_num) (by norm_num))) hmn hmx
    (roundToTwoDecimals_eval (5705541817834513 / 128) (8914909090366427 / 2) 4457454545183214
        (2852770908917257 / 64) (rnd_congr (by norm_num) (rnd_of_near_pos (142638545445862825 / 32)
        (8914909090366427 / 2) (-1) 8914909090366427 (by norm_num) (by norm_num) (by norm_num)
        (by norm_num) (by norm_num) (by norm_num) (by norm_num))) (mathRound_nonneg_eval
        (8914909090366427 / 2) 4457454545183214 4457454545183214 (by norm_num) (by norm_num)
        (by norm_num) (by norm_num)) (rnd_congr (by norm_num) (rnd_of_near_pos (2228727272591607 /
        50) (2852770908917257 / 64) (-7) 5705541817834514 (by norm_num) (by norm_num) (by norm_num)
        (by norm_num) (by norm_num) (by norm_num) (by norm_num))))
    (roundToTwoDecimals_eval (5705541817834513 / 128) (8914909090366427 / 2) 4457454545183214
        (2852770908917257 / 64) (rnd_congr (by norm_num) (rnd_of_near_pos (142638545445862825 / 32)
        (8914909090366427 / 2) (-1) 8914909090366427 (by norm_num) (by norm_num) (by norm_num)
        (by norm_num) (by norm_num) (by norm_num) (by norm_num))) (mathRound_nonneg_eval
        (8914909090366427 / 2) 4457454545183214 4457454545183214 (by norm_num) (by norm_num)
        (by norm_num) (by norm_num)) (rnd_congr (by norm_num) (rnd_of_near_pos (2228727272591607 /
        50) (2852770908917257 / 64) (-7) 5705541817834514 (by norm_num) (by norm_num) (by norm_num)
        (by norm_num) (by norm_num) (by norm_num) (by norm_num))))
    (roundToTwoDecimals_eval (5705541817834513 / 128) (8914909090366427 / 2) 4457454545183214
        (2852770908917257 / 64) (rnd_congr (by norm_num) (rnd_of_near_pos (142638545445862825 / 32)
        (8914909090366427 / 2) (-1) 8914909090366427 (by norm_num) (by norm_num) (by norm_num)
        (by norm_num) (by norm_num) (by norm_num) (by norm_num))) (mathRound_nonneg_eval
        (8914909090366427 / 2) 4457454545183214 4457454545183214 (by norm_num) (by norm_num)
        (by norm_num) (by norm_num)) (rnd_congr (by norm_num) (rnd_of_near_pos (2228727272591607 /
        50) (2852770908917257 / 64) (-7) 5705541817834514 (by norm_num) (by norm_num) (by norm_num)
        (by norm_num) (by norm_num) (by norm_num) (by norm_num))))

theorem absProfit_rateA : absProfit rateA = F64.fin (3242591731706757 / 72057594037927936) :=
  absProfit_eval rateA (9 / 2) 1 (9 / 2) (3242591731706757 / 72057594037927936) rfl rfl
    (rnd_congr (by norm_num) (rnd_of_dyadic (9 / 2) 5066549580791808 (-50) (by norm_num)
        (by norm_num) (by norm_num) (by norm_num)))
    (rnd_congr (by norm_num) (rnd_of_near_pos (9 / 200) (3242591731706757 / 72057594037927936) (-57)
        6485183463413514 (by norm_num) (by norm_num) (by norm_num) (by norm_num) (by norm_num)
        (by norm_num) (by norm_num)))

theorem TotalProfit_rateA : TotalProfit [rateA] = F64.fin (3602879701896397 / 72057594037927936) :=
    by
  apply TotalProfit_eval [rateA] (3242591731706757 / 72057594037927936) (3602879701896397 /
      72057594037927936) _ (roundToTwoDecimals_eval (3242591731706757 / 72057594037927936) (9 / 2) 5
      (3602879701896397 / 72057594037927936) (rnd_congr (by norm_num) (rnd_of_near_pos
      (81064793292668925 / 18014398509481984) (9 / 2) (-50) 5066549580791808 (by norm_num)
      (by norm_num) (by norm_num) (by norm_num) (by norm_num) (by norm_num) (by norm_num)))
      (mathRound_nonneg_eval (9 / 2) 5 5 (by norm_num) (by norm_num) (by norm_num) (by norm_num))
      (rnd_congr (by norm_num) (rnd_of_near_pos (1 / 20) (3602879701896397 / 72057594037927936)
      (-57) 7205759403792794 (by norm_num) (by norm_num) (by norm_num) (by norm_num) (by norm_num)
      (by norm_num) (by norm_num))))
  rw [List.map_cons, List.map_nil]
  rw [foldl_add_cons_eval _ _ 0 (3242591731706757 / 72057594037927936) (3242591731706757 /
      72057594037927936) absProfit_rateA (rnd_congr (by norm_num) (rnd_of_dyadic (3242591731706757 /
      72057594037927936) 6485183463413514 (-57) (by norm_num) (by norm_num) (by norm_num)
      (by norm_num))), List.foldl_nil]

theorem absProfit_rateB : absProfit rateB = F64.fin (5764607523034235 / 1152921504606846976) :=
  absProfit_eval rateB (1 / 2) 1 (1 / 2) (5764607523034235 / 1152921504606846976) rfl rfl
    (rnd_congr (by norm_num) (rnd_of_dyadic (1 / 2) 4503599627370496 (-53) (by norm_num)
        (by norm_num) (by norm_num) (by norm_num)))
    (rnd_congr (by norm_num) (rnd_of_near_pos (1 / 200) (5764607523034235 / 1152921504606846976)
        (-60) 5764607523034235 (by norm_num) (by norm_num) (by norm_num) (by norm_num) (by norm_num)
        (by norm_num) (by norm_num)))

theorem TotalProfit_rateB : TotalProfit [rateB] = F64.fin (5764607523034235 / 576460752303423488) :=
    by
  apply TotalProfit_eval [rateB] (5764607523034235 / 1152921504606846976) (5764607523034235 /
      576460752303423488) _ (roundToTwoDecimals_eval (5764607523034235 / 1152921504606846976) (1 /
      2) 1 (5764607523034235 / 576460752303423488) (rnd_congr (by norm_num) (rnd_of_near_pos
      (144115188075855875 / 288230376151711744) (1 / 2) (-53) 4503599627370496 (by norm_num)
      (by norm_num) (by norm_num) (by norm_num) (by norm_num) (by norm_num) (by norm_num)))
      (mathRound_nonneg_eval (1 / 2) 1 1 (by norm_num) (by norm_num) (by norm_num) (by norm_num))
      (rnd_congr (by norm_num) (rnd_of_near_pos (1 / 100) (5764607523034235 / 576460752303423488)
      (-59) 5764607523034235 (by norm_num) (by norm_num) (by norm_num) (by norm_num) (by norm_num)
      (by norm_num) (by norm_num))))
  rw [List.map_cons, List.map_nil]
  rw [foldl_add_cons_eval _ _ 0 (5764607523034235 / 1152921504606846976) (5764607523034235 /
      1152921504606846976) absProfit_rateB (rnd_congr (by norm_num) (rnd_of_dyadic (5764607523034235
      / 1152921504606846976) 5764607523034235 (-60) (by norm_num) (by norm_num) (by norm_num)
      (by norm_num))), List.foldl_nil]

theorem TotalProfit_rateA_rateB : TotalProfit [rateA, rateB] = F64.fin (3602879701896397 /
    72057594037927936) := by
  apply TotalProfit_eval [rateA, rateB] (7205759403792793 / 144115188075855872) (3602879701896397 /
      72057594037927936) _ (roundToTwoDecimals_eval (7205759403792793 / 144115188075855872) 5 5
      (3602879701896397 / 72057594037927936) (rnd_congr (by norm_num) (rnd_of_near_pos
      (180143985094819825 / 36028797018963968) 5 (-50) 5629499534213120 (by norm_num) (by norm_num)
      (by norm_num) (by norm_num) (by norm_num) (by norm_num) (by norm_num))) (mathRound_nonneg_eval
      5 5 5 (by norm_num) (by norm_num) (by norm_num) (by norm_num)) (rnd_congr (by norm_num)
      (rnd_of_near_pos (1 / 20) (3602879701896397 / 72057594037927936) (-57) 7205759403792794
      (by norm_num) (by norm_num) (by norm_num) (by norm_num) (by norm_num) (by norm_num)
      (by norm_num))))
  rw [List.map_cons, List.map_cons, List.map_nil]
  rw [foldl_add_cons_eval _ _ 0 (3242591731706757 / 72057594037927936) (3242591731706757 /
      72057594037927936) absProfit_rateA (rnd_congr (by norm_num) (rnd_of_dyadic (3242591731706757 /
      72057594037927936) 6485183463413514 (-57) (by norm_num) (by norm_num) (by norm_num)
      (by norm_num))),
    foldl_add_cons_eval _ _ (3242591731706757 / 72057594037927936) (5764607523034235 /
        1152921504606846976) (7205759403792793 / 144115188075855872) absProfit_rateB (rnd_congr
        (by norm_num) (rnd_of_near_pos (57646075230342347 / 1152921504606846976) (7205759403792793 /
        144115188075855872) (-57) 7205759403792793 (by norm_num) (by norm_num) (by norm_num)
        (by norm_num) (by norm_num) (by norm_num) (by norm_num))), List.foldl_nil]

theorem absProfit_rateC : absProfit rateC = F64.fin (5764607523034235 / 1152921504606846976) :=
  absProfit_eval rateC (1 / 2) 1 (1 / 2) (5764607523034235 / 1152921504606846976) rfl rfl
    (rnd_congr (by norm_num) (rnd_of_dyadic (1 / 2) 4503599627370496 (-53) (by norm_num)
        (by norm_num) (by norm_num) (by norm_num)))
    (rnd_congr (by norm_num) (rnd_of_near_pos (1 / 200) (5764607523034235 / 1152921504606846976)
        (-60) 5764607523034235 (by norm_num) (by norm_num) (by norm_num) (by norm_num) (by norm_num)
        (by norm_num) (by norm_num)))

theorem TotalProfit_rateC : TotalProfit [rateC] = F64.fin (5764607523034235 / 576460752303423488) :=
    by
  apply TotalProfit_eval [rateC] (5764607523034235 / 1152921504606846976) (5764607523034235 /
      576460752303423488) _ (roundToTwoDecimals_eval (5764607523034235 / 1152921504606846976) (1 /
      2) 1 (5764607523034235 / 576460752303423488) (rnd_congr (by norm_num) (rnd_of_near_pos
      (144115188075855875 / 288230376151711744) (1 / 2) (-53) 4503599627370496 (by norm_num)
      (by norm_num) (by norm_num) (by norm_num) (by norm_num) (by norm_num) (by norm_num)))
      (mathRound_nonneg_eval (1 / 2) 1 1 (by norm_num) (by norm_num) (by norm_num) (by norm_num))
      (rnd_congr (by norm_num) (rnd_of_near_pos (1 / 100) (5764607523034235 / 576460752303423488)
      (-59) 5764607523034235 (by norm_num) (by norm_num) (by norm_num) (by norm_num) (by norm_num)
      (by norm_num) (by norm_num))))
  rw [List.map_cons, List.map_nil]
  rw [foldl_add_cons_eval _ _ 0 (5764607523034235 / 1152921504606846976) (5764607523034235 /
      1152921504606846976) absProfit_rateC (rnd_congr (by norm_num) (rnd_of_dyadic (5764607523034235
      / 1152921504606846976) 5764607523034235 (-60) (by norm_num) (by norm_num) (by norm_num)
      (by norm_num))), List.foldl_nil]

theorem TotalProfit_rateA_rateC : TotalProfit [rateA, rateC] = F64.fin (3602879701896397 /
    72057594037927936) := by
  apply TotalProfit_eval [rateA, rateC] (7205759403792793 / 144115188075855872) (3602879701896397 /
      72057594037927936) _ (roundToTwoDecimals_eval (7205759403792793 / 144115188075855872) 5 5
      (3602879701896397 / 72057594037927936) (rnd_congr (by norm_num) (rnd_of_near_pos
      (180143985094819825 / 36028797018963968) 5 (-50) 5629499534213120 (by norm_num) (by norm_num)
      (by norm_num) (by norm_num) (by norm_num) (by norm_num) (by norm_num))) (mathRound_nonneg_eval
      5 5 5 (by norm_num) (by norm_num) (by norm_num) (by norm_num)) (rnd_congr (by norm_num)
      (rnd_of_near_pos (1 / 20) (3602879701896397 / 72057594037927936) (-57) 7205759403792794
      (by norm_num) (by norm_num) (by norm_num) (by norm_num) (by norm_num) (by norm_num)
      (by norm_num))))
  rw [List.map_cons, List.map_cons, List.map_nil]
  rw [foldl_add_cons_eval _ _ 0 (3242591731706757 / 72057594037927936) (3242591731706757 /
      72057594037927936) absProfit_rateA (rnd_congr (by norm_num) (rnd_of_dyadic (3242591731706757 /
      72057594037927936) 6485183463413514 (-57) (by norm_num) (by norm_num) (by norm_num)
      (by norm_num))),
    foldl_add_cons_eval _ _ (3242591731706757 / 72057594037927936) (5764607523034235 /
        1152921504606846976) (7205759403792793 / 144115188075855872) absProfit_rateC (rnd_congr
        (by norm_num) (rnd_of_near_pos (57646075230342347 / 1152921504606846976) (7205759403792793 /
        144115188075855872) (-57) 7205759403792793 (by norm_num) (by norm_num) (by norm_num)
        (by norm_num) (by norm_num) (by norm_num) (by norm_num))), List.foldl_nil]

theorem TotalProfit_rateB_rateC : TotalProfit [rateB, rateC] = F64.fin (5764607523034235 /
    576460752303423488) := by
  apply TotalProfit_eval [rateB, rateC] (5764607523034235 / 576460752303423488) (5764607523034235 /
      576460752303423488) _ (roundToTwoDecimals_eval (5764607523034235 / 576460752303423488) 1 1
      (5764607523034235 / 576460752303423488) (rnd_congr (by norm_num) (rnd_of_near_pos
      (144115188075855875 / 144115188075855872) 1 (-52) 4503599627370496 (by norm_num) (by norm_num)
      (by norm_num) (by norm_num) (by norm_num) (by norm_num) (by norm_num))) (mathRound_nonneg_eval
      1 1 1 (by norm_num) (by norm_num) (by norm_num) (by norm_num)) (rnd_congr (by norm_num)
      (rnd_of_near_pos (1 / 100) (5764607523034235 / 576460752303423488) (-59) 5764607523034235
      (by norm_num) (by norm_num) (by norm_num) (by norm_num) (by norm_num) (by norm_num)
      (by norm_num))))
  rw [List.map_cons, List.map_cons, List.map_nil]
  rw [foldl_add_cons_eval _ _ 0 (5764607523034235 / 1152921504606846976) (5764607523034235 /
      1152921504606846976) absProfit_rateB (rnd_congr (by norm_num) (rnd_of_dyadic (5764607523034235
      / 1152921504606846976) 5764607523034235 (-60) (by norm_num) (by norm_num) (by norm_num)
      (by norm_num))),
    foldl_add_cons_eval _ _ (5764607523034235 / 1152921504606846976) (5764607523034235 /
        1152921504606846976) (5764607523034235 / 576460752303423488) absProfit_rateC (rnd_congr
        (by norm_num) (rnd_of_dyadic (5764607523034235 / 576460752303423488) 5764607523034235 (-59)
        (by norm_num) (by norm_num) (by norm_num) (by norm_num))), List.foldl_nil]

theorem TotalProfit_rateA_rateB_rateC : TotalProfit [rateA, rateB, rateC] = F64.fin
    (3602879701896397 / 72057594037927936) := by
  apply TotalProfit_eval [rateA, rateB, rateC] (990791918021509 / 18014398509481984)
      (3602879701896397 / 72057594037927936) _ (roundToTwoDecimals_eval (990791918021509 /
      18014398509481984) (6192449487634431 / 1125899906842624) 5 (3602879701896397 /
      72057594037927936) (rnd_congr (by norm_num) (rnd_of_near_pos (24769797950537725 /
      4503599627370496) (6192449487634431 / 1125899906842624) (-50) 6192449487634431 (by norm_num)
      (by norm_num) (by norm_num) (by norm_num) (by norm_num) (by norm_num) (by norm_num)))
      (mathRound_nonneg_eval (6192449487634431 / 1125899906842624) 5 5 (by norm_num) (by norm_num)
      (by norm_num) (by norm_num)) (rnd_congr (by norm_num) (rnd_of_near_pos (1 / 20)
      (3602879701896397 / 72057594037927936) (-57) 7205759403792794 (by norm_num) (by norm_num)
      (by norm_num) (by norm_num) (by norm_num) (by norm_num) (by norm_num))))
  rw [List.map_cons, List.map_cons, List.map_cons, List.map_nil]
  rw [foldl_add_cons_eval _ _ 0 (3242591731706757 / 72057594037927936) (3242591731706757 /
      72057594037927936) absProfit_rateA (rnd_congr (by norm_num) (rnd_of_dyadic (3242591731706757 /
      72057594037927936) 6485183463413514 (-57) (by norm_num) (by norm_num) (by norm_num)
      (by norm_num))),
    foldl_add_cons_eval _ _ (3242591731706757 / 72057594037927936) (5764607523034235 /
        1152921504606846976) (7205759403792793 / 144115188075855872) absProfit_rateB (rnd_congr
        (by norm_num) (rnd_of_near_pos (57646075230342347 / 1152921504606846976) (7205759403792793 /
        144115188075855872) (-57) 7205759403792793 (by norm_num) (by norm_num) (by norm_num)
        (by norm_num) (by norm_num) (by norm_num) (by norm_num))),
    foldl_add_cons_eval _ _ (7205759403792793 / 144115188075855872) (5764607523034235 /
        1152921504606846976) (990791918021509 / 18014398509481984) absProfit_rateC (rnd_congr
        (by norm_num) (rnd_of_near_pos (63410682753376579 / 1152921504606846976) (990791918021509 /
        18014398509481984) (-57) 7926335344172072 (by norm_num) (by norm_num) (by norm_num)
        (by norm_num) (by norm_num) (by norm_num) (by norm_num))), List.foldl_nil]

theorem findBestCombination_rateA_rateB_rateC (ovf : Nat → Int) :
    findBestCombination (allCombinations ovf [rateA, rateB, rateC]) = [rateA] := by
  have e : allCombinations ovf [rateA, rateB, rateC]
      = [[rateA], [rateB], [rateA, rateB], [rateC], [rateA, rateC], [rateB, rateC], [rateA, rateB,
          rateC]] := rfl
  have o0 : HasOverlaps [rateA] = false := by decide
  have o1 : HasOverlaps [rateB] = false := by decide
  have o2 : HasOverlaps [rateA, rateB] = false := by decide
  have o3 : HasOverlaps [rateC] = false := by decide
  have o4 : HasOverlaps [rateA, rateC] = false := by decide
  have o5 : HasOverlaps [rateB, rateC] = false := by decide
  have o6 : HasOverlaps [rateA, rateB, rateC] = false := by decide
  rw [findBestCombination_eq, e]
  rw [List.foldl_cons,
    bestStep_of_gt _ (-1) (3602879701896397 / 72057594037927936) _ o0 TotalProfit_rateA
        (by norm_num),
    List.foldl_cons,
    bestStep_of_le _ (3602879701896397 / 72057594037927936) (5764607523034235 / 576460752303423488)
        _ TotalProfit_rateB (by norm_num),
    List.foldl_cons,
    bestStep_of_le _ (3602879701896397 / 72057594037927936) (3602879701896397 / 72057594037927936) _
        TotalProfit_rateA_rateB (by norm_num),
    List.foldl_cons,
    bestStep_of_le _ (3602879701896397 / 72057594037927936) (5764607523034235 / 576460752303423488)
        _ TotalProfit_rateC (by norm_num),
    List.foldl_cons,
    bestStep_of_le _ (3602879701896397 / 72057594037927936) (3602879701896397 / 72057594037927936) _
        TotalProfit_rateA_rateC (by norm_num),
    List.foldl_cons,
    bestStep_of_le _ (3602879701896397 / 72057594037927936) (5764607523034235 / 576460752303423488)
        _ TotalProfit_rateB_rateC (by norm_num),
    List.foldl_cons,
    bestStep_of_le _ (3602879701896397 / 72057594037927936) (3602879701896397 / 72057594037927936) _
        TotalProfit_rateA_rateB_rateC (by norm_num), List.foldl_nil]

theorem ProfitPerNight_rateA : ProfitPerNight rateA = F64.fin (3602879701896397 / 72057594037927936)
    :=
  ProfitPerNight_eval rateA (3242591731706757 / 72057594037927936) 1 (3242591731706757 /
      72057594037927936) (3602879701896397 / 72057594037927936) (by decide) absProfit_rateA
    (ofInt_eval _ (by decide) _ (by norm_num [rateA])) (by norm_num)
    (rnd_congr (by norm_num) (rnd_of_dyadic (3242591731706757 / 72057594037927936) 6485183463413514
        (-57) (by norm_num) (by norm_num) (by norm_num) (by norm_num)))
    (roundToTwoDecimals_eval (3242591731706757 / 72057594037927936) (9 / 2) 5 (3602879701896397 /
        72057594037927936) (rnd_congr (by norm_num) (rnd_of_near_pos (81064793292668925 /
        18014398509481984) (9 / 2) (-50) 5066549580791808 (by norm_num) (by norm_num) (by norm_num)
        (by norm_num) (by norm_num) (by norm_num) (by norm_num))) (mathRound_nonneg_eval (9 / 2) 5 5
        (by norm_num) (by norm_num) (by norm_num) (by norm_num)) (rnd_congr (by norm_num)
        (rnd_of_near_pos (1 / 20) (3602879701896397 / 72057594037927936) (-57) 7205759403792794
        (by norm_num) (by norm_num) (by norm_num) (by norm_num) (by norm_num) (by norm_num)
        (by norm_num))))

theorem CalculateStats_rateA :
    CalculateStats [rateA] = ⟨F64.fin (3602879701896397 / 72057594037927936), F64.fin
        (3602879701896397 / 72057594037927936), F64.fin (3602879701896397 / 72057594037927936)⟩ :=
        by
  have hps : [rateA].map ProfitPerNight = [F64.fin (3602879701896397 / 72057594037927936)] := by
    rw [List.map_cons, List.map_nil, ProfitPerNight_rateA]
  have hs : ([F64.fin (3602879701896397 / 72057594037927936)] : List F64).foldl F64.add (F64.fin 0)
      = F64.fin (3602879701896397 / 72057594037927936) := by
    rw [foldl_add_cons_eval _ _ 0 (3602879701896397 / 72057594037927936) (3602879701896397 /
        72057594037927936) rfl (rnd_congr (by norm_num) (rnd_of_dyadic (3602879701896397 /
        72057594037927936) 7205759403792794 (-57) (by norm_num) (by norm_num) (by norm_num)
        (by norm_num))), List.foldl_nil]
  have hmn : ([F64.fin (3602879701896397 / 72057594037927936)] : List F64).foldl (fun mn p => if
      F64.lt p mn then p else mn) (F64.fin (3602879701896397 / 72057594037927936))
      = F64.fin (3602879701896397 / 72057594037927936) := by
    rw [minStep_eval_ge _ (3602879701896397 / 72057594037927936) (3602879701896397 /
        72057594037927936) (by norm_num), List.foldl_nil]
  have hmx : ([F64.fin (3602879701896397 / 72057594037927936)] : List F64).foldl (fun mx p => if
      F64.lt mx p then p else mx) (F64.fin (3602879701896397 / 72057594037927936))
      = F64.fin (3602879701896397 / 72057594037927936) := by
    rw [maxStep_eval_ge _ (3602879701896397 / 72057594037927936) (3602879701896397 /
        72057594037927936) (by norm_num), List.foldl_nil]
  exact CalculateStats_eval _ _ _ (3602879701896397 / 72057594037927936) (3602879701896397 /
      72057594037927936) 1 (3602879701896397 / 72057594037927936) (3602879701896397 /
      72057594037927936) (3602879701896397 / 72057594037927936) _ _ _ hps ProfitPerNight_rateA hs
    (ofInt_eval _ (by decide) _ (by norm_num)) (by norm_num)
    (rnd_congr (by norm_num) (rnd_of_dyadic (3602879701896397 / 72057594037927936) 7205759403792794
        (-57) (by norm_num) (by norm_num) (by norm_num) (by norm_num))) hmn hmx
    (roundToTwoDecimals_eval (3602879701896397 / 72057594037927936) 5 5 (3602879701896397 /
        72057594037927936) (rnd_congr (by norm_num) (rnd_of_near_pos (90071992547409925 /
        18014398509481984) 5 (-50) 5629499534213120 (by norm_num) (by norm_num) (by norm_num)
        (by norm_num) (by norm_num) (by norm_num) (by norm_num))) (mathRound_nonneg_eval 5 5 5
        (by norm_num) (by norm_num) (by norm_num) (by norm_num)) (rnd_congr (by norm_num)
        (rnd_of_near_pos (1 / 20) (3602879701896397 / 72057594037927936) (-57) 7205759403792794
        (by norm_num) (by norm_num) (by norm_num) (by norm_num) (by norm_num) (by norm_num)
        (by norm_num))))
    (roundToTwoDecimals_eval (3602879701896397 / 72057594037927936) 5 5 (3602879701896397 /
        72057594037927936) (rnd_congr (by norm_num) (rnd_of_near_pos (90071992547409925 /
        18014398509481984) 5 (-50) 5629499534213120 (by norm_num) (by norm_num) (by norm_num)
        (by norm_num) (by norm_num) (by norm_num) (by norm_num))) (mathRound_nonneg_eval 5 5 5
        (by norm_num) (by norm_num) (by norm_num) (by norm_num)) (rnd_congr (by norm_num)
        (rnd_of_near_pos (1 / 20) (3602879701896397 / 72057594037927936) (-57) 7205759403792794
        (by norm_num) (by norm_num) (by norm_num) (by norm_num) (by norm_num) (by norm_num)
        (by norm_num))))
    (roundToTwoDecimals_eval (3602879701896397 / 72057594037927936) 5 5 (3602879701896397 /
        72057594037927936) (rnd_congr (by norm_num) (rnd_of_near_pos (90071992547409925 /
        18014398509481984) 5 (-50) 5629499534213120 (by norm_num) (by norm_num) (by norm_num)
        (by norm_num) (by norm_num) (by norm_num) (by norm_num))) (mathRound_nonneg_eval 5 5 5
        (by norm_num) (by norm_num) (by norm_num) (by norm_num)) (rnd_congr (by norm_num)
        (rnd_of_near_pos (1 / 20) (3602879701896397 / 72057594037927936) (-57) 7205759403792794
        (by norm_num) (by norm_num) (by norm_num) (by norm_num) (by norm_num) (by norm_num)
        (by norm_num))))

theorem MaximizeProfit_rateA_rateB_rateC (ovf : Nat → Int) :
    MaximizeProfit ovf [rateA, rateB, rateC]
      = ⟨["a"], F64.fin (3602879701896397 / 72057594037927936), F64.fin (3602879701896397 /
          72057594037927936), F64.fin (3602879701896397 / 72057594037927936), F64.fin
          (3602879701896397 / 72057594037927936)⟩ := by
  rw [MaximizeProfit_eq, findBestCombination_rateA_rateB_rateC, buildMaximizeResult_eq,
      TotalProfit_rateA, CalculateStats_rateA, RequestIDs_eq_map]
  rfl

theorem TotalProfit_rateC_rateB : TotalProfit [rateC, rateB] = F64.fin (5764607523034235 /
    576460752303423488) := by
  apply TotalProfit_eval [rateC, rateB] (5764607523034235 / 576460752303423488) (5764607523034235 /
      576460752303423488) _ (roundToTwoDecimals_eval (5764607523034235 / 576460752303423488) 1 1
      (5764607523034235 / 576460752303423488) (rnd_congr (by norm_num) (rnd_of_near_pos
      (144115188075855875 / 144115188075855872) 1 (-52) 4503599627370496 (by norm_num) (by norm_num)
      (by norm_num) (by norm_num) (by norm_num) (by norm_num) (by norm_num))) (mathRound_nonneg_eval
      1 1 1 (by norm_num) (by norm_num) (by norm_num) (by norm_num)) (rnd_congr (by norm_num)
      (rnd_of_near_pos (1 / 100) (5764607523034235 / 576460752303423488) (-59) 5764607523034235
      (by norm_num) (by norm_num) (by norm_num) (by norm_num) (by norm_num) (by norm_num)
      (by norm_num))))
  rw [List.map_cons, List.map_cons, List.map_nil]
  rw [foldl_add_cons_eval _ _ 0 (5764607523034235 / 1152921504606846976) (5764607523034235 /
      1152921504606846976) absProfit_rateC (rnd_congr (by norm_num) (rnd_of_dyadic (5764607523034235
      / 1152921504606846976) 5764607523034235 (-60) (by norm_num) (by norm_num) (by norm_num)
      (by norm_num))),
    foldl_add_cons_eval _ _ (5764607523034235 / 1152921504606846976) (5764607523034235 /
        1152921504606846976) (5764607523034235 / 576460752303423488) absProfit_rateB (rnd_congr
        (by norm_num) (rnd_of_dyadic (5764607523034235 / 576460752303423488) 5764607523034235 (-59)
        (by norm_num) (by norm_num) (by norm_num) (by norm_num))), List.foldl_nil]

theorem TotalProfit_rateC_rateA : TotalProfit [rateC, rateA] = F64.fin (3602879701896397 /
    72057594037927936) := by
  apply TotalProfit_eval [rateC, rateA] (7205759403792793 / 144115188075855872) (3602879701896397 /
      72057594037927936) _ (roundToTwoDecimals_eval (7205759403792793 / 144115188075855872) 5 5
      (3602879701896397 / 72057594037927936) (rnd_congr (by norm_num) (rnd_of_near_pos
      (180143985094819825 / 36028797018963968) 5 (-50) 5629499534213120 (by norm_num) (by norm_num)
      (by norm_num) (by norm_num) (by norm_num) (by norm_num) (by norm_num))) (mathRound_nonneg_eval
      5 5 5 (by norm_num) (by norm_num) (by norm_num) (by norm_num)) (rnd_congr (by norm_num)
      (rnd_of_near_pos (1 / 20) (3602879701896397 / 72057594037927936) (-57) 7205759403792794
      (by norm_num) (by norm_num) (by norm_num) (by norm_num) (by norm_num) (by norm_num)
      (by norm_num))))
  rw [List.map_cons, List.map_cons, List.map_nil]
  rw [foldl_add_cons_eval _ _ 0 (5764607523034235 / 1152921504606846976) (5764607523034235 /
      1152921504606846976) absProfit_rateC (rnd_congr (by norm_num) (rnd_of_dyadic (5764607523034235
      / 1152921504606846976) 5764607523034235 (-60) (by norm_num) (by norm_num) (by norm_num)
      (by norm_num))),
    foldl_add_cons_eval _ _ (5764607523034235 / 1152921504606846976) (3242591731706757 /
        72057594037927936) (7205759403792793 / 144115188075855872) absProfit_rateA (rnd_congr
        (by norm_num) (rnd_of_near_pos (57646075230342347 / 1152921504606846976) (7205759403792793 /
        144115188075855872) (-57) 7205759403792793 (by norm_num) (by norm_num) (by norm_num)
        (by norm_num) (by norm_num) (by norm_num) (by norm_num))), List.foldl_nil]

theorem TotalProfit_rateB_rateA : TotalProfit [rateB, rateA] = F64.fin (3602879701896397 /
    72057594037927936) := by
  apply TotalProfit_eval [rateB, rateA] (7205759403792793 / 144115188075855872) (3602879701896397 /
      72057594037927936) _ (roundToTwoDecimals_eval (7205759403792793 / 144115188075855872) 5 5
      (3602879701896397 / 72057594037927936) (rnd_congr (by norm_num) (rnd_of_near_pos
      (180143985094819825 / 36028797018963968) 5 (-50) 5629499534213120 (by norm_num) (by norm_num)
      (by norm_num) (by norm_num) (by norm_num) (by norm_num) (by norm_num))) (mathRound_nonneg_eval
      5 5 5 (by norm_num) (by norm_num) (by norm_num) (by norm_num)) (rnd_congr (by norm_num)
      (rnd_of_near_pos (1 / 20) (3602879701896397 / 72057594037927936) (-57) 7205759403792794
      (by norm_num) (by norm_num) (by norm_num) (by norm_num) (by norm_num) (by norm_num)
      (by norm_num))))
  rw [List.map_cons, List.map_cons, List.map_nil]
  rw [foldl_add_cons_eval _ _ 0 (5764607523034235 / 1152921504606846976) (5764607523034235 /
      1152921504606846976) absProfit_rateB (rnd_congr (by norm_num) (rnd_of_dyadic (5764607523034235
      / 1152921504606846976) 5764607523034235 (-60) (by norm_num) (by norm_num) (by norm_num)
      (by norm_num))),
    foldl_add_cons_eval _ _ (5764607523034235 / 1152921504606846976) (3242591731706757 /
        72057594037927936) (7205759403792793 / 144115188075855872) absProfit_rateA (rnd_congr
        (by norm_num) (rnd_of_near_pos (57646075230342347 / 1152921504606846976) (7205759403792793 /
        144115188075855872) (-57) 7205759403792793 (by norm_num) (by norm_num) (by norm_num)
        (by norm_num) (by norm_num) (by norm_num) (by norm_num))), List.foldl_nil]

theorem TotalProfit_rateC_rateB_rateA : TotalProfit [rateC, rateB, rateA] = F64.fin
    (1080863910568919 / 18014398509481984) := by
  apply TotalProfit_eval [rateC, rateB, rateA] (7926335344172073 / 144115188075855872)
      (1080863910568919 / 18014398509481984) _ (roundToTwoDecimals_eval (7926335344172073 /
      144115188075855872) (11 / 2) 6 (1080863910568919 / 18014398509481984) (rnd_congr (by norm_num)
      (rnd_of_near_pos (198158383604301825 / 36028797018963968) (11 / 2) (-50) 6192449487634432
      (by norm_num) (by norm_num) (by norm_num) (by norm_num) (by norm_num) (by norm_num)
      (by norm_num))) (mathRound_nonneg_eval (11 / 2) 6 6 (by norm_num) (by norm_num) (by norm_num)
      (by norm_num)) (rnd_congr (by norm_num) (rnd_of_near_pos (3 / 50) (1080863910568919 /
      18014398509481984) (-57) 8646911284551352 (by norm_num) (by norm_num) (by norm_num)
      (by norm_num) (by norm_num) (by norm_num) (by norm_num))))
  rw [List.map_cons, List.map_cons, List.map_cons, List.map_nil]
  rw [foldl_add_cons_eval _ _ 0 (5764607523034235 / 1152921504606846976) (5764607523034235 /
      1152921504606846976) absProfit_rateC (rnd_congr (by norm_num) (rnd_of_dyadic (5764607523034235
      / 1152921504606846976) 5764607523034235 (-60) (by norm_num) (by norm_num) (by norm_num)
      (by norm_num))),
    foldl_add_cons_eval _ _ (5764607523034235 / 1152921504606846976) (5764607523034235 /
        1152921504606846976) (5764607523034235 / 576460752303423488) absProfit_rateB (rnd_congr
        (by norm_num) (rnd_of_dyadic (5764607523034235 / 576460752303423488) 5764607523034235 (-59)
        (by norm_num) (by norm_num) (by norm_num) (by norm_num))),
    foldl_add_cons_eval _ _ (5764607523034235 / 576460752303423488) (3242591731706757 /
        72057594037927936) (7926335344172073 / 144115188075855872) absProfit_rateA (rnd_congr
        (by norm_num) (rnd_of_near_pos (31705341376688291 / 576460752303423488) (7926335344172073 /
        144115188075855872) (-57) 7926335344172073 (by norm_num) (by norm_num) (by norm_num)
        (by norm_num) (by norm_num) (by norm_num) (by norm_num))), List.foldl_nil]

theorem findBestCombination_rateC_rateB_rateA (ovf : Nat → Int) :
    findBestCombination (allCombinations ovf [rateC, rateB, rateA]) = [rateC, rateB, rateA] := by
  have e : allCombinations ovf [rateC, rateB, rateA]
      = [[rateC], [rateB], [rateC, rateB], [rateA], [rateC, rateA], [rateB, rateA], [rateC, rateB,
          rateA]] := rfl
  have o0 : HasOverlaps [rateC] = false := by decide
  have o1 : HasOverlaps [rateB] = false := by decide
  have o2 : HasOverlaps [rateC, rateB] = false := by decide
  have o3 : HasOverlaps [rateA] = false := by decide
  have o4 : HasOverlaps [rateC, rateA] = false := by decide
  have o5 : HasOverlaps [rateB, rateA] = false := by decide
  have o6 : HasOverlaps [rateC, rateB, rateA] = false := by decide
  rw [findBestCombination_eq, e]
  rw [List.foldl_cons,
    bestStep_of_gt _ (-1) (5764607523034235 / 576460752303423488) _ o0 TotalProfit_rateC
        (by norm_num),
    List.foldl_cons,
    bestStep_of_le _ (5764607523034235 / 576460752303423488) (5764607523034235 / 576460752303423488)
        _ TotalProfit_rateB (by norm_num),
    List.foldl_cons,
    bestStep_of_le _ (5764607523034235 / 576460752303423488) (5764607523034235 / 576460752303423488)
        _ TotalProfit_rateC_rateB (by norm_num),
    List.foldl_cons,
    bestStep_of_gt _ (5764607523034235 / 576460752303423488) (3602879701896397 / 72057594037927936)
        _ o3 TotalProfit_rateA (by norm_num),
    List.foldl_cons,
    bestStep_of_le _ (3602879701896397 / 72057594037927936) (3602879701896397 / 72057594037927936) _
        TotalProfit_rateC_rateA (by norm_num),
    List.foldl_cons,
    bestStep_of_le _ (3602879701896397 / 72057594037927936) (3602879701896397 / 72057594037927936) _
        TotalProfit_rateB_rateA (by norm_num),
    List.foldl_cons,
    bestStep_of_gt _ (3602879701896397 / 72057594037927936) (1080863910568919 / 18014398509481984) _
        o6 TotalProfit_rateC_rateB_rateA (by norm_num), List.foldl_nil]

theorem ProfitPerNight_rateC : ProfitPerNight rateC = F64.fin (5764607523034235 /
    576460752303423488) :=
  ProfitPerNight_eval rateC (5764607523034235 / 1152921504606846976) 1 (5764607523034235 /
      1152921504606846976) (5764607523034235 / 576460752303423488) (by decide) absProfit_rateC
    (ofInt_eval _ (by decide) _ (by norm_num [rateC])) (by norm_num)
    (rnd_congr (by norm_num) (rnd_of_dyadic (5764607523034235 / 1152921504606846976)
        5764607523034235 (-60) (by norm_num) (by norm_num) (by norm_num) (by norm_num)))
    (roundToTwoDecimals_eval (5764607523034235 / 1152921504606846976) (1 / 2) 1 (5764607523034235 /
        576460752303423488) (rnd_congr (by norm_num) (rnd_of_near_pos (144115188075855875 /
        288230376151711744) (1 / 2) (-53) 4503599627370496 (by norm_num) (by norm_num) (by norm_num)
        (by norm_num) (by norm_num) (by norm_num) (by norm_num))) (mathRound_nonneg_eval (1 / 2) 1 1
        (by norm_num) (by norm_num) (by norm_num) (by norm_num)) (rnd_congr (by norm_num)
        (rnd_of_near_pos (1 / 100) (5764607523034235 / 576460752303423488) (-59) 5764607523034235
        (by norm_num) (by norm_num) (by norm_num) (by norm_num) (by norm_num) (by norm_num)
        (by norm_num))))

theorem ProfitPerNight_rateB : ProfitPerNight rateB = F64.fin (5764607523034235 /
    576460752303423488) :=
  ProfitPerNight_eval rateB (5764607523034235 / 1152921504606846976) 1 (5764607523034235 /
      1152921504606846976) (5764607523034235 / 576460752303423488) (by decide) absProfit_rateB
    (ofInt_eval _ (by decide) _ (by norm_num [rateB])) (by norm_num)
    (rnd_congr (by norm_num) (rnd_of_dyadic (5764607523034235 / 1152921504606846976)
        5764607523034235 (-60) (by norm_num) (by norm_num) (by norm_num) (by norm_num)))
    (roundToTwoDecimals_eval (5764607523034235 / 1152921504606846976) (1 / 2) 1 (5764607523034235 /
        576460752303423488) (rnd_congr (by norm_num) (rnd_of_near_pos (144115188075855875 /
        288230376151711744) (1 / 2) (-53) 4503599627370496 (by norm_num) (by norm_num) (by norm_num)
        (by norm_num) (by norm_num) (by norm_num) (by norm_num))) (mathRound_nonneg_eval (1 / 2) 1 1
        (by norm_num) (by norm_num) (by norm_num) (by norm_num)) (rnd_congr (by norm_num)
        (rnd_of_near_pos (1 / 100) (5764607523034235 / 576460752303423488) (-59) 5764607523034235
        (by norm_num) (by norm_num) (by norm_num) (by norm_num) (by norm_num) (by norm_num)
        (by norm_num))))

theorem CalculateStats_rateC_rateB_rateA :
    CalculateStats [rateC, rateB, rateA] = ⟨F64.fin (5764607523034235 / 288230376151711744), F64.fin
        (5764607523034235 / 576460752303423488), F64.fin (3602879701896397 / 72057594037927936)⟩ :=
        by
  have hps : [rateC, rateB, rateA].map ProfitPerNight = [F64.fin (5764607523034235 /
      576460752303423488), F64.fin (5764607523034235 / 576460752303423488), F64.fin
      (3602879701896397 / 72057594037927936)] := by
    rw [List.map_cons, List.map_cons, List.map_cons, List.map_nil, ProfitPerNight_rateC,
        ProfitPerNight_rateB, ProfitPerNight_rateA]
  have hs : ([F64.fin (5764607523034235 / 576460752303423488), F64.fin (5764607523034235 /
      576460752303423488), F64.fin (3602879701896397 / 72057594037927936)] : List F64).foldl F64.add
      (F64.fin 0) = F64.fin (1261007895663739 / 18014398509481984) := by
    rw [foldl_add_cons_eval _ _ 0 (5764607523034235 / 576460752303423488) (5764607523034235 /
        576460752303423488) rfl (rnd_congr (by norm_num) (rnd_of_dyadic (5764607523034235 /
        576460752303423488) 5764607523034235 (-59) (by norm_num) (by norm_num) (by norm_num)
        (by norm_num))),
      foldl_add_cons_eval _ _ (5764607523034235 / 576460752303423488) (5764607523034235 /
          576460752303423488) (5764607523034235 / 288230376151711744) rfl (rnd_congr (by norm_num)
          (rnd_of_dyadic (5764607523034235 / 288230376151711744) 5764607523034235 (-58)
          (by norm_num) (by norm_num) (by norm_num) (by norm_num))),
      foldl_add_cons_eval _ _ (5764607523034235 / 288230376151711744) (3602879701896397 /
          72057594037927936) (1261007895663739 / 18014398509481984) rfl (rnd_congr (by norm_num)
          (rnd_of_near_pos (20176126330619823 / 288230376151711744) (1261007895663739 /
          18014398509481984) (-56) 5044031582654956 (by norm_num) (by norm_num) (by norm_num)
          (by norm_num) (by norm_num) (by norm_num) (by norm_num))), List.foldl_nil]
  have hmn : ([F64.fin (5764607523034235 / 576460752303423488), F64.fin (5764607523034235 /
      576460752303423488), F64.fin (3602879701896397 / 72057594037927936)] : List F64).foldl (fun mn
      p => if F64.lt p mn then p else mn) (F64.fin (5764607523034235 / 576460752303423488))
      = F64.fin (5764607523034235 / 576460752303423488) := by
    rw [minStep_eval_ge _ (5764607523034235 / 576460752303423488) (5764607523034235 /
        576460752303423488) (by norm_num),
      minStep_eval_ge _ (5764607523034235 / 576460752303423488) (5764607523034235 /
          576460752303423488) (by norm_num),
      minStep_eval_ge _ (3602879701896397 / 72057594037927936) (5764607523034235 /
          576460752303423488) (by norm_num), List.foldl_nil]
  have hmx : ([F64.fin (5764607523034235 / 576460752303423488), F64.fin (5764607523034235 /
      576460752303423488), F64.fin (3602879701896397 / 72057594037927936)] : List F64).foldl (fun mx
      p => if F64.lt mx p then p else mx) (F64.fin (5764607523034235 / 576460752303423488))
      = F64.fin (3602879701896397 / 72057594037927936) := by
    rw [maxStep_eval_ge _ (5764607523034235 / 576460752303423488) (5764607523034235 /
        576460752303423488) (by norm_num),
      maxStep_eval_ge _ (5764607523034235 / 576460752303423488) (5764607523034235 /
          576460752303423488) (by norm_num),
      maxStep_eval_lt _ (3602879701896397 / 72057594037927936) (5764607523034235 /
          576460752303423488) (by norm_num), List.foldl_nil]
  exact CalculateStats_eval _ _ _ (5764607523034235 / 576460752303423488) (1261007895663739 /
      18014398509481984) 3 (6725375443539941 / 288230376151711744) (5764607523034235 /
      576460752303423488) (3602879701896397 / 72057594037927936) _ _ _ hps ProfitPerNight_rateC hs
    (ofInt_eval _ (by decide) _ (by norm_num)) (by norm_num)
    (rnd_congr (by norm_num) (rnd_of_near_pos (1261007895663739 / 54043195528445952)
        (6725375443539941 / 288230376151711744) (-58) 6725375443539941 (by norm_num) (by norm_num)
        (by norm_num) (by norm_num) (by norm_num) (by norm_num) (by norm_num))) hmn hmx
    (roundToTwoDecimals_eval (6725375443539941 / 288230376151711744) (5254199565265579 /
        2251799813685248) 2 (5764607523034235 / 288230376151711744) (rnd_congr (by norm_num)
        (rnd_of_near_pos (168134386088498525 / 72057594037927936) (5254199565265579 /
        2251799813685248) (-51) 5254199565265579 (by norm_num) (by norm_num) (by norm_num)
        (by norm_num) (by norm_num) (by norm_num) (by norm_num))) (mathRound_nonneg_eval
        (5254199565265579 / 2251799813685248) 2 2 (by norm_num) (by norm_num) (by norm_num)
        (by norm_num)) (rnd_congr (by norm_num) (rnd_of_near_pos (1 / 50) (5764607523034235 /
        288230376151711744) (-58) 5764607523034235 (by norm_num) (by norm_num) (by norm_num)
        (by norm_num) (by norm_num) (by norm_num) (by norm_num))))
    (roundToTwoDecimals_eval (5764607523034235 / 576460752303423488) 1 1 (5764607523034235 /
        576460752303423488) (rnd_congr (by norm_num) (rnd_of_near_pos (144115188075855875 /
        144115188075855872) 1 (-52) 4503599627370496 (by norm_num) (by norm_num) (by norm_num)
        (by norm_num) (by norm_num) (by norm_num) (by norm_num))) (mathRound_nonneg_eval 1 1 1
        (by norm_num) (by norm_num) (by norm_num) (by norm_num)) (rnd_congr (by norm_num)
        (rnd_of_near_pos (1 / 100) (5764607523034235 / 576460752303423488) (-59) 5764607523034235
        (by norm_num) (by norm_num) (by norm_num) (by norm_num) (by norm_num) (by norm_num)
        (by norm_num))))
    (roundToTwoDecimals_eval (3602879701896397 / 72057594037927936) 5 5 (3602879701896397 /
        72057594037927936) (rnd_congr (by norm_num) (rnd_of_near_pos (90071992547409925 /
        18014398509481984) 5 (-50) 5629499534213120 (by norm_num) (by norm_num) (by norm_num)
        (by norm_num) (by norm_num) (by norm_num) (by norm_num))) (mathRound_nonneg_eval 5 5 5
        (by norm_num) (by norm_num) (by norm_num) (by norm_num)) (rnd_congr (by norm_num)
        (rnd_of_near_pos (1 / 20) (3602879701896397 / 72057594037927936) (-57) 7205759403792794
        (by norm_num) (by norm_num) (by norm_num) (by norm_num) (by norm_num) (by norm_num)
        (by norm_num))))

theorem MaximizeProfit_rateC_rateB_rateA (ovf : Nat → Int) :
    MaximizeProfit ovf [rateC, rateB, rateA]
      = ⟨["c", "b", "a"], F64.fin (1080863910568919 / 18014398509481984), F64.fin (5764607523034235
          / 288230376151711744), F64.fin (5764607523034235 / 576460752303423488), F64.fin
          (3602879701896397 / 72057594037927936)⟩ := by
  rw [MaximizeProfit_eq, findBestCombination_rateC_rateB_rateA, buildMaximizeResult_eq,
      TotalProfit_rateC_rateB_rateA, CalculateStats_rateC_rateB_rateA, RequestIDs_eq_map]
  rfl

theorem absProfit_tall1 : absProfit tall1 = F64.fin (3200000000000035 / 32) :=
  absProfit_eval tall1 (6400000000000071 / 64) 100 10000000000000110 (3200000000000035 / 32) rfl rfl
    (rnd_congr (by norm_num) (rnd_of_near_pos (160000000000001775 / 16) 10000000000000110 1
        5000000000000055 (by norm_num) (by norm_num) (by norm_num) (by norm_num) (by norm_num)
        (by norm_num) (by norm_num)))
    (rnd_congr (by norm_num) (rnd_of_near_pos (1000000000000011 / 10) (3200000000000035 / 32) (-6)
        6400000000000070 (by norm_num) (by norm_num) (by norm_num) (by norm_num) (by norm_num)
        (by norm_num) (by norm_num)))

theorem ProfitPerNight_tall1 : ProfitPerNight tall1 = F64.fin (3200000000000035 / 32) :=
  ProfitPerNight_eval tall1 (3200000000000035 / 32) 1 (3200000000000035 / 32) (3200000000000035 /
      32) (by decide) absProfit_tall1
    (ofInt_eval _ (by decide) _ (by norm_num [tall1])) (by norm_num)
    (rnd_congr (by norm_num) (rnd_of_dyadic (3200000000000035 / 32) 6400000000000070 (-6)
        (by norm_num) (by norm_num) (by norm_num) (by norm_num)))
    (roundToTwoDecimals_eval (3200000000000035 / 32) 10000000000000110 10000000000000110
        (3200000000000035 / 32) (rnd_congr (by norm_num) (rnd_of_near_pos (80000000000000875 / 8)
        10000000000000110 1 5000000000000055 (by norm_num) (by norm_num) (by norm_num) (by norm_num)
        (by norm_num) (by norm_num) (by norm_num))) (mathRound_nonneg_eval 10000000000000110
        10000000000000110 10000000000000110 (by norm_num) (by norm_num) (by norm_num) (by norm_num))
        (rnd_congr (by norm_num) (rnd_of_near_pos (1000000000000011 / 10) (3200000000000035 / 32)
        (-6) 6400000000000070 (by norm_num) (by norm_num) (by norm_num) (by norm_num) (by norm_num)
        (by norm_num) (by norm_num))))

theorem absProfit_tall2 : absProfit tall2 = F64.fin (3200000000000035 / 32) :=
  absProfit_eval tall2 (6400000000000071 / 64) 100 10000000000000110 (3200000000000035 / 32) rfl rfl
    (rnd_congr (by norm_num) (rnd_of_near_pos (160000000000001775 / 16) 10000000000000110 1
        5000000000000055 (by norm_num) (by norm_num) (by norm_num) (by norm_num) (by norm_num)
        (by norm_num) (by norm_num)))
    (rnd_congr (by norm_num) (rnd_of_near_pos (1000000000000011 / 10) (3200000000000035 / 32) (-6)
        6400000000000070 (by norm_num) (by norm_num) (by norm_num) (by norm_num) (by norm_num)
        (by norm_num) (by norm_num)))

theorem ProfitPerNight_tall2 : ProfitPerNight tall2 = F64.fin (3200000000000035 / 32) :=
  ProfitPerNight_eval tall2 (3200000000000035 / 32) 1 (3200000000000035 / 32) (3200000000000035 /
      32) (by decide) absProfit_tall2
    (ofInt_eval _ (by decide) _ (by norm_num [tall2])) (by norm_num)
    (rnd_congr (by norm_num) (rnd_of_dyadic (3200000000000035 / 32) 6400000000000070 (-6)
        (by norm_num) (by norm_num) (by norm_num) (by norm_num)))
    (roundToTwoDecimals_eval (3200000000000035 / 32) 10000000000000110 10000000000000110
        (3200000000000035 / 32) (rnd_congr (by norm_num) (rnd_of_near_pos (80000000000000875 / 8)
        10000000000000110 1 5000000000000055 (by norm_num) (by norm_num) (by norm_num) (by norm_num)
        (by norm_num) (by norm_num) (by norm_num))) (mathRound_nonneg_eval 10000000000000110
        10000000000000110 10000000000000110 (by norm_num) (by norm_num) (by norm_num) (by norm_num))
        (rnd_congr (by norm_num) (rnd_of_near_pos (1000000000000011 / 10) (3200000000000035 / 32)
        (-6) 6400000000000070 (by norm_num) (by norm_num) (by norm_num) (by norm_num) (by norm_num)
        (by norm_num) (by norm_num))))

theorem absProfit_tall3 : absProfit tall3 = F64.fin (3200000000000035 / 32) :=
  absProfit_eval tall3 (6400000000000071 / 64) 100 10000000000000110 (3200000000000035 / 32) rfl rfl
    (rnd_congr (by norm_num) (rnd_of_near_pos (160000000000001775 / 16) 10000000000000110 1
        5000000000000055 (by norm_num) (by norm_num) (by norm_num) (by norm_num) (by norm_num)
        (by norm_num) (by norm_num)))
    (rnd_congr (by norm_num) (rnd_of_near_pos (1000000000000011 / 10) (3200000000000035 / 32) (-6)
        6400000000000070 (by norm_num) (by norm_num) (by norm_num) (by norm_num) (by norm_num)
        (by norm_num) (by norm_num)))

theorem ProfitPerNight_tall3 : ProfitPerNight tall3 = F64.fin (3200000000000035 / 32) :=
  ProfitPerNight_eval tall3 (3200000000000035 / 32) 1 (3200000000000035 / 32) (3200000000000035 /
      32) (by decide) absProfit_tall3
    (ofInt_eval _ (by decide) _ (by norm_num [tall3])) (by norm_num)
    (rnd_congr (by norm_num) (rnd_of_dyadic (3200000000000035 / 32) 6400000000000070 (-6)
        (by norm_num) (by norm_num) (by norm_num) (by norm_num)))
    (roundToTwoDecimals_eval (3200000000000035 / 32) 10000000000000110 10000000000000110
        (3200000000000035 / 32) (rnd_congr (by norm_num) (rnd_of_near_pos (80000000000000875 / 8)
        10000000000000110 1 5000000000000055 (by norm_num) (by norm_num) (by norm_num) (by norm_num)
        (by norm_num) (by norm_num) (by norm_num))) (mathRound_nonneg_eval 10000000000000110
        10000000000000110 10000000000000110 (by norm_num) (by norm_num) (by norm_num) (by norm_num))
        (rnd_congr (by norm_num) (rnd_of_near_pos (1000000000000011 / 10) (3200000000000035 / 32)
        (-6) 6400000000000070 (by norm_num) (by norm_num) (by norm_num) (by norm_num) (by norm_num)
        (by norm_num) (by norm_num))))

theorem CalculateStats_tall1_tall2_tall3 :
    CalculateStats [tall1, tall2, tall3] = ⟨F64.fin (6400000000000069 / 64), F64.fin
        (3200000000000035 / 32), F64.fin (3200000000000035 / 32)⟩ := by
  have hps : [tall1, tall2, tall3].map ProfitPerNight = [F64.fin (3200000000000035 / 32), F64.fin
      (3200000000000035 / 32), F64.fin (3200000000000035 / 32)] := by
    rw [List.map_cons, List.map_cons, List.map_cons, List.map_nil, ProfitPerNight_tall1,
        ProfitPerNight_tall2, ProfitPerNight_tall3]
  have hs : ([F64.fin (3200000000000035 / 32), F64.fin (3200000000000035 / 32), F64.fin
      (3200000000000035 / 32)] : List F64).foldl F64.add (F64.fin 0) = F64.fin (1200000000000013 /
      4) := by
    rw [foldl_add_cons_eval _ _ 0 (3200000000000035 / 32) (3200000000000035 / 32) rfl (rnd_congr
        (by norm_num) (rnd_of_dyadic (3200000000000035 / 32) 6400000000000070 (-6) (by norm_num)
        (by norm_num) (by norm_num) (by norm_num))),
      foldl_add_cons_eval _ _ (3200000000000035 / 32) (3200000000000035 / 32) (3200000000000035 /
          16) rfl (rnd_congr (by norm_num) (rnd_of_dyadic (3200000000000035 / 16) 6400000000000070
          (-5) (by norm_num) (by norm_num) (by norm_num) (by norm_num))),
      foldl_add_cons_eval _ _ (3200000000000035 / 16) (3200000000000035 / 32) (1200000000000013 / 4)
          rfl (rnd_congr (by norm_num) (rnd_of_tie_pos (9600000000000105 / 32) (1200000000000013 /
          4) (-4) 4800000000000052 (by norm_num) (by norm_num) (by norm_num) (by norm_num)
          (by norm_num [abs_of_pos, abs_of_neg]) (by norm_num) (by norm_num))), List.foldl_nil]
  have hmn : ([F64.fin (3200000000000035 / 32), F64.fin (3200000000000035 / 32), F64.fin
      (3200000000000035 / 32)] : List F64).foldl (fun mn p => if F64.lt p mn then p else mn)
      (F64.fin (3200000000000035 / 32))
      = F64.fin (3200000000000035 / 32) := by
    rw [minStep_eval_ge _ (3200000000000035 / 32) (3200000000000035 / 32) (by norm_num),
      minStep_eval_ge _ (3200000000000035 / 32) (3200000000000035 / 32) (by norm_num),
      minStep_eval_ge _ (3200000000000035 / 32) (3200000000000035 / 32) (by norm_num),
          List.foldl_nil]
  have hmx : ([F64.fin (3200000000000035 / 32), F64.fin (3200000000000035 / 32), F64.fin
      (3200000000000035 / 32)] : List F64).foldl (fun mx p => if F64.lt mx p then p else mx)
      (F64.fin (3200000000000035 / 32))
      = F64.fin (3200000000000035 / 32) := by
    rw [maxStep_eval_ge _ (3200000000000035 / 32) (3200000000000035 / 32) (by norm_num),
      maxStep_eval_ge _ (3200000000000035 / 32) (3200000000000035 / 32) (by norm_num),
      maxStep_eval_ge _ (3200000000000035 / 32) (3200000000000035 / 32) (by norm_num),
          List.foldl_nil]
  exact CalculateStats_eval _ _ _ (3200000000000035 / 32) (1200000000000013 / 4) 3 (6400000000000069
      / 64) (3200000000000035 / 32) (3200000000000035 / 32) _ _ _ hps ProfitPerNight_tall1 hs
    (ofInt_eval _ (by decide) _ (by norm_num)) (by norm_num)
    (rnd_congr (by norm_num) (rnd_of_near_pos (1200000000000013 / 12) (6400000000000069 / 64) (-6)
        6400000000000069 (by norm_num) (by norm_num) (by norm_num) (by norm_num) (by norm_num)
        (by norm_num) (by norm_num))) hmn hmx
    (roundToTwoDecimals_eval (6400000000000069 / 64) 10000000000000108 10000000000000108
        (6400000000000069 / 64) (rnd_congr (by norm_num) (rnd_of_near_pos (160000000000001725 / 16)
        10000000000000108 1 5000000000000054 (by norm_num) (by norm_num) (by norm_num) (by norm_num)
        (by norm_num) (by norm_num) (by norm_num))) (mathRound_nonneg_eval 10000000000000108
        10000000000000108 10000000000000108 (by norm_num) (by norm_num) (by norm_num) (by norm_num))
        (rnd_congr (by norm_num) (rnd_of_near_pos (2500000000000027 / 25) (6400000000000069 / 64)
        (-6) 6400000000000069 (by norm_num) (by norm_num) (by norm_num) (by norm_num) (by norm_num)
        (by norm_num) (by norm_num))))
    (roundToTwoDecimals_eval (3200000000000035 / 32) 10000000000000110 10000000000000110
        (3200000000000035 / 32) (rnd_congr (by norm_num) (rnd_of_near_pos (80000000000000875 / 8)
        10000000000000110 1 5000000000000055 (by norm_num) (by norm_num) (by norm_num) (by norm_num)
        (by norm_num) (by norm_num) (by norm_num))) (mathRound_nonneg_eval 10000000000000110
        10000000000000110 10000000000000110 (by norm_num) (by norm_num) (by norm_num) (by norm_num))
        (rnd_congr (by norm_num) (rnd_of_near_pos (1000000000000011 / 10) (3200000000000035 / 32)
        (-6) 6400000000000070 (by norm_num) (by norm_num) (by norm_num) (by norm_num) (by norm_num)
        (by norm_num) (by norm_num))))
    (roundToTwoDecimals_eval (3200000000000035 / 32) 10000000000000110 10000000000000110
        (3200000000000035 / 32) (rnd_congr (by norm_num) (rnd_of_near_pos (80000000000000875 / 8)
        10000000000000110 1 5000000000000055 (by norm_num) (by norm_num) (by norm_num) (by norm_num)
        (by norm_num) (by norm_num) (by norm_num))) (mathRound_nonneg_eval 10000000000000110
        10000000000000110 10000000000000110 (by norm_num) (by norm_num) (by norm_num) (by norm_num))
        (rnd_congr (by norm_num) (rnd_of_near_pos (1000000000000011 / 10) (3200000000000035 / 32)
        (-6) 6400000000000070 (by norm_num) (by norm_num) (by norm_num) (by norm_num) (by norm_num)
        (by norm_num) (by norm_num))))

theorem ProfitPerNight_zeroNight : ProfitPerNight zeroNight = F64.fin 0 := by
  unfold ProfitPerNight
  rw [if_pos (show zeroNight.Nights = 0 from rfl)]

theorem CalculateStats_req1_zeroNight :
    CalculateStats [req1, zeroNight] = ⟨F64.fin (1173046965441659 / 35184372088832), F64.fin 0,
        F64.fin (4691484174324859 / 70368744177664)⟩ := by
  have hps : [req1, zeroNight].map ProfitPerNight = [F64.fin (4691484174324859 / 70368744177664),
      F64.fin 0] := by
    rw [List.map_cons, List.map_cons, List.map_nil, ProfitPerNight_req1, ProfitPerNight_zeroNight]
  have hs : ([F64.fin (4691484174324859 / 70368744177664), F64.fin 0] : List F64).foldl F64.add
      (F64.fin 0) = F64.fin (4691484174324859 / 70368744177664) := by
    rw [foldl_add_cons_eval _ _ 0 (4691484174324859 / 70368744177664) (4691484174324859 /
        70368744177664) rfl (rnd_congr (by norm_num) (rnd_of_dyadic (4691484174324859 /
        70368744177664) 4691484174324859 (-46) (by norm_num) (by norm_num) (by norm_num)
        (by norm_num))),
      foldl_add_cons_eval _ _ (4691484174324859 / 70368744177664) 0 (4691484174324859 /
          70368744177664) rfl (rnd_congr (by norm_num) (rnd_of_dyadic (4691484174324859 /
          70368744177664) 4691484174324859 (-46) (by norm_num) (by norm_num) (by norm_num)
          (by norm_num))), List.foldl_nil]
  have hmn : ([F64.fin (4691484174324859 / 70368744177664), F64.fin 0] : List F64).foldl (fun mn p
      => if F64.lt p mn then p else mn) (F64.fin (4691484174324859 / 70368744177664))
      = F64.fin 0 := by
    rw [minStep_eval_ge _ (4691484174324859 / 70368744177664) (4691484174324859 / 70368744177664)
        (by norm_num),
      minStep_eval_lt _ 0 (4691484174324859 / 70368744177664) (by norm_num), List.foldl_nil]
  have hmx : ([F64.fin (4691484174324859 / 70368744177664), F64.fin 0] : List F64).foldl (fun mx p
      => if F64.lt mx p then p else mx) (F64.fin (4691484174324859 / 70368744177664))
      = F64.fin (4691484174324859 / 70368744177664) := by
    rw [maxStep_eval_ge _ (4691484174324859 / 70368744177664) (4691484174324859 / 70368744177664)
        (by norm_num),
      maxStep_eval_ge _ 0 (4691484174324859 / 70368744177664) (by norm_num), List.foldl_nil]
  exact CalculateStats_eval _ _ _ (4691484174324859 / 70368744177664) (4691484174324859 /
      70368744177664) 2 (4691484174324859 / 140737488355328) 0 (4691484174324859 / 70368744177664) _
      _ _ hps ProfitPerNight_req1 hs
    (ofInt_eval _ (by decide) _ (by norm_num)) (by norm_num)
    (rnd_congr (by norm_num) (rnd_of_dyadic (4691484174324859 / 140737488355328) 4691484174324859
        (-47) (by norm_num) (by norm_num) (by norm_num) (by norm_num))) hmn hmx
    (roundToTwoDecimals_eval (4691484174324859 / 140737488355328) (6667 / 2) 3334 (1173046965441659
        / 35184372088832) (rnd_congr (by norm_num) (rnd_of_near_pos (117287104358121475 /
        35184372088832) (6667 / 2) (-41) 7330444022382592 (by norm_num) (by norm_num) (by norm_num)
        (by norm_num) (by norm_num) (by norm_num) (by norm_num))) (mathRound_nonneg_eval (6667 / 2)
        3334 3334 (by norm_num) (by norm_num) (by norm_num) (by norm_num)) (rnd_congr (by norm_num)
        (rnd_of_near_pos (1667 / 50) (1173046965441659 / 35184372088832) (-47) 4692187861766636
        (by norm_num) (by norm_num) (by norm_num) (by norm_num) (by norm_num) (by norm_num)
        (by norm_num))))
    (roundToTwoDecimals_eval 0 0 0 0 (rnd_congr (by norm_num) (rnd_of_int 0 0 (by norm_num)
        (by norm_num))) (mathRound_nonneg_eval 0 0 0 (by norm_num) (by norm_num) (by norm_num)
        (by norm_num)) (rnd_congr (by norm_num) (rnd_of_int 0 0 (by norm_num) (by norm_num))))
    (roundToTwoDecimals_eval (4691484174324859 / 70368744177664) 6667 6667 (4691484174324859 /
        70368744177664) (rnd_congr (by norm_num) (rnd_of_near_pos (117287104358121475 /
        17592186044416) 6667 (-40) 7330444022382592 (by norm_num) (by norm_num) (by norm_num)
        (by norm_num) (by norm_num) (by norm_num) (by norm_num))) (mathRound_nonneg_eval 6667 6667
        6667 (by norm_num) (by norm_num) (by norm_num) (by norm_num)) (rnd_congr (by norm_num)
        (rnd_of_near_pos (6667 / 100) (4691484174324859 / 70368744177664) (-46) 4691484174324859
        (by norm_num) (by norm_num) (by norm_num) (by norm_num) (by norm_num) (by norm_num)
        (by norm_num))))

theorem CalculateStats_req1_req2 :
    CalculateStats [req1, req2] = ⟨F64.fin (8209921383208059 / 70368744177664), F64.fin
        (4691484174324859 / 70368744177664), F64.fin (5864179296045629 / 35184372088832)⟩ := by
  have hps : [req1, req2].map ProfitPerNight = [F64.fin (4691484174324859 / 70368744177664), F64.fin
      (5864179296045629 / 35184372088832)] := by
    rw [List.map_cons, List.map_cons, List.map_nil, ProfitPerNight_req1, ProfitPerNight_req2]
  have hs : ([F64.fin (4691484174324859 / 70368744177664), F64.fin (5864179296045629 /
      35184372088832)] : List F64).foldl F64.add (F64.fin 0) = F64.fin (4104960691604029 /
      17592186044416) := by
    rw [foldl_add_cons_eval _ _ 0 (4691484174324859 / 70368744177664) (4691484174324859 /
        70368744177664) rfl (rnd_congr (by norm_num) (rnd_of_dyadic (4691484174324859 /
        70368744177664) 4691484174324859 (-46) (by norm_num) (by norm_num) (by norm_num)
        (by norm_num))),
      foldl_add_cons_eval _ _ (4691484174324859 / 70368744177664) (5864179296045629 /
          35184372088832) (4104960691604029 / 17592186044416) rfl (rnd_congr (by norm_num)
          (rnd_of_tie_pos (16419842766416117 / 70368744177664) (4104960691604029 / 17592186044416)
          (-45) 8209921383208058 (by norm_num) (by norm_num) (by norm_num) (by norm_num)
          (by norm_num [abs_of_pos, abs_of_neg]) (by norm_num) (by norm_num))), List.foldl_nil]
  have hmn : ([F64.fin (4691484174324859 / 70368744177664), F64.fin (5864179296045629 /
      35184372088832)] : List F64).foldl (fun mn p => if F64.lt p mn then p else mn) (F64.fin
      (4691484174324859 / 70368744177664))
      = F64.fin (4691484174324859 / 70368744177664) := by
    rw [minStep_eval_ge _ (4691484174324859 / 70368744177664) (4691484174324859 / 70368744177664)
        (by norm_num),
      minStep_eval_ge _ (5864179296045629 / 35184372088832) (4691484174324859 / 70368744177664)
          (by norm_num), List.foldl_nil]
  have hmx : ([F64.fin (4691484174324859 / 70368744177664), F64.fin (5864179296045629 /
      35184372088832)] : List F64).foldl (fun mx p => if F64.lt mx p then p else mx) (F64.fin
      (4691484174324859 / 70368744177664))
      = F64.fin (5864179296045629 / 35184372088832) := by
    rw [maxStep_eval_ge _ (4691484174324859 / 70368744177664) (4691484174324859 / 70368744177664)
        (by norm_num),
      maxStep_eval_lt _ (5864179296045629 / 35184372088832) (4691484174324859 / 70368744177664)
          (by norm_num), List.foldl_nil]
  exact CalculateStats_eval _ _ _ (4691484174324859 / 70368744177664) (4104960691604029 /
      17592186044416) 2 (4104960691604029 / 35184372088832) (4691484174324859 / 70368744177664)
      (5864179296045629 / 35184372088832) _ _ _ hps ProfitPerNight_req1 hs
    (ofInt_eval _ (by decide) _ (by norm_num)) (by norm_num)
    (rnd_congr (by norm_num) (rnd_of_dyadic (4104960691604029 / 35184372088832) 8209921383208058
        (-46) (by norm_num) (by norm_num) (by norm_num) (by norm_num))) hmn hmx
    (roundToTwoDecimals_eval (4104960691604029 / 35184372088832) (6414001080631295 / 549755813888)
        11667 (8209921383208059 / 70368744177664) (rnd_congr (by norm_num) (rnd_of_near_pos
        (102624017290100725 / 8796093022208) (6414001080631295 / 549755813888) (-39)
        6414001080631295 (by norm_num) (by norm_num) (by norm_num) (by norm_num) (by norm_num)
        (by norm_num) (by norm_num))) (mathRound_nonneg_eval (6414001080631295 / 549755813888) 11667
        11667 (by norm_num) (by norm_num) (by norm_num) (by norm_num)) (rnd_congr (by norm_num)
        (rnd_of_near_pos (11667 / 100) (8209921383208059 / 70368744177664) (-46) 8209921383208059
        (by norm_num) (by norm_num) (by norm_num) (by norm_num) (by norm_num) (by norm_num)
        (by norm_num))))
    (roundToTwoDecimals_eval (4691484174324859 / 70368744177664) 6667 6667 (4691484174324859 /
        70368744177664) (rnd_congr (by norm_num) (rnd_of_near_pos (117287104358121475 /
        17592186044416) 6667 (-40) 7330444022382592 (by norm_num) (by norm_num) (by norm_num)
        (by norm_num) (by norm_num) (by norm_num) (by norm_num))) (mathRound_nonneg_eval 6667 6667
        6667 (by norm_num) (by norm_num) (by norm_num) (by norm_num)) (rnd_congr (by norm_num)
        (rnd_of_near_pos (6667 / 100) (4691484174324859 / 70368744177664) (-46) 4691484174324859
        (by norm_num) (by norm_num) (by norm_num) (by norm_num) (by norm_num) (by norm_num)
        (by norm_num))))
    (roundToTwoDecimals_eval (5864179296045629 / 35184372088832) 16667 16667 (5864179296045629 /
        35184372088832) (rnd_congr (by norm_num) (rnd_of_near_pos (146604482401140725 /
        8796093022208) 16667 (-38) 4581390075035648 (by norm_num) (by norm_num) (by norm_num)
        (by norm_num) (by norm_num) (by norm_num) (by norm_num))) (mathRound_nonneg_eval 16667 16667
        16667 (by norm_num) (by norm_num) (by norm_num) (by norm_num)) (rnd_congr (by norm_num)
        (rnd_of_near_pos (16667 / 100) (5864179296045629 / 35184372088832) (-45) 5864179296045629
        (by norm_num) (by norm_num) (by norm_num) (by norm_num) (by norm_num) (by norm_num)
        (by norm_num))))

theorem CalculateStats_req2_req1 :
    CalculateStats [req2, req1] = ⟨F64.fin (8209921383208059 / 70368744177664), F64.fin
        (4691484174324859 / 70368744177664), F64.fin (5864179296045629 / 35184372088832)⟩ := by
  have hps : [req2, req1].map ProfitPerNight = [F64.fin (5864179296045629 / 35184372088832), F64.fin
      (4691484174324859 / 70368744177664)] := by
    rw [List.map_cons, List.map_cons, List.map_nil, ProfitPerNight_req2, ProfitPerNight_req1]
  have hs : ([F64.fin (5864179296045629 / 35184372088832), F64.fin (4691484174324859 /
      70368744177664)] : List F64).foldl F64.add (F64.fin 0) = F64.fin (4104960691604029 /
      17592186044416) := by
    rw [foldl_add_cons_eval _ _ 0 (5864179296045629 / 35184372088832) (5864179296045629 /
        35184372088832) rfl (rnd_congr (by norm_num) (rnd_of_dyadic (5864179296045629 /
        35184372088832) 5864179296045629 (-45) (by norm_num) (by norm_num) (by norm_num)
        (by norm_num))),
      foldl_add_cons_eval _ _ (5864179296045629 / 35184372088832) (4691484174324859 /
          70368744177664) (4104960691604029 / 17592186044416) rfl (rnd_congr (by norm_num)
          (rnd_of_tie_pos (16419842766416117 / 70368744177664) (4104960691604029 / 17592186044416)
          (-45) 8209921383208058 (by norm_num) (by norm_num) (by norm_num) (by norm_num)
          (by norm_num [abs_of_pos, abs_of_neg]) (by norm_num) (by norm_num))), List.foldl_nil]
  have hmn : ([F64.fin (5864179296045629 / 35184372088832), F64.fin (4691484174324859 /
      70368744177664)] : List F64).foldl (fun mn p => if F64.lt p mn then p else mn) (F64.fin
      (5864179296045629 / 35184372088832))
      = F64.fin (4691484174324859 / 70368744177664) := by
    rw [minStep_eval_ge _ (5864179296045629 / 35184372088832) (5864179296045629 / 35184372088832)
        (by norm_num),
      minStep_eval_lt _ (4691484174324859 / 70368744177664) (5864179296045629 / 35184372088832)
          (by norm_num), List.foldl_nil]
  have hmx : ([F64.fin (5864179296045629 / 35184372088832), F64.fin (4691484174324859 /
      70368744177664)] : List F64).foldl (fun mx p => if F64.lt mx p then p else mx) (F64.fin
      (5864179296045629 / 35184372088832))
      = F64.fin (5864179296045629 / 35184372088832) := by
    rw [maxStep_eval_ge _ (5864179296045629 / 35184372088832) (5864179296045629 / 35184372088832)
        (by norm_num),
      maxStep_eval_ge _ (4691484174324859 / 70368744177664) (5864179296045629 / 35184372088832)
          (by norm_num), List.foldl_nil]
  exact CalculateStats_eval _ _ _ (5864179296045629 / 35184372088832) (4104960691604029 /
      17592186044416) 2 (4104960691604029 / 35184372088832) (4691484174324859 / 70368744177664)
      (5864179296045629 / 35184372088832) _ _ _ hps ProfitPerNight_req2 hs
    (ofInt_eval _ (by decide) _ (by norm_num)) (by norm_num)
    (rnd_congr (by norm_num) (rnd_of_dyadic (4104960691604029 / 35184372088832) 8209921383208058
        (-46) (by norm_num) (by norm_num) (by norm_num) (by norm_num))) hmn hmx
    (roundToTwoDecimals_eval (4104960691604029 / 35184372088832) (6414001080631295 / 549755813888)
        11667 (8209921383208059 / 70368744177664) (rnd_congr (by norm_num) (rnd_of_near_pos
        (102624017290100725 / 8796093022208) (6414001080631295 / 549755813888) (-39)
        6414001080631295 (by norm_num) (by norm_num) (by norm_num) (by norm_num) (by norm_num)
        (by norm_num) (by norm_num))) (mathRound_nonneg_eval (6414001080631295 / 549755813888) 11667
        11667 (by norm_num) (by norm_num) (by norm_num) (by norm_num)) (rnd_congr (by norm_num)
        (rnd_of_near_pos (11667 / 100) (8209921383208059 / 70368744177664) (-46) 8209921383208059
        (by norm_num) (by norm_num) (by norm_num) (by norm_num) (by norm_num) (by norm_num)
        (by norm_num))))
    (roundToTwoDecimals_eval (4691484174324859 / 70368744177664) 6667 6667 (4691484174324859 /
        70368744177664) (rnd_congr (by norm_num) (rnd_of_near_pos (117287104358121475 /
        17592186044416) 6667 (-40) 7330444022382592 (by norm_num) (by norm_num) (by norm_num)
        (by norm_num) (by norm_num) (by norm_num) (by norm_num))) (mathRound_nonneg_eval 6667 6667
        6667 (by norm_num) (by norm_num) (by norm_num) (by norm_num)) (rnd_congr (by norm_num)
        (rnd_of_near_pos (6667 / 100) (4691484174324859 / 70368744177664) (-46) 4691484174324859
        (by norm_num) (by norm_num) (by norm_num) (by norm_num) (by norm_num) (by norm_num)
        (by norm_num))))
    (roundToTwoDecimals_eval (5864179296045629 / 35184372088832) 16667 16667 (5864179296045629 /
        35184372088832) (rnd_congr (by norm_num) (rnd_of_near_pos (146604482401140725 /
        8796093022208) 16667 (-38) 4581390075035648 (by norm_num) (by norm_num) (by norm_num)
        (by norm_num) (by norm_num) (by norm_num) (by norm_num))) (mathRound_nonneg_eval 16667 16667
        16667 (by norm_num) (by norm_num) (by norm_num) (by norm_num)) (rnd_congr (by norm_num)
        (rnd_of_near_pos (16667 / 100) (5864179296045629 / 35184372088832) (-45) 5864179296045629
        (by norm_num) (by norm_num) (by norm_num) (by norm_num) (by norm_num) (by norm_num)
        (by norm_num))))

theorem absProfit_stayA : absProfit stayA = F64.fin 200 :=
  absProfit_eval stayA 1000 20 20000 200 rfl rfl
    (rnd_congr (by norm_num) (rnd_of_int 20000 20000 (by norm_num) (by norm_num)))
    (rnd_congr (by norm_num) (rnd_of_int 200 200 (by norm_num) (by norm_num)))

theorem ProfitPerNight_stayA : ProfitPerNight stayA = F64.fin 40 :=
  ProfitPerNight_eval stayA 200 5 40 40 (by decide) absProfit_stayA
    (ofInt_eval _ (by decide) _ (by norm_num [stayA])) (by norm_num)
    (rnd_congr (by norm_num) (rnd_of_int 40 40 (by norm_num) (by norm_num)))
    (roundToTwoDecimals_eval 40 4000 4000 40 (rnd_congr (by norm_num) (rnd_of_int 4000 4000
        (by norm_num) (by norm_num))) (mathRound_nonneg_eval 4000 4000 4000 (by norm_num)
        (by norm_num) (by norm_num) (by norm_num)) (rnd_congr (by norm_num) (rnd_of_int 40 40
        (by norm_num) (by norm_num))))

theorem absProfit_stayB : absProfit stayB = F64.fin 300 :=
  absProfit_eval stayB 2000 15 30000 300 rfl rfl
    (rnd_congr (by norm_num) (rnd_of_int 30000 30000 (by norm_num) (by norm_num)))
    (rnd_congr (by norm_num) (rnd_of_int 300 300 (by norm_num) (by norm_num)))

theorem ProfitPerNight_stayB : ProfitPerNight stayB = F64.fin 75 :=
  ProfitPerNight_eval stayB 300 4 75 75 (by decide) absProfit_stayB
    (ofInt_eval _ (by decide) _ (by norm_num [stayB])) (by norm_num)
    (rnd_congr (by norm_num) (rnd_of_int 75 75 (by norm_num) (by norm_num)))
    (roundToTwoDecimals_eval 75 7500 7500 75 (rnd_congr (by norm_num) (rnd_of_int 7500 7500
        (by norm_num) (by norm_num))) (mathRound_nonneg_eval 7500 7500 7500 (by norm_num)
        (by norm_num) (by norm_num) (by norm_num)) (rnd_congr (by norm_num) (rnd_of_int 75 75
        (by norm_num) (by norm_num))))

theorem absProfit_stayC : absProfit stayC = F64.fin 750 :=
  absProfit_eval stayC 3000 25 75000 750 rfl rfl
    (rnd_congr (by norm_num) (rnd_of_int 75000 75000 (by norm_num) (by norm_num)))
    (rnd_congr (by norm_num) (rnd_of_int 750 750 (by norm_num) (by norm_num)))

theorem ProfitPerNight_stayC : ProfitPerNight stayC = F64.fin 125 :=
  ProfitPerNight_eval stayC 750 6 125 125 (by decide) absProfit_stayC
    (ofInt_eval _ (by decide) _ (by norm_num [stayC])) (by norm_num)
    (rnd_congr (by norm_num) (rnd_of_int 125 125 (by norm_num) (by norm_num)))
    (roundToTwoDecimals_eval 125 12500 12500 125 (rnd_congr (by norm_num) (rnd_of_int 12500 12500
        (by norm_num) (by norm_num))) (mathRound_nonneg_eval 12500 12500 12500 (by norm_num)
        (by norm_num) (by norm_num) (by norm_num)) (rnd_congr (by norm_num) (rnd_of_int 125 125
        (by norm_num) (by norm_num))))

theorem CalculateStats_stayA_stayB_stayC :
    CalculateStats [stayA, stayB, stayC] = ⟨F64.fin 80, F64.fin 40, F64.fin 125⟩ := by
  have hps : [stayA, stayB, stayC].map ProfitPerNight = [F64.fin 40, F64.fin 75, F64.fin 125] := by
    rw [List.map_cons, List.map_cons, List.map_cons, List.map_nil, ProfitPerNight_stayA,
        ProfitPerNight_stayB, ProfitPerNight_stayC]
  have hs : ([F64.fin 40, F64.fin 75, F64.fin 125] : List F64).foldl F64.add (F64.fin 0) = F64.fin
      240 := by
    rw [foldl_add_cons_eval _ _ 0 40 40 rfl (rnd_congr (by norm_num) (rnd_of_int 40 40 (by norm_num)
        (by norm_num))),
      foldl_add_cons_eval _ _ 40 75 115 rfl (rnd_congr (by norm_num) (rnd_of_int 115 115
          (by norm_num) (by norm_num))),
      foldl_add_cons_eval _ _ 115 125 240 rfl (rnd_congr (by norm_num) (rnd_of_int 240 240
          (by norm_num) (by norm_num))), List.foldl_nil]
  have hmn : ([F64.fin 40, F64.fin 75, F64.fin 125] : List F64).foldl (fun mn p => if F64.lt p mn
      then p else mn) (F64.fin 40)
      = F64.fin 40 := by
    rw [minStep_eval_ge _ 40 40 (by norm_num),
      minStep_eval_ge _ 75 40 (by norm_num),
      minStep_eval_ge _ 125 40 (by norm_num), List.foldl_nil]
  have hmx : ([F64.fin 40, F64.fin 75, F64.fin 125] : List F64).foldl (fun mx p => if F64.lt mx p
      then p else mx) (F64.fin 40)
      = F64.fin 125 := by
    rw [maxStep_eval_ge _ 40 40 (by norm_num),
      maxStep_eval_lt _ 75 40 (by norm_num),
      maxStep_eval_lt _ 125 75 (by norm_num), List.foldl_nil]
  exact CalculateStats_eval _ _ _ 40 240 3 80 40 125 _ _ _ hps ProfitPerNight_stayA hs
    (ofInt_eval _ (by decide) _ (by norm_num)) (by norm_num)
    (rnd_congr (by norm_num) (rnd_of_int 80 80 (by norm_num) (by norm_num))) hmn hmx
    (roundToTwoDecimals_eval 80 8000 8000 80 (rnd_congr (by norm_num) (rnd_of_int 8000 8000
        (by norm_num) (by norm_num))) (mathRound_nonneg_eval 8000 8000 8000 (by norm_num)
        (by norm_num) (by norm_num) (by norm_num)) (rnd_congr (by norm_num) (rnd_of_int 80 80
        (by norm_num) (by norm_num))))
    (roundToTwoDecimals_eval 40 4000 4000 40 (rnd_congr (by norm_num) (rnd_of_int 4000 4000
        (by norm_num) (by norm_num))) (mathRound_nonneg_eval 4000 4000 4000 (by norm_num)
        (by norm_num) (by norm_num) (by norm_num)) (rnd_congr (by norm_num) (rnd_of_int 40 40
        (by norm_num) (by norm_num))))
    (roundToTwoDecimals_eval 125 12500 12500 125 (rnd_congr (by norm_num) (rnd_of_int 12500 12500
        (by norm_num) (by norm_num))) (mathRound_nonneg_eval 12500 12500 12500 (by norm_num)
        (by norm_num) (by norm_num) (by norm_num)) (rnd_congr (by norm_num) (rnd_of_int 125 125
        (by norm_num) (by norm_num))))

theorem CalculateStats_stayC_stayA_stayB :
    CalculateStats [stayC, stayA, stayB] = ⟨F64.fin 80, F64.fin 40, F64.fin 125⟩ := by
  have hps : [stayC, stayA, stayB].map ProfitPerNight = [F64.fin 125, F64.fin 40, F64.fin 75] := by
    rw [List.map_cons, List.map_cons, List.map_cons, List.map_nil, ProfitPerNight_stayC,
        ProfitPerNight_stayA, ProfitPerNight_stayB]
  have hs : ([F64.fin 125, F64.fin 40, F64.fin 75] : List F64).foldl F64.add (F64.fin 0) = F64.fin
      240 := by
    rw [foldl_add_cons_eval _ _ 0 125 125 rfl (rnd_congr (by norm_num) (rnd_of_int 125 125
        (by norm_num) (by norm_num))),
      foldl_add_cons_eval _ _ 125 40 165 rfl (rnd_congr (by norm_num) (rnd_of_int 165 165
          (by norm_num) (by norm_num))),
      foldl_add_cons_eval _ _ 165 75 240 rfl (rnd_congr (by norm_num) (rnd_of_int 240 240
          (by norm_num) (by norm_num))), List.foldl_nil]
  have hmn : ([F64.fin 125, F64.fin 40, F64.fin 75] : List F64).foldl (fun mn p => if F64.lt p mn
      then p else mn) (F64.fin 125)
      = F64.fin 40 := by
    rw [minStep_eval_ge _ 125 125 (by norm_num),
      minStep_eval_lt _ 40 125 (by norm_num),
      minStep_eval_ge _ 75 40 (by norm_num), List.foldl_nil]
  have hmx : ([F64.fin 125, F64.fin 40, F64.fin 75] : List F64).foldl (fun mx p => if F64.lt mx p
      then p else mx) (F64.fin 125)
      = F64.fin 125 := by
    rw [maxStep_eval_ge _ 125 125 (by norm_num),
      maxStep_eval_ge _ 40 125 (by norm_num),
      maxStep_eval_ge _ 75 125 (by norm_num), List.foldl_nil]
  exact CalculateStats_eval _ _ _ 125 240 3 80 40 125 _ _ _ hps ProfitPerNight_stayC hs
    (ofInt_eval _ (by decide) _ (by norm_num)) (by norm_num)
    (rnd_congr (by norm_num) (rnd_of_int 80 80 (by norm_num) (by norm_num))) hmn hmx
    (roundToTwoDecimals_eval 80 8000 8000 80 (rnd_congr (by norm_num) (rnd_of_int 8000 8000
        (by norm_num) (by norm_num))) (mathRound_nonneg_eval 8000 8000 8000 (by norm_num)
        (by norm_num) (by norm_num) (by norm_num)) (rnd_congr (by norm_num) (rnd_of_int 80 80
        (by norm_num) (by norm_num))))
    (roundToTwoDecimals_eval 40 4000 4000 40 (rnd_congr (by norm_num) (rnd_of_int 4000 4000
        (by norm_num) (by norm_num))) (mathRound_nonneg_eval 4000 4000 4000 (by norm_num)
        (by norm_num) (by norm_num) (by norm_num)) (rnd_congr (by norm_num) (rnd_of_int 40 40
        (by norm_num) (by norm_num))))
    (roundToTwoDecimals_eval 125 12500 12500 125 (rnd_congr (by norm_num) (rnd_of_int 12500 12500
        (by norm_num) (by norm_num))) (mathRound_nonneg_eval 12500 12500 12500 (by norm_num)
        (by norm_num) (by norm_num) (by norm_num)) (rnd_congr (by norm_num) (rnd_of_int 125 125
        (by norm_num) (by norm_num))))

theorem TotalProfit_eighth : TotalProfit [eighth] = F64.fin 0 := by
  apply TotalProfit_eval [eighth] (1080863910568919 / 288230376151711744) 0 _
      (roundToTwoDecimals_eval (1080863910568919 / 288230376151711744) (3 / 8) 0 0 (rnd_congr
      (by norm_num) (rnd_of_near_pos (27021597764222975 / 72057594037927936) (3 / 8) (-54)
      6755399441055744 (by norm_num) (by norm_num) (by norm_num) (by norm_num) (by norm_num)
      (by norm_num) (by norm_num))) (mathRound_nonneg_eval (3 / 8) 0 0 (by norm_num) (by norm_num)
      (by norm_num) (by norm_num)) (rnd_congr (by norm_num) (rnd_of_int 0 0 (by norm_num)
      (by norm_num))))
  rw [List.map_cons, List.map_nil]
  rw [foldl_add_cons_eval _ _ 0 (1080863910568919 / 288230376151711744) (1080863910568919 /
      288230376151711744) absProfit_eighth (rnd_congr (by norm_num) (rnd_of_dyadic (1080863910568919
      / 288230376151711744) 8646911284551352 (-61) (by norm_num) (by norm_num) (by norm_num)
      (by norm_num))), List.foldl_nil]

theorem rnd_c950 : rnd 950 = F64.fin 950 :=
  (rnd_congr (by norm_num) (rnd_of_int 950 950 (by norm_num) (by norm_num)))

theorem rnd_c150 : rnd 150 = F64.fin 150 :=
  (rnd_congr (by norm_num) (rnd_of_int 150 150 (by norm_num) (by norm_num)))

theorem rnd_c15833 : rnd (15833 / 100) = F64.fin (5570741632824771 / 35184372088832) :=
  (rnd_congr (by norm_num) (rnd_of_near_pos (15833 / 100) (5570741632824771 / 35184372088832) (-45)
      5570741632824771 (by norm_num) (by norm_num) (by norm_num) (by norm_num) (by norm_num)
      (by norm_num) (by norm_num)))

theorem rnd_c16667 : rnd (16667 / 100) = F64.fin (5864179296045629 / 35184372088832) :=
  (rnd_congr (by norm_num) (rnd_of_near_pos (16667 / 100) (5864179296045629 / 35184372088832) (-45)
      5864179296045629 (by norm_num) (by norm_num) (by norm_num) (by norm_num) (by norm_num)
      (by norm_num) (by norm_num)))

theorem rnd_c14 : rnd (14 / 100) = F64.fin (1261007895663739 / 9007199254740992) :=
  (rnd_congr (by norm_num) (rnd_of_near_pos (7 / 50) (1261007895663739 / 9007199254740992) (-55)
      5044031582654956 (by norm_num) (by norm_num) (by norm_num) (by norm_num) (by norm_num)
      (by norm_num) (by norm_num)))

theorem rnd_c15 : rnd (15 / 100) = F64.fin (5404319552844595 / 36028797018963968) :=
  (rnd_congr (by norm_num) (rnd_of_near_pos (3 / 20) (5404319552844595 / 36028797018963968) (-55)
      5404319552844595 (by norm_num) (by norm_num) (by norm_num) (by norm_num) (by norm_num)
      (by norm_num) (by norm_num)))

theorem rnd_c1 : rnd (1 / 100) = F64.fin (5764607523034235 / 576460752303423488) :=
  (rnd_congr (by norm_num) (rnd_of_near_pos (1 / 100) (5764607523034235 / 576460752303423488) (-59)
      5764607523034235 (by norm_num) (by norm_num) (by norm_num) (by norm_num) (by norm_num)
      (by norm_num) (by norm_num)))

theorem rnd_c2 : rnd (2 / 100) = F64.fin (5764607523034235 / 288230376151711744) :=
  (rnd_congr (by norm_num) (rnd_of_near_pos (1 / 50) (5764607523034235 / 288230376151711744) (-58)
      5764607523034235 (by norm_num) (by norm_num) (by norm_num) (by norm_num) (by norm_num)
      (by norm_num) (by norm_num)))

theorem rnd_c3 : rnd (3 / 100) = F64.fin (1080863910568919 / 36028797018963968) :=
  (rnd_congr (by norm_num) (rnd_of_near_pos (3 / 100) (1080863910568919 / 36028797018963968) (-58)
      8646911284551352 (by norm_num) (by norm_num) (by norm_num) (by norm_num) (by norm_num)
      (by norm_num) (by norm_num)))

theorem rnd_c4 : rnd (4 / 100) = F64.fin (5764607523034235 / 144115188075855872) :=
  (rnd_congr (by norm_num) (rnd_of_near_pos (1 / 25) (5764607523034235 / 144115188075855872) (-57)
      5764607523034235 (by norm_num) (by norm_num) (by norm_num) (by norm_num) (by norm_num)
      (by norm_num) (by norm_num)))

theorem rnd_c5 : rnd (5 / 100) = F64.fin (3602879701896397 / 72057594037927936) :=
  (rnd_congr (by norm_num) (rnd_of_near_pos (1 / 20) (3602879701896397 / 72057594037927936) (-57)
      7205759403792794 (by norm_num) (by norm_num) (by norm_num) (by norm_num) (by norm_num)
      (by norm_num) (by norm_num)))

theorem rnd_c6 : rnd (6 / 100) = F64.fin (1080863910568919 / 18014398509481984) :=
  (rnd_congr (by norm_num) (rnd_of_near_pos (3 / 50) (1080863910568919 / 18014398509481984) (-57)
      8646911284551352 (by norm_num) (by norm_num) (by norm_num) (by norm_num) (by norm_num)
      (by norm_num) (by norm_num)))

theorem rnd_c6667 : rnd (6667 / 100) = F64.fin (4691484174324859 / 70368744177664) :=
  (rnd_congr (by norm_num) (rnd_of_near_pos (6667 / 100) (4691484174324859 / 70368744177664) (-46)
      4691484174324859 (by norm_num) (by norm_num) (by norm_num) (by norm_num) (by norm_num)
      (by norm_num) (by norm_num)))

theorem rnd_cNegHalf : rnd (-1 / 2) = F64.fin (-1 / 2) :=
  (rnd_congr (by norm_num) (rnd_of_dyadic (-1 / 2) (-4503599627370496) (-53) (by norm_num)
      (by norm_num) (by norm_num) (by norm_num)))

theorem roundToTwoDecimals_belowHalf :
    roundToTwoDecimals (F64.fin (1080863910568919 / 72057594037927936)) = F64.fin (5764607523034235
        / 288230376151711744) :=
  (roundToTwoDecimals_eval (1080863910568919 / 72057594037927936) (3 / 2) 2 (5764607523034235 /
      288230376151711744) (rnd_congr (by norm_num) (rnd_of_near_pos (27021597764222975 /
      18014398509481984) (3 / 2) (-52) 6755399441055744 (by norm_num) (by norm_num) (by norm_num)
      (by norm_num) (by norm_num) (by norm_num) (by norm_num))) (mathRound_nonneg_eval (3 / 2) 2 2
      (by norm_num) (by norm_num) (by norm_num) (by norm_num)) (rnd_congr (by norm_num)
      (rnd_of_near_pos (1 / 50) (5764607523034235 / 288230376151711744) (-58) 5764607523034235
      (by norm_num) (by norm_num) (by norm_num) (by norm_num) (by norm_num) (by norm_num)
      (by norm_num))))

/-! ## Sixty-three bookings: the number of masks no longer fits an `int` -/

theorem sixtyThree_length : sixtyThree.length = 63 := by
  simp [sixtyThree]

theorem sixtyThree_ne_nil : sixtyThree ≠ [] := by
  intro h
  have := sixtyThree_length
  rw [h] at this
  exact absurd this (by decide)

theorem allCombinations_sixtyThree : allCombinations amd64Pow sixtyThree = [] := by
  unfold allCombinations
  rw [sixtyThree_length]
  rfl

theorem MaximizeProfit_sixtyThree :
    MaximizeProfit amd64Pow sixtyThree = ⟨[], F64.fin 0, F64.fin 0, F64.fin 0, F64.fin 0⟩ := by
  rw [MaximizeProfit_eq, allCombinations_sixtyThree]
  rfl

set_option maxRecDepth 100000 in
theorem HasOverlaps_sixtyThree : HasOverlaps sixtyThree = false := by
  decide

theorem nonnegFinite_fin {q : ℚ} (h : 0 ≤ q) : (F64.fin q).NonnegFinite := h

theorem nightOf_nonneg (i : Nat) :
    (nightOf i).SellingRate.NonnegFinite ∧ (nightOf i).Margin.NonnegFinite :=
  ⟨nonnegFinite_fin (by norm_num), nonnegFinite_fin (by norm_num)⟩

theorem sixtyThree_nonneg :
    ∀ b ∈ sixtyThree, b.SellingRate.NonnegFinite ∧ b.Margin.NonnegFinite := by
  intro b hb
  unfold sixtyThree at hb
  rw [List.mem_map] at hb
  obtain ⟨i, _, rfl⟩ := hb
  exact nightOf_nonneg i

theorem nightOf_whole (i : Nat) : WholeProfit (fun _ => 10) (nightOf i) :=
  ⟨1000, 1, rfl, rfl, by norm_num⟩

theorem sixtyThree_whole : ∀ b ∈ sixtyThree, WholeProfit (fun _ => 10) b := by
  intro b hb
  unfold sixtyThree at hb
  rw [List.mem_map] at hb
  obtain ⟨i, _, rfl⟩ := hb
  exact nightOf_whole i

theorem TotalProfit_sixtyThree : TotalProfit sixtyThree = F64.fin 630 := by
  have hs : (sixtyThree.map (fun _ => 10)).sum = 630 := rfl
  rw [TotalProfit_of_whole (fun _ => 10) sixtyThree sixtyThree_whole (by rw [hs]; norm_num), hs]
  norm_num

theorem TotalProfit_nightOf_zero : TotalProfit [nightOf 0] = F64.fin 10 := by
  have h : ∀ b ∈ [nightOf 0], WholeProfit (fun _ => 10) b := by
    intro b hb
    rw [List.mem_singleton] at hb
    rw [hb]
    exact nightOf_whole 0
  rw [TotalProfit_of_whole (fun _ => 10) [nightOf 0] h (by norm_num)]
  norm_num

theorem nightOf_zero_sublist : [nightOf 0].Sublist sixtyThree := by
  apply List.singleton_sublist.mpr
  unfold sixtyThree
  exact List.mem_map.mpr ⟨0, by simp, rfl⟩

theorem combination_sixtyThree_full : combination sixtyThree (2 ^ 63 - 1) = sixtyThree := by
  have h := combination_full sixtyThree
  rw [sixtyThree_length] at h
  exact h

/-! ## Order facts used by the properties of the maximiser -/

theorem F64.le_of_key {a b : F64} (ha : a ≠ F64.nan) (hb : b ≠ F64.nan) (h : a.key ≤ b.key) :
    F64.le a b = true :=
  (F64.le_iff_key ha hb).mpr h

theorem isNonneg_of_zero_le {a : F64} (h : F64.le (F64.fin 0) a = true) : a.IsNonneg := by
  cases a <;> simp [F64.le, F64.IsNonneg] at h ⊢
  exact h

theorem F64.lt_of_le_ne {a b : F64} (h : F64.le a b = true) (hne : a ≠ b) :
    F64.lt a b = true := by
  have hn := F64.ne_nan_of_le h
  rw [F64.lt_iff_key hn.1 hn.2]
  apply lt_of_le_of_ne ((F64.le_iff_key hn.1 hn.2).mp h)
  intro hk
  exact hne (F64.key_inj hn.1 hn.2 hk)

theorem F64.lt_eq_false_of_le {a b : F64} (h : F64.le a b = true) : F64.lt b a = false := by
  have hn := F64.ne_nan_of_le h
  exact (F64.lt_eq_false_iff_key hn.2 hn.1).mpr ((F64.le_iff_key hn.1 hn.2).mp h)

theorem TotalProfit_eq_zero_of_zero_profits {bb : Bookings}
    (h : ∀ x ∈ bb, F64.div (F64.mul x.SellingRate x.Margin) (F64.fin 100) = F64.fin 0) :
    TotalProfit bb = F64.fin 0 := by
  have hfold : ∀ l : Bookings, (∀ x ∈ l, absProfit x = F64.fin 0) →
      (l.map absProfit).foldl F64.add (F64.fin 0) = F64.fin 0 := by
    intro l hl
    induction l with
    | nil => rfl
    | cons x t ih =>
      rw [List.map_cons, List.foldl_cons, hl x (List.mem_cons_self _ _), F64.add_fin, add_zero,
        rnd_zero]
      exact ih (fun y hy => hl y (List.mem_cons_of_mem _ hy))
  rw [TotalProfit_eq_foldl, hfold bb h, roundToTwoDecimals_zero]

/-! ## The whole input without overlaps -/

/-- Without overlaps, the whole input is returned as soon as its total profit
exceeds `-1` and that of every non-empty proper sub-sequence. -/
theorem findBestCombination_eq_full_of_strict (ovf : Nat → Int) (bs : List Booking)
    (hlen : bs.length ≤ 62) (hne : bs ≠ [])
    (hv : HasOverlaps bs = false) (hgt : F64.lt (F64.fin (-1)) (TotalProfit bs) = true)
    (hstrict : ∀ S : Bookings, S.Sublist bs → S ≠ [] → S ≠ bs →
      F64.lt (TotalProfit S) (TotalProfit bs) = true) :
    findBestCombination (allCombinations ovf bs) = bs := by
  have hpos : 0 < 2 ^ bs.length := Nat.two_pow_pos _
  have hl : 0 < bs.length := List.length_pos.mpr hne
  have h2 : 2 ≤ 2 ^ bs.length := by
    calc 2 = 2 ^ 1 := by norm_num
      _ ≤ 2 ^ bs.length := Nat.pow_le_pow_right (by norm_num) hl
  have hbest : findBestCombination (allCombinations ovf bs)
      = combination bs (2 ^ bs.length - 1) := by
    apply findBestCombination_eq_of_first_max ovf bs hlen (2 ^ bs.length - 1) (by omega)
      (by omega)
    · rw [combination_full]; exact hv
    · rw [combination_full]; exact hgt
    · intro k _ hk _
      rw [combination_full]
      by_cases hkm : k = 2 ^ bs.length - 1
      · rw [hkm, combination_full]
        have hn := (F64.ne_nan_of_lt hgt).2
        exact (F64.lt_eq_false_iff_key hn hn).mpr (le_refl _)
      · have hlt := hstrict _ (combination_sublist bs k)
          (fun h => by have := combination_eq_nil bs k hk h; omega)
          (fun h => hkm (combination_eq_self bs k hk h))
        have hn := F64.ne_nan_of_lt hlt
        exact (F64.lt_eq_false_iff_key hn.2 hn.1).mpr
          (le_of_lt ((F64.lt_iff_key hn.1 hn.2).mp hlt))
    · intro k hk1 hk _
      rw [combination_full]
      apply hstrict _ (combination_sublist bs k)
      · intro h
        have := combination_eq_nil bs k (by omega) h
        omega
      · intro h
        have := combination_eq_self bs k (by omega) h
        omega
  rw [hbest, combination_full]

/-- Conversely, when the whole input is returned, its total profit exceeds that
of every non-empty proper sub-sequence whose total is a number. -/
theorem strict_of_findBestCombination_eq_full (ovf : Nat → Int) (bs : List Booking)
    (hlen : bs.length ≤ 62) (hne : bs ≠ [])
    (hv : HasOverlaps bs = false)
    (hbest : findBestCombination (allCombinations ovf bs) = bs) :
    ∀ S : Bookings, S.Sublist bs → S ≠ [] → S ≠ bs → TotalProfit S ≠ F64.nan →
      F64.lt (TotalProfit S) (TotalProfit bs) = true := by
  have hpos : 0 < 2 ^ bs.length := Nat.two_pow_pos _
  have hl : 0 < bs.length := List.length_pos.mpr hne
  have h2 : 2 ≤ 2 ^ bs.length := by
    calc 2 = 2 ^ 1 := by norm_num
      _ ≤ 2 ^ bs.length := Nat.pow_le_pow_right (by norm_num) hl
  have hsplit := allCombinations_split ovf bs hlen (2 ^ bs.length - 1) (by omega) (by omega)
  rw [combination_full] at hsplit
  have hz : 2 ^ bs.length - 1 - (2 ^ bs.length - 1) = 0 := by omega
  rw [hz, List.range'_zero, List.map_nil] at hsplit
  unfold findBestCombination at hbest
  rw [hsplit, List.foldl_append, List.foldl_cons, List.foldl_nil] at hbest
  have hst : (([], F64.fin (-1)) : Bookings × F64).2 ≠ F64.nan := by simp
  obtain ⟨hn1, _, hle⟩ := foldl_bestStep_spec
    ((List.range' 1 (2 ^ bs.length - 1 - 1)).map (combination bs)) ([], F64.fin (-1)) hst
  have hor := foldl_bestStep_origin
    ((List.range' 1 (2 ^ bs.length - 1 - 1)).map (combination bs)) ([], F64.fin (-1))
  have hnotpre : ∀ c ∈ (List.range' 1 (2 ^ bs.length - 1 - 1)).map (combination bs), c ≠ bs := by
    intro c hc heq
    rw [List.mem_map] at hc
    obtain ⟨k, hk, rfl⟩ := hc
    rw [List.mem_range'_1] at hk
    have := combination_eq_self bs k (by omega) heq
    omega
  rcases bestStep_cases
      (((List.range' 1 (2 ^ bs.length - 1 - 1)).map (combination bs)).foldl bestStep
        ([], F64.fin (-1))) bs with ⟨he, _⟩ | ⟨_, _, hlt⟩
  · rw [he] at hbest
    rcases hor with heq | ⟨hm, _, _, _⟩
    · rw [heq] at hbest
      exact absurd hbest.symm hne
    · exact absurd hbest (hnotpre _ hm)
  · intro S hS hS0 hSb hSn
    obtain ⟨k, hk, hc, hk1⟩ := sublist_exists_mask hS
    have hkne : k ≠ 2 ^ bs.length - 1 := by
      intro h
      rw [h, combination_full] at hc
      exact hSb hc.symm
    have hmem : S ∈ (List.range' 1 (2 ^ bs.length - 1 - 1)).map (combination bs) := by
      rw [List.mem_map]
      refine ⟨k, ?_, hc⟩
      rw [List.mem_range'_1]
      have := hk1 hS0
      omega
    have h1 := hle S hmem (HasOverlaps_sublist hS hv) hSn
    have hn := F64.ne_nan_of_lt hlt
    rw [F64.lt_iff_key hSn hn.2]
    exact lt_of_le_of_lt h1 ((F64.lt_iff_key hn.1 hn.2).mp hlt)

/-! ## Properties of the maximiser -/

/-- C1 (the code at the failing input, and the property for at most 62 bookings). For
the sixty-three non-overlapping bookings of profit 10 each, the conversion
`int(math.Pow(2, 63))` overflows (to the smallest `int` on amd64), no mask is
enumerated and `MaximizeProfit` returns a total profit of 0, below the total 10 of
the non-overlapping sub-sequence made of the first booking. For at most 62
bookings with finite non-negative selling rate and margin, the total profit
returned is the total profit of a non-overlapping sub-sequence of the input and is
not below the total profit of any non-overlapping sub-sequence, the empty one
included. -/
theorem MaximizeProfit_total_profit_maximal :
    ((∀ b ∈ sixtyThree, b.SellingRate.NonnegFinite ∧ b.Margin.NonnegFinite) ∧
      [nightOf 0].Sublist sixtyThree ∧ HasOverlaps [nightOf 0] = false ∧
      TotalProfit [nightOf 0] = F64.fin 10 ∧
      (MaximizeProfit amd64Pow sixtyThree).TotalProfit = F64.fin 0 ∧
      F64.le (TotalProfit [nightOf 0]) (MaximizeProfit amd64Pow sixtyThree).TotalProfit
        = false) ∧
    (∀ (ovf : Nat → Int) (bs : List Booking), bs.length ≤ 62 →
      (∀ b ∈ bs, b.SellingRate.NonnegFinite ∧ b.Margin.NonnegFinite) →
      (∃ C : Bookings, C.Sublist bs ∧ HasOverlaps C = false ∧
        (MaximizeProfit ovf bs).TotalProfit = TotalProfit C) ∧
      (∀ S : Bookings, S.Sublist bs → HasOverlaps S = false →
        F64.le (TotalProfit S) (MaximizeProfit ovf bs).TotalProfit = true)) := by
  constructor
  · refine ⟨sixtyThree_nonneg, nightOf_zero_sublist, rfl, TotalProfit_nightOf_zero, ?_, ?_⟩
    · rw [MaximizeProfit_sixtyThree]
    · rw [MaximizeProfit_sixtyThree, TotalProfit_nightOf_zero, F64.le_fin]
      norm_num
  · intro ovf bs hlen hnn
    obtain ⟨hsub, hval⟩ := findBestCombination_props ovf bs
    refine ⟨⟨_, hsub, hval, MaximizeProfit_TotalProfit ovf bs⟩, ?_⟩
    intro S hS hv
    rw [MaximizeProfit_TotalProfit]
    exact F64.le_of_key (TotalProfit_isNonneg (fun b hb => hnn b (hS.subset hb))).ne_nan
      (TotalProfit_isNonneg (fun b hb => hnn b (hsub.subset hb))).ne_nan
      (findBestCombination_max_of_nonneg ovf bs hlen hnn S hS hv)

/-- C2. The combination chosen by `MaximizeProfit`, whose request IDs are the
ones returned, never contains two overlapping bookings. -/
theorem MaximizeProfit_chosen_has_no_overlaps (ovf : Nat → Int) (bs : List Booking) :
    (MaximizeProfit ovf bs).RequestIDs
      = RequestIDs (findBestCombination (allCombinations ovf bs)) ∧
    (findBestCombination (allCombinations ovf bs)).Sublist bs ∧
    HasOverlaps (findBestCombination (allCombinations ovf bs)) = false := by
  obtain ⟨hsub, hval⟩ := findBestCombination_props ovf bs
  refine ⟨?_, hsub, hval⟩
  rw [MaximizeProfit_eq, buildMaximizeResult_eq]

/-- C3 (amended). For a non-empty input of at most 62 bookings without overlaps
and with finite non-negative selling rates and margins, `MaximizeProfit` returns
all request IDs in input order exactly when the total profit of the whole input
strictly exceeds the total profit of every non-empty proper sub-sequence. -/
theorem MaximizeProfit_request_ids_all_iff (ovf : Nat → Int) (bs : List Booking)
    (hne : bs ≠ []) (hlen : bs.length ≤ 62)
    (hnn : ∀ b ∈ bs, b.SellingRate.NonnegFinite ∧ b.Margin.NonnegFinite)
    (hv : HasOverlaps bs = false) :
    (MaximizeProfit ovf bs).RequestIDs = bs.map Booking.RequestID ↔
      ∀ S : Bookings, S.Sublist bs → S ≠ [] → S ≠ bs →
        F64.lt (TotalProfit S) (TotalProfit bs) = true := by
  constructor
  · intro h
    rw [MaximizeProfit_RequestIDs] at h
    have hl : (findBestCombination (allCombinations ovf bs)).length = bs.length := by
      have := congrArg List.length h
      simpa using this
    have hbest : findBestCombination (allCombinations ovf bs) = bs :=
      (findBestCombination_props ovf bs).1.eq_of_length hl
    intro S hS hS0 hSb
    exact strict_of_findBestCombination_eq_full ovf bs hlen hne hv hbest S hS hS0 hSb
      (TotalProfit_isNonneg (fun b hb => hnn b (hS.subset hb))).ne_nan
  · intro hstrict
    rw [MaximizeProfit_RequestIDs,
      findBestCombination_eq_full_of_strict ovf bs hlen hne hv
        (lt_neg_one_of_isNonneg (TotalProfit_isNonneg hnn)) hstrict]

/-- C4 (the code at the failing input, and the property for at most 62 bookings). For
the sixty-three non-overlapping bookings of profit 10 each `MaximizeProfit`
returns a total profit of 0, although the total profit of the whole input is 630:
the number of masks overflows and no combination is examined. For a non-empty
input of at most 62 bookings without overlaps and with finite non-negative
selling rates and margins, the total profit returned is the total profit of the
whole input. -/
theorem MaximizeProfit_total_profit_no_overlaps :
    (sixtyThree ≠ [] ∧
      (∀ b ∈ sixtyThree, b.SellingRate.NonnegFinite ∧ b.Margin.NonnegFinite) ∧
      HasOverlaps sixtyThree = false ∧ TotalProfit sixtyThree = F64.fin 630 ∧
      (MaximizeProfit amd64Pow sixtyThree).TotalProfit = F64.fin 0) ∧
    (∀ (ovf : Nat → Int) (bs : List Booking), bs ≠ [] → bs.length ≤ 62 →
      (∀ b ∈ bs, b.SellingRate.NonnegFinite ∧ b.Margin.NonnegFinite) →
      HasOverlaps bs = false →
      (MaximizeProfit ovf bs).TotalProfit = TotalProfit bs) := by
  constructor
  · refine ⟨sixtyThree_ne_nil, sixtyThree_nonneg, HasOverlaps_sixtyThree,
      TotalProfit_sixtyThree, ?_⟩
    rw [MaximizeProfit_sixtyThree]
  · intro ovf bs _ hlen hnn hv
    have hsub := (findBestCombination_props ovf bs).1
    rw [MaximizeProfit_TotalProfit]
    apply F64.key_inj (TotalProfit_isNonneg (fun b hb => hnn b (hsub.subset hb))).ne_nan
      (TotalProfit_isNonneg hnn).ne_nan
    apply le_antisymm
    · exact TotalProfit_sublist_le hsub hnn
    · exact findBestCombination_max_of_nonneg ovf bs hlen hnn bs (List.Sublist.refl bs) hv

/-- C5 (the code at the failing input, and the property for at most 62 bookings). For
the sixty-three non-overlapping bookings of profit 10 each, the whole input is the
combination of mask `2^63 - 1`, it is non-empty and non-overlapping and no
sub-sequence has a greater total profit, yet `MaximizeProfit` returns no request
ID: the number of masks overflows. For at most 62 bookings: when the combination
of mask `m` is non-overlapping, its total profit is the maximum over all
non-overlapping sub-sequences of the input (the empty one, of profit 0, included)
and `m` is the smallest mask `1 ≤ k < 2^n` whose non-overlapping combination
reaches that profit, `MaximizeProfit` returns exactly the combination of mask
`m`: a later mask of equal profit does not replace it. -/
theorem MaximizeProfit_returns_smallest_mask :
    (sixtyThree ≠ [] ∧ HasOverlaps sixtyThree = false ∧
      combination sixtyThree (2 ^ 63 - 1) = sixtyThree ∧
      (∀ S : Bookings, S.Sublist sixtyThree →
        F64.le (TotalProfit S) (TotalProfit sixtyThree) = true) ∧
      (MaximizeProfit amd64Pow sixtyThree).RequestIDs = []) ∧
    (∀ (ovf : Nat → Int) (bs : List Booking) (m : Nat), bs.length ≤ 62 →
      1 ≤ m → m < 2 ^ bs.length → HasOverlaps (combination bs m) = false →
      (∀ S : Bookings, S.Sublist bs → HasOverlaps S = false →
        F64.le (TotalProfit S) (TotalProfit (combination bs m)) = true) →
      (∀ k, 1 ≤ k → k < 2 ^ bs.length → HasOverlaps (combination bs k) = false →
        TotalProfit (combination bs k) = TotalProfit (combination bs m) → m ≤ k) →
      findBestCombination (allCombinations ovf bs) = combination bs m ∧
      MaximizeProfit ovf bs = buildMaximizeResult (combination bs m) ∧
      (MaximizeProfit ovf bs).RequestIDs = (combination bs m).map Booking.RequestID) := by
  constructor
  · refine ⟨sixtyThree_ne_nil, HasOverlaps_sixtyThree, combination_sixtyThree_full, ?_, ?_⟩
    · intro S hS
      exact F64.le_of_key
        (TotalProfit_isNonneg (fun b hb => sixtyThree_nonneg b (hS.subset hb))).ne_nan
        (TotalProfit_isNonneg sixtyThree_nonneg).ne_nan
        (TotalProfit_sublist_le hS sixtyThree_nonneg)
    · rw [MaximizeProfit_sixtyThree]
  · intro ovf bs m hlen h1 h2 hv hmax hmin
    have hgt : F64.lt (F64.fin (-1)) (TotalProfit (combination bs m)) = true :=
      lt_neg_one_of_isNonneg
        (isNonneg_of_zero_le (by
          have := hmax [] (List.nil_sublist bs) rfl
          rwa [TotalProfit_nil] at this))
    have hbest : findBestCombination (allCombinations ovf bs) = combination bs m := by
      apply findBestCombination_eq_of_first_max ovf bs hlen m h1 h2 hv hgt
      · intro k _ _ hval
        exact F64.lt_eq_false_of_le (hmax _ (combination_sublist bs k) hval)
      · intro k hk1 hkm hval
        apply F64.lt_of_le_ne (hmax _ (combination_sublist bs k) hval)
        intro heq
        have := hmin k hk1 (by omega) hval heq
        omega
    refine ⟨hbest, ?_, ?_⟩
    · rw [MaximizeProfit_eq, hbest]
    · rw [MaximizeProfit_RequestIDs, hbest]

/-- C6. On the empty input `CalculateStats` returns the all-zero statistics and
`MaximizeProfit` returns the empty result. -/
theorem empty_input_results (ovf : Nat → Int) :
    CalculateStats [] = ⟨F64.fin 0, F64.fin 0, F64.fin 0⟩ ∧
    MaximizeProfit ovf [] = ⟨[], F64.fin 0, F64.fin 0, F64.fin 0, F64.fin 0⟩ := by
  constructor
  · rfl
  · rfl

/-- C7. The request IDs returned by `MaximizeProfit` are the IDs found at a
strictly increasing list of input positions. -/
theorem MaximizeProfit_request_ids_in_input_order (ovf : Nat → Int) (bs : List Booking) :
    ∃ idxs : List (Fin bs.length), idxs.Pairwise (fun i j => i < j) ∧
      (MaximizeProfit ovf bs).RequestIDs = idxs.map (fun i => (bs.get i).RequestID) := by
  obtain ⟨hsub, _⟩ := findBestCombination_props ovf bs
  obtain ⟨idxs, hp, hS⟩ := sublist_exists_positions hsub
  refine ⟨idxs, hp, ?_⟩
  rw [MaximizeProfit_RequestIDs]
  conv_lhs => rw [hS]
  rw [List.map_map]
  rfl

/-- C8. When the chosen combination is non-empty, the result record is built from
it: its request IDs, its total profit and its statistics, and the combination is
a sub-sequence of the input. -/
theorem MaximizeProfit_consistent_with_chosen (ovf : Nat → Int) (bs : List Booking)
    (hne : findBestCombination (allCombinations ovf bs) ≠ []) :
    (findBestCombination (allCombinations ovf bs)).Sublist bs ∧
    (MaximizeProfit ovf bs).RequestIDs
      = (findBestCombination (allCombinations ovf bs)).map Booking.RequestID ∧
    (MaximizeProfit ovf bs).TotalProfit
      = TotalProfit (findBestCombination (allCombinations ovf bs)) ∧
    (⟨(MaximizeProfit ovf bs).AvgNight, (MaximizeProfit ovf bs).MinNight,
        (MaximizeProfit ovf bs).MaxNight⟩ : StatsResult)
      = CalculateStats (findBestCombination (allCombinations ovf bs)) := by
  have hl : ¬ (findBestCombination (allCombinations ovf bs)).length = 0 := by
    intro h
    exact hne (List.length_eq_zero.mp h)
  refine ⟨(findBestCombination_props ovf bs).1, ?_, ?_, ?_⟩
  · simp only [MaximizeProfit, buildMaximizeResult, if_neg hl, RequestIDs_eq_map]
  · simp only [MaximizeProfit, buildMaximizeResult, if_neg hl]
  · simp only [MaximizeProfit, buildMaximizeResult, if_neg hl]

theorem nonneg_req1_req2_req3 :
    ∀ b ∈ [req1, req2, req3], b.SellingRate.NonnegFinite ∧ b.Margin.NonnegFinite := by
  intro b hb
  simp only [List.mem_cons, List.mem_singleton, List.not_mem_nil, or_false] at hb
  rcases hb with rfl | rfl | rfl <;>
    exact ⟨nonnegFinite_fin (by norm_num), nonnegFinite_fin (by norm_num)⟩

theorem nonneg_req1_req2Later :
    ∀ b ∈ [req1, req2Later], b.SellingRate.NonnegFinite ∧ b.Margin.NonnegFinite := by
  intro b hb
  simp only [List.mem_cons, List.mem_singleton, List.not_mem_nil, or_false] at hb
  rcases hb with rfl | rfl <;>
    exact ⟨nonnegFinite_fin (by norm_num), nonnegFinite_fin (by norm_num)⟩

theorem nonneg_req1_zeroRate :
    ∀ b ∈ [req1, zeroRate], b.SellingRate.NonnegFinite ∧ b.Margin.NonnegFinite := by
  intro b hb
  simp only [List.mem_cons, List.mem_singleton, List.not_mem_nil, or_false] at hb
  rcases hb with rfl | rfl <;>
    exact ⟨nonnegFinite_fin (by norm_num), nonnegFinite_fin (by norm_num)⟩

/-- Instance of the second part of C1 on the three bookings of the test "optimal
combination with overlaps". -/
theorem MaximizeProfit_total_profit_maximal_witness :
    [req1, req2, req3].length ≤ 62 ∧
    (∀ b ∈ [req1, req2, req3], b.SellingRate.NonnegFinite ∧ b.Margin.NonnegFinite) ∧
    ((∃ C : Bookings, C.Sublist [req1, req2, req3] ∧ HasOverlaps C = false ∧
        (MaximizeProfit amd64Pow [req1, req2, req3]).TotalProfit = TotalProfit C) ∧
      (∀ S : Bookings, S.Sublist [req1, req2, req3] → HasOverlaps S = false →
        F64.le (TotalProfit S) (MaximizeProfit amd64Pow [req1, req2, req3]).TotalProfit
          = true)) :=
  ⟨by decide, nonneg_req1_req2_req3,
    MaximizeProfit_total_profit_maximal.2 amd64Pow [req1, req2, req3] (by decide)
      nonneg_req1_req2_req3⟩

/-- Counterexample to C3 as stated: `req1` followed by the non-overlapping
`zeroRate` is a non-empty input without overlaps, yet only `req1` is returned,
because the full set merely ties with the earlier mask of `req1` alone. -/
theorem MaximizeProfit_request_ids_all_counterexample :
    [req1, zeroRate] ≠ [] ∧ HasOverlaps [req1, zeroRate] = false ∧
    (MaximizeProfit amd64Pow [req1, zeroRate]).RequestIDs = ["req1"] ∧
    (MaximizeProfit amd64Pow [req1, zeroRate]).RequestIDs
      ≠ [req1, zeroRate].map Booking.RequestID := by
  have hids : (MaximizeProfit amd64Pow [req1, zeroRate]).RequestIDs = ["req1"] := by
    rw [MaximizeProfit_req1_zeroRate]
  refine ⟨by simp, by decide, hids, ?_⟩
  rw [hids]
  decide

/-- Instance of the amended C3 on the two bookings of the test "no overlaps
possible": all request IDs are returned, and the condition on the right holds. -/
theorem MaximizeProfit_request_ids_all_iff_witness :
    [req1, req2Later] ≠ [] ∧ [req1, req2Later].length ≤ 62 ∧
    (∀ b ∈ [req1, req2Later], b.SellingRate.NonnegFinite ∧ b.Margin.NonnegFinite) ∧
    HasOverlaps [req1, req2Later] = false ∧
    (∀ S : Bookings, S.Sublist [req1, req2Later] → S ≠ [] → S ≠ [req1, req2Later] →
      F64.lt (TotalProfit S) (TotalProfit [req1, req2Later]) = true) ∧
    (MaximizeProfit amd64Pow [req1, req2Later]).RequestIDs
      = [req1, req2Later].map Booking.RequestID :=
  have hstrict : ∀ S : Bookings, S.Sublist [req1, req2Later] → S ≠ [] →
      S ≠ [req1, req2Later] →
      F64.lt (TotalProfit S) (TotalProfit [req1, req2Later]) = true := by
    intro S hS h0 h1
    rcases sublist_pair hS with rfl | rfl | rfl | rfl
    · exact absurd rfl h0
    · rw [TotalProfit_req1, TotalProfit_req1_req2Later, F64.lt_fin]; norm_num
    · rw [TotalProfit_req2Later, TotalProfit_req1_req2Later, F64.lt_fin]; norm_num
    · exact absurd rfl h1
  ⟨by simp, by decide, nonneg_req1_req2Later, by decide, hstrict,
    (MaximizeProfit_request_ids_all_iff amd64Pow [req1, req2Later] (by simp) (by decide)
      nonneg_req1_req2Later (by decide)).mpr hstrict⟩

/-- Instance of the second part of C4 on the two bookings of the test "no overlaps
possible". -/
theorem MaximizeProfit_total_profit_no_overlaps_witness :
    [req1, req2Later] ≠ [] ∧ [req1, req2Later].length ≤ 62 ∧
    (∀ b ∈ [req1, req2Later], b.SellingRate.NonnegFinite ∧ b.Margin.NonnegFinite) ∧
    HasOverlaps [req1, req2Later] = false ∧
    (MaximizeProfit amd64Pow [req1, req2Later]).TotalProfit
      = TotalProfit [req1, req2Later] :=
  ⟨by simp, by decide, nonneg_req1_req2Later, by decide,
    MaximizeProfit_total_profit_no_overlaps.2 amd64Pow [req1, req2Later] (by simp)
      (by decide) nonneg_req1_req2Later (by decide)⟩

/-- Instance of the second part of C5 on two mutually overlapping bookings of equal
profit: mask `1`, the first booking alone, is returned. -/
theorem MaximizeProfit_returns_smallest_mask_witness :
    HasOverlaps [req1, req1Twin] = true ∧
    TotalProfit [req1] = TotalProfit [req1Twin] ∧
    (findBestCombination (allCombinations amd64Pow [req1, req1Twin])
        = combination [req1, req1Twin] 1 ∧
      MaximizeProfit amd64Pow [req1, req1Twin]
        = buildMaximizeResult (combination [req1, req1Twin] 1) ∧
      (MaximizeProfit amd64Pow [req1, req1Twin]).RequestIDs
        = (combination [req1, req1Twin] 1).map Booking.RequestID) :=
  have c1 : combination [req1, req1Twin] 1 = [req1] := rfl
  ⟨by decide, by rw [TotalProfit_req1, TotalProfit_req1Twin],
    MaximizeProfit_returns_smallest_mask.2 amd64Pow [req1, req1Twin] 1 (by decide)
      (le_refl 1) (by simp)
      (by rw [c1]; decide)
      (by
        intro S hS hval
        rw [c1, TotalProfit_req1]
        rcases sublist_pair hS with rfl | rfl | rfl | rfl
        · rw [TotalProfit_nil, F64.le_fin]; norm_num
        · rw [TotalProfit_req1, F64.le_fin]; norm_num
        · rw [TotalProfit_req1Twin, F64.le_fin]; norm_num
        · exact absurd hval (by decide))
      (fun k hk1 _ _ _ => hk1)⟩

/-- Instance of C8 on `req1` followed by `zeroRate`, where `req1` alone is chosen. -/
theorem MaximizeProfit_consistent_with_chosen_witness :
    findBestCombination (allCombinations amd64Pow [req1, zeroRate]) ≠ [] ∧
    ((findBestCombination (allCombinations amd64Pow [req1, zeroRate])).Sublist
        [req1, zeroRate] ∧
      (MaximizeProfit amd64Pow [req1, zeroRate]).RequestIDs
        = (findBestCombination (allCombinations amd64Pow [req1, zeroRate])).map
            Booking.RequestID ∧
      (MaximizeProfit amd64Pow [req1, zeroRate]).TotalProfit
        = TotalProfit (findBestCombination (allCombinations amd64Pow [req1, zeroRate])) ∧
      (⟨(MaximizeProfit amd64Pow [req1, zeroRate]).AvgNight,
          (MaximizeProfit amd64Pow [req1, zeroRate]).MinNight,
          (MaximizeProfit amd64Pow [req1, zeroRate]).MaxNight⟩ : StatsResult)
        = CalculateStats (findBestCombination (allCombinations amd64Pow [req1, zeroRate]))) :=
  have hne : findBestCombination (allCombinations amd64Pow [req1, zeroRate]) ≠ [] := by
    rw [findBestCombination_req1_zeroRate]; simp
  ⟨hne, MaximizeProfit_consistent_with_chosen amd64Pow [req1, zeroRate] hne⟩

/-- C26 (the code at the failing input, and the property for at most 62 bookings). For
the sixty-three bookings of `sixtyThree` the conversion `int(math.Pow(2, 63))`
overflows (to the smallest `int` on amd64) and `allCombinations` returns no
combination at all instead of `2^63 - 1`. For at most 62 bookings
`allCombinations` returns `2^n - 1` combinations; the `k`-th one (`1 ≤ k < 2^n`)
is the list of the bookings at the positions `j` whose bit is set in `k`, in
ascending `j`; every combination is non-empty, and every non-empty set of
positions is the set of bits of exactly one such `k`. -/
theorem allCombinations_enumerates :
    (sixtyThree.length = 63 ∧ (allCombinations amd64Pow sixtyThree).length = 0 ∧
      (allCombinations amd64Pow sixtyThree).length ≠ 2 ^ sixtyThree.length - 1) ∧
    (∀ (ovf : Nat → Int) (bs : List Booking), bs.length ≤ 62 →
      (allCombinations ovf bs).length = 2 ^ bs.length - 1 ∧
      (∀ k, 1 ≤ k → k < 2 ^ bs.length →
        (allCombinations ovf bs)[k - 1]?
          = some (((List.finRange bs.length).filter
              (fun (j : Fin bs.length) => k.testBit j.val)).map bs.get)) ∧
      (∀ c ∈ allCombinations ovf bs, c ≠ []) ∧
      (∀ P : Finset (Fin bs.length), P.Nonempty →
        ∃! k, (1 ≤ k ∧ k < 2 ^ bs.length) ∧
          ∀ j : Fin bs.length, (k.testBit j.val = true ↔ j ∈ P))) := by
  constructor
  · refine ⟨sixtyThree_length, ?_, ?_⟩
    · rw [allCombinations_sixtyThree]; rfl
    · rw [allCombinations_sixtyThree, sixtyThree_length]; decide
  intro ovf bs hlen
  refine ⟨by rw [allCombinations_of_le ovf bs hlen]; simp, ?_,
    fun c hc => (mem_allCombinations_sublist hlen hc).2, ?_⟩
  · intro k hk1 hk2
    rw [← combination_eq_filter, allCombinations_of_le ovf bs hlen]
    have hlt : k - 1 < 2 ^ bs.length - 1 := by omega
    have hk : 1 + 1 * (k - 1) = k := by omega
    rw [List.getElem?_map, List.getElem?_range' 1 1 hlt, hk]
    rfl
  · intro P hP
    obtain ⟨k, hk, hbits⟩ := exists_mask_of_bits bs.length
      (fun j => decide (∃ h : j < bs.length, (⟨j, h⟩ : Fin bs.length) ∈ P))
    have hiff : ∀ j : Fin bs.length, (k.testBit j.val = true ↔ j ∈ P) := by
      intro j
      rw [hbits j.val j.isLt]
      simp
    refine ⟨k, ⟨⟨?_, hk⟩, hiff⟩, ?_⟩
    · obtain ⟨j, hj⟩ := hP
      have hbit := (hiff j).mpr hj
      by_contra hzero
      have hk0 : k = 0 := by omega
      rw [hk0, Nat.zero_testBit] at hbit
      exact Bool.false_ne_true hbit
    · rintro k' ⟨⟨_, hk'⟩, hiff'⟩
      apply mask_eq_of_bits hk' hk
      intro j hj
      have h1 := hiff' ⟨j, hj⟩
      have h2 := hiff ⟨j, hj⟩
      rw [Bool.eq_iff_iff]
      exact h1.trans h2.symm

/-- Instance of the second part of C26 on the three bookings of the test "optimal
combination with overlaps": seven combinations, the sixth being `[req2, req3]`. -/
theorem allCombinations_enumerates_witness :
    [req1, req2, req3].length ≤ 62 ∧
    (allCombinations amd64Pow [req1, req2, req3]).length = 2 ^ [req1, req2, req3].length - 1 ∧
    (∀ c ∈ allCombinations amd64Pow [req1, req2, req3], c ≠ []) :=
  ⟨by decide,
    (allCombinations_enumerates.2 amd64Pow [req1, req2, req3] (by decide)).1,
    (allCombinations_enumerates.2 amd64Pow [req1, req2, req3] (by decide)).2.2.1⟩

/-- C27 (the code at the failing input, and the property for at most 62 bookings). For
the sixty-three non-overlapping bookings of profit 10 each, a non-empty input with
non-negative selling rates and margins, `MaximizeProfit` returns no request ID:
the number of masks overflows and no combination is examined. For at most 62
bookings with finite non-negative selling rate and margin, `MaximizeProfit`
returns no request ID exactly on the empty input; when every booking has zero
profit the first booking alone is returned. -/
theorem MaximizeProfit_request_ids_empty_iff :
    (sixtyThree ≠ [] ∧
      (∀ b ∈ sixtyThree, b.SellingRate.NonnegFinite ∧ b.Margin.NonnegFinite) ∧
      (MaximizeProfit amd64Pow sixtyThree).RequestIDs = []) ∧
    (∀ (ovf : Nat → Int) (bs : List Booking), bs.length ≤ 62 →
      (∀ b ∈ bs, b.SellingRate.NonnegFinite ∧ b.Margin.NonnegFinite) →
      ((MaximizeProfit ovf bs).RequestIDs = [] ↔ bs = []) ∧
      (∀ (b : Booking) (t : List Booking), bs = b :: t →
        (∀ x ∈ bs, F64.div (F64.mul x.SellingRate x.Margin) (F64.fin 100) = F64.fin 0) →
        (MaximizeProfit ovf bs).RequestIDs = [b.RequestID])) := by
  constructor
  · refine ⟨sixtyThree_ne_nil, sixtyThree_nonneg, ?_⟩
    rw [MaximizeProfit_sixtyThree]
  intro ovf bs hlen hnn
  refine ⟨?_, ?_⟩
  · constructor
    · intro h
      rw [MaximizeProfit_RequestIDs, List.map_eq_nil_iff] at h
      by_contra hne
      obtain ⟨b, t, rfl⟩ := List.exists_cons_of_ne_nil hne
      have hmem : [b] ∈ allCombinations ovf (b :: t) :=
        sublist_mem_allCombinations ovf hlen
          (List.singleton_sublist.mpr (List.mem_cons_self _ _)) (by simp)
      have hnonneg : (TotalProfit [b]).IsNonneg :=
        TotalProfit_isNonneg (fun x hx => by
          rw [List.mem_singleton] at hx
          rw [hx]
          exact hnn b (List.mem_cons_self _ _))
      rcases findBestCombination_cases ovf (b :: t) with ⟨_, hall⟩ | ⟨hm, _, _, _⟩
      · have h1 := hall [b] hmem rfl
        rw [lt_neg_one_of_isNonneg hnonneg] at h1
        exact Bool.noConfusion h1
      · exact (mem_allCombinations_sublist hlen hm).2 h
    · intro h
      rw [h]
      rfl
  · intro b t hbs hzero
    subst hbs
    have hc1 : combination (b :: t) 1 = [b] := by
      rw [combination_cons]
      simp [combination_zero]
    have htb : TotalProfit [b] = F64.fin 0 :=
      TotalProfit_eq_zero_of_zero_profits (fun x hx => by
        rw [List.mem_singleton] at hx
        rw [hx]
        exact hzero b (List.mem_cons_self _ _))
    have hbest : findBestCombination (allCombinations ovf (b :: t))
        = combination (b :: t) 1 := by
      apply findBestCombination_eq_of_first_max ovf (b :: t) hlen 1 (le_refl 1)
      · rw [List.length_cons, pow_succ]
        have := Nat.two_pow_pos t.length
        omega
      · rw [hc1]; rfl
      · rw [hc1, htb, F64.lt_fin]; norm_num
      · intro k _ _ _
        rw [hc1, htb, TotalProfit_eq_zero_of_zero_profits
          (fun x hx => hzero x ((combination_sublist (b :: t) k).subset hx)), F64.lt_fin]
        norm_num
      · intro k hk1 hk2 _
        omega
    rw [MaximizeProfit_RequestIDs, hbest, hc1]
    rfl

/-- Instance of the second part of C27 on `req1` followed by the booking that sells
for nothing. -/
theorem MaximizeProfit_request_ids_empty_iff_witness :
    [req1, zeroRate].length ≤ 62 ∧
    (∀ b ∈ [req1, zeroRate], b.SellingRate.NonnegFinite ∧ b.Margin.NonnegFinite) ∧
    ((MaximizeProfit amd64Pow [req1, zeroRate]).RequestIDs = [] ↔ [req1, zeroRate] = []) :=
  ⟨by decide, nonneg_req1_zeroRate,
    (MaximizeProfit_request_ids_empty_iff.2 amd64Pow [req1, zeroRate] (by decide)
      nonneg_req1_zeroRate).1⟩

/-! ## Dates -/

theorem wrapInt64_of_range (z : Int) (h1 : -(2 ^ 63) ≤ z) (h2 : z < 2 ^ 63) :
    wrapInt64 z = z := by
  unfold wrapInt64
  rw [Int.emod_eq_of_lt (by omega) (by omega)]
  omega

theorem AddDate_of_inRange (b : Booking) (h : InRange b) :
    AddDate b.CheckIn b.Nights = 86400 * (b.CheckIn + b.Nights) := by
  obtain ⟨_, _, h3, h4⟩ := h
  unfold AddDate
  exact wrapInt64_of_range _ h3 h4

theorem OverlapsWith_iff_of_inRange (a b : Booking) (ha : InRange a) (hb : InRange b) :
    OverlapsWith a b = true ↔
      a.CheckIn < b.CheckIn + b.Nights ∧ b.CheckIn < a.CheckIn + a.Nights := by
  unfold OverlapsWith
  simp only [Bool.and_eq_true, decide_eq_true_eq]
  rw [AddDate_of_inRange a ha, AddDate_of_inRange b hb]
  unfold instant
  constructor <;> rintro ⟨h1, h2⟩ <;> constructor <;> omega

theorem inRange_req1 : InRange req1 := ⟨by decide, by decide, by decide, by decide⟩

theorem inRange_req2 : InRange req2 := ⟨by decide, by decide, by decide, by decide⟩

theorem inRange_zeroNight : InRange zeroNight := ⟨by decide, by decide, by decide, by decide⟩

theorem inRange_weekStay : InRange weekStay := ⟨by decide, by decide, by decide, by decide⟩

/-- The stay of `2^62` nights shares the second day with `req1Short`, yet
`OverlapsWith` is false: the check-out of the long stay wraps around. -/
theorem OverlapsWith_longStay :
    OverlapsWith longStay req1Short = false ∧
    ∃ d : Int, (longStay.CheckIn ≤ d ∧ d < longStay.CheckIn + longStay.Nights) ∧
      (req1Short.CheckIn ≤ d ∧ d < req1Short.CheckIn + req1Short.Nights) := by
  refine ⟨by decide, baseDay + 1, ⟨by decide, by decide⟩, ⟨by decide, by decide⟩⟩

/-- Counterexample to C9 as stated: the zero-night booking on day 5 and the stay
over days 3 to 7 both have non-negative nights and `OverlapsWith` holds, yet no
day lies in both half-open intervals, the first being empty. -/
theorem OverlapsWith_iff_common_day_counterexample :
    0 ≤ zeroNight.Nights ∧ 0 ≤ weekStay.Nights ∧
    OverlapsWith zeroNight weekStay = true ∧
    ¬ ∃ d : Int, (zeroNight.CheckIn ≤ d ∧ d < zeroNight.CheckIn + zeroNight.Nights) ∧
        (weekStay.CheckIn ≤ d ∧ d < weekStay.CheckIn + weekStay.Nights) := by
  refine ⟨by decide, by decide, by decide, ?_⟩
  rintro ⟨d, ⟨h1, h2⟩, _⟩
  simp only [zeroNight] at h1 h2
  omega

/-- C9 (amended). For bookings with at least one night each, whose check-in and
check-out are instants that a `time.Time` holds without wrapping around,
`OverlapsWith` holds exactly when some calendar day lies in both half-open
stays. -/
theorem OverlapsWith_iff_common_day (a b : Booking) (ha : 0 < a.Nights) (hb : 0 < b.Nights)
    (hra : InRange a) (hrb : InRange b) :
    OverlapsWith a b = true ↔
      ∃ d : Int, (a.CheckIn ≤ d ∧ d < a.CheckIn + a.Nights) ∧
        (b.CheckIn ≤ d ∧ d < b.CheckIn + b.Nights) := by
  rw [OverlapsWith_iff_of_inRange a b hra hrb]
  constructor
  · rintro ⟨h1, h2⟩
    refine ⟨max a.CheckIn b.CheckIn, ⟨le_max_left _ _, ?_⟩, ⟨le_max_right _ _, ?_⟩⟩
    · rcases max_cases a.CheckIn b.CheckIn with ⟨h, _⟩ | ⟨h, _⟩ <;> rw [h] <;> omega
    · rcases max_cases a.CheckIn b.CheckIn with ⟨h, _⟩ | ⟨h, _⟩ <;> rw [h] <;> omega
  · rintro ⟨d, ⟨h1, h2⟩, ⟨h3, h4⟩⟩
    constructor <;> omega

/-- Instance of the amended C9 on `req1` and `req2`, which share day 2. -/
theorem OverlapsWith_iff_common_day_witness :
    0 < req1.Nights ∧ 0 < req2.Nights ∧ InRange req1 ∧ InRange req2 ∧
    (OverlapsWith req1 req2 = true ↔
      ∃ d : Int, (req1.CheckIn ≤ d ∧ d < req1.CheckIn + req1.Nights) ∧
        (req2.CheckIn ≤ d ∧ d < req2.CheckIn + req2.Nights)) :=
  ⟨by decide, by decide, inRange_req1, inRange_req2,
    OverlapsWith_iff_common_day req1 req2 (by decide) (by decide) inRange_req1 inRange_req2⟩

/-- Counterexample to C10 as stated: the zero-night booking on day 5 overlaps the
stay over days 3 to 7, in both argument orders. -/
theorem OverlapsWith_zero_nights_counterexample :
    zeroNight.Nights = 0 ∧ 0 ≤ weekStay.Nights ∧
    OverlapsWith zeroNight weekStay = true ∧ OverlapsWith weekStay zeroNight = true := by
  decide

/-- C10 (amended). For bookings whose check-in and check-out are instants that a
`time.Time` holds without wrapping around, a zero-night booking `a` overlaps a
booking `b`, in either argument order, exactly when the check-in of `a` lies
strictly inside the stay of `b`; in particular it overlaps neither itself nor any
other zero-night booking. -/
theorem OverlapsWith_zero_nights (a b : Booking) (ha : a.Nights = 0)
    (hra : InRange a) (hrb : InRange b) :
    (OverlapsWith a b = true ↔ b.CheckIn < a.CheckIn ∧ a.CheckIn < b.CheckIn + b.Nights) ∧
    (OverlapsWith b a = true ↔ b.CheckIn < a.CheckIn ∧ a.CheckIn < b.CheckIn + b.Nights) ∧
    OverlapsWith a a = false ∧
    (b.Nights = 0 → OverlapsWith a b = false ∧ OverlapsWith b a = false) := by
  have hab := OverlapsWith_iff_of_inRange a b hra hrb
  have hba := OverlapsWith_iff_of_inRange b a hrb hra
  have haa := OverlapsWith_iff_of_inRange a a hra hra
  rw [ha] at hab hba haa
  refine ⟨?_, ?_, ?_, ?_⟩
  · rw [hab]
    constructor <;> rintro ⟨h1, h2⟩ <;> constructor <;> omega
  · rw [hba]
    constructor <;> rintro ⟨h1, h2⟩ <;> constructor <;> omega
  · rw [Bool.eq_false_iff]
    intro h
    have := haa.mp h
    omega
  · intro hb0
    rw [hb0] at hab hba
    constructor
    · rw [Bool.eq_false_iff]
      intro h
      have := hab.mp h
      omega
    · rw [Bool.eq_false_iff]
      intro h
      have := hba.mp h
      omega

/-- Instance of the amended C10 on the zero-night booking and `weekStay`. -/
theorem OverlapsWith_zero_nights_witness :
    zeroNight.Nights = 0 ∧ InRange zeroNight ∧ InRange weekStay ∧
    ((OverlapsWith zeroNight weekStay = true ↔
        weekStay.CheckIn < zeroNight.CheckIn ∧
          zeroNight.CheckIn < weekStay.CheckIn + weekStay.Nights) ∧
      (OverlapsWith weekStay zeroNight = true ↔
        weekStay.CheckIn < zeroNight.CheckIn ∧
          zeroNight.CheckIn < weekStay.CheckIn + weekStay.Nights) ∧
      OverlapsWith zeroNight zeroNight = false ∧
      (weekStay.Nights = 0 →
        OverlapsWith zeroNight weekStay = false ∧ OverlapsWith weekStay zeroNight = false)) :=
  ⟨rfl, inRange_zeroNight, inRange_weekStay,
    OverlapsWith_zero_nights zeroNight weekStay rfl inRange_zeroNight inRange_weekStay⟩

/-- C11. `HasOverlaps` holds exactly when two positions `i < j` of the list hold
overlapping bookings, whatever the order of the list; it is false on the empty
list and on every single booking. -/
theorem HasOverlaps_iff_exists_pair (bs : Bookings) :
    (HasOverlaps bs = true ↔
      ∃ i j : Fin bs.length, i < j ∧ OverlapsWith (bs.get i) (bs.get j) = true) ∧
    HasOverlaps [] = false ∧ (∀ b : Booking, HasOverlaps [b] = false) := by
  refine ⟨?_, rfl, fun b => rfl⟩
  have h := HasOverlaps_eq_false_iff_pairwise bs
  rw [List.pairwise_iff_get] at h
  constructor
  · intro ht
    by_contra hne
    have hall : ∀ (i j : Fin bs.length), i < j →
        OverlapsWith (bs.get i) (bs.get j) = false := by
      intro i j hij
      by_contra hov
      exact hne ⟨i, j, hij, by simpa using hov⟩
    rw [h.mpr hall] at ht
    exact Bool.false_ne_true ht
  · rintro ⟨i, j, hij, hov⟩
    by_contra hf
    have hfalse : HasOverlaps bs = false := by simpa using hf
    rw [h.mp hfalse i j hij] at hov
    exact Bool.false_ne_true hov

/-- C24. `OverlapsWith` is symmetric in its two bookings. -/
theorem OverlapsWith_symmetric (a b : Booking) : OverlapsWith a b = OverlapsWith b a := by
  simp only [OverlapsWith]
  cases h1 : decide (instant a.CheckIn < AddDate b.CheckIn b.Nights) <;>
    cases h2 : decide (instant b.CheckIn < AddDate a.CheckIn a.Nights) <;> rfl

/-! ## Rounding: overflow, cases and order -/

theorem F64.toRat_fin (q : ℚ) : (F64.fin q).toRat = q := rfl

theorem F64.key_fin_le {a b : ℚ} : (F64.fin a).key ≤ (F64.fin b).key ↔ a ≤ b := by
  simp [F64.key]

theorem F64.fin_ne_nan (q : ℚ) : F64.fin q ≠ F64.nan := by
  intro h
  exact F64.noConfusion h

theorem rnd_eq_pinf {x : ℚ} (h : (2 : ℚ) ^ (1024 : Int) ≤ x) : rnd x = F64.pinf := by
  have hrep : IsRepr ((2 : ℚ) ^ (1024 : Int)) :=
    ⟨1, 1024, by norm_num, by norm_num, by norm_num⟩
  have hv : (2 : ℚ) ^ (1024 : Int) ≤ rndVal x := by
    have := rndVal_mono h
    rwa [rndVal_of_isRepr hrep] at this
  unfold rnd
  rw [if_pos hv]

theorem roundToTwoDecimals_of_overflow {q : ℚ} (h : (2 : ℚ) ^ (1024 : Int) ≤ q * 100) :
    roundToTwoDecimals (F64.fin q) = F64.pinf := by
  unfold roundToTwoDecimals
  rw [F64.mul_fin, rnd_eq_pinf h]
  exact F64.div_hundred_pinf

theorem roundToTwoDecimals_nan : roundToTwoDecimals F64.nan = F64.nan := rfl

theorem F64.cases_of_ne_nan {x : F64} (h : x ≠ F64.nan) :
    x = F64.pinf ∨ x = F64.ninf ∨ ∃ q : ℚ, x = F64.fin q := by
  cases x with
  | nan => exact absurd rfl h
  | ninf => exact Or.inr (Or.inl rfl)
  | pinf => exact Or.inl rfl
  | fin q => exact Or.inr (Or.inr ⟨q, rfl⟩)

/-- The result of `roundToTwoDecimals` on a number is an infinity or the value
nearest to `k / 100`, where `k` is an integer nearest to the product `t` of the
argument with `100` as computed. -/
theorem roundToTwoDecimals_cases {x : F64} (hx : x ≠ F64.nan) :
    roundToTwoDecimals x = F64.pinf ∨ roundToTwoDecimals x = F64.ninf ∨
      ∃ k : Int, roundToTwoDecimals x = rnd ((k : ℚ) / 100) := by
  rcases F64.cases_of_ne_nan hx with rfl | rfl | ⟨q, rfl⟩
  · exact Or.inl roundToTwoDecimals_pinf
  · exact Or.inr (Or.inl roundToTwoDecimals_ninf)
  · rcases roundToTwoDecimals_fin_cases q with ⟨_, h⟩ | ⟨_, h⟩ | ⟨t, k, _, _, h⟩
    · exact Or.inl h
    · exact Or.inr (Or.inl h)
    · exact Or.inr (Or.inr ⟨k, h⟩)

theorem roundToTwoDecimals_le_mono {x y : F64} (hx : x ≠ F64.nan) (hy : y ≠ F64.nan)
    (h : F64.le x y = true) : F64.le (roundToTwoDecimals x) (roundToTwoDecimals y) = true :=
  F64.le_of_key (roundToTwoDecimals_ne_nan hx) (roundToTwoDecimals_ne_nan hy)
    (roundToTwoDecimals_key_mono hx hy ((F64.le_iff_key hx hy).mp h))

theorem roundToTwoDecimals_of_tie (q : ℚ) (k : Nat) :
    (rnd (q * 100) = F64.fin ((k : ℚ) + 1 / 2) →
      roundToTwoDecimals (F64.fin q) = rnd (((k : ℚ) + 1) / 100)) ∧
    (rnd (q * 100) = F64.fin (-((k : ℚ) + 1 / 2)) →
      roundToTwoDecimals (F64.fin q) = rnd (-((k : ℚ) + 1) / 100)) := by
  constructor
  · intro h
    unfold roundToTwoDecimals
    rw [F64.mul_fin, h, F64.round_fin, (mathRound_of_half k).1, F64.div_hundred_fin]
  · intro h
    unfold roundToTwoDecimals
    rw [F64.mul_fin, h, F64.round_fin, (mathRound_of_half k).2, F64.div_hundred_fin]

/-! ## Per-night profit -/

theorem ProfitPerNight_of_zero_nights {b : Booking} (h : b.Nights = 0) :
    ProfitPerNight b = F64.fin 0 := by
  unfold ProfitPerNight
  rw [if_pos h]

theorem ProfitPerNight_of_ne_zero {b : Booking} (h : b.Nights ≠ 0) :
    ProfitPerNight b = roundToTwoDecimals
      (F64.div (F64.div (F64.mul b.SellingRate b.Margin) (F64.fin 100))
        (F64.ofInt b.Nights)) := by
  unfold ProfitPerNight
  rw [if_neg h]

theorem ProfitPerNight_cases {b : Booking} (h : WellFormed b) :
    ProfitPerNight b = F64.pinf ∨ ProfitPerNight b = F64.ninf ∨
      ∃ k : Int, ProfitPerNight b = rnd ((k : ℚ) / 100) := by
  by_cases hn : b.Nights = 0
  · refine Or.inr (Or.inr ⟨0, ?_⟩)
    rw [ProfitPerNight_of_zero_nights hn]
    simp [rnd_zero]
  · obtain ⟨hr, hm, h1, h2⟩ := h
    obtain ⟨v, hv, hv0⟩ := ofInt_of_int64 hn h1 h2
    rw [ProfitPerNight_of_ne_zero hn, hv]
    exact roundToTwoDecimals_cases (F64.div_ne_nan_of_ne_zero (absProfit_ne_nan hr hm) hv0)

theorem ProfitPerNight_of_zero_product {b : Booking} {r m : ℚ} (hr : b.SellingRate = F64.fin r)
    (hm : b.Margin = F64.fin m) (h1 : -(2 ^ 63) ≤ b.Nights) (h2 : b.Nights < 2 ^ 63)
    (hz : r = 0 ∨ m = 0) : ProfitPerNight b = F64.fin 0 := by
  by_cases hn : b.Nights = 0
  · exact ProfitPerNight_of_zero_nights hn
  · obtain ⟨v, hv, hv0⟩ := ofInt_of_int64 hn h1 h2
    have hrm : r * m = 0 := by
      rcases hz with h | h <;> rw [h] <;> simp
    rw [ProfitPerNight_of_ne_zero hn, hv, hr, hm, F64.mul_fin, hrm, rnd_zero,
      F64.div_hundred_fin, zero_div, rnd_zero, F64.div_fin _ _ hv0, zero_div, rnd_zero,
      roundToTwoDecimals_zero]

/-! ## Statistics -/

theorem CalculateStats_nil : CalculateStats [] = ⟨F64.fin 0, F64.fin 0, F64.fin 0⟩ := rfl

theorem CalculateStats_avg (bb : Bookings) (hne : bb ≠ []) :
    (CalculateStats bb).AvgNight
      = roundToTwoDecimals
          (F64.div ((bb.map ProfitPerNight).foldl F64.add (F64.fin 0))
            (F64.ofInt (bb.length : Nat))) := by
  cases bb with
  | nil => exact absurd rfl hne
  | cons b t => rw [CalculateStats_cons]

/-- On a non-empty collection none of whose per-night profits is NaN, the
statistics are the rounded mean, a least and a greatest element of the per-night
profits. -/
theorem CalculateStats_of_ne_nan (bb : Bookings) (hne : bb ≠ [])
    (hnan : ∀ b ∈ bb, ProfitPerNight b ≠ F64.nan) :
    ∃ mn mx : F64,
      (mn ∈ bb.map ProfitPerNight ∧ ∀ p ∈ bb.map ProfitPerNight, mn.key ≤ p.key) ∧
      (mx ∈ bb.map ProfitPerNight ∧ ∀ p ∈ bb.map ProfitPerNight, p.key ≤ mx.key) ∧
      (CalculateStats bb).MinNight = roundToTwoDecimals mn ∧
      (CalculateStats bb).MaxNight = roundToTwoDecimals mx := by
  cases bb with
  | nil => exact absurd rfl hne
  | cons b t =>
    have hps : ∀ p ∈ (b :: t).map ProfitPerNight, p ≠ F64.nan := by
      intro p hp
      rw [List.mem_map] at hp
      obtain ⟨x, hx, rfl⟩ := hp
      exact hnan x hx
    have hb : ProfitPerNight b ≠ F64.nan := hnan b (List.mem_cons_self _ _)
    obtain ⟨_, _, hmin2, hmin3⟩ := foldl_statsStep_min ((b :: t).map ProfitPerNight)
      (F64.fin 0, ProfitPerNight b, ProfitPerNight b) hb hps
    obtain ⟨_, _, hmax2, hmax3⟩ := foldl_statsStep_max ((b :: t).map ProfitPerNight)
      (F64.fin 0, ProfitPerNight b, ProfitPerNight b) hb hps
    refine ⟨_, _, ⟨?_, hmin2⟩, ⟨?_, hmax2⟩, ?_, ?_⟩
    · rcases hmin3 with h | h
      · rw [h]; exact List.mem_map_of_mem _ (List.mem_cons_self _ _)
      · exact h
    · rcases hmax3 with h | h
      · rw [h]; exact List.mem_map_of_mem _ (List.mem_cons_self _ _)
      · exact h
    · rw [CalculateStats_cons]
    · rw [CalculateStats_cons]

theorem ne_nan_of_mem_map {bb : Bookings} (hnan : ∀ b ∈ bb, ProfitPerNight b ≠ F64.nan)
    {p : F64} (hp : p ∈ bb.map ProfitPerNight) : p ≠ F64.nan := by
  rw [List.mem_map] at hp
  obtain ⟨x, hx, rfl⟩ := hp
  exact hnan x hx

/-- The least and greatest per-night profits do not depend on the order. -/
theorem CalculateStats_min_max_perm {bb bb' : Bookings} (h : bb.Perm bb')
    (hnan : ∀ b ∈ bb, ProfitPerNight b ≠ F64.nan) :
    (CalculateStats bb).MinNight = (CalculateStats bb').MinNight ∧
    (CalculateStats bb).MaxNight = (CalculateStats bb').MaxNight := by
  by_cases hne : bb = []
  · subst hne
    rw [List.nil_perm.mp h]
    exact ⟨rfl, rfl⟩
  have hne' : bb' ≠ [] := by
    intro h0
    rw [h0] at h
    exact hne (List.perm_nil.mp h)
  have hnan' : ∀ b ∈ bb', ProfitPerNight b ≠ F64.nan := fun b hb => hnan b (h.mem_iff.mpr hb)
  have hmap : ∀ p, p ∈ bb.map ProfitPerNight ↔ p ∈ bb'.map ProfitPerNight :=
    fun p => (h.map ProfitPerNight).mem_iff
  obtain ⟨mn, mx, ⟨hmn, hmn2⟩, ⟨hmx, hmx2⟩, e1, e2⟩ := CalculateStats_of_ne_nan bb hne hnan
  obtain ⟨mn', mx', ⟨hmn', hmn2'⟩, ⟨hmx', hmx2'⟩, e1', e2'⟩ :=
    CalculateStats_of_ne_nan bb' hne' hnan'
  have hmin : mn = mn' :=
    F64.key_inj (ne_nan_of_mem_map hnan hmn) (ne_nan_of_mem_map hnan' hmn')
      (le_antisymm (hmn2 _ ((hmap _).mpr hmn')) (hmn2' _ ((hmap _).mp hmn)))
  have hmax : mx = mx' :=
    F64.key_inj (ne_nan_of_mem_map hnan hmx) (ne_nan_of_mem_map hnan' hmx')
      (le_antisymm (hmx2' _ ((hmap _).mp hmx)) (hmx2 _ ((hmap _).mpr hmx')))
  rw [e1, e2, e1', e2', hmin, hmax]
  exact ⟨rfl, rfl⟩

theorem CalculateStats_min_le_max (bb : Bookings)
    (hnan : ∀ b ∈ bb, ProfitPerNight b ≠ F64.nan) :
    F64.le (CalculateStats bb).MinNight (CalculateStats bb).MaxNight = true := by
  by_cases hne : bb = []
  · subst hne
    rw [CalculateStats_nil, F64.le_fin]
    norm_num
  obtain ⟨mn, mx, ⟨hmn, hmn2⟩, ⟨hmx, hmx2⟩, e1, e2⟩ := CalculateStats_of_ne_nan bb hne hnan
  rw [e1, e2]
  have h1 := ne_nan_of_mem_map hnan hmn
  have h2 := ne_nan_of_mem_map hnan hmx
  exact F64.le_of_key (roundToTwoDecimals_ne_nan h1) (roundToTwoDecimals_ne_nan h2)
    (roundToTwoDecimals_key_mono h1 h2 (hmn2 _ hmx))

/-! ## Whole-number per-night profits -/

theorem foldl_add_natCast (ns : List Nat) (acc : Nat) (h : acc + ns.sum ≤ 2 ^ 53) :
    (ns.map (fun (n : Nat) => F64.fin (n : ℚ))).foldl F64.add (F64.fin (acc : ℚ))
      = F64.fin ((acc + ns.sum : Nat) : ℚ) := by
  induction ns generalizing acc with
  | nil => simp
  | cons n t ih =>
    rw [List.sum_cons] at h
    have e : (acc : ℚ) + (n : ℚ) = ((acc + n : Nat) : ℚ) := by push_cast; rfl
    rw [List.map_cons, List.foldl_cons, F64.add_fin, e, rnd_natCast _ (by omega),
      ih (acc + n) (by omega), List.sum_cons, Nat.add_assoc]

theorem map_ProfitPerNight_of_whole {bb : Bookings} {g : Booking → Nat}
    (hw : ∀ b ∈ bb, ProfitPerNight b = F64.fin (g b : ℚ)) :
    bb.map ProfitPerNight = (bb.map g).map (fun (n : Nat) => F64.fin (n : ℚ)) := by
  rw [List.map_map]
  exact List.map_congr_left hw

theorem sum_ProfitPerNight_of_whole {bb : Bookings} {g : Booking → Nat}
    (hw : ∀ b ∈ bb, ProfitPerNight b = F64.fin (g b : ℚ)) (hs : (bb.map g).sum ≤ 2 ^ 53) :
    (bb.map ProfitPerNight).foldl F64.add (F64.fin 0)
      = F64.fin (((bb.map g).sum : Nat) : ℚ) := by
  have h0 : (F64.fin 0) = F64.fin ((0 : Nat) : ℚ) := by simp
  rw [map_ProfitPerNight_of_whole hw, h0, foldl_add_natCast _ 0 (by omega), Nat.zero_add]

theorem CalculateStats_avg_of_whole {bb : Bookings} {g : Booking → Nat} (hne : bb ≠ [])
    (hw : ∀ b ∈ bb, ProfitPerNight b = F64.fin (g b : ℚ)) (hs : (bb.map g).sum ≤ 2 ^ 53)
    (hl : bb.length ≤ 2 ^ 53) :
    (CalculateStats bb).AvgNight
      = roundToTwoDecimals (rnd ((((bb.map g).sum : Nat) : ℚ) / ((bb.length : Nat) : ℚ))) := by
  have hpos : 0 < bb.length := List.length_pos.mpr hne
  have hq : ((bb.length : Nat) : ℚ) ≠ 0 := by
    exact_mod_cast Nat.pos_iff_ne_zero.mp hpos
  rw [CalculateStats_avg bb hne, sum_ProfitPerNight_of_whole hw hs,
    ofInt_natCast_pos hpos hl, F64.div_fin _ _ hq]

theorem CalculateStats_avg_perm_of_whole {bb bb' : Bookings} (h : bb.Perm bb')
    {g : Booking → Nat} (hw : ∀ b ∈ bb, ProfitPerNight b = F64.fin (g b : ℚ))
    (hs : (bb.map g).sum ≤ 2 ^ 53) (hl : bb.length ≤ 2 ^ 53) :
    (CalculateStats bb).AvgNight = (CalculateStats bb').AvgNight := by
  by_cases hne : bb = []
  · subst hne
    rw [List.nil_perm.mp h]
  have hne' : bb' ≠ [] := by
    intro h0
    rw [h0] at h
    exact hne (List.perm_nil.mp h)
  have hw' : ∀ b ∈ bb', ProfitPerNight b = F64.fin (g b : ℚ) :=
    fun b hb => hw b (h.mem_iff.mpr hb)
  have hsum : (bb'.map g).sum = (bb.map g).sum := ((h.map g).sum_eq).symm
  have hlen : bb'.length = bb.length := h.length_eq.symm
  rw [CalculateStats_avg_of_whole hne hw hs hl,
    CalculateStats_avg_of_whole hne' hw' (by rw [hsum]; exact hs) (by rw [hlen]; exact hl),
    hsum, hlen]

/-- With whole-number per-night profits the mean lies between the least and the
greatest. -/
theorem CalculateStats_ordered_of_whole {bb : Bookings} {g : Booking → Nat}
    (hw : ∀ b ∈ bb, ProfitPerNight b = F64.fin (g b : ℚ)) (hs : (bb.map g).sum ≤ 2 ^ 53)
    (hl : bb.length ≤ 2 ^ 53) :
    F64.le (CalculateStats bb).MinNight (CalculateStats bb).AvgNight = true ∧
    F64.le (CalculateStats bb).AvgNight (CalculateStats bb).MaxNight = true := by
  by_cases hne : bb = []
  · subst hne
    rw [CalculateStats_nil, F64.le_fin]
    norm_num
  have hnan : ∀ b ∈ bb, ProfitPerNight b ≠ F64.nan := by
    intro b hb
    rw [hw b hb]
    exact F64.fin_ne_nan _
  have hpos : 0 < bb.length := List.length_pos.mpr hne
  have hq : (0 : ℚ) < ((bb.length : Nat) : ℚ) := by exact_mod_cast hpos
  obtain ⟨mn, mx, ⟨hmn, hmn2⟩, ⟨hmx, hmx2⟩, e1, e2⟩ := CalculateStats_of_ne_nan bb hne hnan
  rw [List.mem_map] at hmn hmx
  obtain ⟨b1, hb1, rfl⟩ := hmn
  obtain ⟨b2, hb2, rfl⟩ := hmx
  have hlow : ∀ n ∈ bb.map g, g b1 ≤ n := by
    intro n hn
    rw [List.mem_map] at hn
    obtain ⟨b, hb, rfl⟩ := hn
    have := hmn2 _ (List.mem_map_of_mem _ hb)
    rw [hw b1 hb1, hw b hb, F64.key_fin_le] at this
    exact_mod_cast this
  have hhigh : ∀ n ∈ bb.map g, n ≤ g b2 := by
    intro n hn
    rw [List.mem_map] at hn
    obtain ⟨b, hb, rfl⟩ := hn
    have := hmx2 _ (List.mem_map_of_mem _ hb)
    rw [hw b2 hb2, hw b hb, F64.key_fin_le] at this
    exact_mod_cast this
  have h1 : (bb.map g).length • g b1 ≤ (bb.map g).sum := List.card_nsmul_le_sum _ _ hlow
  have h2 : (bb.map g).sum ≤ (bb.map g).length • g b2 := List.sum_le_card_nsmul _ _ hhigh
  rw [List.length_map, smul_eq_mul] at h1 h2
  have h1q : (g b1 : ℚ) ≤ (((bb.map g).sum : Nat) : ℚ) / ((bb.length : Nat) : ℚ) := by
    rw [le_div_iff₀ hq]
    have : ((bb.length * g b1 : Nat) : ℚ) ≤ (((bb.map g).sum : Nat) : ℚ) := by
      exact_mod_cast h1
    push_cast at this ⊢
    linarith
  have h2q : (((bb.map g).sum : Nat) : ℚ) / ((bb.length : Nat) : ℚ) ≤ (g b2 : ℚ) := by
    rw [div_le_iff₀ hq]
    have : (((bb.map g).sum : Nat) : ℚ) ≤ ((bb.length * g b2 : Nat) : ℚ) := by
      exact_mod_cast h2
    push_cast at this ⊢
    linarith
  have hb1le : g b1 ≤ 2 ^ 53 := by
    have : g b1 ≤ bb.length * g b1 := Nat.le_mul_of_pos_left _ hpos
    omega
  have hsle : (((bb.map g).sum : Nat) : ℚ) / ((bb.length : Nat) : ℚ)
      ≤ (((bb.map g).sum : Nat) : ℚ) := by
    apply div_le_self (by positivity)
    exact_mod_cast hpos
  have k1 : (F64.fin (g b1 : ℚ)).key
      ≤ (rnd ((((bb.map g).sum : Nat) : ℚ) / ((bb.length : Nat) : ℚ))).key := by
    rw [← rnd_natCast _ hb1le]
    exact rnd_key_mono h1q
  have k2 : (rnd ((((bb.map g).sum : Nat) : ℚ) / ((bb.length : Nat) : ℚ))).key
      ≤ (F64.fin (((bb.map g).sum : Nat) : ℚ)).key := by
    rw [← rnd_natCast _ hs]
    exact rnd_key_mono hsle
  rw [e1, e2, CalculateStats_avg_of_whole hne hw hs hl, hw b1 hb1, hw b2 hb2]
  have hr := rnd_ne_nan ((((bb.map g).sum : Nat) : ℚ) / ((bb.length : Nat) : ℚ))
  constructor
  · exact F64.le_of_key (roundToTwoDecimals_ne_nan (F64.fin_ne_nan _))
      (roundToTwoDecimals_ne_nan hr)
      (roundToTwoDecimals_key_mono (F64.fin_ne_nan _) hr k1)
  · by_cases hb2le : g b2 ≤ 2 ^ 53
    · have k3 : (rnd ((((bb.map g).sum : Nat) : ℚ) / ((bb.length : Nat) : ℚ))).key
          ≤ (F64.fin (g b2 : ℚ)).key := by
        rw [← rnd_natCast _ hb2le]
        exact rnd_key_mono h2q
      exact F64.le_of_key (roundToTwoDecimals_ne_nan hr)
        (roundToTwoDecimals_ne_nan (F64.fin_ne_nan _))
        (roundToTwoDecimals_key_mono hr (F64.fin_ne_nan _) k3)
    · have hmem : g b2 ∈ bb.map g := List.mem_map_of_mem _ hb2
      have := List.single_le_sum (fun _ _ => Nat.zero_le _) _ hmem
      omega

theorem fin_ne_of_ne {a b : ℚ} (h : a ≠ b) : F64.fin a ≠ F64.fin b :=
  fun e => h (F64.fin.inj e)

theorem roundToTwoDecimalsExact_of_half (x : ℚ) (k : Nat) (h : x * 100 = (k : ℚ) + 1 / 2) :
    roundToTwoDecimalsExact x = ((k : ℚ) + 1) / 100 := by
  unfold roundToTwoDecimalsExact
  rw [h, (mathRound_of_half k).1]

theorem roundToTwoDecimalsExact_of_near (x : ℚ) (z : Int) (h1 : (z : ℚ) - 1 / 2 < x * 100)
    (h2 : x * 100 < (z : ℚ) + 1 / 2) : roundToTwoDecimalsExact x = (z : ℚ) / 100 := by
  unfold roundToTwoDecimalsExact
  rw [mathRound_of_near _ z h1 h2]

theorem wellFormed_of_fin {b : Booking} {r m : ℚ} (hr : b.SellingRate = F64.fin r)
    (hm : b.Margin = F64.fin m) (h1 : -(2 ^ 63) ≤ b.Nights) (h2 : b.Nights < 2 ^ 63) :
    WellFormed b := by
  refine ⟨?_, ?_, h1, h2⟩
  · rw [hr]; exact trivial
  · rw [hm]; exact trivial

theorem roundToTwoDecimals_ProfitPerNight {b : Booking} {v : ℚ}
    (h : ProfitPerNight b = F64.fin v) (hv : |v| ≤ 2 ^ 44) :
    roundToTwoDecimals (ProfitPerNight b) = ProfitPerNight b := by
  by_cases hn : b.Nights = 0
  · rw [ProfitPerNight_of_zero_nights hn, roundToTwoDecimals_zero]
  · rw [h]
    rw [ProfitPerNight_of_ne_zero hn] at h
    exact roundToTwoDecimals_idem h hv

theorem MaximizeProfit_stats (ovf : Nat → Int) (bs : List Booking) :
    (MaximizeProfit ovf bs).AvgNight
      = (CalculateStats (findBestCombination (allCombinations ovf bs))).AvgNight ∧
    (MaximizeProfit ovf bs).MinNight
      = (CalculateStats (findBestCombination (allCombinations ovf bs))).MinNight ∧
    (MaximizeProfit ovf bs).MaxNight
      = (CalculateStats (findBestCombination (allCombinations ovf bs))).MaxNight := by
  rw [MaximizeProfit_eq, buildMaximizeResult_eq]
  exact ⟨rfl, rfl, rfl⟩

theorem wellFormed_stays : ∀ b ∈ [stayA, stayB, stayC], WellFormed b := by
  intro b hb
  simp only [List.mem_cons, List.mem_singleton, List.not_mem_nil, or_false] at hb
  rcases hb with rfl | rfl | rfl <;> exact ⟨trivial, trivial, by decide, by decide⟩

theorem whole_stays :
    ∀ b ∈ [stayA, stayB, stayC], ProfitPerNight b = F64.fin (stayProfit b : ℚ) := by
  intro b hb
  simp only [List.mem_cons, List.mem_singleton, List.not_mem_nil, or_false] at hb
  rcases hb with rfl | rfl | rfl
  · rw [ProfitPerNight_stayA]
    show F64.fin 40 = F64.fin ((40 : Nat) : ℚ)
    norm_num
  · rw [ProfitPerNight_stayB]
    show F64.fin 75 = F64.fin ((75 : Nat) : ℚ)
    norm_num
  · rw [ProfitPerNight_stayC]
    show F64.fin 125 = F64.fin ((125 : Nat) : ℚ)
    norm_num

theorem sum_stays : ([stayA, stayB, stayC].map stayProfit).sum = 240 := by decide

/-! ## C12: per-night profit -/

/-- Counterexample to C12 as stated: for two nights at a rate of 29 and a margin
of 1 the quotient `(29 * 1 / 100) / 2` is 0.145, which rounds to two decimals as
0.15, whereas `ProfitPerNight` returns the `float64` value 0.14: the quotient as
computed lies just below 0.145. -/
theorem ProfitPerNight_spec_counterexample :
    oddCents.SellingRate = F64.fin 29 ∧ oddCents.Margin = F64.fin 1 ∧ oddCents.Nights = 2 ∧
    ProfitPerNight oddCents = rnd (14 / 100) ∧
    roundToTwoDecimalsExact (29 * 1 / 100 / 2) = 15 / 100 ∧
    ProfitPerNight oddCents ≠ rnd (roundToTwoDecimalsExact (29 * 1 / 100 / 2)) := by
  have hx : roundToTwoDecimalsExact (29 * 1 / 100 / 2) = 15 / 100 := by
    rw [roundToTwoDecimalsExact_of_half _ 14 (by norm_num)]
    norm_num
  refine ⟨rfl, rfl, rfl, ?_, hx, ?_⟩
  · rw [ProfitPerNight_oddCents, rnd_c14]
  · rw [hx, ProfitPerNight_oddCents, rnd_c15]
    exact fin_ne_of_ne (by norm_num)

/-- C12 (amended). For a booking with finite selling rate `r` and margin `m` and a
night count that fits the 64-bit `int`: `ProfitPerNight` is 0 when the nights are
0; otherwise it is `roundToTwoDecimals` of the quotient computed in `float64`,
every operation rounding; the result is an infinity or the `float64` nearest to a
multiple `k / 100` of 0.01; it is 0 when the rate or the margin is 0; and when
finite, with at most `2^53` nights in magnitude, it differs from the exact
quotient `(r * m / 100) / nights` by at most 0.005 plus a relative `2^-49` of the
quotient plus `2^-59`. -/
theorem ProfitPerNight_spec (b : Booking) (r m : ℚ) (hr : b.SellingRate = F64.fin r)
    (hm : b.Margin = F64.fin m) (h1 : -(2 ^ 63) ≤ b.Nights) (h2 : b.Nights < 2 ^ 63) :
    (b.Nights = 0 → ProfitPerNight b = F64.fin 0) ∧
    (b.Nights ≠ 0 → ProfitPerNight b = roundToTwoDecimals
      (F64.div (F64.div (F64.mul b.SellingRate b.Margin) (F64.fin 100))
        (F64.ofInt b.Nights))) ∧
    (ProfitPerNight b = F64.pinf ∨ ProfitPerNight b = F64.ninf ∨
      ∃ k : Int, ProfitPerNight b = rnd ((k : ℚ) / 100)) ∧
    (r = 0 ∨ m = 0 → ProfitPerNight b = F64.fin 0) ∧
    (∀ v : ℚ, b.Nights ≠ 0 → |b.Nights| ≤ 2 ^ 53 → ProfitPerNight b = F64.fin v →
      |v - r * m / 100 / (b.Nights : ℚ)|
        ≤ 1 / 200 + |r * m / 100 / (b.Nights : ℚ)| / 2 ^ 49 + 1 / 2 ^ 59) :=
  ⟨ProfitPerNight_of_zero_nights, ProfitPerNight_of_ne_zero,
    ProfitPerNight_cases (wellFormed_of_fin hr hm h1 h2),
    ProfitPerNight_of_zero_product hr hm h1 h2,
    fun v hn hn53 h => ProfitPerNight_err b r m v hr hm hn hn53 h⟩

/-- Instance of the amended C12 on `req2`: three nights at a rate of 2000 and a
margin of 25, a per-night profit of 166.67. -/
theorem ProfitPerNight_spec_witness :
    req2.SellingRate = F64.fin 2000 ∧ req2.Margin = F64.fin 25 ∧
    -(2 ^ 63) ≤ req2.Nights ∧ req2.Nights < 2 ^ 63 ∧
    ProfitPerNight req2 = roundToTwoDecimals
      (F64.div (F64.div (F64.mul req2.SellingRate req2.Margin) (F64.fin 100))
        (F64.ofInt req2.Nights)) :=
  ⟨rfl, rfl, by decide, by decide,
    (ProfitPerNight_spec req2 2000 25 rfl rfl (by decide) (by decide)).2.1 (by decide)⟩

/-! ## C13: total profit -/

/-- Counterexample to C13 as stated: for the single booking at a rate of 14.5 and
a margin of 1 the sum of `selling_rate * margin / 100` is 0.145, which rounds to
two decimals as 0.15, whereas `TotalProfit` returns the `float64` value 0.14. -/
theorem TotalProfit_spec_counterexample :
    halfCent.SellingRate = F64.fin (29 / 2) ∧ halfCent.Margin = F64.fin 1 ∧
    TotalProfit [halfCent] = rnd (14 / 100) ∧
    roundToTwoDecimalsExact (29 / 2 * 1 / 100) = 15 / 100 ∧
    TotalProfit [halfCent] ≠ rnd (roundToTwoDecimalsExact (29 / 2 * 1 / 100)) := by
  have hx : roundToTwoDecimalsExact (29 / 2 * 1 / 100) = 15 / 100 := by
    rw [roundToTwoDecimalsExact_of_half _ 14 (by norm_num)]
    norm_num
  refine ⟨rfl, rfl, ?_, hx, ?_⟩
  · rw [TotalProfit_halfCent, rnd_c14]
  · rw [hx, TotalProfit_halfCent, rnd_c15]
    exact fin_ne_of_ne (by norm_num)

/-- C13 (amended). `TotalProfit` is 0 on the empty list; it is
`roundToTwoDecimals`, applied once, of the sum of `selling_rate * margin / 100`
accumulated from left to right in `float64`, every operation rounding; it depends
on the selling rates and margins only, not on the nights; it is exact when every
profit is a whole number and a hundred times their sum is at most `2^53`; and the
rounding to two decimals is not per term: two bookings of profit 0.00375 total
0.01, while each alone totals 0. -/
theorem TotalProfit_spec (bb : Bookings) :
    TotalProfit [] = F64.fin 0 ∧
    TotalProfit bb = roundToTwoDecimals
      ((bb.map (fun b => F64.div (F64.mul b.SellingRate b.Margin) (F64.fin 100))).foldl
        F64.add (F64.fin 0)) ∧
    (∀ bb' : Bookings,
      bb.map (fun b => (b.SellingRate, b.Margin)) = bb'.map (fun b => (b.SellingRate, b.Margin)) →
      TotalProfit bb = TotalProfit bb') ∧
    (∀ f : Booking → Nat, (∀ b ∈ bb, WholeProfit f b) → 100 * (bb.map f).sum ≤ 2 ^ 53 →
      TotalProfit bb = F64.fin (((bb.map f).sum : Nat) : ℚ)) ∧
    (TotalProfit [eighth, eighth] = rnd (1 / 100) ∧ TotalProfit [eighth] = F64.fin 0) := by
  refine ⟨TotalProfit_nil, TotalProfit_eq_foldl bb, ?_, ?_, ?_, TotalProfit_eighth⟩
  · intro bb' h
    have key : ∀ l : Bookings, l.map absProfit
        = (l.map (fun b => (b.SellingRate, b.Margin))).map
            (fun p => F64.div (F64.mul p.1 p.2) (F64.fin 100)) := by
      intro l
      rw [List.map_map]
      rfl
    rw [TotalProfit_eq_foldl, TotalProfit_eq_foldl, key bb, key bb', h]
  · intro f hw hs
    exact TotalProfit_of_whole f bb hw hs
  · rw [TotalProfit_eighth_eighth, rnd_c1]

/-- Instance of the amended C13 on two one-night bookings of profit 10 each. -/
theorem TotalProfit_spec_witness :
    (∀ b ∈ [nightOf 0, nightOf 1], WholeProfit (fun _ => 10) b) ∧
    100 * ([nightOf 0, nightOf 1].map (fun _ => 10)).sum ≤ 2 ^ 53 ∧
    TotalProfit [nightOf 0, nightOf 1]
      = F64.fin ((([nightOf 0, nightOf 1].map (fun _ => 10)).sum : Nat) : ℚ) :=
  have hw : ∀ b ∈ [nightOf 0, nightOf 1], WholeProfit (fun _ => 10) b := by
    intro b hb
    simp only [List.mem_cons, List.mem_singleton, List.not_mem_nil, or_false] at hb
    rcases hb with rfl | rfl <;> exact nightOf_whole _
  ⟨hw, by decide, (TotalProfit_spec [nightOf 0, nightOf 1]).2.2.2.1 (fun _ => 10) hw (by decide)⟩

/-! ## C14: the average -/

/-- Counterexample to C14 as stated: the per-night profits of the four bookings
are the `float64` values 0.01, 0.1, 0.01 and 0.02; their arithmetic mean lies
above 0.035 and rounds to two decimals as 0.04, whereas `CalculateStats` returns
an average of 0.03: the sum accumulated in `float64` falls just below 0.14. -/
theorem CalculateStats_avg_night_counterexample :
    [cent1, cent10, cent1b, cent2] ≠ [] ∧
    (CalculateStats [cent1, cent10, cent1b, cent2]).AvgNight = rnd (3 / 100) ∧
    35 / 1000
      < ([cent1, cent10, cent1b, cent2].map (fun b => (ProfitPerNight b).toRat)).sum / 4 ∧
    roundToTwoDecimalsExact
      (([cent1, cent10, cent1b, cent2].map (fun b => (ProfitPerNight b).toRat)).sum / 4)
        = 4 / 100 ∧
    (CalculateStats [cent1, cent10, cent1b, cent2]).AvgNight ≠ rnd (4 / 100) := by
  have hsum : ([cent1, cent10, cent1b, cent2].map (fun b => (ProfitPerNight b).toRat)).sum
      = 20176126330619823 / 144115188075855872 := by
    simp only [List.map_cons, List.map_nil, List.sum_cons, List.sum_nil]
    rw [ProfitPerNight_cent1, ProfitPerNight_cent10, ProfitPerNight_cent1b,
      ProfitPerNight_cent2, F64.toRat_fin, F64.toRat_fin, F64.toRat_fin]
    norm_num
  have havg : (CalculateStats [cent1, cent10, cent1b, cent2]).AvgNight
      = F64.fin (1080863910568919 / 36028797018963968) := by
    rw [CalculateStats_cent1_cent10_cent1b_cent2]
  refine ⟨List.cons_ne_nil _ _, ?_, ?_, ?_, ?_⟩
  · rw [havg, rnd_c3]
  · rw [hsum]; norm_num
  · rw [hsum, roundToTwoDecimalsExact_of_near _ 4 (by norm_num) (by norm_num)]
    norm_num
  · rw [havg, rnd_c4]
    exact fin_ne_of_ne (by norm_num)

/-- C14 (amended). For a non-empty list, `avg_night` is `roundToTwoDecimals`,
applied once, of the quotient in `float64` of the sum of the per-night profits,
accumulated from left to right in `float64`, by the number of bookings; a
zero-night booking enters the sum with value 0 and counts in the divisor; and when
the per-night profits are whole numbers whose sum is the count times a whole
number `a`, with a hundred times that sum at most `2^53`, the result is exactly
`a`. -/
theorem CalculateStats_avg_night (bb : Bookings) (hne : bb ≠ []) :
    (CalculateStats bb).AvgNight
      = roundToTwoDecimals
          (F64.div ((bb.map ProfitPerNight).foldl F64.add (F64.fin 0))
            (F64.ofInt (bb.length : Nat))) ∧
    (∀ b ∈ bb, b.Nights = 0 → ProfitPerNight b = F64.fin 0) ∧
    (∀ (g : Booking → Nat) (a : Nat), (∀ b ∈ bb, ProfitPerNight b = F64.fin (g b : ℚ)) →
      (bb.map g).sum = bb.length * a → 100 * (bb.length * a) ≤ 2 ^ 53 →
      bb.length ≤ 2 ^ 53 → (CalculateStats bb).AvgNight = F64.fin (a : ℚ)) := by
  refine ⟨CalculateStats_avg bb hne, fun b _ h => ProfitPerNight_of_zero_nights h, ?_⟩
  intro g a hw hsum hb hl
  have hpos : 0 < bb.length := List.length_pos.mpr hne
  have hq : ((bb.length : Nat) : ℚ) ≠ 0 := by
    exact_mod_cast Nat.pos_iff_ne_zero.mp hpos
  have ha : a ≤ bb.length * a := Nat.le_mul_of_pos_left _ hpos
  have hdiv : (((bb.map g).sum : Nat) : ℚ) / ((bb.length : Nat) : ℚ) = (a : ℚ) := by
    rw [hsum]
    push_cast
    field_simp
  rw [CalculateStats_avg_of_whole hne hw (by omega) hl, hdiv, rnd_natCast _ (by omega),
    roundToTwoDecimals_natCast _ (by omega)]

/-- Instance of the amended C14 on the first end-to-end example: per-night profits
40, 75 and 125, an average of 80. -/
theorem CalculateStats_avg_night_witness :
    [stayA, stayB, stayC] ≠ [] ∧
    (∀ b ∈ [stayA, stayB, stayC], ProfitPerNight b = F64.fin (stayProfit b : ℚ)) ∧
    (CalculateStats [stayA, stayB, stayC]).AvgNight = F64.fin ((80 : Nat) : ℚ) :=
  ⟨List.cons_ne_nil _ _, whole_stays,
    (CalculateStats_avg_night [stayA, stayB, stayC] (List.cons_ne_nil _ _)).2.2 stayProfit 80
      whole_stays (by decide) (by decide) (by decide)⟩

/-! ## C15: the least and the greatest -/

/-- Counterexample to C15 as stated: the per-night profit of the single booking
`largeStay` is the `float64` value 44574545451832.13, yet `min_night` and
`max_night` are 44574545451832.14: the final rounding changes the value, so
`roundToTwoDecimals` is not idempotent. -/
theorem CalculateStats_min_max_night_counterexample :
    [largeStay] ≠ [] ∧
    ProfitPerNight largeStay = F64.fin (5705541817834513 / 128) ∧
    (CalculateStats [largeStay]).MinNight = F64.fin (2852770908917257 / 64) ∧
    (CalculateStats [largeStay]).MaxNight = F64.fin (2852770908917257 / 64) ∧
    (CalculateStats [largeStay]).MinNight ≠ ProfitPerNight largeStay ∧
    (CalculateStats [largeStay]).MaxNight ≠ ProfitPerNight largeStay := by
  have hmin : (CalculateStats [largeStay]).MinNight = F64.fin (2852770908917257 / 64) := by
    rw [CalculateStats_largeStay]
  have hmax : (CalculateStats [largeStay]).MaxNight = F64.fin (2852770908917257 / 64) := by
    rw [CalculateStats_largeStay]
  refine ⟨List.cons_ne_nil _ _, ProfitPerNight_largeStay, hmin, hmax, ?_, ?_⟩
  · rw [hmin, ProfitPerNight_largeStay]
    exact fin_ne_of_ne (by norm_num)
  · rw [hmax, ProfitPerNight_largeStay]
    exact fin_ne_of_ne (by norm_num)

/-- C15 (amended). For a non-empty list of bookings with finite selling rates and
margins and night counts that fit the 64-bit `int`, `min_night` and `max_night`
are `roundToTwoDecimals` of the per-night profit of a booking whose per-night
profit is least, respectively greatest; the final rounding changes nothing when
that per-night profit is at most `2^44` in magnitude; and a zero-night booking
among bookings of non-negative per-night profit makes `min_night` 0. -/
theorem CalculateStats_min_max_night (bb : Bookings) (hne : bb ≠ [])
    (hwf : ∀ b ∈ bb, WellFormed b) :
    ∃ bmin ∈ bb, ∃ bmax ∈ bb,
      (∀ b ∈ bb, F64.le (ProfitPerNight bmin) (ProfitPerNight b) = true) ∧
      (∀ b ∈ bb, F64.le (ProfitPerNight b) (ProfitPerNight bmax) = true) ∧
      (CalculateStats bb).MinNight = roundToTwoDecimals (ProfitPerNight bmin) ∧
      (CalculateStats bb).MaxNight = roundToTwoDecimals (ProfitPerNight bmax) ∧
      (∀ v : ℚ, ProfitPerNight bmin = F64.fin v → |v| ≤ 2 ^ 44 →
        (CalculateStats bb).MinNight = ProfitPerNight bmin) ∧
      (∀ v : ℚ, ProfitPerNight bmax = F64.fin v → |v| ≤ 2 ^ 44 →
        (CalculateStats bb).MaxNight = ProfitPerNight bmax) ∧
      ((∃ b ∈ bb, b.Nights = 0) →
        (∀ b ∈ bb, F64.le (F64.fin 0) (ProfitPerNight b) = true) →
        (CalculateStats bb).MinNight = F64.fin 0) := by
  have hnan : ∀ b ∈ bb, ProfitPerNight b ≠ F64.nan :=
    fun b hb => ProfitPerNight_ne_nan (hwf b hb)
  obtain ⟨mn, mx, ⟨hmn, hmn2⟩, ⟨hmx, hmx2⟩, e1, e2⟩ := CalculateStats_of_ne_nan bb hne hnan
  rw [List.mem_map] at hmn hmx
  obtain ⟨b1, hb1, rfl⟩ := hmn
  obtain ⟨b2, hb2, rfl⟩ := hmx
  refine ⟨b1, hb1, b2, hb2, ?_, ?_, e1, e2, ?_, ?_, ?_⟩
  · intro b hb
    exact F64.le_of_key (hnan b1 hb1) (hnan b hb) (hmn2 _ (List.mem_map_of_mem _ hb))
  · intro b hb
    exact F64.le_of_key (hnan b hb) (hnan b2 hb2) (hmx2 _ (List.mem_map_of_mem _ hb))
  · intro v hv hle
    rw [e1, roundToTwoDecimals_ProfitPerNight hv hle]
  · intro v hv hle
    rw [e2, roundToTwoDecimals_ProfitPerNight hv hle]
  · rintro ⟨b0, hb0, hz⟩ hnn
    have h0 := hmn2 _ (List.mem_map_of_mem ProfitPerNight hb0)
    rw [ProfitPerNight_of_zero_nights hz] at h0
    have h1 := (F64.le_iff_key (F64.fin_ne_nan 0) (hnan b1 hb1)).mp (hnn b1 hb1)
    have heq : ProfitPerNight b1 = F64.fin 0 :=
      F64.key_inj (hnan b1 hb1) (F64.fin_ne_nan 0) (le_antisymm h0 h1)
    rw [e1, heq, roundToTwoDecimals_zero]

/-- Instance of the amended C15 on `req1` followed by a zero-night booking:
`min_night` is 0. -/
theorem CalculateStats_min_max_night_witness :
    [req1, zeroNight] ≠ [] ∧ (∀ b ∈ [req1, zeroNight], WellFormed b) ∧
    (CalculateStats [req1, zeroNight]).MinNight = F64.fin 0 := by
  have hwf : ∀ b ∈ [req1, zeroNight], WellFormed b := by
    intro b hb
    simp only [List.mem_cons, List.mem_singleton, List.not_mem_nil, or_false] at hb
    rcases hb with rfl | rfl <;> exact ⟨trivial, trivial, by decide, by decide⟩
  have hnn : ∀ b ∈ [req1, zeroNight], F64.le (F64.fin 0) (ProfitPerNight b) = true := by
    intro b hb
    simp only [List.mem_cons, List.mem_singleton, List.not_mem_nil, or_false] at hb
    rcases hb with rfl | rfl
    · rw [ProfitPerNight_req1, F64.le_fin]; norm_num
    · rw [ProfitPerNight_zeroNight, F64.le_fin]; norm_num
  obtain ⟨_, _, _, _, _, _, _, _, _, _, hz⟩ :=
    CalculateStats_min_max_night [req1, zeroNight] (List.cons_ne_nil _ _) hwf
  exact ⟨List.cons_ne_nil _ _, hwf,
    hz ⟨zeroNight, List.mem_cons_of_mem _ (List.mem_singleton_self _), rfl⟩ hnn⟩

/-! ## C17: order of the input and the statistics -/

/-- Counterexample to C17 as stated: the same four bookings, of per-night profits
0.01, 0.1, 0.01 and 0.02, give an average of 0.03 in one order and of 0.04 in
another, the `float64` sum depending on the order of the additions. -/
theorem CalculateStats_perm_counterexample :
    [cent1, cent10, cent1b, cent2].Perm [cent1, cent1b, cent2, cent10] ∧
    (CalculateStats [cent1, cent10, cent1b, cent2]).AvgNight = rnd (3 / 100) ∧
    (CalculateStats [cent1, cent1b, cent2, cent10]).AvgNight = rnd (4 / 100) ∧
    (CalculateStats [cent1, cent10, cent1b, cent2]).AvgNight
      ≠ (CalculateStats [cent1, cent1b, cent2, cent10]).AvgNight := by
  have h1 : (CalculateStats [cent1, cent10, cent1b, cent2]).AvgNight
      = F64.fin (1080863910568919 / 36028797018963968) := by
    rw [CalculateStats_cent1_cent10_cent1b_cent2]
  have h2 : (CalculateStats [cent1, cent1b, cent2, cent10]).AvgNight
      = F64.fin (5764607523034235 / 144115188075855872) := by
    rw [CalculateStats_cent1_cent1b_cent2_cent10]
  refine ⟨?_, ?_, ?_, ?_⟩
  · exact List.Perm.cons cent1
      (List.perm_append_comm : ([cent10] ++ [cent1b, cent2]).Perm ([cent1b, cent2] ++ [cent10]))
  · rw [h1, rnd_c3]
  · rw [h2, rnd_c4]
  · rw [h1, h2]
    exact fin_ne_of_ne (by norm_num)

/-- C17 (amended). For bookings with finite selling rates and margins and night
counts that fit the 64-bit `int`, `min_night` and `max_night` do not depend on the
order of the input; `avg_night` does not either when the per-night profits are
whole numbers of sum at most `2^53`. -/
theorem CalculateStats_perm (bb bb' : Bookings) (h : bb.Perm bb')
    (hwf : ∀ b ∈ bb, WellFormed b) :
    (CalculateStats bb).MinNight = (CalculateStats bb').MinNight ∧
    (CalculateStats bb).MaxNight = (CalculateStats bb').MaxNight ∧
    (∀ g : Booking → Nat, (∀ b ∈ bb, ProfitPerNight b = F64.fin (g b : ℚ)) →
      (bb.map g).sum ≤ 2 ^ 53 → bb.length ≤ 2 ^ 53 →
      (CalculateStats bb).AvgNight = (CalculateStats bb').AvgNight) := by
  have hnan : ∀ b ∈ bb, ProfitPerNight b ≠ F64.nan :=
    fun b hb => ProfitPerNight_ne_nan (hwf b hb)
  obtain ⟨h1, h2⟩ := CalculateStats_min_max_perm h hnan
  exact ⟨h1, h2, fun g hw hs hl => CalculateStats_avg_perm_of_whole h hw hs hl⟩

/-- Instance of the amended C17 on the first end-to-end example and a
rearrangement of it. -/
theorem CalculateStats_perm_witness :
    [stayA, stayB, stayC].Perm [stayC, stayA, stayB] ∧
    (∀ b ∈ [stayA, stayB, stayC], WellFormed b) ∧
    (CalculateStats [stayA, stayB, stayC]).MinNight
      = (CalculateStats [stayC, stayA, stayB]).MinNight ∧
    (CalculateStats [stayA, stayB, stayC]).MaxNight
      = (CalculateStats [stayC, stayA, stayB]).MaxNight ∧
    (CalculateStats [stayA, stayB, stayC]).AvgNight
      = (CalculateStats [stayC, stayA, stayB]).AvgNight :=
  have hp : [stayA, stayB, stayC].Perm [stayC, stayA, stayB] :=
    (List.perm_append_comm : ([stayA, stayB] ++ [stayC]).Perm ([stayC] ++ [stayA, stayB]))
  ⟨hp, wellFormed_stays,
    (CalculateStats_perm _ _ hp wellFormed_stays).1,
    (CalculateStats_perm _ _ hp wellFormed_stays).2.1,
    (CalculateStats_perm _ _ hp wellFormed_stays).2.2 stayProfit whole_stays
      (by decide) (by decide)⟩

/-! ## C23: rounding to two decimals -/

/-- Counterexample to C23 as stated: the `float64` value nearest to 0.015 lies
below 0.015, so that 0.01 is the nearest multiple of 0.01, yet
`roundToTwoDecimals` returns the `float64` value 0.02, more than 0.005 away; and
on `1e308` the result is `+Inf`. -/
theorem roundToTwoDecimals_nearest_counterexample :
    roundToTwoDecimals (F64.fin belowHalfCent) = rnd (2 / 100) ∧
    rnd (2 / 100) = F64.fin (5764607523034235 / 288230376151711744) ∧
    |1 / 100 - belowHalfCent| < |2 / 100 - belowHalfCent| ∧
    5 / 1000 < |5764607523034235 / 288230376151711744 - belowHalfCent| ∧
    roundToTwoDecimals (F64.fin huge) = F64.pinf := by
  refine ⟨?_, rnd_c2, ?_, ?_, ?_⟩
  · rw [rnd_c2]
    exact roundToTwoDecimals_belowHalf
  · unfold belowHalfCent
    rw [abs_of_neg (by norm_num), abs_of_pos (by norm_num)]
    norm_num
  · unfold belowHalfCent
    rw [abs_of_pos (by norm_num)]
    norm_num
  · apply roundToTwoDecimals_of_overflow
    unfold huge
    norm_num

/-- C23 (amended). On a finite value `roundToTwoDecimals` returns an infinity or
the `float64` nearest to `k / 100` for an integer `k`; a finite result differs
from the argument `q` by at most 0.005 plus a relative `2^-51` of `q` plus
`2^-60`; the function is monotone non-decreasing on values other than NaN; when
the product with 100, as computed in `float64`, is exactly halfway between two
integers, the result is the one away from zero; and infinities and NaN are
returned unchanged. -/
theorem roundToTwoDecimals_nearest :
    (∀ q : ℚ, roundToTwoDecimals (F64.fin q) = F64.pinf ∨
      roundToTwoDecimals (F64.fin q) = F64.ninf ∨
      ∃ k : Int, roundToTwoDecimals (F64.fin q) = rnd ((k : ℚ) / 100)) ∧
    (∀ q v : ℚ, roundToTwoDecimals (F64.fin q) = F64.fin v →
      |v - q| ≤ 1 / 200 + |q| / 2 ^ 51 + 1 / 2 ^ 60) ∧
    (∀ x y : F64, x ≠ F64.nan → y ≠ F64.nan → F64.le x y = true →
      F64.le (roundToTwoDecimals x) (roundToTwoDecimals y) = true) ∧
    (∀ (q : ℚ) (k : Nat),
      (rnd (q * 100) = F64.fin ((k : ℚ) + 1 / 2) →
        roundToTwoDecimals (F64.fin q) = rnd (((k : ℚ) + 1) / 100)) ∧
      (rnd (q * 100) = F64.fin (-((k : ℚ) + 1 / 2)) →
        roundToTwoDecimals (F64.fin q) = rnd (-((k : ℚ) + 1) / 100))) ∧
    (roundToTwoDecimals F64.pinf = F64.pinf ∧ roundToTwoDecimals F64.ninf = F64.ninf ∧
      roundToTwoDecimals F64.nan = F64.nan) :=
  ⟨fun q => roundToTwoDecimals_cases (F64.fin_ne_nan q),
    fun _ _ h => roundToTwoDecimals_err h,
    fun _ _ hx hy h => roundToTwoDecimals_le_mono hx hy h,
    roundToTwoDecimals_of_tie,
    roundToTwoDecimals_pinf, roundToTwoDecimals_ninf, roundToTwoDecimals_nan⟩

/-- Instance of C23 (amended) on 0.125, whose product with 100 is exactly 12.5:
the result is the `float64` value 0.13. -/
theorem roundToTwoDecimals_nearest_witness :
    rnd (1 / 8 * 100) = F64.fin (((12 : Nat) : ℚ) + 1 / 2) ∧
    roundToTwoDecimals (F64.fin (1 / 8)) = rnd ((((12 : Nat) : ℚ) + 1) / 100) :=
  have h0 : rnd (1 / 8 * 100) = F64.fin (25 / 2) :=
    rnd_congr (by norm_num)
      (rnd_of_dyadic (25 / 2) 25 (-1) (by norm_num) (by norm_num) (by norm_num) (by norm_num))
  have e : (25 / 2 : ℚ) = ((12 : Nat) : ℚ) + 1 / 2 := by norm_num
  have h : rnd (1 / 8 * 100) = F64.fin (((12 : Nat) : ℚ) + 1 / 2) := by rw [h0, e]
  ⟨h, (roundToTwoDecimals_nearest.2.2.2.1 (1 / 8) 12).1 h⟩

/-! ## C28: order of the statistics -/

/-- Counterexample to C28 as stated: for three one-night bookings of the same
rate 100000000000001.109375 and margin 100, `avg_night` is 100000000000001.08 and
`min_night` is 100000000000001.1: the average lies below the minimum. -/
theorem stats_ordered_counterexample :
    (CalculateStats [tall1, tall2, tall3]).AvgNight = F64.fin (6400000000000069 / 64) ∧
    (CalculateStats [tall1, tall2, tall3]).MinNight = F64.fin (3200000000000035 / 32) ∧
    F64.lt (CalculateStats [tall1, tall2, tall3]).AvgNight
      (CalculateStats [tall1, tall2, tall3]).MinNight = true ∧
    F64.le (CalculateStats [tall1, tall2, tall3]).MinNight
      (CalculateStats [tall1, tall2, tall3]).AvgNight = false := by
  have h1 : (CalculateStats [tall1, tall2, tall3]).AvgNight
      = F64.fin (6400000000000069 / 64) := by
    rw [CalculateStats_tall1_tall2_tall3]
  have h2 : (CalculateStats [tall1, tall2, tall3]).MinNight
      = F64.fin (3200000000000035 / 32) := by
    rw [CalculateStats_tall1_tall2_tall3]
  refine ⟨h1, h2, ?_, ?_⟩
  · rw [h1, h2, F64.lt_fin]; norm_num
  · rw [h1, h2, F64.le_fin]; norm_num

/-- C28 (amended). For bookings with finite selling rates and margins and night
counts that fit the 64-bit `int`, `min_night <= max_night` holds for
`CalculateStats` and for `MaximizeProfit`, the empty input included; and
`min_night <= avg_night <= max_night` holds for both when the per-night profits
are whole numbers of sum at most `2^53`. -/
theorem stats_ordered (ovf : Nat → Int) (bb : Bookings) (hwf : ∀ b ∈ bb, WellFormed b) :
    F64.le (CalculateStats bb).MinNight (CalculateStats bb).MaxNight = true ∧
    F64.le (MaximizeProfit ovf bb).MinNight (MaximizeProfit ovf bb).MaxNight = true ∧
    (∀ g : Booking → Nat, (∀ b ∈ bb, ProfitPerNight b = F64.fin (g b : ℚ)) →
      (bb.map g).sum ≤ 2 ^ 53 → bb.length ≤ 2 ^ 53 →
      (F64.le (CalculateStats bb).MinNight (CalculateStats bb).AvgNight = true ∧
        F64.le (CalculateStats bb).AvgNight (CalculateStats bb).MaxNight = true) ∧
      (F64.le (MaximizeProfit ovf bb).MinNight (MaximizeProfit ovf bb).AvgNight = true ∧
        F64.le (MaximizeProfit ovf bb).AvgNight (MaximizeProfit ovf bb).MaxNight = true)) := by
  have hnan : ∀ b ∈ bb, ProfitPerNight b ≠ F64.nan :=
    fun b hb => ProfitPerNight_ne_nan (hwf b hb)
  have hsub := (findBestCombination_props ovf bb).1
  obtain ⟨ea, emn, emx⟩ := MaximizeProfit_stats ovf bb
  refine ⟨CalculateStats_min_le_max bb hnan, ?_, ?_⟩
  · rw [emn, emx]
    exact CalculateStats_min_le_max _ (fun b hb => hnan b (hsub.subset hb))
  · intro g hw hs hl
    refine ⟨CalculateStats_ordered_of_whole hw hs hl, ?_⟩
    rw [ea, emn, emx]
    exact CalculateStats_ordered_of_whole (fun b hb => hw b (hsub.subset hb))
      (le_trans (sum_map_sublist_le g hsub) hs) (le_trans hsub.length_le hl)

/-- Instance of the amended C28 on the first end-to-end example. -/
theorem stats_ordered_witness :
    (∀ b ∈ [stayA, stayB, stayC], WellFormed b) ∧
    F64.le (CalculateStats [stayA, stayB, stayC]).MinNight
      (CalculateStats [stayA, stayB, stayC]).MaxNight = true ∧
    F64.le (CalculateStats [stayA, stayB, stayC]).MinNight
      (CalculateStats [stayA, stayB, stayC]).AvgNight = true ∧
    F64.le (CalculateStats [stayA, stayB, stayC]).AvgNight
      (CalculateStats [stayA, stayB, stayC]).MaxNight = true :=
  ⟨wellFormed_stays,
    (stats_ordered amd64Pow [stayA, stayB, stayC] wellFormed_stays).1,
    ((stats_ordered amd64Pow [stayA, stayB, stayC] wellFormed_stays).2.2 stayProfit
      whole_stays (by decide) (by decide)).1.1,
    ((stats_ordered amd64Pow [stayA, stayB, stayC] wellFormed_stays).2.2 stayProfit
      whole_stays (by decide) (by decide)).1.2⟩

/-! ## The maximiser and the order of the input -/

theorem TotalProfit_perm_sublist_of_whole {bs : List Booking} (f : Booking → Nat)
    (hw : ∀ b ∈ bs, WholeProfit f b) (hsum : 100 * (bs.map f).sum ≤ 2 ^ 53)
    (c c' : Bookings) (hc : c.Sublist bs) (hp : c'.Perm c) : TotalProfit c' = TotalProfit c := by
  have := sum_map_sublist_le f hc
  exact (TotalProfit_perm_of_whole f hp.symm (fun b hb => hw b (hc.subset hb)) (by omega)).symm

theorem TotalProfit_ne_nan_of_whole {bs : List Booking} (f : Booking → Nat)
    (hw : ∀ b ∈ bs, WholeProfit f b) (hsum : 100 * (bs.map f).sum ≤ 2 ^ 53)
    {c : Bookings} (hc : c.Sublist bs) : TotalProfit c ≠ F64.nan := by
  have := sum_map_sublist_le f hc
  rw [TotalProfit_of_whole f c (fun b hb => hw b (hc.subset hb)) (by omega)]
  exact F64.fin_ne_nan _

theorem findBestCombination_total_eq_of_perm (ovf : Nat → Int) {bs bs' : List Booking}
    (h : bs.Perm bs') (hlen : bs.length ≤ 62) (f : Booking → Nat)
    (hw : ∀ b ∈ bs, WholeProfit f b) (hsum : 100 * (bs.map f).sum ≤ 2 ^ 53) :
    TotalProfit (findBestCombination (allCombinations ovf bs))
      = TotalProfit (findBestCombination (allCombinations ovf bs')) := by
  have hlen' : bs'.length ≤ 62 := by rw [← h.length_eq]; exact hlen
  have hw' : ∀ b ∈ bs', WholeProfit f b := fun b hb => hw b (h.mem_iff.mpr hb)
  have hsum' : 100 * (bs'.map f).sum ≤ 2 ^ 53 := by
    rw [← (h.map f).sum_eq]; exact hsum
  have hn := TotalProfit_ne_nan_of_whole f hw hsum (findBestCombination_props ovf bs).1
  have hn' := TotalProfit_ne_nan_of_whole f hw' hsum' (findBestCombination_props ovf bs').1
  apply F64.key_inj hn hn'
  apply le_antisymm
  · exact findBestCombination_total_le_of_perm ovf h hlen
      (TotalProfit_perm_sublist_of_whole f hw hsum) hn
  · exact findBestCombination_total_le_of_perm ovf h.symm hlen'
      (TotalProfit_perm_sublist_of_whole f hw' hsum') hn'

/-- When every non-empty non-overlapping sub-sequence reaching the kept total is a
rearrangement of the kept combination, a permutation of the input keeps a
rearrangement of the same combination. -/
theorem findBestCombination_perm_of_unique (ovf : Nat → Int) {bs bs' : List Booking}
    (h : bs.Perm bs') (hlen : bs.length ≤ 62) (f : Booking → Nat)
    (hw : ∀ b ∈ bs, WholeProfit f b) (hsum : 100 * (bs.map f).sum ≤ 2 ^ 53)
    (huniq : ∀ S : Bookings, S.Sublist bs → S ≠ [] → HasOverlaps S = false →
      TotalProfit S = TotalProfit (findBestCombination (allCombinations ovf bs)) →
      S.Perm (findBestCombination (allCombinations ovf bs))) :
    (findBestCombination (allCombinations ovf bs')).Perm
      (findBestCombination (allCombinations ovf bs)) := by
  have hlen' : bs'.length ≤ 62 := by rw [← h.length_eq]; exact hlen
  have hw' : ∀ b ∈ bs', WholeProfit f b := fun b hb => hw b (h.mem_iff.mpr hb)
  have hsum' : 100 * (bs'.map f).sum ≤ 2 ^ 53 := by
    rw [← (h.map f).sum_eq]; exact hsum
  rcases findBestCombination_cases ovf bs' with ⟨he', hall'⟩ | ⟨hm', hv', _, _⟩
  · rcases findBestCombination_cases ovf bs with ⟨he, _⟩ | ⟨hm, hv, hgt, _⟩
    · rw [he, he']
    · obtain ⟨c', hc', hpc, _, hvc⟩ := allCombinations_perm_transfer ovf h hlen hm
      have h1 := hall' c' hc' (by rw [hvc]; exact hv)
      rw [TotalProfit_perm_sublist_of_whole f hw hsum _ c'
        (findBestCombination_props ovf bs).1 hpc, hgt] at h1
      exact absurd h1 (by simp)
  · obtain ⟨S, hS, hperm, hsub, hvS⟩ := allCombinations_perm_transfer ovf h.symm hlen' hm'
    have hne := (mem_allCombinations_sublist hlen hS).2
    have htot : TotalProfit S = TotalProfit (findBestCombination (allCombinations ovf bs)) := by
      rw [TotalProfit_perm_sublist_of_whole f hw' hsum' _ S
        (findBestCombination_props ovf bs').1 hperm]
      exact (findBestCombination_total_eq_of_perm ovf h hlen f hw hsum).symm
    exact hperm.symm.trans (huniq S hsub hne (by rw [hvS]; exact hv') htot)

theorem whole_req1 : WholeProfit reqProfit req1 :=
  ⟨1000, 20, rfl, rfl, by
    show (1000 : ℚ) * 20 = 100 * ((200 : Nat) : ℚ)
    norm_num⟩

theorem whole_req2 : WholeProfit reqProfit req2 :=
  ⟨2000, 25, rfl, rfl, by
    show (2000 : ℚ) * 25 = 100 * ((500 : Nat) : ℚ)
    norm_num⟩

theorem whole_req2Later : WholeProfit reqProfit req2Later :=
  ⟨2000, 25, rfl, rfl, by
    show (2000 : ℚ) * 25 = 100 * ((500 : Nat) : ℚ)
    norm_num⟩

theorem whole_req1_req2 : ∀ b ∈ [req1, req2], WholeProfit reqProfit b := by
  intro b hb
  simp only [List.mem_cons, List.mem_singleton, List.not_mem_nil, or_false] at hb
  rcases hb with rfl | rfl
  · exact whole_req1
  · exact whole_req2

theorem whole_req1_req2Later : ∀ b ∈ [req1, req2Later], WholeProfit reqProfit b := by
  intro b hb
  simp only [List.mem_cons, List.mem_singleton, List.not_mem_nil, or_false] at hb
  rcases hb with rfl | rfl
  · exact whole_req1
  · exact whole_req2Later

/-- Counterexample to C18 as stated: three one-night bookings at non-negative
rates 4.5, 0.5 and 0.5 and margin 1. In this order the first booking alone is
kept, for a total profit of 0.05; in the reverse order all three are kept, for a
total profit of 0.06. -/
theorem MaximizeProfit_total_profit_perm_counterexample :
    [rateA, rateB, rateC].Perm [rateC, rateB, rateA] ∧
    (∀ b ∈ [rateA, rateB, rateC], b.SellingRate.NonnegFinite ∧ b.Margin.NonnegFinite) ∧
    (MaximizeProfit amd64Pow [rateA, rateB, rateC]).TotalProfit = rnd (5 / 100) ∧
    (MaximizeProfit amd64Pow [rateC, rateB, rateA]).TotalProfit = rnd (6 / 100) ∧
    (MaximizeProfit amd64Pow [rateA, rateB, rateC]).TotalProfit
      ≠ (MaximizeProfit amd64Pow [rateC, rateB, rateA]).TotalProfit := by
  have h1 : (MaximizeProfit amd64Pow [rateA, rateB, rateC]).TotalProfit
      = F64.fin (3602879701896397 / 72057594037927936) := by
    rw [MaximizeProfit_rateA_rateB_rateC]
  have h2 : (MaximizeProfit amd64Pow [rateC, rateB, rateA]).TotalProfit
      = F64.fin (1080863910568919 / 18014398509481984) := by
    rw [MaximizeProfit_rateC_rateB_rateA]
  refine ⟨?_, ?_, ?_, ?_, ?_⟩
  · exact List.reverse_perm [rateC, rateB, rateA]
  · intro b hb
    simp only [List.mem_cons, List.mem_singleton, List.not_mem_nil, or_false] at hb
    rcases hb with rfl | rfl | rfl <;>
      exact ⟨nonnegFinite_fin (by norm_num), nonnegFinite_fin (by norm_num)⟩
  · rw [h1, rnd_c5]
  · rw [h2, rnd_c6]
  · rw [h1, h2]
    exact fin_ne_of_ne (by norm_num)

/-- C18 (amended). For at most 62 bookings whose profits are whole numbers, a
hundred times their sum being at most `2^53`, the total profit returned by
`MaximizeProfit` is the same for the input and for any permutation of it. -/
theorem MaximizeProfit_total_profit_perm (ovf : Nat → Int) (bs bs' : List Booking)
    (h : bs.Perm bs') (hlen : bs.length ≤ 62) (f : Booking → Nat)
    (hw : ∀ b ∈ bs, WholeProfit f b) (hsum : 100 * (bs.map f).sum ≤ 2 ^ 53) :
    (MaximizeProfit ovf bs).TotalProfit = (MaximizeProfit ovf bs').TotalProfit := by
  rw [MaximizeProfit_TotalProfit, MaximizeProfit_TotalProfit]
  exact findBestCombination_total_eq_of_perm ovf h hlen f hw hsum

/-- Instance of the amended C18 on `req1`, `req2` in both orders. -/
theorem MaximizeProfit_total_profit_perm_witness :
    [req1, req2].Perm [req2, req1] ∧ [req1, req2].length ≤ 62 ∧
    (∀ b ∈ [req1, req2], WholeProfit reqProfit b) ∧
    100 * ([req1, req2].map reqProfit).sum ≤ 2 ^ 53 ∧
    (MaximizeProfit amd64Pow [req1, req2]).TotalProfit
      = (MaximizeProfit amd64Pow [req2, req1]).TotalProfit :=
  ⟨List.Perm.swap req2 req1 [], by decide, whole_req1_req2, by decide,
    MaximizeProfit_total_profit_perm amd64Pow [req1, req2] [req2, req1]
      (List.Perm.swap req2 req1 []) (by decide) reqProfit whole_req1_req2 (by decide)⟩

/-- Counterexample to C19 as stated: `req1` and the overlapping `req1Short` have
the same total profit, so the one listed first is chosen; swapping the input
changes the chosen booking, the request IDs and the statistics. -/
theorem MaximizeProfit_perm_counterexample :
    [req1, req1Short].Perm [req1Short, req1] ∧
    (MaximizeProfit amd64Pow [req1, req1Short]).RequestIDs = ["req1"] ∧
    (MaximizeProfit amd64Pow [req1Short, req1]).RequestIDs = ["short"] ∧
    ¬ (MaximizeProfit amd64Pow [req1, req1Short]).RequestIDs.Perm
        (MaximizeProfit amd64Pow [req1Short, req1]).RequestIDs ∧
    (MaximizeProfit amd64Pow [req1, req1Short]).MinNight = rnd (6667 / 100) ∧
    (MaximizeProfit amd64Pow [req1Short, req1]).MinNight = F64.fin 100 ∧
    (MaximizeProfit amd64Pow [req1, req1Short]).MinNight
      ≠ (MaximizeProfit amd64Pow [req1Short, req1]).MinNight := by
  have i1 : (MaximizeProfit amd64Pow [req1, req1Short]).RequestIDs = ["req1"] := by
    rw [MaximizeProfit_req1_req1Short]
  have i2 : (MaximizeProfit amd64Pow [req1Short, req1]).RequestIDs = ["short"] := by
    rw [MaximizeProfit_req1Short_req1]
  have m1 : (MaximizeProfit amd64Pow [req1, req1Short]).MinNight
      = F64.fin (4691484174324859 / 70368744177664) := by
    rw [MaximizeProfit_req1_req1Short]
  have m2 : (MaximizeProfit amd64Pow [req1Short, req1]).MinNight = F64.fin 100 := by
    rw [MaximizeProfit_req1Short_req1]
  refine ⟨List.Perm.swap req1Short req1 [], i1, i2, ?_, ?_, m2, ?_⟩
  · rw [i1, i2]
    intro hp
    have := hp.mem_iff (a := "req1")
    simp at this
  · rw [m1, rnd_c6667]
  · rw [m1, m2]
    exact fin_ne_of_ne (by norm_num)

/-- C19 (amended). For at most 62 bookings whose profits are whole numbers, a
hundred times their sum being at most `2^53`, and whose night counts fit the
64-bit `int`: when every non-empty non-overlapping sub-sequence of the input
whose total profit equals the returned total consists of the chosen bookings (the
best subset is unique), then for any permutation of the input `MaximizeProfit`
chooses the same bookings up to order, so the request IDs agree up to order and
`min_night` and `max_night` are equal; `avg_night` is equal too when the
per-night profits are whole numbers of sum at most `2^53`. -/
theorem MaximizeProfit_perm_of_unique (ovf : Nat → Int) (bs bs' : List Booking)
    (h : bs.Perm bs') (hlen : bs.length ≤ 62) (f : Booking → Nat)
    (hw : ∀ b ∈ bs, WholeProfit f b) (hsum : 100 * (bs.map f).sum ≤ 2 ^ 53)
    (hn : ∀ b ∈ bs, -(2 ^ 63) ≤ b.Nights ∧ b.Nights < 2 ^ 63)
    (huniq : ∀ S : Bookings, S.Sublist bs → S ≠ [] → HasOverlaps S = false →
      TotalProfit S = (MaximizeProfit ovf bs).TotalProfit →
      S.Perm (findBestCombination (allCombinations ovf bs))) :
    (findBestCombination (allCombinations ovf bs')).Perm
      (findBestCombination (allCombinations ovf bs)) ∧
    (MaximizeProfit ovf bs').RequestIDs.Perm (MaximizeProfit ovf bs).RequestIDs ∧
    (MaximizeProfit ovf bs').MinNight = (MaximizeProfit ovf bs).MinNight ∧
    (MaximizeProfit ovf bs').MaxNight = (MaximizeProfit ovf bs).MaxNight ∧
    (∀ g : Booking → Nat, (∀ b ∈ bs, ProfitPerNight b = F64.fin (g b : ℚ)) →
      (bs.map g).sum ≤ 2 ^ 53 →
      (MaximizeProfit ovf bs').AvgNight = (MaximizeProfit ovf bs).AvgNight) := by
  have hperm := findBestCombination_perm_of_unique ovf h hlen f hw hsum
    (fun S hS hne hv ht => huniq S hS hne hv (by rw [MaximizeProfit_TotalProfit]; exact ht))
  have hsub := (findBestCombination_props ovf bs).1
  have hsub' := (findBestCombination_props ovf bs').1
  have hnan' : ∀ b ∈ findBestCombination (allCombinations ovf bs'),
      ProfitPerNight b ≠ F64.nan := by
    intro b hb
    have hb' : b ∈ bs := h.mem_iff.mpr (hsub'.subset hb)
    obtain ⟨r, m, hr, hm, _⟩ := hw b hb'
    exact ProfitPerNight_ne_nan (wellFormed_of_fin hr hm (hn b hb').1 (hn b hb').2)
  obtain ⟨ea, emn, emx⟩ := MaximizeProfit_stats ovf bs
  obtain ⟨ea', emn', emx'⟩ := MaximizeProfit_stats ovf bs'
  obtain ⟨k1, k2⟩ := CalculateStats_min_max_perm hperm hnan'
  refine ⟨hperm, ?_, ?_, ?_, ?_⟩
  · rw [MaximizeProfit_RequestIDs, MaximizeProfit_RequestIDs]
    exact hperm.map _
  · rw [emn, emn', k1]
  · rw [emx, emx', k2]
  · intro g hg hs
    rw [ea, ea']
    apply CalculateStats_avg_perm_of_whole hperm
      (fun b hb => hg b (h.mem_iff.mpr (hsub'.subset hb)))
    · have h1 := sum_map_sublist_le g hsub'
      have h2 : (bs'.map g).sum = (bs.map g).sum := ((h.map g).sum_eq).symm
      omega
    · have h1 := hsub'.length_le
      have h2 := h.length_eq
      have h3 : (62 : Nat) ≤ 2 ^ 53 := by norm_num
      omega

/-- Instance of the amended C19 on `req1` and `req2Later`, where the whole input is
the only best subset. -/
theorem MaximizeProfit_perm_of_unique_witness :
    [req1, req2Later].Perm [req2Later, req1] ∧
    (∀ b ∈ [req1, req2Later], WholeProfit reqProfit b) ∧
    ((findBestCombination (allCombinations amd64Pow [req2Later, req1])).Perm
        (findBestCombination (allCombinations amd64Pow [req1, req2Later])) ∧
      (MaximizeProfit amd64Pow [req2Later, req1]).RequestIDs.Perm
        (MaximizeProfit amd64Pow [req1, req2Later]).RequestIDs ∧
      (MaximizeProfit amd64Pow [req2Later, req1]).MinNight
        = (MaximizeProfit amd64Pow [req1, req2Later]).MinNight ∧
      (MaximizeProfit amd64Pow [req2Later, req1]).MaxNight
        = (MaximizeProfit amd64Pow [req1, req2Later]).MaxNight) := by
  have htot : (MaximizeProfit amd64Pow [req1, req2Later]).TotalProfit = F64.fin 700 := by
    rw [MaximizeProfit_req1_req2Later]
  have hn : ∀ b ∈ [req1, req2Later], -(2 ^ 63) ≤ b.Nights ∧ b.Nights < 2 ^ 63 := by
    intro b hb
    simp only [List.mem_cons, List.mem_singleton, List.not_mem_nil, or_false] at hb
    rcases hb with rfl | rfl <;> exact ⟨by decide, by decide⟩
  have huniq : ∀ S : Bookings, S.Sublist [req1, req2Later] → S ≠ [] →
      HasOverlaps S = false →
      TotalProfit S = (MaximizeProfit amd64Pow [req1, req2Later]).TotalProfit →
      S.Perm (findBestCombination (allCombinations amd64Pow [req1, req2Later])) := by
    intro S hS hne _ ht
    rw [htot] at ht
    rw [findBestCombination_req1_req2Later]
    rcases sublist_pair hS with rfl | rfl | rfl | rfl
    · exact absurd rfl hne
    · rw [TotalProfit_req1] at ht
      exact absurd (F64.fin.inj ht) (by norm_num)
    · rw [TotalProfit_req2Later] at ht
      exact absurd (F64.fin.inj ht) (by norm_num)
    · exact List.Perm.refl _
  obtain ⟨h1, h2, h3, h4, _⟩ :=
    MaximizeProfit_perm_of_unique amd64Pow [req1, req2Later] [req2Later, req1]
      (List.Perm.swap req2Later req1 []) (by decide) reqProfit whole_req1_req2Later
      (by decide) hn huniq
  exact ⟨List.Perm.swap req2Later req1 [], whole_req1_req2Later, h1, h2, h3, h4⟩

/-! ## The checked computations -/

theorem ProfitPerNightChecked_eq (b : Booking) :
    ProfitPerNightChecked b = some (ProfitPerNight b) := by
  unfold ProfitPerNightChecked ProfitPerNight checkedDiv
  by_cases h : b.Nights = 0
  · rw [if_pos h, if_pos h]
  · rw [if_neg h, if_neg h, if_neg (ofInt_ne_zero h)]
    rfl

theorem foldl_ProfitPerNightChecked (bb : Bookings) (acc : List F64) :
    bb.foldl (fun acc b => acc.bind (fun profits =>
        (ProfitPerNightChecked b).map (fun p => profits ++ [p]))) (some acc)
      = some (acc ++ bb.map ProfitPerNight) := by
  induction bb generalizing acc with
  | nil => simp
  | cons b t ih =>
    rw [List.foldl_cons]
    have hstep : (some acc).bind (fun profits =>
        (ProfitPerNightChecked b).map (fun p => profits ++ [p]))
          = some (acc ++ [ProfitPerNight b]) := by
      rw [ProfitPerNightChecked_eq]
      rfl
    rw [hstep, ih]
    simp

theorem ProfitsPerNightChecked_eq (bb : Bookings) :
    ProfitsPerNightChecked bb = some (ProfitsPerNight bb) := by
  unfold ProfitsPerNightChecked
  rw [foldl_ProfitPerNightChecked, ProfitsPerNight_eq_map]
  simp

theorem CalculateStatsChecked_eq (bb : Bookings) :
    CalculateStatsChecked bb = some (CalculateStats bb) := by
  cases bb with
  | nil => rfl
  | cons b t =>
    have hlen : ¬ (b :: t).length = 0 := by simp
    have hps : ProfitsPerNight (b :: t) = ProfitPerNight b :: t.map ProfitPerNight := by
      rw [ProfitsPerNight_eq_map, List.map_cons]
    have hq : ¬ (F64.ofInt ((ProfitPerNight b :: t.map ProfitPerNight).length : Nat)
        = F64.fin 0) := by
      apply ofInt_ne_zero
      have : (0 : Int) < ((ProfitPerNight b :: t.map ProfitPerNight).length : Nat) := by
        exact_mod_cast Nat.succ_pos _
      exact ne_of_gt this
    unfold CalculateStatsChecked CalculateStats
    rw [if_neg hlen, if_neg hlen, ProfitsPerNightChecked_eq, hps]
    simp only [Option.some_bind, List.getElem?_cons_zero, List.headD_cons, checkedDiv,
      if_neg hq, Option.map_some']

theorem buildMaximizeResultChecked_eq (best : Bookings) :
    buildMaximizeResultChecked best = some (buildMaximizeResult best) := by
  unfold buildMaximizeResultChecked buildMaximizeResult
  by_cases h : best.length = 0
  · rw [if_pos h, if_pos h]
  · rw [if_neg h, if_neg h, CalculateStatsChecked_eq]
    rfl

/-! ## Inputs that differ in request IDs only -/

theorem sameStay_OverlapsWith {a a' b b' : Booking} (ha : sameStay a a')
    (hb : sameStay b b') : OverlapsWith a b = OverlapsWith a' b' := by
  obtain ⟨ha1, ha2, _, _⟩ := ha
  obtain ⟨hb1, hb2, _, _⟩ := hb
  simp only [OverlapsWith, ha1, ha2, hb1, hb2]

theorem sameStay_any {a a' : Booking} {l l' : Bookings} (ha : sameStay a a')
    (h : List.Forall₂ sameStay l l') :
    l.any (fun o => OverlapsWith a o) = l'.any (fun o => OverlapsWith a' o) := by
  induction h with
  | nil => rfl
  | cons hb _ ih =>
    simp only [List.any_cons, ih, sameStay_OverlapsWith ha hb]

theorem sameStay_HasOverlaps {l l' : Bookings} (h : List.Forall₂ sameStay l l') :
    HasOverlaps l = HasOverlaps l' := by
  induction h with
  | nil => rfl
  | cons ha ht ih =>
    simp only [HasOverlaps, ih, sameStay_any ha ht]

theorem sameStay_absProfit {l l' : Bookings} (h : List.Forall₂ sameStay l l') :
    l.map absProfit = l'.map absProfit := by
  induction h with
  | nil => rfl
  | cons ha _ ih =>
    obtain ⟨_, _, h3, h4⟩ := ha
    simp only [List.map_cons, ih, absProfit, h3, h4]

theorem sameStay_TotalProfit {l l' : Bookings} (h : List.Forall₂ sameStay l l') :
    TotalProfit l = TotalProfit l' := by
  rw [TotalProfit_eq_foldl, TotalProfit_eq_foldl, sameStay_absProfit h]

theorem sameStay_profits {l l' : Bookings} (h : List.Forall₂ sameStay l l') :
    l.map ProfitPerNight = l'.map ProfitPerNight := by
  induction h with
  | nil => rfl
  | cons ha _ ih =>
    obtain ⟨_, h2, h3, h4⟩ := ha
    simp only [List.map_cons, ih, ProfitPerNight, h2, h3, h4]

theorem sameStay_combination {bs bs' : List Booking} (h : List.Forall₂ sameStay bs bs')
    (m : Nat) : List.Forall₂ sameStay (combination bs m) (combination bs' m) := by
  induction h generalizing m with
  | nil => simp [combination_nil]
  | cons ha _ ih =>
    rw [combination_cons, combination_cons]
    by_cases hm : m % 2 = 1
    · rw [if_pos hm, if_pos hm]
      exact List.Forall₂.cons ha (ih (m / 2))
    · rw [if_neg hm, if_neg hm]
      exact ih (m / 2)

theorem CalculateStats_congr {bb bb' : Bookings}
    (h : bb.map ProfitPerNight = bb'.map ProfitPerNight) :
    CalculateStats bb = CalculateStats bb' := by
  have hlen : bb.length = bb'.length := by
    have := congrArg List.length h
    simpa using this
  unfold CalculateStats
  rw [ProfitsPerNight_eq_map, ProfitsPerNight_eq_map, h, hlen]

/-- On two inputs that differ in request IDs only, the selection loop over the
same masks keeps the combination of the same mask with the same profit. -/
theorem foldl_bestStep_lockstep {bs bs' : List Booking} (h : List.Forall₂ sameStay bs bs')
    (ms : List Nat) (m₀ : Nat) (p : F64) :
    ∃ m q, (ms.map (combination bs)).foldl bestStep (combination bs m₀, p)
        = (combination bs m, q) ∧
      (ms.map (combination bs')).foldl bestStep (combination bs' m₀, p)
        = (combination bs' m, q) := by
  induction ms generalizing m₀ p with
  | nil => exact ⟨m₀, p, rfl, rfl⟩
  | cons k t ih =>
    have ho := sameStay_HasOverlaps (sameStay_combination h k)
    have ht := sameStay_TotalProfit (sameStay_combination h k)
    have hstep : ∃ m₁ q₁,
        bestStep (combination bs m₀, p) (combination bs k) = (combination bs m₁, q₁) ∧
        bestStep (combination bs' m₀, p) (combination bs' k) = (combination bs' m₁, q₁) := by
      unfold bestStep
      rw [← ho, ← ht]
      by_cases hov : HasOverlaps (combination bs k) = true
      · exact ⟨m₀, p, by rw [if_pos hov], by rw [if_pos hov]⟩
      · by_cases hp : F64.lt p (TotalProfit (combination bs k)) = true
        · exact ⟨k, TotalProfit (combination bs k), by simp [hov, hp], by simp [hov, hp]⟩
        · exact ⟨m₀, p, by simp [hov, hp], by simp [hov, hp]⟩
    obtain ⟨m₁, q₁, h1, h2⟩ := hstep
    obtain ⟨m, q, h3, h4⟩ := ih m₁ q₁
    refine ⟨m, q, ?_, ?_⟩
    · rw [List.map_cons, List.foldl_cons, h1, h3]
    · rw [List.map_cons, List.foldl_cons, h2, h4]

/-! ## The transport boundary -/

theorem parseLoop_error (parseDate : String → Option Int) (dtos : List bookingRequest)
    (acc : List Booking) (h : ∃ d ∈ dtos, parseDate d.CheckIn = none) :
    parseLoop parseDate dtos acc = Except.error HandlerError.ErrInvalidDateFormat := by
  induction dtos generalizing acc with
  | nil =>
    obtain ⟨d, hd, _⟩ := h
    exact absurd hd (List.not_mem_nil d)
  | cons d rest ih =>
    cases hp : parseDate d.CheckIn with
    | none => simp only [parseLoop, hp]
    | some t =>
      simp only [parseLoop, hp]
      apply ih
      obtain ⟨d', hd', hnone⟩ := h
      rcases List.mem_cons.mp hd' with rfl | hmem
      · rw [hp] at hnone
        exact absurd hnone (by simp)
      · exact ⟨d', hmem, hnone⟩

theorem parseLoop_ok (parseDate : String → Option Int) (dtos : List bookingRequest)
    (acc : List Booking) (h : ∀ d ∈ dtos, parseDate d.CheckIn ≠ none) :
    ∃ bs : List Booking, parseLoop parseDate dtos acc = Except.ok (acc ++ bs) ∧
      bs.map Booking.RequestID = dtos.map bookingRequest.RequestID ∧
      bs.map (fun b => some b.CheckIn) = dtos.map (fun d => parseDate d.CheckIn) ∧
      bs.map Booking.Nights = dtos.map bookingRequest.Nights ∧
      bs.map Booking.SellingRate = dtos.map bookingRequest.SellingRate ∧
      bs.map Booking.Margin = dtos.map bookingRequest.Margin := by
  induction dtos generalizing acc with
  | nil => exact ⟨[], by simp [parseLoop], rfl, rfl, rfl, rfl, rfl⟩
  | cons d rest ih =>
    cases hp : parseDate d.CheckIn with
    | none => exact absurd hp (h d (List.mem_cons_self _ _))
    | some t =>
      obtain ⟨bs, hok, h1, h2, h3, h4, h5⟩ :=
        ih (acc ++ [⟨d.RequestID, t, d.Nights, d.SellingRate, d.Margin⟩])
          (fun d' hd' => h d' (List.mem_cons_of_mem _ hd'))
      refine ⟨⟨d.RequestID, t, d.Nights, d.SellingRate, d.Margin⟩ :: bs, ?_, ?_, ?_, ?_, ?_, ?_⟩
      · simp only [parseLoop, hp]
        rw [hok, List.append_assoc]
        rfl
      · simp [h1]
      · simp [h2, hp]
      · simp [h3]
      · simp [h4]
      · simp [h5]

/-! ## C16, C20, C21, C22, C25 -/

/-- C16. End-to-end example 2: for `req1` (day 0, 3 nights, rate 1000, margin
20), `req2` (day 2, 3 nights, 2000, 25) and `req3` (day 6, 3 nights, 1500, 30)
`MaximizeProfit` returns the request IDs `req2`, `req3`, a total profit of 950, an
average of 158.33, a minimum of 150 and a maximum of 166.67, each the `float64`
value of that decimal. -/
theorem MaximizeProfit_example_2 (ovf : Nat → Int) :
    MaximizeProfit ovf [req1, req2, req3]
      = ⟨["req2", "req3"], rnd 950, rnd (15833 / 100), rnd 150, rnd (16667 / 100)⟩ := by
  rw [MaximizeProfit_req1_req2_req3, rnd_c950, rnd_c15833, rnd_c150, rnd_c16667]

/-- C20. On every list of bookings the checked computations succeed and return the
results of `CalculateStats` and `MaximizeProfit`: the division by the nights, the
division by the number of profits and the read of `profits[0]` never meet a zero
divisor or an empty slice. -/
theorem core_never_fails (ovf : Nat → Int) (bb : Bookings) :
    (∀ b : Booking, ProfitPerNightChecked b = some (ProfitPerNight b)) ∧
    CalculateStatsChecked bb = some (CalculateStats bb) ∧
    MaximizeProfitChecked ovf bb = some (MaximizeProfit ovf bb) := by
  refine ⟨ProfitPerNightChecked_eq, CalculateStatsChecked_eq bb, ?_⟩
  unfold MaximizeProfitChecked MaximizeProfit
  exact buildMaximizeResultChecked_eq _

/-- C21 (the code at the failing input). For the single booking of profit `-0.5`
`MaximizeProfit` returns that booking with a total profit of `-0.5`, below the 0
of the empty result, because `-0.5` exceeds the initial `maxProfit` of `-1`; for
the single booking of profit `-200` it returns the empty result with total 0. -/
theorem MaximizeProfit_negative_total (ovf : Nat → Int) :
    (MaximizeProfit ovf [smallLoss]).RequestIDs = ["loss"] ∧
    (MaximizeProfit ovf [smallLoss]).TotalProfit = F64.fin (-1 / 2) ∧
    F64.lt (MaximizeProfit ovf [smallLoss]).TotalProfit (F64.fin 0) = true ∧
    F64.le (F64.fin 0) (MaximizeProfit ovf [smallLoss]).TotalProfit = false ∧
    (MaximizeProfit ovf [bigLoss]).RequestIDs = [] ∧
    (MaximizeProfit ovf [bigLoss]).TotalProfit = F64.fin 0 := by
  have h1 : (MaximizeProfit ovf [smallLoss]).RequestIDs = ["loss"] := by
    rw [MaximizeProfit_RequestIDs, findBestCombination_smallLoss]
    rfl
  have h2 : (MaximizeProfit ovf [smallLoss]).TotalProfit = F64.fin (-1 / 2) := by
    rw [MaximizeProfit_TotalProfit, findBestCombination_smallLoss, TotalProfit_smallLoss]
  refine ⟨h1, h2, ?_, ?_, ?_, ?_⟩
  · rw [h2, F64.lt_fin]; norm_num
  · rw [h2, F64.le_fin]; norm_num
  · rw [MaximizeProfit_bigLoss]
  · rw [MaximizeProfit_bigLoss]

/-- C22. For two inputs that agree position by position on check-in, nights,
selling rate and margin, `MaximizeProfit` selects the positions of one and the same
mask in both, so the request IDs returned are those found at these positions of
each input, and total profit and statistics are equal; `CalculateStats` of the two
inputs is equal as well. -/
theorem MaximizeProfit_ignores_request_ids (ovf : Nat → Int) (bs bs' : List Booking)
    (h : List.Forall₂ sameStay bs bs') :
    (∃ m, findBestCombination (allCombinations ovf bs) = combination bs m ∧
      findBestCombination (allCombinations ovf bs') = combination bs' m ∧
      (MaximizeProfit ovf bs).RequestIDs = (combination bs m).map Booking.RequestID ∧
      (MaximizeProfit ovf bs').RequestIDs = (combination bs' m).map Booking.RequestID) ∧
    (MaximizeProfit ovf bs).TotalProfit = (MaximizeProfit ovf bs').TotalProfit ∧
    (MaximizeProfit ovf bs).AvgNight = (MaximizeProfit ovf bs').AvgNight ∧
    (MaximizeProfit ovf bs).MinNight = (MaximizeProfit ovf bs').MinNight ∧
    (MaximizeProfit ovf bs).MaxNight = (MaximizeProfit ovf bs').MaxNight ∧
    CalculateStats bs = CalculateStats bs' := by
  obtain ⟨m, q, h1, h2⟩ :=
    foldl_bestStep_lockstep h (List.range' 1 ((powTotal ovf bs.length - 1).toNat)) 0
      (F64.fin (-1))
  rw [combination_zero] at h1 h2
  have hb : findBestCombination (allCombinations ovf bs) = combination bs m := by
    unfold findBestCombination allCombinations
    rw [h1]
  have hb' : findBestCombination (allCombinations ovf bs') = combination bs' m := by
    unfold findBestCombination allCombinations
    rw [← h.length_eq, h2]
  have hc := sameStay_combination h m
  have hstats : CalculateStats (combination bs m) = CalculateStats (combination bs' m) :=
    CalculateStats_congr (sameStay_profits hc)
  obtain ⟨ea, emn, emx⟩ := MaximizeProfit_stats ovf bs
  obtain ⟨ea', emn', emx'⟩ := MaximizeProfit_stats ovf bs'
  refine ⟨⟨m, hb, hb', ?_, ?_⟩, ?_, ?_, ?_, ?_, CalculateStats_congr (sameStay_profits h)⟩
  · rw [MaximizeProfit_RequestIDs, hb]
  · rw [MaximizeProfit_RequestIDs, hb']
  · rw [MaximizeProfit_TotalProfit, MaximizeProfit_TotalProfit, hb, hb',
      sameStay_TotalProfit hc]
  · rw [ea, ea', hb, hb', hstats]
  · rw [emn, emn', hb, hb', hstats]
  · rw [emx, emx', hb, hb', hstats]

/-- Instance of C22 on `req1`, `req2Later` and the same stays under other IDs. -/
theorem MaximizeProfit_ignores_request_ids_witness :
    List.Forall₂ sameStay [req1, req2Later]
      [⟨"a", baseDay, 3, F64.fin 1000, F64.fin 20⟩,
        ⟨"b", baseDay + 4, 3, F64.fin 2000, F64.fin 25⟩] ∧
    (MaximizeProfit amd64Pow [req1, req2Later]).TotalProfit
      = (MaximizeProfit amd64Pow [⟨"a", baseDay, 3, F64.fin 1000, F64.fin 20⟩,
          ⟨"b", baseDay + 4, 3, F64.fin 2000, F64.fin 25⟩]).TotalProfit :=
  have h : List.Forall₂ sameStay [req1, req2Later]
      [⟨"a", baseDay, 3, F64.fin 1000, F64.fin 20⟩,
        ⟨"b", baseDay + 4, 3, F64.fin 2000, F64.fin 25⟩] :=
    List.Forall₂.cons ⟨rfl, rfl, rfl, rfl⟩
      (List.Forall₂.cons ⟨rfl, rfl, rfl, rfl⟩ List.Forall₂.nil)
  ⟨h, (MaximizeProfit_ignores_request_ids amd64Pow [req1, req2Later]
    [⟨"a", baseDay, 3, F64.fin 1000, F64.fin 20⟩,
      ⟨"b", baseDay + 4, 3, F64.fin 2000, F64.fin 25⟩] h).2.1⟩

/-- C25. If the check-in of some record does not parse, `parseBookingRequests`
returns `ErrInvalidDateFormat` and no bookings; if every check-in parses, it returns
one booking per record in the same order, with request ID, nights, selling rate and
margin copied and the parsed date as check-in. -/
theorem parseBookingRequests_spec (parseDate : String → Option Int)
    (dtos : List bookingRequest) :
    ((∃ d ∈ dtos, parseDate d.CheckIn = none) →
      parseBookingRequests parseDate dtos
        = Except.error HandlerError.ErrInvalidDateFormat) ∧
    ((∀ d ∈ dtos, parseDate d.CheckIn ≠ none) →
      ∃ bs : List Booking, parseBookingRequests parseDate dtos = Except.ok bs ∧
        bs.length = dtos.length ∧
        bs.map Booking.RequestID = dtos.map bookingRequest.RequestID ∧
        bs.map (fun b => some b.CheckIn) = dtos.map (fun d => parseDate d.CheckIn) ∧
        bs.map Booking.Nights = dtos.map bookingRequest.Nights ∧
        bs.map Booking.SellingRate = dtos.map bookingRequest.SellingRate ∧
        bs.map Booking.Margin = dtos.map bookingRequest.Margin) := by
  constructor
  · intro h
    exact parseLoop_error parseDate dtos [] h
  · intro h
    obtain ⟨bs, hok, h1, h2, h3, h4, h5⟩ := parseLoop_ok parseDate dtos [] h
    refine ⟨bs, by simpa [parseBookingRequests] using hok, ?_, h1, h2, h3, h4, h5⟩
    have := congrArg List.length h1
    simpa using this

end Domain

